import Mathlib

/-!
Spring RTS: explosion damage, deferred damage ring and spatial unit queries.

A shallow embedding of `rts/Game/GameHelper.cpp`.

Conventions of the embedding

* `float` values are rationals (`ℚ`). `toFloat` rounds a rational to single
  precision (IEEE 754 binary32, round to nearest even, subnormal values, no
  overflow), and `std::sqrt` is a parameter `sqrtf : ℚ → ℚ`.
* The per-unit explosion damage has two embeddings. The definitions of the
  section "Explosion damage to one unit" compute without rounding; they carry
  the statements about which calls are made, which records are queued and on
  which slot, and the concrete runs. The definitions of the namespace `Single`
  round every operation on a `float` with `toFloat`; they carry the statements
  about the values of the multipliers, the impulse and the frame offset, which
  depend on rounding. The operations of `float3.h` and `DamageArray.h`, which
  are not among the sources, are a parameter `VecOps` of the namespace
  `Single`; `roundedOps` is the component-wise instance.
* `Pos2BuildPos` rounds every operation on a `float` with `toFloat`.
* `int` values are integers; the conversion `int(x)` of a `float` is the
  conversion to 32 bits (`truncToInt`), and `x & 127` is `Int.land x 127`.
* A `CUnit*` is a `UnitPtr`, dereferenced through a heap `UnitPtr → CUnit`;
  `NULL` is `none`.
* Calls into collaborators whose code is outside this file (`CUnit::DoDamage`,
  `CFeature::DoDamage`, the map damage, the explosion generators, the event
  handlers) are recorded, in order, in a call log.
-/

namespace Spring

/-! ## Vectors -/

/-- Engine vector type `float3`. -/
structure float3 where
  x : ℚ
  y : ℚ
  z : ℚ
deriving DecidableEq

namespace float3

instance : Add float3 := ⟨fun a b => ⟨a.x + b.x, a.y + b.y, a.z + b.z⟩⟩
instance : Sub float3 := ⟨fun a b => ⟨a.x - b.x, a.y - b.y, a.z - b.z⟩⟩
instance : HMul float3 ℚ float3 := ⟨fun a f => ⟨a.x * f, a.y * f, a.z * f⟩⟩
instance : HDiv float3 ℚ float3 := ⟨fun a f => ⟨a.x / f, a.y / f, a.z / f⟩⟩

/-- Squared length, `float3::SqLength`. -/
def SqLength (a : float3) : ℚ := a.x * a.x + a.y * a.y + a.z * a.z

/-- Squared length in the xz-plane, `float3::SqLength2D`. -/
def SqLength2D (a : float3) : ℚ := a.x * a.x + a.z * a.z

/-- Length, `float3::Length`: the square root of the squared length. -/
def Length (sqrtf : ℚ → ℚ) (a : float3) : ℚ := sqrtf a.SqLength

end float3

/-! ## Single precision -/

/-- Rounding of a rational to the nearest integer, a tie going to the even neighbour. -/
def roundNearestEven (t : ℚ) : ℤ :=
  if t - ⌊t⌋ < 1 / 2 then ⌊t⌋
  else if 1 / 2 < t - ⌊t⌋ then ⌊t⌋ + 1
  else if ⌊t⌋ % 2 = 0 then ⌊t⌋ else ⌊t⌋ + 1

/-- The exponent of the binade of `x` in single precision: `⌊log₂ |x|⌋`, and `-126` for the
subnormal range. -/
def floatExponent (x : ℚ) : ℤ := max (Int.log 2 |x|) (-126)

/-- The distance of neighbouring single-precision values around `x`: 24 significant bits. -/
def ulp (x : ℚ) : ℚ := (2 : ℚ) ^ (floatExponent x - 23)

/-- The value of type `float` that a single-precision operation returns when its exact result
is `x`: the nearest multiple of `ulp x`, a tie going to the even significand (IEEE 754
binary32, round to nearest even, with subnormal values). Overflow to infinity is not
represented: a result beyond the largest finite value is rounded as if the exponent range were
unbounded above. -/
def toFloat (x : ℚ) : ℚ :=
  if 0 ≤ x then (roundNearestEven (x / ulp x) : ℚ) * ulp x
  else -((roundNearestEven (-x / ulp x) : ℚ) * ulp x)

/-- Conversion `int(x)` of a float to the 32-bit `int`: truncation towards zero when the
truncated value lies in `[-2³¹, 2³¹ - 1]`. Outside that range the conversion is undefined in
C++; the value taken here is the one that the conversion instruction of x86 returns,
`INT_MIN`. -/
def truncToInt (q : ℚ) : Int :=
  let t : Int := if 0 ≤ q then ⌊q⌋ else ⌈q⌉
  if -2147483648 ≤ t ∧ t ≤ 2147483647 then t else -2147483648

/-- Modelled from the spec: `Clamp` of `System/myMath.h` is not among the sources; the spec
says the raw impulse is "clamp[ed] to ± a fixed maximum impulse constant". -/
def Clamp (v lo hi : ℚ) : ℚ := min hi (max lo v)

/-! ## Data model -/

/-- Modelled from the spec: `DamageArray` (`Sim/Misc/DamageArray.h`) is not among the sources.
Per-armor-class damage amounts plus the scalar modifiers named in the spec. -/
structure DamageArray where
  damages : List ℚ
  impulseFactor : ℚ
  impulseBoost : ℚ
  craterMult : ℚ
  craterBoost : ℚ
  paralyzeDamageTime : Int
deriving DecidableEq

namespace DamageArray

/-- Modelled from the spec: `GetDefaultDamage`, the damage of armor class 0 (the spec's
"baseDamage"). -/
def GetDefaultDamage (d : DamageArray) : ℚ := d.damages.headD 0

/-- Modelled from the spec: `operator*`; the damage vector is "scaled by a float multiplier to
produce a derived DamageVector (never mutates the original)". -/
def scale (d : DamageArray) (m : ℚ) : DamageArray :=
  { d with damages := d.damages.map (fun a => a * m) }

instance : HMul DamageArray ℚ DamageArray := ⟨scale⟩

end DamageArray

/-- Collision volume: only the two accessors the code uses. -/
structure CollisionVolume where
  /-- Accessor `GetOffsets()`. -/
  offsets : float3
  /-- Accessor `GetBoundingRadius()`. -/
  boundingRadius : ℚ
deriving DecidableEq

/-- Model piece of a unit: only the two accessors the code uses. -/
structure LocalModelPiece where
  /-- Accessor `GetCollisionVolume()`. -/
  colvol : CollisionVolume
  /-- Accessor `GetAbsolutePos()`. -/
  absolutePos : float3
deriving DecidableEq

/-- Address of a unit (`CUnit*`). -/
abbrev UnitPtr := Nat

/-- Address of a feature (`CFeature*`). -/
abbrev FeaturePtr := Nat

/-- The fields of `CUnit` (and of its `unitDef`) read or written by `GameHelper.cpp`. -/
structure CUnit where
  id : Int
  pos : float3
  midPos : float3
  rightdir : float3
  updir : float3
  frontdir : float3
  radius : ℚ
  losRadius : ℚ
  lastAttackedPieceFrame : Int
  lastAttackedPiece : Option LocalModelPiece
  /-- Field `unitDef->usePieceCollisionVolumes`. -/
  usePieceCollisionVolumes : Bool
  collisionVolume : CollisionVolume
  isUnderWater : Bool
  allyteam : Int
  losStatus : Int → Nat
  tempNum : Int
  category : Nat := 0
  isDead : Bool := false
  crashing : Bool := false
  health : ℚ := 0
  maxHealth : ℚ := 0
  paralyzeDamage : ℚ := 0
  armorType : Int := 0
  curArmorMultiple : ℚ := 1
  power : ℚ := 1
  posErrorVector : float3 := ⟨0, 0, 0⟩

/-- The fields of `CFeature` read by `GameHelper.cpp`. -/
structure CFeature where
  midPos : float3
  collisionVolume : Option CollisionVolume

/-- Deferred damage record, `WaitingDamage`. -/
structure WaitingDamage where
  attacker : Int
  target : Int
  damage : DamageArray
  impulse : float3
  weaponId : Int
deriving DecidableEq

/-- Calls made into collaborators, as they are logged. -/
inductive Call where
  /-- Call `unit->DoDamage(damage, impulse, attacker, weaponDefID)`. -/
  | unitDoDamage (unit : UnitPtr) (damage : DamageArray) (impulse : float3)
      (attacker : Option UnitPtr) (weaponDefID : Int)
  /-- Call `feature->DoDamage(damage, impulse, NULL, weaponDefID)`. -/
  | featureDoDamage (feature : FeaturePtr) (damage : DamageArray) (impulse : float3)
      (weaponDefID : Int)
  /-- Call `luaUI->ShockFront(power, pos, areaOfEffect)`. -/
  | shockFront (power : ℚ) (pos : float3) (areaOfEffect : ℚ)
  /-- Call `mapDamage->Explosion(pos, strength, radius)`. -/
  | mapDamageExplosion (pos : float3) (strength : ℚ) (radius : ℚ)
  /-- Call `explosionGenerator->Explosion(0, pos, damage, radius, owner, gfxMod, hitUnit, dir)`;
  `generator` is `none` for the standard generator. -/
  | generatorExplosion (generator : Option Nat) (pos : float3) (damage : ℚ) (radius : ℚ)
      (owner : Option UnitPtr) (gfxMod : ℚ) (hitUnit : Option UnitPtr) (dir : float3)
  /-- Call `eventHandler.Explosion(weaponDefID, pos, owner)`. -/
  | eventHandlerExplosion (weaponDefID : Int) (pos : float3) (owner : Option UnitPtr)
  /-- Call `FireExplosionEvent(CExplosionEvent(pos, damage, radius, weaponDef))`. -/
  | explosionEvent (pos : float3) (damage : ℚ) (radius : ℚ) (weaponDefID : Option Int)
deriving DecidableEq

/-- Slot index `n & 127` of the 128-slot ring. -/
def ringSlot (n : Int) : Nat := (Int.land n 127).toNat

/-- The mutable state of `CGameHelper` together with the log of collaborator calls. -/
structure HelperState where
  /-- Member `waitingDamages[128]`; slot `i` is read as `waitingDamages (i % 128)`. -/
  waitingDamages : Nat → List WaitingDamage
  calls : List Call

/-- Statement `waitingDamages[slot].push_front(wd)`. -/
def HelperState.pushFront (s : HelperState) (slot : Nat) (wd : WaitingDamage) : HelperState :=
  { s with waitingDamages := fun i => if i = slot then wd :: s.waitingDamages i
                                      else s.waitingDamages i }

/-- Append one collaborator call to the log. -/
def HelperState.call (s : HelperState) (c : Call) : HelperState :=
  { s with calls := s.calls ++ [c] }

/-- Calls appended to the log between state `s` and a later state `t`. -/
def callsSince (s t : HelperState) : List Call := t.calls.drop s.calls.length

/-- Records pushed at the front of ring slot `slot` between state `s` and a later state `t`. -/
def queuedSince (s t : HelperState) (slot : Nat) : List WaitingDamage :=
  (t.waitingDamages slot).take ((t.waitingDamages slot).length - (s.waitingDamages slot).length)

/-! ## Explosion damage to one unit

The definitions of this section compute on rationals without rounding. The definitions of the
section "The per-unit explosion damage in single precision" are the same code with every
operation on a `float` rounded. -/

/-- The collision volume and the base position `basePos` chosen for a unit
(`GameHelper.cpp` lines 93-110): the last attacked piece when it was hit in the current frame
and the unit uses per-piece volumes, the whole-unit volume at `midPos` otherwise. -/
def unitVolumeAndBase (frameNum : Int) (u : CUnit) : CollisionVolume × float3 :=
  match u.lastAttackedPiece with
  | some piece =>
    if u.usePieceCollisionVolumes && (u.lastAttackedPieceFrame == frameNum) then
      let volume := piece.colvol
      let basePos := piece.absolutePos + volume.offsets
      (volume, u.pos + u.rightdir * basePos.x + u.updir * basePos.y + u.frontdir * basePos.z)
    else
      (u.collisionVolume, u.midPos + u.collisionVolume.offsets)
  | none => (u.collisionVolume, u.midPos + u.collisionVolume.offsets)

/-- Local `diffPos = basePos - expPos` (line 112). -/
def unitDiffPos (frameNum : Int) (u : CUnit) (expPos : float3) : float3 :=
  (unitVolumeAndBase frameNum u).2 - expPos

/-- Local `volRad = volume->GetBoundingRadius()` (line 114). -/
def unitVolRad (frameNum : Int) (u : CUnit) : ℚ :=
  (unitVolumeAndBase frameNum u).1.boundingRadius

/-- Local `expDist = std::max(diffPos.Length(), volRad + 0.1f)` (line 115). -/
def unitExpDist (sqrtf : ℚ → ℚ) (frameNum : Int) (u : CUnit) (expPos : float3) : ℚ :=
  max ((unitDiffPos frameNum u expPos).Length sqrtf) (unitVolRad frameNum u + 0.1)

/-- Local `expDist1 = std::min(expDist, expRad)` (line 139). -/
def unitExpDist1 (sqrtf : ℚ → ℚ) (frameNum : Int) (u : CUnit) (expPos : float3) (expRad : ℚ) : ℚ :=
  min (unitExpDist sqrtf frameNum u expPos) expRad

/-- Local `expDist2` after the under-water adjustment (lines 138 and 145-149). -/
def unitExpDist2 (sqrtf : ℚ → ℚ) (frameNum : Int) (u : CUnit) (expPos : float3) (expRad : ℚ) : ℚ :=
  let expDist2 := unitExpDist sqrtf frameNum u expPos - unitVolRad frameNum u
  if u.isUnderWater && decide (expPos.y > -1) then
    min (expDist2 + unitVolRad frameNum u) expRad
  else
    expDist2

/-- The falloff expression of lines 151 and 152:
`std::max(0.01f, (expRad - d) / (expRad - (d * edgeEffectiveness)))`, computed without
rounding; `Single.falloffMod` is the expression with every operation rounded to single
precision. -/
def falloffMod (expRad edgeEffectiveness d : ℚ) : ℚ :=
  max 0.01 ((expRad - d) / (expRad - (d * edgeEffectiveness)))

/-- Local `diffPos` after `diffPos /= expDist; diffPos.y += 0.12f` (lines 154-155). -/
def unitImpulseDir (sqrtf : ℚ → ℚ) (frameNum : Int) (u : CUnit) (expPos : float3) : float3 :=
  let diffPos := unitDiffPos frameNum u expPos / unitExpDist sqrtf frameNum u expPos
  { diffPos with y := diffPos.y + 0.12 }

/-- Local `rawImpulseStrength` (line 163). -/
def rawImpulseStrength (damages : DamageArray) (mod1 : ℚ) : ℚ :=
  damages.impulseFactor * mod1 * (damages.GetDefaultDamage + damages.impulseBoost) * 3.2

/-- Local `addedImpulse = diffPos * modImpulseStrength` (lines 163-165). -/
def unitAddedImpulse (sqrtf : ℚ → ℚ) (MAX_EXPLOSION_IMPULSE : ℚ) (frameNum : Int) (u : CUnit)
    (expPos : float3) (expRad edgeEffectiveness : ℚ) (damages : DamageArray) : float3 :=
  let mod1 := falloffMod expRad edgeEffectiveness (unitExpDist1 sqrtf frameNum u expPos expRad)
  let modImpulseStrength :=
    Clamp (rawImpulseStrength damages mod1) (-MAX_EXPLOSION_IMPULSE) MAX_EXPLOSION_IMPULSE
  unitImpulseDir sqrtf frameNum u expPos * modImpulseStrength

/-- The record built on line 170:
`new WaitingDamage((owner? owner->id: -1), unit->id, damageDone, addedImpulse, weaponDefID)`. -/
def unitWaitingDamage (sqrtf : ℚ → ℚ) (MAX_EXPLOSION_IMPULSE : ℚ) (frameNum : Int)
    (heap : UnitPtr → CUnit) (unit : UnitPtr) (owner : Option UnitPtr) (expPos : float3)
    (expRad edgeEffectiveness : ℚ) (damages : DamageArray) (weaponDefID : Int) : WaitingDamage :=
  let u := heap unit
  let mod2 := falloffMod expRad edgeEffectiveness (unitExpDist2 sqrtf frameNum u expPos expRad)
  { attacker :=
      match owner with
      | some o => (heap o).id
      | none => -1
    target := u.id
    damage := damages * mod2
    impulse :=
      unitAddedImpulse sqrtf MAX_EXPLOSION_IMPULSE frameNum u expPos expRad edgeEffectiveness damages
    weaponId := weaponDefID }

/-- Per-unit `CGameHelper::DoExplosionDamage(CUnit*, ...)` (lines 72-173).
`MAX_EXPLOSION_IMPULSE` is a constant of a header that is not among the sources and is a
parameter; `frameNum` is `gs->frameNum`. -/
def DoExplosionDamage (sqrtf : ℚ → ℚ) (MAX_EXPLOSION_IMPULSE : ℚ) (frameNum : Int)
    (heap : UnitPtr → CUnit) (unit : UnitPtr) (owner : Option UnitPtr) (expPos : float3)
    (expRad expSpeed edgeEffectiveness : ℚ) (ignoreOwner : Bool) (damages : DamageArray)
    (weaponDefID : Int) (s : HelperState) : HelperState :=
  if ignoreOwner && (owner == some unit) then
    s
  else
    let u := heap unit
    let volRad := unitVolRad frameNum u
    let expDist := unitExpDist sqrtf frameNum u expPos
    if expDist - volRad > expRad then
      s
    else
      let expDist2 := unitExpDist2 sqrtf frameNum u expPos expRad
      let mod2 := falloffMod expRad edgeEffectiveness expDist2
      let damageDone := damages * mod2
      let addedImpulse :=
        unitAddedImpulse sqrtf MAX_EXPLOSION_IMPULSE frameNum u expPos expRad edgeEffectiveness damages
      if expDist2 < expSpeed * 4 then
        s.call (Call.unitDoDamage unit damageDone addedImpulse owner weaponDefID)
      else
        let wd := unitWaitingDamage sqrtf MAX_EXPLOSION_IMPULSE frameNum heap unit owner expPos
          expRad edgeEffectiveness damages weaponDefID
        s.pushFront (ringSlot (frameNum + truncToInt (expDist2 / expSpeed) - 3)) wd

/-! ## Explosion damage to one feature -/

/-- Per-feature `CGameHelper::DoExplosionDamage(CFeature*, ...)` (lines 175-207).
`SQUARE_SIZE` is a constant of a header that is not among the sources and is a parameter. -/
def DoExplosionDamageFeature (sqrtf : ℚ → ℚ) (SQUARE_SIZE : Int) (heap : FeaturePtr → CFeature)
    (feature : FeaturePtr) (expPos : float3) (expRad : ℚ) (damages : DamageArray)
    (weaponDefID : Int) (s : HelperState) : HelperState :=
  match (heap feature).collisionVolume with
  | none => s
  | some cv =>
    let dif := ((heap feature).midPos + cv.offsets) - expPos
    let expDist := max (dif.Length sqrtf) 0.1
    let expMod := (expRad - expDist) / expRad
    let dmgScale := damages.GetDefaultDamage + damages.impulseBoost
    let expMod :=
      if expRad > (SQUARE_SIZE : ℚ) ∧ expDist < cv.boundingRadius * 1.1 ∧ expMod < 0.1 then 0.1
      else expMod
    if expMod > 0 then
      let modDamages := damages * expMod
      let modImpulse := dif * (damages.impulseFactor * expMod / expDist * dmgScale)
      s.call (Call.featureDoDamage feature modDamages modImpulse weaponDefID)
    else
      s

/-! ## The deferred damage ring -/

/-- The `while (!wd->empty())` loop of `CGameHelper::Update` (lines 989-1000): take the record at
the back, look up target and attacker in `uh->units`, call `DoDamage` when the target exists.
The loop runs on `fuel`; `Update` starts it with the length of the list. -/
def drainLoop (units : Int → Option UnitPtr) :
    Nat → List WaitingDamage → List Call → List WaitingDamage × List Call
  | 0, wd, calls => (wd, calls)
  | fuel + 1, wd, calls =>
    match wd.getLast? with
    | none => (wd, calls)
    | some w =>
      let wd := wd.dropLast
      let attackee := units w.target
      let attacker := if w.attacker = -1 then none else units w.attacker
      match attackee with
      | some a =>
        drainLoop units fuel wd (calls ++ [Call.unitDoDamage a w.damage w.impulse attacker w.weaponId])
      | none => drainLoop units fuel wd calls

/-- Frame step `CGameHelper::Update` (lines 985-1001); `frameNum` is `gs->frameNum` and `units` is
the table `uh->units`. -/
def Update (frameNum : Int) (units : Int → Option UnitPtr) (s : HelperState) : HelperState :=
  let slot := ringSlot frameNum
  let r := drainLoop units (s.waitingDamages slot).length (s.waitingDamages slot) s.calls
  { waitingDamages := fun i => if i = slot then r.1 else s.waitingDamages i
    calls := r.2 }

/-! ## Spatial unit queries -/

/-- One cell of the quad field: `teamUnits[t]` is the list of units of allyteam `t`. -/
structure Quad where
  teamUnits : Int → List UnitPtr

/-- The two accessors of `CQuadField` used by `QueryUnits`. -/
structure QuadField where
  GetQuads : float3 → ℚ → List Int
  GetQuad : Int → Quad

/-- Template argument `TFilter`: the two methods `QueryUnits` calls. -/
structure TFilter where
  Team : Int → Bool
  Unit : CUnit → Bool

/-- Template argument `TQuery` over a query object of type `σ`: the members `QueryUnits` uses. -/
structure TQuery (σ : Type) where
  pos : σ → float3
  radius : σ → ℚ
  AddUnit : σ → UnitPtr → CUnit → σ

/-- What `QueryUnits` reads and writes: `gs->tempNum`, the units, the query object. -/
structure QueryState (σ : Type) where
  tempNum : Int
  heap : UnitPtr → CUnit
  query : σ

/-- Body of the innermost loop of `QueryUnits` (lines 366-371) for the unit `ui`. -/
def visitUnit {σ : Type} (filter : TFilter) (Q : TQuery σ) (tempNum : Int)
    (st : (UnitPtr → CUnit) × σ) (ui : UnitPtr) : (UnitPtr → CUnit) × σ :=
  if (st.1 ui).tempNum ≠ tempNum then
    let heap := Function.update st.1 ui { st.1 ui with tempNum := tempNum }
    if filter.Unit (heap ui) then
      (heap, Q.AddUnit st.2 ui (heap ui))
    else
      (heap, st.2)
  else
    st

/-- Body of the loop over allyteams of `QueryUnits` (lines 360-372) for allyteam `t`. -/
def visitTeam {σ : Type} (filter : TFilter) (Q : TQuery σ) (tempNum : Int) (quad : Quad)
    (st : (UnitPtr → CUnit) × σ) (t : Int) : (UnitPtr → CUnit) × σ :=
  if !filter.Team t then
    st
  else
    (quad.teamUnits t).foldl (visitUnit filter Q tempNum) st

/-- Body of the loop over quads of `QueryUnits` (lines 358-373) for the quad `qi`. -/
def visitQuad {σ : Type} (qf : QuadField) (ActiveAllyTeams : Int) (filter : TFilter)
    (Q : TQuery σ) (tempNum : Int) (st : (UnitPtr → CUnit) × σ) (qi : Int) :
    (UnitPtr → CUnit) × σ :=
  let quad := qf.GetQuad qi
  ((List.range ActiveAllyTeams.toNat).map Int.ofNat).foldl (visitTeam filter Q tempNum quad) st

/-- Generic spatial unit query `QueryUnits` (lines 348-375). `ActiveAllyTeams` is the value of
`teamHandler->ActiveAllyTeams()`. -/
def QueryUnits {σ : Type} (qf : QuadField) (ActiveAllyTeams : Int) (filter : TFilter)
    (Q : TQuery σ) (st : QueryState σ) : QueryState σ :=
  let quads := qf.GetQuads (Q.pos st.query) (Q.radius st.query)
  let tempNum := st.tempNum
  let r := quads.foldl (visitQuad qf ActiveAllyTeams filter Q tempNum) (st.heap, st.query)
  { tempNum := st.tempNum + 1, heap := r.1, query := r.2 }

/-- Filter `Filter::Enemy_InLos` (lines 405-421): `Team` of `Filter::Enemy`, `Unit` testing the
LOS bits. `Ally` is `teamHandler->Ally`; the two bit masks are constants of a header that is not
among the sources and are parameters. -/
def Enemy_InLos (Ally : Int → Int → Bool) (LOS_INLOS LOS_INRADAR : Nat) (searchAllyteam : Int) :
    TFilter where
  Team := fun t => !Ally searchAllyteam t
  Unit := fun u => (u.losStatus searchAllyteam &&& (LOS_INLOS ||| LOS_INRADAR)) != 0

/-- Query object `Query::ClosestUnit` with the members of `Query::Base` (lines 477-508). -/
structure ClosestUnit where
  pos : float3
  radius : ℚ
  sqRadius : ℚ
  closeSqDist : ℚ
  closeUnit : Option UnitPtr

/-- Constructor `ClosestUnit(pos, searchRadius)` (lines 482-483 and 496-497). -/
def ClosestUnit.new (pos : float3) (searchRadius : ℚ) : ClosestUnit :=
  { pos := pos, radius := searchRadius, sqRadius := searchRadius * searchRadius,
    closeSqDist := searchRadius * searchRadius, closeUnit := none }

/-- Method `ClosestUnit::AddUnit` (lines 499-505). -/
def ClosestUnit.AddUnit (q : ClosestUnit) (p : UnitPtr) (u : CUnit) : ClosestUnit :=
  let sqDist := (q.pos - u.midPos).SqLength2D
  if sqDist ≤ q.closeSqDist then
    { q with closeSqDist := sqDist, closeUnit := some p }
  else
    q

/-- The query interface of `Query::ClosestUnit`. -/
def ClosestUnit.ops : TQuery ClosestUnit where
  pos := fun q => q.pos
  radius := fun q => q.radius
  AddUnit := ClosestUnit.AddUnit

/-- Query `CGameHelper::GetClosestEnemyUnit` (lines 755-760): the returned unit together with the
new `gs->tempNum` and units. -/
def GetClosestEnemyUnit (qf : QuadField) (ActiveAllyTeams : Int) (Ally : Int → Int → Bool)
    (LOS_INLOS LOS_INRADAR : Nat) (tempNum : Int) (heap : UnitPtr → CUnit)
    (pos : float3) (searchRadius : ℚ) (searchAllyteam : Int) :
    Option UnitPtr × Int × (UnitPtr → CUnit) :=
  let q := ClosestUnit.new pos searchRadius
  let r := QueryUnits qf ActiveAllyTeams (Enemy_InLos Ally LOS_INLOS LOS_INRADAR searchAllyteam)
    ClosestUnit.ops { tempNum := tempNum, heap := heap, query := q }
  (r.query.closeUnit, r.tempNum, r.heap)

/-! ## Explosions -/

/-- The fields of `WeaponDef` read by `Explosion`. -/
structure WeaponDef where
  id : Int
  cameraShake : ℚ
  explosionGenerator : Option Nat

/-- Argument `ExplosionParams` of `Explosion`. -/
structure ExplosionParams where
  pos : float3
  dir : float3
  damages : DamageArray
  weaponDef : Option WeaponDef
  owner : Option UnitPtr
  hitUnit : Option UnitPtr
  hitFeature : Option FeaturePtr
  craterAreaOfEffect : ℚ
  damageAreaOfEffect : ℚ
  edgeEffectiveness : ℚ
  explosionSpeed : ℚ
  gfxMod : ℚ
  impactOnly : Bool
  ignoreOwner : Bool
  damageGround : Bool

/-- The globals and collaborators `Explosion` reads. -/
structure ExplosionEnv where
  sqrtf : ℚ → ℚ
  MAX_EXPLOSION_IMPULSE : ℚ
  SQUARE_SIZE : Int
  /-- Global `gs->frameNum`. -/
  frameNum : Int
  unitHeap : UnitPtr → CUnit
  featureHeap : FeaturePtr → CFeature
  /-- Accessor `ground->GetHeightReal(x, z)`. -/
  GetHeightReal : ℚ → ℚ → ℚ
  /-- Result of `eventHandler.Explosion(weaponDefID, pos, owner)`. -/
  eventHandlerExplosion : Int → float3 → Option UnitPtr → Bool
  /-- Whether `luaUI` is non-null. -/
  luaUI : Bool
  /-- Flag `mapDamage->disabled`. -/
  mapDamageDisabled : Bool
  /-- Range query `qf->GetUnitsExact(pos, radius)`. -/
  GetUnitsExact : float3 → ℚ → List UnitPtr
  /-- Range query `qf->GetFeaturesExact(pos, radius)`. -/
  GetFeaturesExact : float3 → ℚ → List FeaturePtr

/-- The two damage loops of `Explosion` (lines 258-266 for units, 281-289 for features): every
entity of the list is damaged, and the flag records whether the hit entity was among them. -/
def damageLoop {α σ : Type} [DecidableEq α] (dmg : α → σ → σ) (hit : Option α) :
    List α → Bool → σ → Bool × σ
  | [], hitDamaged, s => (hitDamaged, s)
  | e :: rest, hitDamaged, s =>
    let hitDamaged := if some e = hit then true else hitDamaged
    damageLoop dmg hit rest hitDamaged (dmg e s)

/-- One of the two blocks of `Explosion` (lines 253-274 for units, 276-294 for features): the loop
over the range query, then the hit entity if the loop did not reach it. -/
def damageBlock {α σ : Type} [DecidableEq α] (dmg : α → σ → σ) (hit : Option α)
    (found : List α) (s : σ) : σ :=
  let r := damageLoop dmg hit found false s
  match hit with
  | some h => if !r.1 then dmg h r.2 else r.2
  | none => r.2

/-- The damage part of `Explosion` (lines 246-309), over the per-unit damage function `dmgUnit`,
the per-feature damage function `dmgFeature` and the map deformation `deform` (lines 296-308). -/
def explosionDamage {σ : Type} (dmgUnit : UnitPtr → σ → σ) (dmgFeature : FeaturePtr → σ → σ)
    (deform : σ → σ) (impactOnly : Bool) (hitUnit : Option UnitPtr)
    (hitFeature : Option FeaturePtr) (units : List UnitPtr) (features : List FeaturePtr)
    (s : σ) : σ :=
  if impactOnly then
    match hitUnit with
    | some hu => dmgUnit hu s
    | none =>
      match hitFeature with
      | some hf => dmgFeature hf s
      | none => s
  else
    let s := damageBlock dmgUnit hitUnit units s
    let s := damageBlock dmgFeature hitFeature features s
    deform s

/-- Map deformation of `Explosion` (lines 296-308). -/
def deformMap (mapDamageDisabled : Bool) (p : ExplosionParams) (expPos : float3)
    (craterAOE altitude : ℚ) (s : HelperState) : HelperState :=
  if altitude ≥ -1 then
    if p.damageGround && !mapDamageDisabled && decide (craterAOE > altitude)
        && decide (p.damages.craterMult > 0) then
      let craterDepth := p.damages.GetDefaultDamage * (1 - (altitude / craterAOE))
      let damageDepth := min (craterAOE * 10) craterDepth
      let craterStrength := (damageDepth + p.damages.craterBoost) * p.damages.craterMult
      let craterRadius := craterAOE - altitude
      s.call (Call.mapDamageExplosion expPos craterStrength craterRadius)
    else
      s
  else
    s

/-- Explosion resolution `CGameHelper::Explosion` (lines 211-324). -/
def Explosion (env : ExplosionEnv) (params : ExplosionParams) (s : HelperState) : HelperState :=
  let damages := params.damages
  let weaponDef := params.weaponDef
  let weaponDefID : Int :=
    match weaponDef with
    | some wdef => wdef.id
    | none => -1
  let expPos := params.pos
  let owner := params.owner
  let hitUnit := params.hitUnit
  let craterAOE := max 1 params.craterAreaOfEffect
  let damageAOE := max 1 params.damageAreaOfEffect
  let edgeEffectiveness := params.edgeEffectiveness
  let expSpeed := params.explosionSpeed
  let realHeight := env.GetHeightReal expPos.x expPos.z
  let altitude := expPos.y - realHeight
  let noGfx := env.eventHandlerExplosion weaponDefID expPos owner
  let s := s.call (Call.eventHandlerExplosion weaponDefID expPos owner)
  let s :=
    if env.luaUI then
      match weaponDef with
      | some wdef =>
        if wdef.cameraShake > 0 then s.call (Call.shockFront wdef.cameraShake expPos damageAOE)
        else s
      | none => s
    else
      s
  let s :=
    explosionDamage
      (fun unit s => DoExplosionDamage env.sqrtf env.MAX_EXPLOSION_IMPULSE env.frameNum
        env.unitHeap unit owner expPos damageAOE expSpeed edgeEffectiveness params.ignoreOwner
        damages weaponDefID s)
      (fun feature s => DoExplosionDamageFeature env.sqrtf env.SQUARE_SIZE env.featureHeap
        feature expPos damageAOE damages weaponDefID s)
      (deformMap env.mapDamageDisabled params expPos craterAOE altitude)
      params.impactOnly hitUnit params.hitFeature
      (env.GetUnitsExact expPos damageAOE) (env.GetFeaturesExact expPos damageAOE) s
  let s :=
    if !noGfx then
      let explosionGenerator : Option Nat :=
        match weaponDef with
        | some wdef => wdef.explosionGenerator
        | none => none
      s.call (Call.generatorExplosion explosionGenerator expPos damages.GetDefaultDamage damageAOE
        owner params.gfxMod hitUnit params.dir)
    else
      s
  s.call (Call.explosionEvent expPos damages.GetDefaultDamage damageAOE
    (weaponDef.map (fun wdef => wdef.id)))

/-! ## Describing an explosion -/

/-- Local `weaponDefID` of `Explosion` (line 219). -/
def ExplosionParams.weaponDefID (p : ExplosionParams) : Int :=
  match p.weaponDef with
  | some wdef => wdef.id
  | none => -1

/-- Local `damageAOE` of `Explosion` (line 228). -/
def ExplosionParams.damageAOE (p : ExplosionParams) : ℚ := max 1 p.damageAreaOfEffect

/-- Local `craterAOE` of `Explosion` (line 227). -/
def ExplosionParams.craterAOE (p : ExplosionParams) : ℚ := max 1 p.craterAreaOfEffect

/-- Local `altitude` of `Explosion` (lines 232-233). -/
def explosionAltitude (env : ExplosionEnv) (p : ExplosionParams) : ℚ :=
  p.pos.y - env.GetHeightReal p.pos.x p.pos.z

/-- The part of `Explosion` before the damage (lines 238-244): the event handler is asked, and
the shock front is sent to the UI. -/
def explosionHead (env : ExplosionEnv) (p : ExplosionParams) (s : HelperState) : HelperState :=
  let s := s.call (Call.eventHandlerExplosion p.weaponDefID p.pos p.owner)
  if env.luaUI then
    match p.weaponDef with
    | some wdef =>
      if wdef.cameraShake > 0 then s.call (Call.shockFront wdef.cameraShake p.pos p.damageAOE)
      else s
    | none => s
  else
    s

/-- The per-unit damage call as `Explosion` makes it (lines 248, 265, 272). -/
def explosionUnitDamage (env : ExplosionEnv) (p : ExplosionParams) (unit : UnitPtr)
    (s : HelperState) : HelperState :=
  DoExplosionDamage env.sqrtf env.MAX_EXPLOSION_IMPULSE env.frameNum env.unitHeap unit p.owner
    p.pos p.damageAOE p.explosionSpeed p.edgeEffectiveness p.ignoreOwner p.damages p.weaponDefID s

/-- The per-feature damage call as `Explosion` makes it (lines 250, 288, 292). -/
def explosionFeatureDamage (env : ExplosionEnv) (p : ExplosionParams) (feature : FeaturePtr)
    (s : HelperState) : HelperState :=
  DoExplosionDamageFeature env.sqrtf env.SQUARE_SIZE env.featureHeap feature p.pos p.damageAOE
    p.damages p.weaponDefID s

/-- The part of `Explosion` after the damage (lines 311-323): the explosion generator unless
graphics are suppressed, then the explosion event. -/
def explosionTail (env : ExplosionEnv) (p : ExplosionParams) (s : HelperState) : HelperState :=
  let s :=
    if !env.eventHandlerExplosion p.weaponDefID p.pos p.owner then
      s.call (Call.generatorExplosion
        (match p.weaponDef with
          | some wdef => wdef.explosionGenerator
          | none => none)
        p.pos p.damages.GetDefaultDamage p.damageAOE p.owner p.gfxMod p.hitUnit p.dir)
    else
      s
  s.call (Call.explosionEvent p.pos p.damages.GetDefaultDamage p.damageAOE
    (p.weaponDef.map (fun wdef => wdef.id)))

/-- The entities a damage block processes, in order: the range query result, followed by the hit
entity when there is one and the query did not return it. -/
def processedEntities {α : Type} [DecidableEq α] (found : List α) (hit : Option α) : List α :=
  match hit with
  | some h => if h ∈ found then found else found ++ [h]
  | none => found

/-- Whether a logged call is a `DoDamage` call on a unit or a feature. -/
def Call.isDamage : Call → Bool
  | Call.unitDoDamage _ _ _ _ _ => true
  | Call.featureDoDamage _ _ _ _ => true
  | _ => false

/-! ## Describing a query -/

/-- A query object that only records, in order, the units passed to `AddUnit`. -/
def traceQuery (pos : float3) (radius : ℚ) : TQuery (List UnitPtr) where
  pos := fun _ => pos
  radius := fun _ => radius
  AddUnit := fun q p _ => q ++ [p]

/-- The units in the order in which `QueryUnits` reaches them: quad by quad, allyteam by
allyteam for the allyteams accepted by `filter.Team`, along each list `teamUnits[t]`. -/
def enumeratedUnits (qf : QuadField) (ActiveAllyTeams : Int) (filter : TFilter) (pos : float3)
    (radius : ℚ) : List UnitPtr :=
  (qf.GetQuads pos radius).flatMap (fun qi =>
    ((List.range ActiveAllyTeams.toNat).map Int.ofNat).flatMap (fun t =>
      if filter.Team t then (qf.GetQuad qi).teamUnits t else []))

/-- The first occurrences in `l` of the units that are not in `seen`. -/
def firstVisits : List UnitPtr → List UnitPtr → List UnitPtr
  | _, [] => []
  | seen, x :: xs => if x ∈ seen then firstVisits seen xs else x :: firstVisits (x :: seen) xs

/-- The units after those of `seen` have been given the generation number `tempNum`. -/
def markVisited (tempNum : Int) (seen : List UnitPtr) (heap : UnitPtr → CUnit) : UnitPtr → CUnit :=
  fun u => if u ∈ seen then { heap u with tempNum := tempNum } else heap u

/-- Unit `u` lies in an allyteam list `teamUnits[t]`, `0 ≤ t < ActiveAllyTeams`, of a quad
returned for the query, for an allyteam `t` accepted by `filter.Team`. -/
def inAcceptedCell (qf : QuadField) (ActiveAllyTeams : Int) (filter : TFilter) (pos : float3)
    (radius : ℚ) (u : UnitPtr) : Prop :=
  ∃ qi ∈ qf.GetQuads pos radius, ∃ t : Int, 0 ≤ t ∧ t < ActiveAllyTeams ∧ filter.Team t = true
    ∧ u ∈ (qf.GetQuad qi).teamUnits t

/-- Unit `u` is an enumerated unit of an allyteam not allied with `searchAllyteam`, has
`LOS_INLOS` or `LOS_INRADAR` set for `searchAllyteam`, and the 2D squared distance from `pos` to
its `midPos` is at most `searchRadius * searchRadius`. -/
def enemyInReach (qf : QuadField) (ActiveAllyTeams : Int) (Ally : Int → Int → Bool)
    (LOS_INLOS LOS_INRADAR : Nat) (heap : UnitPtr → CUnit) (pos : float3) (searchRadius : ℚ)
    (searchAllyteam : Int) (u : UnitPtr) : Prop :=
  (∃ qi ∈ qf.GetQuads pos searchRadius, ∃ t : Int, 0 ≤ t ∧ t < ActiveAllyTeams
      ∧ Ally searchAllyteam t = false ∧ u ∈ (qf.GetQuad qi).teamUnits t)
  ∧ ((heap u).losStatus searchAllyteam &&& (LOS_INLOS ||| LOS_INRADAR)) ≠ 0
  ∧ (pos - (heap u).midPos).SqLength2D ≤ searchRadius * searchRadius

/-! ## Frame sequences -/

/-- What `Update` does with one record (lines 993-997): the `DoDamage` call on the target, with
a null attacker when the stored id is `-1` or `uh->units` has no such unit; nothing when the
target no longer exists. -/
def deliveryOf (units : Int → Option UnitPtr) (w : WaitingDamage) : Option Call :=
  match units w.target with
  | some a =>
    some (Call.unitDoDamage a w.damage w.impulse
      (if w.attacker = -1 then none else units w.attacker) w.weaponId)
  | none => none

/-- The pushes of a list of deferred records, `waitingDamages[slot].push_front(wd)` for each
pair `(slot, wd)` in order. -/
def pushAll (ps : List (Nat × WaitingDamage)) (s : HelperState) : HelperState :=
  ps.foldl (fun s p => s.pushFront p.1 p.2) s

/-- The state after the frames `F + 1, ..., F + n`: before the `Update` of frame `F + k` the
explosions push the records `pushes k`, then `Update` runs once with the unit table
`units k`. -/
def runFrames (units : Nat → Int → Option UnitPtr) (pushes : Nat → List (Nat × WaitingDamage))
    (F : Int) : Nat → HelperState → HelperState
  | 0, s => s
  | n + 1, s =>
    Update (F + ((n + 1 : Nat) : Int)) (units (n + 1))
      (pushAll (pushes (n + 1)) (runFrames units pushes F n s))

/-- The state in which the `Update` of frame `F + (n + 1)` starts. -/
def beforeUpdate (units : Nat → Int → Option UnitPtr) (pushes : Nat → List (Nat × WaitingDamage))
    (F : Int) (n : Nat) (s : HelperState) : HelperState :=
  pushAll (pushes (n + 1)) (runFrames units pushes F n s)

/-- The records that the `Update` of frame `F + (n + 1)` finds in its slot and delivers. -/
def drainedAt (units : Nat → Int → Option UnitPtr) (pushes : Nat → List (Nat × WaitingDamage))
    (F : Int) (n : Nat) (s : HelperState) : List WaitingDamage :=
  (beforeUpdate units pushes F n s).waitingDamages (ringSlot (F + ((n + 1 : Nat) : Int)))

/-- The pipeline scenario: the state after frames `0, ..., n - 1`, where in frame `f` the record
`r f` is pushed on slot `(f + 5) & 127` and `Update` runs for frame `f`. -/
def pipelineRun (units : Int → Option UnitPtr) (r : Nat → WaitingDamage) :
    Nat → HelperState
  | 0 => ⟨fun _ => [], []⟩
  | f + 1 =>
    Update (f : Int) units
      ((pipelineRun units r f).pushFront (ringSlot (((f + 5 : Nat) : Int))) (r f))

/-- The state in which the `Update` of frame `f` of the pipeline scenario starts. -/
def pipelineBefore (units : Int → Option UnitPtr) (r : Nat → WaitingDamage) (f : Nat) :
    HelperState :=
  (pipelineRun units r f).pushFront (ringSlot (((f + 5 : Nat) : Int))) (r f)

/-- The records that the `Update` of frame `f` of the pipeline scenario finds in its slot. -/
def pipelineDrained (units : Int → Option UnitPtr) (r : Nat → WaitingDamage) (f : Nat) :
    List WaitingDamage :=
  (pipelineBefore units r f).waitingDamages (ringSlot (f : Int))

/-- The record pushed in frame `f` of the concrete pipeline: target id `f`, no attacker. -/
def pipelineRecord (f : Nat) : WaitingDamage :=
  ⟨-1, f, ⟨[1], 1, 0, 0, 0, 0⟩, ⟨0, 0, 0⟩, 0⟩

/-! ## Concrete scenarios -/

/-- A quad field with two quads that share unit 1: allyteam 1 has units 0, 1 in quad 0 and
units 1, 2 in quad 1; every query returns both quads. -/
def twoQuads : QuadField where
  GetQuads := fun _ _ => [0, 1]
  GetQuad := fun qi => ⟨fun t => if t = 1 then (if qi = 0 then [0, 1] else [1, 2]) else []⟩

/-- The filter that accepts every allyteam and every unit. -/
def acceptAll : TFilter := ⟨fun _ => true, fun _ => true⟩

/-- Allyteams are allied exactly with themselves. -/
def selfAllied (a b : Int) : Bool := a == b

/-- The origin. -/
def origin : float3 := ⟨0, 0, 0⟩

/-- A unit with a spherical volume of radius 1 centred at `midPos`, no attacked piece. -/
def unitAt (id : Int) (midPos : float3) : CUnit :=
  { id := id, pos := midPos, midPos := midPos, rightdir := ⟨1, 0, 0⟩, updir := ⟨0, 1, 0⟩,
    frontdir := ⟨0, 0, 1⟩, radius := 1, losRadius := 1, lastAttackedPieceFrame := -1,
    lastAttackedPiece := none, usePieceCollisionVolumes := false,
    collisionVolume := ⟨origin, 1⟩, isUnderWater := false, allyteam := 0,
    losStatus := fun _ => 0, tempNum := 0 }

/-- A square root that is exact at the squares used in the scenarios. -/
def sqrtAt (q : ℚ) : ℚ :=
  if q = 100 then 10 else if q = 40000 then 200 else if q = 25 then 5
  else if q = 125440000 then 11200 else 0

/-- A damage vector with default damage `d`, impulse factor 1 and no boost. -/
def plainDamage (d : ℚ) : DamageArray := ⟨[d], 1, 0, 0, 0, 0⟩

/-- The state with an empty ring and an empty call log. -/
def emptyState : HelperState := ⟨fun _ => [], []⟩

/-- Units 0, 1, 2, ... along the x-axis, unit `p` at `x = 3 * p`, all in LOS of everyone. -/
def unitsOnAxis (p : UnitPtr) : CUnit :=
  { unitAt p ⟨3 * p, 0, 0⟩ with losStatus := fun _ => 1, allyteam := 1 }

/-- An environment with no ground relief, one unit at distance 10 above the origin, one feature
without collision volume, and range queries that return units 0, 1 and features 0, 1. -/
def flatEnv : ExplosionEnv where
  sqrtf := sqrtAt
  MAX_EXPLOSION_IMPULSE := 10000
  SQUARE_SIZE := 8
  frameNum := 0
  unitHeap := fun p => unitAt p ⟨0, 10, 0⟩
  featureHeap := fun _ => ⟨⟨0, 0, 0⟩, none⟩
  GetHeightReal := fun _ _ => 0
  eventHandlerExplosion := fun _ _ _ => false
  luaUI := false
  mapDamageDisabled := false
  GetUnitsExact := fun _ _ => [0, 1]
  GetFeaturesExact := fun _ _ => [0, 1]

/-- An explosion at the origin of radius 100 that hit unit `hitUnit`. -/
def blastAtOrigin (impactOnly : Bool) (hitUnit : Option UnitPtr) : ExplosionParams where
  pos := ⟨0, 0, 0⟩
  dir := ⟨0, 1, 0⟩
  damages := ⟨[50], 1, 0, 0, 0, 0⟩
  weaponDef := none
  owner := none
  hitUnit := hitUnit
  hitFeature := none
  craterAreaOfEffect := 100
  damageAreaOfEffect := 100
  edgeEffectiveness := 0
  explosionSpeed := 1000
  gfxMod := 1
  impactOnly := impactOnly
  ignoreOwner := false
  damageGround := false

/-! ## Describing the damage to a feature -/

/-- Local `dif` of the per-feature damage function (line 185) for a feature with volume `cv`. -/
def featureDif (f : CFeature) (cv : CollisionVolume) (expPos : float3) : float3 :=
  (f.midPos + cv.offsets) - expPos

/-- Local `expDist` of the per-feature damage function (line 187). -/
def featureExpDist (sqrtf : ℚ → ℚ) (f : CFeature) (cv : CollisionVolume) (expPos : float3) : ℚ :=
  max ((featureDif f cv expPos).Length sqrtf) 0.1

/-- Local `expMod` of the per-feature damage function after the 10% floor (lines 188-198). -/
def featureExpMod (sqrtf : ℚ → ℚ) (SQUARE_SIZE : Int) (f : CFeature) (cv : CollisionVolume)
    (expPos : float3) (expRad : ℚ) : ℚ :=
  let expDist := featureExpDist sqrtf f cv expPos
  let expMod := (expRad - expDist) / expRad
  if expRad > (SQUARE_SIZE : ℚ) ∧ expDist < cv.boundingRadius * 1.1 ∧ expMod < 0.1 then 0.1
  else expMod

/-- Local `modImpulse` of the per-feature damage function (line 202). -/
def featureImpulse (sqrtf : ℚ → ℚ) (SQUARE_SIZE : Int) (f : CFeature) (cv : CollisionVolume)
    (expPos : float3) (expRad : ℚ) (damages : DamageArray) : float3 :=
  featureDif f cv expPos
    * (damages.impulseFactor * featureExpMod sqrtf SQUARE_SIZE f cv expPos expRad
        / featureExpDist sqrtf f cv expPos * (damages.GetDefaultDamage + damages.impulseBoost))

/-- A square root that is exact at the squares used in the far-feature scenarios. -/
def sqrtFar (q : ℚ) : ℚ :=
  if q = 1000000 then 1000 else if q = 100 then 10 else if q = 2500 then 50 else 0

/-- A feature at height `h` above the origin with a spherical volume of radius `r`. -/
def featureAbove (h r : ℚ) : CFeature := ⟨⟨0, h, 0⟩, some ⟨⟨0, 0, 0⟩, r⟩⟩

/-! ## Collecting unit ids -/

/-- Filter `Filter::Enemy` (lines 405-410): allyteams not allied with `searchAllyteam`, every
unit. `Ally` is `teamHandler->Ally`. -/
def Enemy (Ally : Int → Int → Bool) (searchAllyteam : Int) : TFilter where
  Team := fun t => !Ally searchAllyteam t
  Unit := fun _ => true

/-- Query object `Query::AllUnitsById` with the members of `Query::Base` (lines 477-484 and
602-616); `found` is the vector the ids are pushed on. -/
structure AllUnitsById where
  pos : float3
  radius : ℚ
  sqRadius : ℚ
  found : List Int

/-- Constructor `AllUnitsById(pos, searchRadius, found)` (lines 482-483 and 608-609). -/
def AllUnitsById.new (pos : float3) (searchRadius : ℚ) (found : List Int) : AllUnitsById :=
  { pos := pos, radius := searchRadius, sqRadius := searchRadius * searchRadius, found := found }

/-- Method `AllUnitsById::AddUnit` (lines 611-615). -/
def AllUnitsById.AddUnit (q : AllUnitsById) (_p : UnitPtr) (u : CUnit) : AllUnitsById :=
  if (q.pos - u.midPos).SqLength2D ≤ q.sqRadius then
    { q with found := q.found ++ [u.id] }
  else
    q

/-- The query interface of `Query::AllUnitsById`. -/
def AllUnitsById.ops : TQuery AllUnitsById where
  pos := fun q => q.pos
  radius := fun q => q.radius
  AddUnit := AllUnitsById.AddUnit

/-- Query `CGameHelper::GetEnemyUnits` (lines 801-805): the vector `found` after the call,
together with the new `gs->tempNum` and units. -/
def GetEnemyUnits (qf : QuadField) (ActiveAllyTeams : Int) (Ally : Int → Int → Bool)
    (LOS_INLOS LOS_INRADAR : Nat) (tempNum : Int) (heap : UnitPtr → CUnit)
    (pos : float3) (searchRadius : ℚ) (searchAllyteam : Int) (found : List Int) :
    List Int × Int × (UnitPtr → CUnit) :=
  let q := AllUnitsById.new pos searchRadius found
  let r := QueryUnits qf ActiveAllyTeams (Enemy_InLos Ally LOS_INLOS LOS_INRADAR searchAllyteam)
    AllUnitsById.ops { tempNum := tempNum, heap := heap, query := q }
  (r.query.found, r.tempNum, r.heap)

/-- Query `CGameHelper::GetEnemyUnitsNoLosTest` (lines 807-811): the vector `found` after the
call, together with the new `gs->tempNum` and units. -/
def GetEnemyUnitsNoLosTest (qf : QuadField) (ActiveAllyTeams : Int) (Ally : Int → Int → Bool)
    (tempNum : Int) (heap : UnitPtr → CUnit)
    (pos : float3) (searchRadius : ℚ) (searchAllyteam : Int) (found : List Int) :
    List Int × Int × (UnitPtr → CUnit) :=
  let q := AllUnitsById.new pos searchRadius found
  let r := QueryUnits qf ActiveAllyTeams (Enemy Ally searchAllyteam)
    AllUnitsById.ops { tempNum := tempNum, heap := heap, query := q }
  (r.query.found, r.tempNum, r.heap)

/-- Unit `u` lies, in a quad returned for the query, in the list of an allyteam `t`,
`0 ≤ t < ActiveAllyTeams`, that is not allied with `searchAllyteam`. -/
def enemyEnumerated (qf : QuadField) (ActiveAllyTeams : Int) (Ally : Int → Int → Bool)
    (pos : float3) (searchRadius : ℚ) (searchAllyteam : Int) (u : UnitPtr) : Prop :=
  ∃ qi ∈ qf.GetQuads pos searchRadius, ∃ t : Int, 0 ≤ t ∧ t < ActiveAllyTeams
    ∧ Ally searchAllyteam t = false ∧ u ∈ (qf.GetQuad qi).teamUnits t

/-! ## Bit operations -/

/-- Modelled from the spec: `count_bits_set` of `System/bitops.h` is not among the sources (only
its test `Testbitops.cpp` is). For a 32-bit unsigned `x` it is "the number of bits of x that are
1": the sum of the 32 binary digits of `x`. -/
def count_bits_set (x : Nat) : Nat :=
  ((List.range 32).map (fun i => (x >>> i) % 2)).sum

/-- The first power of two `2 ^ k, 2 ^ (k + 1), ...` that is `≥ x`, among `fuel` candidates;
0 when there is none. -/
def firstPowerOfTwo : Nat → Nat → Nat → Nat
  | 0, _, _ => 0
  | fuel + 1, k, x => if x ≤ 2 ^ k then 2 ^ k else firstPowerOfTwo fuel (k + 1) x

/-- Modelled from the spec: `next_power_of_2` of `System/bitops.h` is not among the sources (only
its test `Testbitops.cpp` is). It is 0 for 0 and, for `1 ≤ x ≤ 2^31`, "the smallest power of two
that is >= x"; the powers of two of a 32-bit unsigned are `2^0, ..., 2^31`, and an `x` above
`2^31`, about which nothing is said, is given 0. -/
def next_power_of_2 (x : Nat) : Nat :=
  if x = 0 then 0 else firstPowerOfTwo 32 0 x

/-! ## Weapon target selection -/

/-- Length in the xz-plane, `float3::Length2D`. -/
def float3.Length2D (sqrtf : ℚ → ℚ) (a : float3) : ℚ := sqrtf a.SqLength2D

/-- Modelled from the spec: `DamageArray::operator[]`, the damage amount of one armor class
("per-armor-class damage amounts"). -/
def DamageArray.get (d : DamageArray) (armorType : Int) : ℚ := d.damages.getD armorType.toNat 0

/-- The fields of `CWeapon` (and of its `weaponDef`) read by `GenerateWeaponTargets`. -/
structure CWeapon where
  owner : UnitPtr
  range : ℚ
  heightMod : ℚ
  weaponPos : float3
  weaponNum : Int
  salvoSize : Int
  reloadTime : Int
  onlyTargetCategory : Nat
  badTargetCategory : Nat
  avoidTarget : Bool
  hasTargetWeight : Bool
  /-- Method `TargetWeight(unit)`. -/
  TargetWeight : UnitPtr → ℚ
  /-- Field `weaponDef->id`. -/
  weaponDefID : Int
  /-- Field `weaponDef->damages`. -/
  damages : DamageArray
  /-- Field `weaponDef->waterweapon`. -/
  waterweapon : Bool
  /-- Field `weaponDef->proximityPriority`. -/
  proximityPriority : ℚ

/-- The globals and collaborators `GenerateWeaponTargets` reads. The constants `LOS_*` and
`GAME_SPEED` are of headers that are not among the sources. -/
structure TargetEnv where
  sqrtf : ℚ → ℚ
  qf : QuadField
  /-- Value of `teamHandler->ActiveAllyTeams()`. -/
  ActiveAllyTeams : Int
  /-- Relation `teamHandler->Ally`. -/
  Ally : Int → Int → Bool
  LOS_INLOS : Nat
  LOS_INRADAR : Nat
  LOS_PREVLOS : Nat
  GAME_SPEED : Int
  /-- The scripting override `luaRules`, `none` when null: `AllowWeaponTarget(attackerID,
  targetID, weaponNum, weaponDefID, &targetPriority)` returns its decision and the priority it
  wrote, if it wrote one. -/
  luaRules : Option (Int → Int → Int → Int → Int × Option ℚ)
  /-- Field `readmap->initMinHeight`. -/
  initMinHeight : ℚ
  /-- Table `radarhandler->radarErrorSize`. -/
  radarErrorSize : Int → ℚ
  /-- Flag `modInfo.paralyzeOnMaxHealth`. -/
  paralyzeOnMaxHealth : Bool
  /-- The values returned by the successive calls of `gs->randFloat()`. -/
  randFloat : Nat → ℚ

/-- What `GenerateWeaponTargets` reads and writes: `gs->tempNum`, the units, the number of
`gs->randFloat()` calls made so far, and the multimap `targets` in ascending key order. -/
structure TargetState where
  tempNum : Int
  heap : UnitPtr → CUnit
  randCalls : Nat
  targets : List (ℚ × UnitPtr)

/-- Insertion `std::multimap::insert`: the pair goes behind the pairs whose key is not greater. -/
def multimapInsert : List (ℚ × UnitPtr) → ℚ × UnitPtr → List (ℚ × UnitPtr)
  | [], e => [e]
  | x :: xs, e => if x.1 ≤ e.1 then x :: multimapInsert xs e else e :: x :: xs

/-- Local `modRange` of `GenerateWeaponTargets` (line 691). -/
def targetModRange (weapon : CWeapon) (targPos : float3) : ℚ :=
  weapon.range + (weapon.weaponPos.y - targPos.y) * weapon.heightMod

/-- The priority of a target after the range and visibility factors (lines 694-716). -/
def targetPriorityVisible (env : TargetEnv) (weapon : CWeapon) (lastTargetUnit : Option UnitPtr)
    (attacker : CUnit) (secDamage : ℚ) (paralyzer : Bool) (targetUnit : UnitPtr) (u : CUnit)
    (targetLOSState : Nat) (targPos : float3) (targetPriority : ℚ) : ℚ :=
  let modRange := targetModRange weapon targPos
  let dist2D := (attacker.pos - targPos).Length2D env.sqrtf
  let rangeMul := dist2D * weapon.proximityPriority + modRange * 0.4 + 100
  let targetPriority := targetPriority * rangeMul
  if (targetLOSState &&& env.LOS_INLOS) ≠ 0 then
    let targetPriority := targetPriority * (secDamage + u.health)
    let targetPriority :=
      if some targetUnit = lastTargetUnit then
        targetPriority * (if weapon.avoidTarget then 10 else 0.4)
      else targetPriority
    let targetPriority :=
      if paralyzer = true
          ∧ u.paralyzeDamage > (if env.paralyzeOnMaxHealth then u.maxHealth else u.health) then
        targetPriority * 4
      else targetPriority
    if weapon.hasTargetWeight then targetPriority * weapon.TargetWeight targetUnit
    else targetPriority
  else
    targetPriority * (secDamage + 10000)

/-- The priority of a target that has been seen before (lines 719-726), from the priority
`targetPriority` reached so far and the value `rnd` drawn by `gs->randFloat()`. -/
def targetPrioritySeen (weapon : CWeapon) (u : CUnit) (targetPriority rnd : ℚ) : ℚ :=
  let damageMul := weapon.damages.get u.armorType * u.curArmorMultiple
  let targetPriority := targetPriority / (damageMul * u.power * (0.7 + rnd * 0.6))
  let targetPriority :=
    if (u.category &&& weapon.badTargetCategory) ≠ 0 then targetPriority * 100
    else targetPriority
  if u.crashing then targetPriority * 1000 else targetPriority

/-- The range test and the scoring of one target (lines 691-730), for the target position
`targPos` and the priority `targetPriority` reached so far. -/
def scoreTarget (env : TargetEnv) (weapon : CWeapon) (lastTargetUnit : Option UnitPtr)
    (attacker : CUnit) (secDamage : ℚ) (paralyzer : Bool) (targetUnit : UnitPtr) (u : CUnit)
    (targetLOSState : Nat) (targPos : float3) (targetPriority : ℚ) (st : TargetState) :
    TargetState :=
  if (attacker.pos - targPos).SqLength2D
      ≤ targetModRange weapon targPos * targetModRange weapon targPos then
    if (targetLOSState &&& env.LOS_PREVLOS) ≠ 0 then
      { st with randCalls := st.randCalls + 1
                targets := multimapInsert st.targets
                  (targetPrioritySeen weapon u
                    (targetPriorityVisible env weapon lastTargetUnit attacker secDamage paralyzer
                      targetUnit u targetLOSState targPos targetPriority)
                    (env.randFloat st.randCalls), targetUnit) }
    else
      { st with targets := multimapInsert st.targets
                  (targetPriorityVisible env weapon lastTargetUnit attacker secDamage paralyzer
                    targetUnit u targetLOSState targPos targetPriority, targetUnit) }
  else
    st

/-- The default filtering and scoring of one enumerated unit (lines 669-731), started with the
priority `targetPriority`. -/
def defaultTarget (env : TargetEnv) (weapon : CWeapon) (lastTargetUnit : Option UnitPtr)
    (attacker : CUnit) (secDamage : ℚ) (paralyzer : Bool) (tempNum : Int) (targetPriority : ℚ)
    (st : TargetState) (targetUnit : UnitPtr) : TargetState :=
  let u := st.heap targetUnit
  if u.tempNum ≠ tempNum ∧ (u.category &&& weapon.onlyTargetCategory) ≠ 0 then
    let st := { st with heap := Function.update st.heap targetUnit { u with tempNum := tempNum } }
    if u.isUnderWater && !weapon.waterweapon then
      st
    else if u.isDead then
      st
    else
      let targetLOSState := u.losStatus attacker.allyteam
      if (targetLOSState &&& env.LOS_INLOS) ≠ 0 then
        scoreTarget env weapon lastTargetUnit attacker secDamage paralyzer targetUnit u
          targetLOSState u.midPos targetPriority st
      else if (targetLOSState &&& env.LOS_INRADAR) ≠ 0 then
        scoreTarget env weapon lastTargetUnit attacker secDamage paralyzer targetUnit u
          targetLOSState (u.midPos + u.posErrorVector * env.radarErrorSize attacker.allyteam)
          (targetPriority * 10) st
      else
        st
  else
    st

/-- Body of the innermost loop of `GenerateWeaponTargets` (lines 653-731) for the unit
`targetUnit`: the scripting override first, the default filtering and scoring when it is absent
or declines to decide. -/
def considerTarget (env : TargetEnv) (weapon : CWeapon) (lastTargetUnit : Option UnitPtr)
    (attacker : CUnit) (secDamage : ℚ) (paralyzer : Bool) (tempNum : Int)
    (st : TargetState) (targetUnit : UnitPtr) : TargetState :=
  match env.luaRules with
  | some AllowWeaponTarget =>
    let r := AllowWeaponTarget attacker.id (st.heap targetUnit).id weapon.weaponNum
      weapon.weaponDefID
    let targetAllowed := r.1
    let targetPriority := r.2.getD 1
    if targetAllowed ≥ 0 then
      if targetAllowed > 0 then
        { st with targets := multimapInsert st.targets (targetPriority, targetUnit) }
      else
        st
    else
      defaultTarget env weapon lastTargetUnit attacker secDamage paralyzer tempNum targetPriority
        st targetUnit
  | none =>
    defaultTarget env weapon lastTargetUnit attacker secDamage paralyzer tempNum 1 st targetUnit

/-- Body of the loop over allyteams of `GenerateWeaponTargets` (lines 646-732). -/
def targetsInTeam (env : TargetEnv) (weapon : CWeapon) (lastTargetUnit : Option UnitPtr)
    (attacker : CUnit) (secDamage : ℚ) (paralyzer : Bool) (tempNum : Int) (qi : Int)
    (st : TargetState) (t : Int) : TargetState :=
  if env.Ally attacker.allyteam t then
    st
  else
    ((env.qf.GetQuad qi).teamUnits t).foldl
      (considerTarget env weapon lastTargetUnit attacker secDamage paralyzer tempNum) st

/-- Body of the loop over quads of `GenerateWeaponTargets` (lines 645-733). -/
def targetsInQuad (env : TargetEnv) (weapon : CWeapon) (lastTargetUnit : Option UnitPtr)
    (attacker : CUnit) (secDamage : ℚ) (paralyzer : Bool) (tempNum : Int)
    (st : TargetState) (qi : Int) : TargetState :=
  ((List.range env.ActiveAllyTeams.toNat).map Int.ofNat).foldl
    (targetsInTeam env weapon lastTargetUnit attacker secDamage paralyzer tempNum qi) st

/-- Local `secDamage` of `GenerateWeaponTargets` (line 634). -/
def weaponSecDamage (env : TargetEnv) (weapon : CWeapon) : ℚ :=
  weapon.damages.GetDefaultDamage * weapon.salvoSize / weapon.reloadTime * env.GAME_SPEED

/-- The search radius handed to `GetQuads` by `GenerateWeaponTargets` (line 637). -/
def weaponSearchRadius (env : TargetEnv) (weapon : CWeapon) : ℚ :=
  weapon.range + (weapon.weaponPos.y - max 0 env.initMinHeight) * weapon.heightMod

/-- Target generation `CGameHelper::GenerateWeaponTargets` (lines 623-746), without the
`TRACE_SYNC` output. -/
def GenerateWeaponTargets (env : TargetEnv) (weapon : CWeapon) (lastTargetUnit : Option UnitPtr)
    (st : TargetState) : TargetState :=
  let attacker := st.heap weapon.owner
  let pos := attacker.pos
  let secDamage := weaponSecDamage env weapon
  let paralyzer := decide (weapon.damages.paralyzeDamageTime ≠ 0)
  let quads := env.qf.GetQuads pos (weaponSearchRadius env weapon)
  let tempNum := st.tempNum
  let st := { st with tempNum := st.tempNum + 1 }
  quads.foldl
    (targetsInQuad env weapon lastTargetUnit attacker secDamage paralyzer tempNum) st

/-- The filter of the allyteam loop of `GenerateWeaponTargets`: allyteams not allied with the
attacker's. -/
def enemyTeams (env : TargetEnv) (attackerAllyteam : Int) : TFilter where
  Team := fun t => !env.Ally attackerAllyteam t
  Unit := fun _ => true

/-- The conditions a unit passes before the default scoring inserts it. -/
def passesDefaultFilter (env : TargetEnv) (weapon : CWeapon) (attacker : CUnit) (u : CUnit) :
    Prop :=
  (u.category &&& weapon.onlyTargetCategory) ≠ 0
  ∧ u.isDead = false
  ∧ (u.isUnderWater = true → weapon.waterweapon = true)
  ∧ ((u.losStatus attacker.allyteam &&& env.LOS_INLOS) ≠ 0
      ∨ (u.losStatus attacker.allyteam &&& env.LOS_INRADAR) ≠ 0)

/-- A unit with a spherical volume of radius 5 at height 50 above the origin. -/
def unitRadius5 : CUnit :=
  { unitAt 7 ⟨0, 50, 0⟩ with collisionVolume := ⟨⟨0, 0, 0⟩, 5⟩ }

/-- A square root that is exact at the square used in the radius-5 scenario. -/
def sqrtMid (q : ℚ) : ℚ := if q = 2500 then 50 else 0

/-- A target environment over the two quads, without scripting override: allyteams allied with
themselves only, LOS bits 1, 2, 4, thirty frames per second. -/
def plainTargetEnv : TargetEnv where
  sqrtf := sqrtAt
  qf := twoQuads
  ActiveAllyTeams := 2
  Ally := selfAllied
  LOS_INLOS := 1
  LOS_INRADAR := 2
  LOS_PREVLOS := 4
  GAME_SPEED := 30
  luaRules := none
  initMinHeight := 0
  radarErrorSize := fun _ => 0
  paralyzeOnMaxHealth := false
  randFloat := fun _ => 1 / 2

/-- A weapon of range 100 owned by unit 9 that targets category bit 1. -/
def plainWeapon : CWeapon where
  owner := 9
  range := 100
  heightMod := 0
  weaponPos := ⟨0, 0, 0⟩
  weaponNum := 0
  salvoSize := 1
  reloadTime := 30
  onlyTargetCategory := 1
  badTargetCategory := 0
  avoidTarget := false
  hasTargetWeight := false
  TargetWeight := fun _ => 1
  weaponDefID := 0
  damages := ⟨[10], 1, 0, 0, 0, 0⟩
  waterweapon := false
  proximityPriority := 1

/-- Units of allyteam 1 on the x-axis with category bit 1, in LOS; unit 9, the attacker, is of
allyteam 0. -/
def targetUnits (p : UnitPtr) : CUnit :=
  { unitAt p ⟨3 * p, 0, 0⟩ with
    losStatus := fun _ => 1, allyteam := if p = 9 then 0 else 1, category := 1, health := 100 }

/-! ## Describing the divisions and the impulse direction -/

/-- The divisor of the falloff expression of lines 151 and 152:
`expRad - (d * edgeEffectiveness)`. -/
def falloffDivisor (expRad edgeEffectiveness d : ℚ) : ℚ :=
  expRad - (d * edgeEffectiveness)

/-- Local `diffPos` after `diffPos /= expDist` (line 154), before the upward bias is added. -/
def unitScaledDiff (sqrtf : ℚ → ℚ) (frameNum : Int) (u : CUnit) (expPos : float3) : float3 :=
  unitDiffPos frameNum u expPos / unitExpDist sqrtf frameNum u expPos

/-- Local `modImpulseStrength` (lines 163-164). -/
def unitImpulseStrength (sqrtf : ℚ → ℚ) (MAX_EXPLOSION_IMPULSE : ℚ) (frameNum : Int) (u : CUnit)
    (expPos : float3) (expRad edgeEffectiveness : ℚ) (damages : DamageArray) : ℚ :=
  Clamp
    (rawImpulseStrength damages
      (falloffMod expRad edgeEffectiveness (unitExpDist1 sqrtf frameNum u expPos expRad)))
    (-MAX_EXPLOSION_IMPULSE) MAX_EXPLOSION_IMPULSE

/-- A unit with a spherical volume of radius 20 whose centre is 10 above the origin. -/
def unitRadius20 : CUnit :=
  { unitAt 7 ⟨0, 10, 0⟩ with collisionVolume := ⟨⟨0, 0, 0⟩, 20⟩ }

/-- A unit under water with a spherical volume of radius 2 whose centre is 5 below the origin. -/
def submergedUnit : CUnit :=
  { unitAt 7 ⟨0, -5, 0⟩ with collisionVolume := ⟨⟨0, 0, 0⟩, 2⟩, isUnderWater := true }

/-! ## Describing the map deformation -/

/-- Whether a logged call is the terrain deformation `mapDamage->Explosion`. -/
def Call.isMapDamage : Call → Bool
  | Call.mapDamageExplosion _ _ _ => true
  | _ => false

/-- The condition of lines 298-299 under which `Explosion` deforms the map (inside the branch
for explosions that are not `impactOnly`). -/
def deformsMap (env : ExplosionEnv) (p : ExplosionParams) : Prop :=
  explosionAltitude env p ≥ -1 ∧ p.damageGround = true ∧ env.mapDamageDisabled = false
    ∧ p.craterAOE > explosionAltitude env p ∧ p.damages.craterMult > 0

instance (env : ExplosionEnv) (p : ExplosionParams) : Decidable (deformsMap env p) := by
  unfold deformsMap
  infer_instance

/-- Local `craterStrength` of `Explosion` (lines 301-303). -/
def explosionCraterStrength (env : ExplosionEnv) (p : ExplosionParams) : ℚ :=
  (min (p.craterAOE * 10) (p.damages.GetDefaultDamage * (1 - (explosionAltitude env p / p.craterAOE)))
    + p.damages.craterBoost) * p.damages.craterMult

/-- Local `craterRadius` of `Explosion` (line 304). -/
def explosionCraterRadius (env : ExplosionEnv) (p : ExplosionParams) : ℚ :=
  p.craterAOE - explosionAltitude env p

/-- An explosion on the ground at the origin with crater radius 100 that damages the ground,
with default damage 50 and crater multiplier 1; no unit or feature was hit. -/
def craterBlast (impactOnly : Bool) : ExplosionParams where
  pos := ⟨0, 0, 0⟩
  dir := ⟨0, 1, 0⟩
  damages := ⟨[50], 1, 0, 1, 0, 0⟩
  weaponDef := none
  owner := none
  hitUnit := none
  hitFeature := none
  craterAreaOfEffect := 100
  damageAreaOfEffect := 100
  edgeEffectiveness := 0
  explosionSpeed := 1000
  gfxMod := 1
  impactOnly := impactOnly
  ignoreOwner := false
  damageGround := true

/-- An environment with no ground relief in which the range queries find nothing. -/
def emptyEnv : ExplosionEnv :=
  { flatEnv with GetUnitsExact := fun _ _ => [], GetFeaturesExact := fun _ _ => [] }

/-! ## Scenarios of target selection -/

/-- The attacker, unit 9 of allyteam 0, at the origin; every other unit is of allyteam 1, in LOS,
with category bit 1 and health 100, at horizontal distance 10 from the attacker and 300 above
it. -/
def highTargets (p : UnitPtr) : CUnit :=
  if p = 9 then { unitAt 9 origin with allyteam := 0 }
  else { unitAt p ⟨10, 300, 0⟩ with
         losStatus := fun _ => 1, allyteam := 1, category := 1, health := 100 }

/-- The weapon of range 100 of unit 9 with height modifier 1. -/
def steepWeapon : CWeapon := { plainWeapon with heightMod := 1 }

/-- The target environment over the two quads with a scripting override that allows every target
with priority 7. -/
def overrideEnv : TargetEnv :=
  { plainTargetEnv with luaRules := some (fun _ _ _ _ => (1, some 7)) }

/-- The units of allyteam 1 on the x-axis, in LOS, with no category bit set; unit 9, the
attacker, is of allyteam 0. -/
def maskedUnits (p : UnitPtr) : CUnit :=
  { targetUnits p with category := 0 }

/-! ## The closest enemy unit without LOS test -/

/-- Query object `Query::ClosestUnit_InLos` with the members of `Query::Base` (lines 477-484 and
546-573). -/
structure ClosestUnit_InLos where
  pos : float3
  radius : ℚ
  sqRadius : ℚ
  closeDist : ℚ
  closeUnit : Option UnitPtr
  canBeBlind : Bool

/-- Constructor `ClosestUnit_InLos(pos, searchRadius, canBeBlind)` (lines 554-556);
`maxUnitRadius` is `uh->maxUnitRadius`. -/
def ClosestUnit_InLos.new (maxUnitRadius : ℚ) (pos : float3) (searchRadius : ℚ)
    (canBeBlind : Bool) : ClosestUnit_InLos :=
  { pos := pos, radius := searchRadius + maxUnitRadius,
    sqRadius := (searchRadius + maxUnitRadius) * (searchRadius + maxUnitRadius),
    closeDist := searchRadius, closeUnit := none, canBeBlind := canBeBlind }

/-- Method `ClosestUnit_InLos::AddUnit` (lines 558-570); `losDiv` is `loshandler->losDiv`. -/
def ClosestUnit_InLos.AddUnit (sqrtf : ℚ → ℚ) (losDiv : ℚ) (q : ClosestUnit_InLos) (p : UnitPtr)
    (u : CUnit) : ClosestUnit_InLos :=
  let dist := (q.pos - u.midPos).Length sqrtf - u.radius
  if dist ≤ q.closeDist ∧ (q.canBeBlind = true ∨ u.losRadius * losDiv > dist) then
    { q with closeDist := dist, closeUnit := some p }
  else
    q

/-- The query interface of `Query::ClosestUnit_InLos`. -/
def ClosestUnit_InLos.ops (sqrtf : ℚ → ℚ) (losDiv : ℚ) : TQuery ClosestUnit_InLos where
  pos := fun q => q.pos
  radius := fun q => q.radius
  AddUnit := ClosestUnit_InLos.AddUnit sqrtf losDiv

/-- Query object `Query::ClosestUnit_InLos_Cylinder` (lines 581-597): a `ClosestUnit` with the
flag `canBeBlind`. -/
structure ClosestUnit_InLos_Cylinder extends ClosestUnit where
  canBeBlind : Bool

/-- Method `ClosestUnit_InLos_Cylinder::AddUnit` (lines 588-596). `Square` is a function of a
header that is not among the sources and is a parameter. -/
def ClosestUnit_InLos_Cylinder.AddUnit (Square : ℚ → ℚ) (losDiv : ℚ)
    (q : ClosestUnit_InLos_Cylinder) (p : UnitPtr) (u : CUnit) : ClosestUnit_InLos_Cylinder :=
  let sqDist := (q.pos - u.midPos).SqLength2D
  if sqDist ≤ q.closeSqDist ∧ (q.canBeBlind = true ∨ Square (u.losRadius * losDiv) > sqDist) then
    { q with closeSqDist := sqDist, closeUnit := some p }
  else
    q

/-- The query interface of `Query::ClosestUnit_InLos_Cylinder`. -/
def ClosestUnit_InLos_Cylinder.ops (Square : ℚ → ℚ) (losDiv : ℚ) :
    TQuery ClosestUnit_InLos_Cylinder where
  pos := fun q => q.pos
  radius := fun q => q.radius
  AddUnit := ClosestUnit_InLos_Cylinder.AddUnit Square losDiv

/-- Query `CGameHelper::GetClosestEnemyUnitNoLosTest` (lines 769-785): the returned unit together
with the new `gs->tempNum` and units. -/
def GetClosestEnemyUnitNoLosTest (sqrtf Square : ℚ → ℚ) (qf : QuadField) (ActiveAllyTeams : Int)
    (Ally : Int → Int → Bool) (maxUnitRadius losDiv : ℚ) (tempNum : Int) (heap : UnitPtr → CUnit)
    (pos : float3) (searchRadius : ℚ) (searchAllyteam : Int) (sphere canBeBlind : Bool) :
    Option UnitPtr × Int × (UnitPtr → CUnit) :=
  if sphere then
    let q := ClosestUnit_InLos.new maxUnitRadius pos searchRadius canBeBlind
    let r := QueryUnits qf ActiveAllyTeams (Enemy Ally searchAllyteam)
      (ClosestUnit_InLos.ops sqrtf losDiv) { tempNum := tempNum, heap := heap, query := q }
    (r.query.closeUnit, r.tempNum, r.heap)
  else
    let q : ClosestUnit_InLos_Cylinder :=
      { toClosestUnit := ClosestUnit.new pos searchRadius, canBeBlind := canBeBlind }
    let r := QueryUnits qf ActiveAllyTeams (Enemy Ally searchAllyteam)
      (ClosestUnit_InLos_Cylinder.ops Square losDiv)
      { tempNum := tempNum, heap := heap, query := q }
    (r.query.closeUnit, r.tempNum, r.heap)

/-- The distance `(pos - u->midPos).Length() - u->radius` from `pos` to the surface of the
sphere of unit `u`. -/
def surfaceDist (sqrtf : ℚ → ℚ) (pos : float3) (u : CUnit) : ℚ :=
  (pos - u.midPos).Length sqrtf - u.radius

/-- Unit `u` is an enumerated unit of an allyteam not allied with `searchAllyteam` (in a quad
returned for the radius `searchRadius + maxUnitRadius`), its surface distance from `pos` is at
most `searchRadius`, and `canBeBlind` holds or its LOS radius times `losDiv` exceeds that
distance. -/
def enemyInSight (sqrtf : ℚ → ℚ) (qf : QuadField) (ActiveAllyTeams : Int)
    (Ally : Int → Int → Bool) (maxUnitRadius losDiv : ℚ) (heap : UnitPtr → CUnit) (pos : float3)
    (searchRadius : ℚ) (searchAllyteam : Int) (canBeBlind : Bool) (u : UnitPtr) : Prop :=
  enemyEnumerated qf ActiveAllyTeams Ally pos (searchRadius + maxUnitRadius) searchAllyteam u
  ∧ surfaceDist sqrtf pos (heap u) ≤ searchRadius
  ∧ (canBeBlind = true ∨ (heap u).losRadius * losDiv > surfaceDist sqrtf pos (heap u))

/-- A square root that is exact at the squares of the distances of the units on the x-axis from
`(5, 0, 0)`. -/
def sqrtAxis (q : ℚ) : ℚ :=
  if q = 25 then 5 else if q = 4 then 2 else if q = 1 then 1 else 0

/-! ## Build positions -/

/-- The fields of `UnitDef` read by `Pos2BuildPos`. -/
structure UnitDef where
  floatOnWater : Bool
  waterline : ℚ
deriving DecidableEq

/-- Build order `BuildInfo`: the unit definition, the position and the facing. -/
structure BuildInfo where
  /-- Field `def`. -/
  unitDef : UnitDef
  pos : float3
  buildFacing : Int
deriving DecidableEq

/-- The globals and collaborators that `Pos2BuildPos` and `ClosestBuildSite` read. `SQUARE_SIZE`
is a constant of a header that is not among the sources; `GetXSize` and `GetZSize` are the
methods of `BuildInfo`, whose header is not among the sources: the footprint of the unit
definition for the facing. -/
structure BuildEnv where
  SQUARE_SIZE : Int
  GetXSize : UnitDef → Int → Int
  GetZSize : UnitDef → Int → Int
  /-- Method `uh->GetBuildHeight(pos, unitdef, synced)`. -/
  GetBuildHeight : float3 → UnitDef → Bool → ℚ
  /-- Method `teamHandler->AllyTeam(team)`. -/
  AllyTeam : Int → Int
  /-- Method `uh->TestUnitBuildSquare(buildInfo, feature, allyteam, synced)`: the result and the
  value it leaves in `feature`. -/
  TestUnitBuildSquare : BuildInfo → Option FeaturePtr → Int → Bool → Bool × Option FeaturePtr
  /-- Field `feature->allyteam`. -/
  featureAllyteam : FeaturePtr → Int
  /-- Global `gs->mapx`. -/
  mapx : Int
  /-- Global `gs->mapy`. -/
  mapy : Int
  /-- Method `groundBlockingObjectMap->GroundBlockedUnsafe(mapSquare)`, `none` for `NULL`: whether
  the object is immobile, is a feature, and is a factory that is opening. -/
  GroundBlockedUnsafe : Int → Option (Bool × Bool × Bool)

/-- Conversion of an `int` operand to `float`. -/
def intToFloat (n : Int) : ℚ := toFloat (n : ℚ)

/-- One coordinate of `Pos2BuildPos` (lines 859-862 for `x`, 864-867 for `z`): `v` snapped for a
footprint of `size` squares, in single precision: the sum, the quotient, the two products and
the final sum are each rounded, `floor` is exact. When the products and the final sum are
exact, as they are for `SQUARE_SIZE ≤ 2²⁰` and `|v| ≤ 2²³`, the value is the same if `floor`
and what follows it are evaluated in double precision and rounded on the assignment. -/
def snapBuildCoord (SQUARE_SIZE : Int) (size : Int) (v : ℚ) : ℚ :=
  if Int.land size 2 ≠ 0 then
    toFloat
      (toFloat (toFloat ((⌊toFloat (v / intToFloat (SQUARE_SIZE * 2))⌋ : ℚ)
        * intToFloat SQUARE_SIZE) * 2) + intToFloat SQUARE_SIZE)
  else
    toFloat (toFloat ((⌊toFloat (toFloat (v + intToFloat SQUARE_SIZE)
      / intToFloat (SQUARE_SIZE * 2))⌋ : ℚ) * intToFloat SQUARE_SIZE) * 2)

/-- Snapping `CGameHelper::Pos2BuildPos` (lines 855-878). -/
def Pos2BuildPos (env : BuildEnv) (buildInfo : BuildInfo) (synced : Bool) : float3 :=
  let pos : float3 :=
    ⟨snapBuildCoord env.SQUARE_SIZE (env.GetXSize buildInfo.unitDef buildInfo.buildFacing)
        buildInfo.pos.x,
     0,
     snapBuildCoord env.SQUARE_SIZE (env.GetZSize buildInfo.unitDef buildInfo.buildFacing)
        buildInfo.pos.z⟩
  let ud := buildInfo.unitDef
  let bh := env.GetBuildHeight pos ud synced
  let pos := { pos with y := bh }
  if ud.floatOnWater && decide (bh < 0) then
    { pos with y := -ud.waterline }
  else
    pos

/-! ## The search offset table -/

/-- Entry `SearchOffset` of the table (lines 881-884). -/
structure SearchOffset where
  dx : Int
  dy : Int
  qdist : Int
deriving DecidableEq

/-- Comparator `SearchOffsetComparator` (lines 885-888). -/
def SearchOffsetComparator (a b : SearchOffset) : Bool := a.qdist < b.qdist

/-- Statement `searchOffsets.resize(size)` for a `size` above the current one: new entries are
value-initialised. -/
def resizeOffsets (searchOffsets : List SearchOffset) (size : Nat) : List SearchOffset :=
  searchOffsets ++ List.replicate (size - searchOffsets.length) ⟨0, 0, 0⟩

/-- Body of the inner loop of `GetSearchOffsetTable` (lines 898-904) for the column `x` of the
row `y`. -/
def fillOffset (radius : Int) (y : Nat) (t : List SearchOffset) (x : Nat) : List SearchOffset :=
  let dx : Int := x - radius
  let dy : Int := y - radius
  t.set ((y : Int) * radius * 2 + x).toNat ⟨dx, dy, dx * dx + dy * dy⟩

/-- Body of the outer loop of `GetSearchOffsetTable` (lines 896-904) for the row `y`. -/
def fillRow (radius : Int) (t : List SearchOffset) (y : Nat) : List SearchOffset :=
  (List.range (radius * 2).toNat).foldl (fillOffset radius y) t

/-- Table `GetSearchOffsetTable(radius)` (lines 889-910): the new value of the static vector
`searchOffsets`, which is also the table returned. `sort` is `std::sort` on the whole vector
with the given comparator. -/
def GetSearchOffsetTable
    (sort : (SearchOffset → SearchOffset → Bool) → List SearchOffset → List SearchOffset)
    (radius : Int) (searchOffsets : List SearchOffset) : List SearchOffset :=
  let size := (radius * radius * 4).toNat
  if size > searchOffsets.length then
    let searchOffsets := resizeOffsets searchOffsets size
    let searchOffsets := (List.range (radius * 2).toNat).foldl (fillRow radius) searchOffsets
    sort SearchOffsetComparator searchOffsets
  else
    searchOffsets

/-! ## The closest build site -/

/-- The inner loop over `x2` of the two scans of `ClosestBuildSite` (lines 947-954 and 965-972):
`good` becomes false at the first square whose object satisfies `bad`, and the loop is left. -/
def scanSquares (env : BuildEnv) (bad : Bool × Bool × Bool → Bool) (z2 : Int) :
    List Int → Bool → Bool
  | [], good => good
  | x2 :: rest, good =>
    match env.GroundBlockedUnsafe (z2 * env.mapx + x2) with
    | some solObj => if bad solObj then false else scanSquares env bad z2 rest good
    | none => scanSquares env bad z2 rest good

/-- The half-open range of integers `lo, ..., hi - 1` of a loop `for (i = lo; i < hi; ++i)`. -/
def intRange (lo hi : Int) : List Int :=
  (List.range (hi - lo).toNat).map (fun i => lo + (i : Int))

/-- One of the two scans of `ClosestBuildSite` (lines 946-955 and 964-973) over the squares
`z2Min ≤ z2 < z2Max`, `x2Min ≤ x2 < x2Max`. -/
def scanArea (env : BuildEnv) (bad : Bool × Bool × Bool → Bool) (z2Min z2Max x2Min x2Max : Int)
    (good : Bool) : Bool :=
  (intRange z2Min z2Max).foldl
    (fun good z2 => scanSquares env bad z2 (intRange x2Min x2Max) good) good

/-- The test of one candidate of `ClosestBuildSite` after `TestUnitBuildSquare` has accepted it
(lines 933-976): no immobile object that is not a feature within `minDist` squares of the
footprint, and no opening factory within `minDist + 2`. -/
def siteIsGood (env : BuildEnv) (bi : BuildInfo) (x z : ℚ) (minDist : Int) : Bool :=
  let xs := truncToInt (x / env.SQUARE_SIZE)
  let zs := truncToInt (z / env.SQUARE_SIZE)
  let xsize := env.GetXSize bi.unitDef bi.buildFacing
  let zsize := env.GetZSize bi.unitDef bi.buildFacing
  let good := true
  let z2Min := max 0 (zs - Int.tdiv zsize 2 - minDist)
  let z2Max := min env.mapy (zs + Int.tdiv (zsize + 1) 2 + minDist)
  let x2Min := max 0 (xs - Int.tdiv xsize 2 - minDist)
  let x2Max := min env.mapx (xs + Int.tdiv (xsize + 1) 2 + minDist)
  let good :=
    scanArea env (fun solObj => solObj.1 && !solObj.2.1) z2Min z2Max x2Min x2Max good
  if good then
    let z2Min := max 0 (zs - Int.tdiv zsize 2 - minDist - 2)
    let z2Max := min env.mapy (zs + Int.tdiv (zsize + 1) 2 + minDist + 2)
    let x2Min := max 0 (xs - Int.tdiv xsize 2 - minDist - 2)
    let x2Max := min env.mapx (xs + Int.tdiv (xsize + 1) 2 + minDist + 2)
    scanArea env (fun solObj => solObj.1 && solObj.2.2) z2Min z2Max x2Min x2Max good
  else
    good

/-- The loop over the table of `ClosestBuildSite` (lines 925-980) for the indices `so` of the
list: the position returned by the loop, `none` when it runs to its end. -/
def siteLoop (env : BuildEnv) (ofs : List SearchOffset) (allyTeam : Int) (unitDef : UnitDef)
    (pos : float3) (minDist facing : Int) : List Nat → Option FeaturePtr → Option float3
  | [], _ => none
  | so :: rest, feature =>
    let o := ofs.getD so ⟨0, 0, 0⟩
    let x := pos.x + ((o.dx * env.SQUARE_SIZE * 2 : Int) : ℚ)
    let z := pos.z + ((o.dy * env.SQUARE_SIZE * 2 : Int) : ℚ)
    let bi : BuildInfo := ⟨unitDef, ⟨x, 0, z⟩, facing⟩
    let bi := { bi with pos := Pos2BuildPos env bi false }
    let r := env.TestUnitBuildSquare bi feature allyTeam false
    let feature := r.2
    let free :=
      match feature with
      | none => true
      | some f => env.featureAllyteam f != allyTeam
    if r.1 && free then
      if siteIsGood env bi x z minDist then
        some bi.pos
      else
        siteLoop env ofs allyTeam unitDef pos minDist facing rest feature
    else
      siteLoop env ofs allyTeam unitDef pos minDist facing rest feature

/-- Search `CGameHelper::ClosestBuildSite` (lines 913-983): the position returned, together with
the new value of the static table of `GetSearchOffsetTable`. -/
def ClosestBuildSite
    (sort : (SearchOffset → SearchOffset → Bool) → List SearchOffset → List SearchOffset)
    (env : BuildEnv) (searchOffsets : List SearchOffset) (team : Int) (unitDef : Option UnitDef)
    (pos : float3) (searchRadius : ℚ) (minDist facing : Int) : float3 × List SearchOffset :=
  match unitDef with
  | none => (⟨-1, 0, 0⟩, searchOffsets)
  | some ud =>
    let allyTeam := env.AllyTeam team
    let endr := truncToInt (searchRadius / ((env.SQUARE_SIZE * 2 : Int) : ℚ))
    let ofs := GetSearchOffsetTable sort endr searchOffsets
    match siteLoop env ofs allyTeam ud pos minDist facing
        (List.range (endr * endr * 4).toNat) none with
    | some p => (p, ofs)
    | none => (⟨-1, 0, 0⟩, ofs)

/-! ## Describing the search offset table -/

/-- The offset of the square of radius `radius` that the fill loops write at index `i`. -/
def offsetAt (radius : Int) (i : Nat) : SearchOffset :=
  let dx : Int := ((i % (radius * 2).toNat : Nat) : Int) - radius
  let dy : Int := ((i / (radius * 2).toNat : Nat) : Int) - radius
  ⟨dx, dy, dx * dx + dy * dy⟩

/-- The offsets `(dx, dy)`, `-radius ≤ dx, dy < radius`, each with `qdist = dx² + dy²`, row by
row. -/
def squareOffsets (radius : Int) : List SearchOffset :=
  (List.range (radius * radius * 4).toNat).map (offsetAt radius)

/-- A sort that meets the contract of `std::sort` and keeps equal entries in their order:
insertion sort. -/
def stableSort (cmp : SearchOffset → SearchOffset → Bool) (l : List SearchOffset) :
    List SearchOffset :=
  List.insertionSort (fun a b => cmp b a = false) l

/-- A build environment on an empty 100 x 100 map with squares of size 8, where the footprint is
2 x 2 and `TestUnitBuildSquare` accepts only the site at `(392, 392)`. -/
def oneSiteEnv : BuildEnv where
  SQUARE_SIZE := 8
  GetXSize := fun _ _ => 2
  GetZSize := fun _ _ => 2
  GetBuildHeight := fun _ _ _ => 0
  AllyTeam := fun t => t
  TestUnitBuildSquare := fun bi f _ _ => (decide (bi.pos.x = 392 ∧ bi.pos.z = 392), f)
  featureAllyteam := fun _ => 0
  mapx := 100
  mapy := 100
  GroundBlockedUnsafe := fun _ => none

/-- The entry that the fill loops write for the column `x` of the row `y`. -/
def offsetEntry (radius : Int) (x y : Nat) : SearchOffset :=
  ⟨(x : Int) - radius, (y : Int) - radius,
   ((x : Int) - radius) * ((x : Int) - radius) + ((y : Int) - radius) * ((y : Int) - radius)⟩

/-- The contract of `std::sort` with `SearchOffsetComparator`: the result is a rearrangement of
the input in which no entry has a smaller `qdist` than an entry before it. -/
def sortsByQdist
    (sort : (SearchOffset → SearchOffset → Bool) → List SearchOffset → List SearchOffset) :
    Prop :=
  ∀ l, (sort SearchOffsetComparator l).Perm l
    ∧ (sort SearchOffsetComparator l).Pairwise (fun a b => a.qdist ≤ b.qdist)

/-- The build environment `oneSiteEnv` with a footprint of 4 x 4 squares. -/
def fourSquareEnv : BuildEnv :=
  { oneSiteEnv with GetXSize := fun _ _ => 4, GetZSize := fun _ _ => 4 }

/-! ## The per-unit explosion damage in single precision -/

/-- The operations of `float3.h` and `DamageArray.h` that the per-unit `DoExplosionDamage`
uses. The two headers are not among the sources, so the operations are parameters of the
single-precision model. -/
structure VecOps where
  /-- Operator `float3::operator+`. -/
  add : float3 → float3 → float3
  /-- Operator `float3::operator-`. -/
  sub : float3 → float3 → float3
  /-- Operator `float3::operator*` with a `float`. -/
  mul : float3 → ℚ → float3
  /-- Operator `float3::operator/=` with a `float`. -/
  div : float3 → ℚ → float3
  /-- Method `float3::Length`. -/
  Length : float3 → ℚ
  /-- Operator `DamageArray::operator*` with a `float`. -/
  scale : DamageArray → ℚ → DamageArray

namespace Single

/-- The collision volume and the base position `basePos` chosen for a unit (lines 93-110), the
vector operations being those of `ops`. -/
def unitVolumeAndBase (ops : VecOps) (frameNum : Int) (u : CUnit) : CollisionVolume × float3 :=
  match u.lastAttackedPiece with
  | some piece =>
    if u.usePieceCollisionVolumes && (u.lastAttackedPieceFrame == frameNum) then
      let volume := piece.colvol
      let basePos := ops.add piece.absolutePos volume.offsets
      (volume,
        ops.add (ops.add (ops.add u.pos (ops.mul u.rightdir basePos.x))
          (ops.mul u.updir basePos.y)) (ops.mul u.frontdir basePos.z))
    else
      (u.collisionVolume, ops.add u.midPos u.collisionVolume.offsets)
  | none => (u.collisionVolume, ops.add u.midPos u.collisionVolume.offsets)

/-- Local `diffPos = basePos - expPos` (line 112). -/
def unitDiffPos (ops : VecOps) (frameNum : Int) (u : CUnit) (expPos : float3) : float3 :=
  ops.sub (unitVolumeAndBase ops frameNum u).2 expPos

/-- Local `volRad = volume->GetBoundingRadius()` (line 114). -/
def unitVolRad (ops : VecOps) (frameNum : Int) (u : CUnit) : ℚ :=
  (unitVolumeAndBase ops frameNum u).1.boundingRadius

/-- Local `expDist = std::max(diffPos.Length(), volRad + 0.1f)` (line 115): the constant is the
single-precision value of `0.1` and the sum is rounded. -/
def unitExpDist (ops : VecOps) (frameNum : Int) (u : CUnit) (expPos : float3) : ℚ :=
  max (ops.Length (unitDiffPos ops frameNum u expPos))
    (toFloat (unitVolRad ops frameNum u + toFloat 0.1))

/-- Local `expDist1 = std::min(expDist, expRad)` (line 139). -/
def unitExpDist1 (ops : VecOps) (frameNum : Int) (u : CUnit) (expPos : float3) (expRad : ℚ) :
    ℚ :=
  min (unitExpDist ops frameNum u expPos) expRad

/-- Local `expDist2 = expDist - volRad` (line 138), the value that the range test of line 141
reads. -/
def unitEdgeDist (ops : VecOps) (frameNum : Int) (u : CUnit) (expPos : float3) : ℚ :=
  toFloat (unitExpDist ops frameNum u expPos - unitVolRad ops frameNum u)

/-- Local `expDist2` after the under-water adjustment (lines 145-149). -/
def unitExpDist2 (ops : VecOps) (frameNum : Int) (u : CUnit) (expPos : float3) (expRad : ℚ) :
    ℚ :=
  if u.isUnderWater && decide (expPos.y > -1) then
    min (toFloat (unitEdgeDist ops frameNum u expPos + unitVolRad ops frameNum u)) expRad
  else
    unitEdgeDist ops frameNum u expPos

/-- The falloff expression of lines 151 and 152,
`std::max(0.01f, (expRad - d) / (expRad - (d * edgeEffectiveness)))`, in single precision: the
two differences, the product and the quotient are each rounded. A quotient `0 / 0`, for which
the code gets a NaN and `std::max` returns its first argument, has the value 0 here, with the
same result `0.01f`. -/
def falloffMod (expRad edgeEffectiveness d : ℚ) : ℚ :=
  max (toFloat 0.01)
    (toFloat (toFloat (expRad - d) / toFloat (expRad - toFloat (d * edgeEffectiveness))))

/-- Local `diffPos` after `diffPos /= expDist; diffPos.y += 0.12f` (lines 154-155). -/
def unitImpulseDir (ops : VecOps) (frameNum : Int) (u : CUnit) (expPos : float3) : float3 :=
  let diffPos := ops.div (unitDiffPos ops frameNum u expPos) (unitExpDist ops frameNum u expPos)
  { diffPos with y := toFloat (diffPos.y + toFloat 0.12) }

/-- Local `rawImpulseStrength` (line 163), the products and the sum rounded one by one. -/
def rawImpulseStrength (damages : DamageArray) (mod1 : ℚ) : ℚ :=
  toFloat (toFloat (toFloat (damages.impulseFactor * mod1)
    * toFloat (damages.GetDefaultDamage + damages.impulseBoost)) * toFloat 3.2)

/-- Local `modImpulseStrength` (lines 163-164). -/
def unitImpulseStrength (ops : VecOps) (MAX_EXPLOSION_IMPULSE : ℚ) (frameNum : Int) (u : CUnit)
    (expPos : float3) (expRad edgeEffectiveness : ℚ) (damages : DamageArray) : ℚ :=
  Clamp
    (rawImpulseStrength damages
      (falloffMod expRad edgeEffectiveness (unitExpDist1 ops frameNum u expPos expRad)))
    (-MAX_EXPLOSION_IMPULSE) MAX_EXPLOSION_IMPULSE

/-- Local `addedImpulse = diffPos * modImpulseStrength` (line 165). -/
def unitAddedImpulse (ops : VecOps) (MAX_EXPLOSION_IMPULSE : ℚ) (frameNum : Int) (u : CUnit)
    (expPos : float3) (expRad edgeEffectiveness : ℚ) (damages : DamageArray) : float3 :=
  ops.mul (unitImpulseDir ops frameNum u expPos)
    (unitImpulseStrength ops MAX_EXPLOSION_IMPULSE frameNum u expPos expRad edgeEffectiveness
      damages)

/-- Local `damageDone = damages * mod2` (line 162). -/
def unitDamageDone (ops : VecOps) (frameNum : Int) (u : CUnit) (expPos : float3)
    (expRad edgeEffectiveness : ℚ) (damages : DamageArray) : DamageArray :=
  ops.scale damages
    (falloffMod expRad edgeEffectiveness (unitExpDist2 ops frameNum u expPos expRad))

/-- The record built on line 170:
`new WaitingDamage((owner? owner->id: -1), unit->id, damageDone, addedImpulse, weaponDefID)`. -/
def unitWaitingDamage (ops : VecOps) (MAX_EXPLOSION_IMPULSE : ℚ) (frameNum : Int)
    (heap : UnitPtr → CUnit) (unit : UnitPtr) (owner : Option UnitPtr) (expPos : float3)
    (expRad edgeEffectiveness : ℚ) (damages : DamageArray) (weaponDefID : Int) : WaitingDamage :=
  { attacker := owner.elim (-1) (fun o => (heap o).id)
    target := (heap unit).id
    damage := unitDamageDone ops frameNum (heap unit) expPos expRad edgeEffectiveness damages
    impulse :=
      unitAddedImpulse ops MAX_EXPLOSION_IMPULSE frameNum (heap unit) expPos expRad
        edgeEffectiveness damages
    weaponId := weaponDefID }

/-- The frame offset `int(expDist2 / expSpeed) - 3` of line 171: the quotient is rounded to
single precision and converted to `int`. -/
def unitDelay (ops : VecOps) (frameNum : Int) (u : CUnit) (expPos : float3)
    (expRad expSpeed : ℚ) : Int :=
  truncToInt (toFloat (unitExpDist2 ops frameNum u expPos expRad / expSpeed)) - 3

/-- Per-unit `CGameHelper::DoExplosionDamage(CUnit*, ...)` (lines 72-173) in single precision:
every operation on `float` values is rounded by `toFloat`, the operations on vectors and damage
arrays are those of `ops`. `MAX_EXPLOSION_IMPULSE` is a constant of a header that is not among
the sources and is a parameter; `frameNum` is `gs->frameNum`. -/
def DoExplosionDamage (ops : VecOps) (MAX_EXPLOSION_IMPULSE : ℚ) (frameNum : Int)
    (heap : UnitPtr → CUnit) (unit : UnitPtr) (owner : Option UnitPtr) (expPos : float3)
    (expRad expSpeed edgeEffectiveness : ℚ) (ignoreOwner : Bool) (damages : DamageArray)
    (weaponDefID : Int) (s : HelperState) : HelperState :=
  if ignoreOwner && (owner == some unit) then
    s
  else
    let u := heap unit
    if unitEdgeDist ops frameNum u expPos > expRad then
      s
    else
      let expDist2 := unitExpDist2 ops frameNum u expPos expRad
      let damageDone := unitDamageDone ops frameNum u expPos expRad edgeEffectiveness damages
      let addedImpulse :=
        unitAddedImpulse ops MAX_EXPLOSION_IMPULSE frameNum u expPos expRad edgeEffectiveness
          damages
      if expDist2 < toFloat (expSpeed * 4) then
        s.call (Call.unitDoDamage unit damageDone addedImpulse owner weaponDefID)
      else
        s.pushFront (ringSlot (frameNum + unitDelay ops frameNum u expPos expRad expSpeed))
          (unitWaitingDamage ops MAX_EXPLOSION_IMPULSE frameNum heap unit owner expPos expRad
            edgeEffectiveness damages weaponDefID)

end Single

/-- The operations of `float3.h` and `DamageArray.h` taken component by component, each
component rounded to single precision; the length is the square root, a parameter, of the
rounded sum of the rounded squares. -/
def roundedOps (sqrtf : ℚ → ℚ) : VecOps where
  add a b := ⟨toFloat (a.x + b.x), toFloat (a.y + b.y), toFloat (a.z + b.z)⟩
  sub a b := ⟨toFloat (a.x - b.x), toFloat (a.y - b.y), toFloat (a.z - b.z)⟩
  mul a f := ⟨toFloat (a.x * f), toFloat (a.y * f), toFloat (a.z * f)⟩
  div a f := ⟨toFloat (a.x / f), toFloat (a.y / f), toFloat (a.z / f)⟩
  Length a :=
    sqrtf (toFloat (toFloat (toFloat (a.x * a.x) + toFloat (a.y * a.y)) + toFloat (a.z * a.z)))
  scale d m := { d with damages := d.damages.map (fun a => toFloat (a * m)) }

/-! ## Tolerances of the vector operations -/

/-- Says that `a` differs from `b` by at most `(|b| + 1) * 2⁻²⁰`, a relative error of `2⁻²⁰`
plus an absolute error of `2⁻²⁰`. A single-precision rounding of `b` is such a value: its
relative error is at most `2⁻²⁴`, or its absolute error at most `2⁻¹⁵⁰`. -/
def withinTolerance (a b : ℚ) : Prop := |a - b| ≤ (|b| + 1) / 1048576

instance (a b : ℚ) : Decidable (withinTolerance a b) := by
  unfold withinTolerance
  infer_instance

/-- Says that every component of `a` is within the tolerance of that of `b`. -/
def float3.withinTolerance (a b : float3) : Prop :=
  Spring.withinTolerance a.x b.x ∧ Spring.withinTolerance a.y b.y
    ∧ Spring.withinTolerance a.z b.z

instance (a b : float3) : Decidable (float3.withinTolerance a b) := by
  unfold float3.withinTolerance
  infer_instance

/-- Says that `L` is not negative and not below the Euclidean length of `a` by more than the
tolerance: `|a| ≤ L + (L + 1) * 2⁻²⁰`, stated on the squares. -/
def float3.lengthAtMost (a : float3) (L : ℚ) : Prop :=
  0 ≤ L ∧ a.SqLength ≤ (L + (L + 1) / 1048576) ^ 2

instance (a : float3) (L : ℚ) : Decidable (float3.lengthAtMost a L) := by
  unfold float3.lengthAtMost
  infer_instance

/-! ## Scenarios in single precision -/

/-- A square root that returns the single-precision roots of the squares used in the
single-precision scenarios; `11863283 / 8388608 = 1.41421354` is the single-precision value
nearest to the square root of 2. -/
def sqrtScene (q : ℚ) : ℚ :=
  if q = 81 then 9 else if q = 1 then 1
  else if q = 4194369 / 4194304 then 8388673 / 8388608
  else if q = 2 then 11863283 / 8388608 else 0

/-- A unit under water with a bounding radius of `1e-6f` whose centre is
`1.00000775 = 8388673 / 8388608` below the origin. -/
def tinySub : CUnit :=
  { unitAt 7 ⟨0, -(8388673 / 8388608), 0⟩ with
    collisionVolume := ⟨⟨0, 0, 0⟩, 8796093 / 8796093022208⟩, isUnderWater := true }

/-- A unit with a bounding radius of `1/2` whose centre is at `(2⁻¹³, 1, 0)`. -/
def unitNearAxis : CUnit :=
  { unitAt 7 ⟨1 / 8192, 1, 0⟩ with collisionVolume := ⟨⟨0, 0, 0⟩, 1 / 2⟩ }

/-! ## Basic facts -/

@[simp] theorem float3.sub_x (a b : float3) : (a - b).x = a.x - b.x := rfl
@[simp] theorem float3.sub_y (a b : float3) : (a - b).y = a.y - b.y := rfl
@[simp] theorem float3.sub_z (a b : float3) : (a - b).z = a.z - b.z := rfl
@[simp] theorem float3.add_x (a b : float3) : (a + b).x = a.x + b.x := rfl
@[simp] theorem float3.add_y (a b : float3) : (a + b).y = a.y + b.y := rfl
@[simp] theorem float3.add_z (a b : float3) : (a + b).z = a.z + b.z := rfl
@[simp] theorem float3.mul_x (a : float3) (f : ℚ) : (a * f).x = a.x * f := rfl
@[simp] theorem float3.mul_y (a : float3) (f : ℚ) : (a * f).y = a.y * f := rfl
@[simp] theorem float3.mul_z (a : float3) (f : ℚ) : (a * f).z = a.z * f := rfl
@[simp] theorem float3.div_x (a : float3) (f : ℚ) : (a / f).x = a.x / f := rfl
@[simp] theorem float3.div_y (a : float3) (f : ℚ) : (a / f).y = a.y / f := rfl
@[simp] theorem float3.div_z (a : float3) (f : ℚ) : (a / f).z = a.z / f := rfl
@[simp] theorem float3.mk_mul (x y z f : ℚ) :
    (⟨x, y, z⟩ : float3) * f = ⟨x * f, y * f, z * f⟩ := rfl
@[simp] theorem float3.mk_div (x y z f : ℚ) :
    (⟨x, y, z⟩ : float3) / f = ⟨x / f, y / f, z / f⟩ := rfl

/-! ## Rounding to single precision -/

theorem roundNearestEven_intCast (n : ℤ) : roundNearestEven (n : ℚ) = n := by
  unfold roundNearestEven
  simp

theorem floor_le_roundNearestEven (t : ℚ) : ⌊t⌋ ≤ roundNearestEven t := by
  unfold roundNearestEven
  split_ifs <;> omega

theorem roundNearestEven_le_floor_add_one (t : ℚ) : roundNearestEven t ≤ ⌊t⌋ + 1 := by
  unfold roundNearestEven
  split_ifs <;> omega

theorem roundNearestEven_mono (t1 t2 : ℚ) (h : t1 ≤ t2) :
    roundNearestEven t1 ≤ roundNearestEven t2 := by
  have hf : ⌊t1⌋ ≤ ⌊t2⌋ := Int.floor_mono h
  rcases lt_or_eq_of_le hf with hlt | heq
  · calc roundNearestEven t1 ≤ ⌊t1⌋ + 1 := roundNearestEven_le_floor_add_one t1
      _ ≤ ⌊t2⌋ := hlt
      _ ≤ roundNearestEven t2 := floor_le_roundNearestEven t2
  · have hr : t1 - ⌊t1⌋ ≤ t2 - ⌊t2⌋ := by
      rw [heq]
      linarith
    unfold roundNearestEven
    rw [heq] at hr ⊢
    split_ifs <;> first | omega | linarith

theorem abs_roundNearestEven_sub_le (t : ℚ) : |(roundNearestEven t : ℚ) - t| ≤ 1 / 2 := by
  have h1 := Int.floor_le t
  have h2 := Int.lt_floor_add_one t
  unfold roundNearestEven
  rw [abs_le]
  split_ifs <;> push_cast <;> constructor <;> linarith

theorem roundNearestEven_eq_of_abs_sub_lt (t : ℚ) (n : ℤ) (h : |t - n| < 1 / 2) :
    roundNearestEven t = n := by
  rw [abs_lt] at h
  have hfl : ⌊t⌋ = n ∨ ⌊t⌋ = n - 1 := by
    have h1 : n - 1 ≤ ⌊t⌋ := by
      rw [Int.le_floor]
      push_cast
      linarith
    have h2 : ⌊t⌋ < n + 1 := by
      rw [Int.floor_lt]
      push_cast
      linarith
    omega
  have h1 := Int.floor_le t
  have h2 := Int.lt_floor_add_one t
  unfold roundNearestEven
  rcases hfl with hfl | hfl
  · rw [hfl]
    rw [if_pos (by linarith)]
  · rw [hfl]
    have : ¬ (t - ((n - 1 : ℤ) : ℚ) < 1 / 2) := by
      push_cast
      linarith
    rw [if_neg this, if_pos (by push_cast; linarith)]
    ring

theorem floatExponent_ge (x : ℚ) : -126 ≤ floatExponent x := le_max_right _ _

theorem ulp_pos (x : ℚ) : 0 < ulp x := by
  unfold ulp
  positivity

theorem abs_lt_zpow_floatExponent (x : ℚ) : |x| < (2 : ℚ) ^ (floatExponent x + 1) := by
  have h := Int.lt_zpow_succ_log_self (R := ℚ) (b := 2) (by norm_num) |x|
  refine lt_of_lt_of_le h ?_
  have : Int.log 2 |x| + 1 ≤ floatExponent x + 1 := by
    have := le_max_left (Int.log 2 |x|) (-126)
    unfold floatExponent
    omega
  exact_mod_cast zpow_le_zpow_right₀ (by norm_num : (1 : ℚ) ≤ 2) this

theorem zpow_floatExponent_le (x : ℚ) (hx : x ≠ 0) (h : -126 < floatExponent x) :
    (2 : ℚ) ^ floatExponent x ≤ |x| := by
  have hlog : floatExponent x = Int.log 2 |x| := by
    unfold floatExponent at h ⊢
    rcases max_cases (Int.log 2 |x|) (-126) with ⟨h1, _⟩ | ⟨h1, _⟩
    · exact h1
    · omega
  rw [hlog]
  exact_mod_cast Int.zpow_log_le_self (R := ℚ) (b := 2) (by norm_num) (abs_pos.mpr hx)

theorem floatExponent_eq (x : ℚ) (E : ℤ) (hE : -126 ≤ E) (hlo : (2 : ℚ) ^ E ≤ |x|)
    (hhi : |x| < (2 : ℚ) ^ (E + 1)) : floatExponent x = E := by
  have hpos : 0 < |x| := lt_of_lt_of_le (by positivity) hlo
  have h1 : E ≤ Int.log 2 |x| :=
    (Int.zpow_le_iff_le_log (R := ℚ) (b := 2) (by norm_num) hpos).mp (by exact_mod_cast hlo)
  have h2 : Int.log 2 |x| < E + 1 :=
    (Int.lt_zpow_iff_log_lt (R := ℚ) (b := 2) (by norm_num) hpos).mp (by exact_mod_cast hhi)
  unfold floatExponent
  rw [max_eq_left (by omega)]
  omega

theorem floatExponent_eq_min (x : ℚ) (hx : x ≠ 0) (h : |x| < (2 : ℚ) ^ (-126 : ℤ)) :
    floatExponent x = -126 := by
  have hpos : 0 < |x| := abs_pos.mpr hx
  have h2 : Int.log 2 |x| < -126 :=
    (Int.lt_zpow_iff_log_lt (R := ℚ) (b := 2) (by norm_num) hpos).mp (by exact_mod_cast h)
  unfold floatExponent
  rw [max_eq_right (by omega)]

theorem floatExponent_abs (x : ℚ) : floatExponent |x| = floatExponent x := by
  unfold floatExponent
  rw [abs_abs]

theorem floatExponent_neg (x : ℚ) : floatExponent (-x) = floatExponent x := by
  unfold floatExponent
  rw [abs_neg]

theorem ulp_neg (x : ℚ) : ulp (-x) = ulp x := by
  unfold ulp
  rw [floatExponent_neg]

theorem floatExponent_mono (x y : ℚ) (hx : x ≠ 0) (h : |x| ≤ |y|) :
    floatExponent x ≤ floatExponent y := by
  unfold floatExponent
  exact max_le_max (Int.log_mono_right (abs_pos.mpr hx) h) le_rfl

theorem toFloat_zero : toFloat 0 = 0 := by
  unfold toFloat
  simp [roundNearestEven]

theorem toFloat_neg (x : ℚ) : toFloat (-x) = -toFloat x := by
  rcases lt_trichotomy x 0 with hx | hx | hx
  · unfold toFloat
    rw [if_pos (by linarith), if_neg (by linarith), ulp_neg]
    simp
  · rw [hx]
    simp [toFloat_zero]
  · unfold toFloat
    rw [if_neg (by linarith), if_pos (by linarith), ulp_neg]
    simp

theorem toFloat_of_nonneg (x : ℚ) (hx : 0 ≤ x) :
    toFloat x = (roundNearestEven (x / ulp x) : ℚ) * ulp x := by
  unfold toFloat
  rw [if_pos hx]

theorem toFloat_nonneg (x : ℚ) (hx : 0 ≤ x) : 0 ≤ toFloat x := by
  rw [toFloat_of_nonneg x hx]
  have h0 : (0 : ℤ) ≤ roundNearestEven (x / ulp x) :=
    le_trans (Int.floor_nonneg.mpr (div_nonneg hx (ulp_pos x).le)) (floor_le_roundNearestEven _)
  have : (0 : ℚ) ≤ (roundNearestEven (x / ulp x) : ℚ) := by exact_mod_cast h0
  exact mul_nonneg this (ulp_pos x).le

theorem roundNearestEven_le_of_le (t : ℚ) (n : ℤ) (h : t ≤ n) : roundNearestEven t ≤ n := by
  have := roundNearestEven_mono t n h
  rwa [roundNearestEven_intCast] at this

theorem le_roundNearestEven_of_le (t : ℚ) (n : ℤ) (h : (n : ℚ) ≤ t) : n ≤ roundNearestEven t := by
  have := roundNearestEven_mono n t h
  rwa [roundNearestEven_intCast] at this

theorem ulp_mul_two_pow_24 (x : ℚ) : ulp x * 16777216 = (2 : ℚ) ^ (floatExponent x + 1) := by
  unfold ulp
  rw [show (16777216 : ℚ) = (2 : ℚ) ^ (24 : ℤ) by norm_num,
    ← zpow_add₀ (by norm_num : (2 : ℚ) ≠ 0)]
  congr 1
  ring

theorem ulp_mul_two_pow_23 (x : ℚ) : ulp x * 8388608 = (2 : ℚ) ^ floatExponent x := by
  unfold ulp
  rw [show (8388608 : ℚ) = (2 : ℚ) ^ (23 : ℤ) by norm_num,
    ← zpow_add₀ (by norm_num : (2 : ℚ) ≠ 0)]
  congr 1
  ring

theorem roundNearestEven_div_ulp_le (x : ℚ) (hx : 0 ≤ x) :
    roundNearestEven (x / ulp x) ≤ 16777216 := by
  have hlt := abs_lt_zpow_floatExponent x
  rw [abs_of_nonneg hx, ← ulp_mul_two_pow_24] at hlt
  apply roundNearestEven_le_of_le
  rw [div_le_iff₀ (ulp_pos x)]
  push_cast
  linarith

theorem roundNearestEven_div_ulp_nonneg (x : ℚ) (hx : 0 ≤ x) :
    0 ≤ roundNearestEven (x / ulp x) :=
  le_trans (Int.floor_nonneg.mpr (div_nonneg hx (ulp_pos x).le)) (floor_le_roundNearestEven _)

/-- A rounded non-negative value stays in the closed binade of its argument. -/
theorem toFloat_le_zpow (x : ℚ) (hx : 0 ≤ x) : toFloat x ≤ (2 : ℚ) ^ (floatExponent x + 1) := by
  rw [toFloat_of_nonneg x hx, ← ulp_mul_two_pow_24, mul_comm]
  have hn : (roundNearestEven (x / ulp x) : ℚ) ≤ 16777216 := by
    exact_mod_cast roundNearestEven_div_ulp_le x hx
  exact mul_le_mul_of_nonneg_left hn (ulp_pos x).le

theorem zpow_le_toFloat (x : ℚ) (hx : 0 < x) (h : -126 < floatExponent x) :
    (2 : ℚ) ^ floatExponent x ≤ toFloat x := by
  rw [toFloat_of_nonneg x hx.le, ← ulp_mul_two_pow_23, mul_comm]
  have hlo := zpow_floatExponent_le x hx.ne' h
  rw [abs_of_pos hx, ← ulp_mul_two_pow_23] at hlo
  have hn : (8388608 : ℤ) ≤ roundNearestEven (x / ulp x) := by
    apply le_roundNearestEven_of_le
    rw [le_div_iff₀ (ulp_pos x)]
    push_cast
    linarith
  have hn' : (8388608 : ℚ) ≤ (roundNearestEven (x / ulp x) : ℚ) := by exact_mod_cast hn
  exact mul_le_mul_of_nonneg_right hn' (ulp_pos x).le

theorem toFloat_mono_of_nonneg (x y : ℚ) (hx : 0 ≤ x) (h : x ≤ y) : toFloat x ≤ toFloat y := by
  rcases eq_or_lt_of_le hx with hx0 | hxpos
  · rw [← hx0, toFloat_zero]
    exact toFloat_nonneg y (le_trans hx h)
  have hypos : 0 < y := lt_of_lt_of_le hxpos h
  have hE : floatExponent x ≤ floatExponent y :=
    floatExponent_mono x y hxpos.ne' (by rw [abs_of_pos hxpos, abs_of_pos hypos]; exact h)
  rcases eq_or_lt_of_le hE with heq | hlt
  · rw [toFloat_of_nonneg x hx, toFloat_of_nonneg y hypos.le]
    have hu : ulp x = ulp y := by
      unfold ulp
      rw [heq]
    rw [hu]
    apply mul_le_mul_of_nonneg_right _ (ulp_pos y).le
    have : roundNearestEven (x / ulp y) ≤ roundNearestEven (y / ulp y) :=
      roundNearestEven_mono _ _ (div_le_div_of_nonneg_right h (ulp_pos y).le)
    exact_mod_cast this
  · calc toFloat x ≤ (2 : ℚ) ^ (floatExponent x + 1) := toFloat_le_zpow x hx
      _ ≤ (2 : ℚ) ^ floatExponent y := zpow_le_zpow_right₀ (by norm_num) (by omega)
      _ ≤ toFloat y := zpow_le_toFloat y hypos (by have := floatExponent_ge x; omega)

/-- Rounding is monotone. -/
theorem toFloat_mono (x y : ℚ) (h : x ≤ y) : toFloat x ≤ toFloat y := by
  rcases le_or_lt 0 x with hx | hx
  · exact toFloat_mono_of_nonneg x y hx h
  · rcases le_or_lt 0 y with hy | hy
    · have h1 : toFloat x ≤ 0 := by
        have := toFloat_nonneg (-x) (by linarith)
        rw [toFloat_neg] at this
        linarith
      exact le_trans h1 (toFloat_nonneg y hy)
    · have := toFloat_mono_of_nonneg (-y) (-x) (by linarith) (by linarith)
      rw [toFloat_neg, toFloat_neg] at this
      linarith

/-- A value `m * 2 ^ e` with at most 24 significant bits and an exponent in the range of single
precision is returned unchanged. -/
theorem toFloat_dyadic (m e : ℤ) (hm : |m| ≤ 2 ^ 24) (he : -149 ≤ e) :
    toFloat ((m : ℚ) * (2 : ℚ) ^ e) = (m : ℚ) * (2 : ℚ) ^ e := by
  have key : ∀ m : ℤ, 0 ≤ m → m ≤ 2 ^ 24 →
      toFloat ((m : ℚ) * (2 : ℚ) ^ e) = (m : ℚ) * (2 : ℚ) ^ e := by
    intro m hm0 hm24
    rcases eq_or_lt_of_le hm0 with h0 | hpos
    · rw [← h0]
      simp [toFloat_zero]
    set x : ℚ := (m : ℚ) * (2 : ℚ) ^ e with hxdef
    have h2e : (0 : ℚ) < (2 : ℚ) ^ e := by positivity
    have hmq : (0 : ℚ) < (m : ℚ) := by exact_mod_cast hpos
    have hxpos : 0 < x := mul_pos hmq h2e
    rw [toFloat_of_nonneg x hxpos.le]
    -- the quotient by the spacing is an integer
    have hint : ∃ N : ℤ, x / ulp x = (N : ℚ) := by
      by_cases hk : 0 ≤ e - (floatExponent x - 23)
      · refine ⟨m * 2 ^ (e - (floatExponent x - 23)).toNat, ?_⟩
        unfold ulp
        rw [hxdef, mul_div_assoc, ← zpow_sub₀ (by norm_num : (2 : ℚ) ≠ 0)]
        push_cast
        rw [← zpow_natCast, Int.toNat_of_nonneg hk]
      · push_neg at hk
        have hEgt : -126 < floatExponent x := by omega
        have hlo := zpow_floatExponent_le x hxpos.ne' hEgt
        rw [abs_of_pos hxpos] at hlo
        have hhi := abs_lt_zpow_floatExponent x
        rw [abs_of_pos hxpos] at hhi
        -- `2 ^ (e + 24) ≤ 2 ^ E ≤ m * 2 ^ e ≤ 2 ^ 24 * 2 ^ e`
        have hmle : (m : ℚ) ≤ (2 : ℚ) ^ (24 : ℤ) := by
          have : (m : ℚ) ≤ ((2 ^ 24 : ℤ) : ℚ) := by exact_mod_cast hm24
          norm_num at this ⊢
          exact this
        have hx24 : x ≤ (2 : ℚ) ^ (e + 24) := by
          rw [hxdef, zpow_add₀ (by norm_num : (2 : ℚ) ≠ 0), mul_comm]
          exact mul_le_mul_of_nonneg_left hmle h2e.le
        have hE1 : floatExponent x ≤ e + 24 := by
          by_contra hcon
          push_neg at hcon
          have : (2 : ℚ) ^ (e + 24) < (2 : ℚ) ^ floatExponent x :=
            zpow_lt_zpow_right₀ (by norm_num) hcon
          linarith
        have hE : floatExponent x = e + 24 := by omega
        have hxeq : x = (2 : ℚ) ^ (e + 24) := by
          apply le_antisymm hx24
          rw [← hE]
          exact hlo
        refine ⟨2 ^ 23, ?_⟩
        unfold ulp
        rw [hE, hxeq, ← zpow_sub₀ (by norm_num : (2 : ℚ) ≠ 0)]
        have : e + 24 - (e + 24 - 23) = 23 := by ring
        rw [this]
        norm_num
    obtain ⟨N, hN⟩ := hint
    rw [hN, roundNearestEven_intCast, ← hN]
    exact div_mul_cancel₀ _ (ulp_pos x).ne'
  rcases le_or_lt 0 m with h0 | hneg
  · exact key m h0 (by rwa [abs_of_nonneg h0] at hm)
  · have := key (-m) (by omega) (by rw [abs_of_neg hneg] at hm; exact hm)
    have hx : ((-m : ℤ) : ℚ) * (2 : ℚ) ^ e = -((m : ℚ) * (2 : ℚ) ^ e) := by
      push_cast
      ring
    rw [hx, toFloat_neg] at this
    linarith

/-- A rounded value has the form `n * 2 ^ e` with at most 24 significant bits. -/
theorem toFloat_form (x : ℚ) :
    ∃ m e : ℤ, |m| ≤ 2 ^ 24 ∧ -149 ≤ e ∧ toFloat x = (m : ℚ) * (2 : ℚ) ^ e := by
  have key : ∀ x : ℚ, 0 ≤ x →
      ∃ m e : ℤ, |m| ≤ 2 ^ 24 ∧ -149 ≤ e ∧ toFloat x = (m : ℚ) * (2 : ℚ) ^ e := by
    intro x hx
    refine ⟨roundNearestEven (x / ulp x), floatExponent x - 23, ?_, ?_, ?_⟩
    · rw [abs_of_nonneg (roundNearestEven_div_ulp_nonneg x hx)]
      have := roundNearestEven_div_ulp_le x hx
      omega
    · have := floatExponent_ge x
      omega
    · rw [toFloat_of_nonneg x hx]
      rfl
  rcases le_or_lt 0 x with hx | hx
  · exact key x hx
  · obtain ⟨m, e, hm, he, h⟩ := key (-x) (by linarith)
    refine ⟨-m, e, by rwa [abs_neg], he, ?_⟩
    rw [toFloat_neg] at h
    push_cast
    linarith

/-- Rounding a rounded value changes nothing. -/
theorem toFloat_idem (x : ℚ) : toFloat (toFloat x) = toFloat x := by
  obtain ⟨m, e, hm, he, h⟩ := toFloat_form x
  rw [h]
  exact toFloat_dyadic m e hm he

/-- The rounding error is at most half the spacing. -/
theorem abs_toFloat_sub_le (x : ℚ) : |toFloat x - x| ≤ ulp x / 2 := by
  have key : ∀ x : ℚ, 0 ≤ x → |toFloat x - x| ≤ ulp x / 2 := by
    intro x hx
    rw [toFloat_of_nonneg x hx]
    have h := abs_roundNearestEven_sub_le (x / ulp x)
    have hu := ulp_pos x
    have : (roundNearestEven (x / ulp x) : ℚ) * ulp x - x
        = ((roundNearestEven (x / ulp x) : ℚ) - x / ulp x) * ulp x := by
      field_simp
    rw [this, abs_mul, abs_of_pos hu]
    calc |(roundNearestEven (x / ulp x) : ℚ) - x / ulp x| * ulp x ≤ 1 / 2 * ulp x :=
          mul_le_mul_of_nonneg_right h hu.le
      _ = ulp x / 2 := by ring
  rcases le_or_lt 0 x with hx | hx
  · exact key x hx
  · have := key (-x) (by linarith)
    rw [toFloat_neg, ulp_neg] at this
    have h2 : -toFloat x - -x = -(toFloat x - x) := by ring
    rwa [h2, abs_neg] at this

/-- The rounding error is at most `2⁻²⁴` of the value, or `2⁻¹⁵⁰` in the subnormal range. -/
theorem abs_toFloat_sub_le_rel (x : ℚ) :
    |toFloat x - x| ≤ |x| * (2 : ℚ) ^ (-24 : ℤ) + (2 : ℚ) ^ (-150 : ℤ) := by
  have h24 : (0 : ℚ) < (2 : ℚ) ^ (-24 : ℤ) := by positivity
  have h150 : (0 : ℚ) < (2 : ℚ) ^ (-150 : ℤ) := by positivity
  by_cases hx : x = 0
  · rw [hx, toFloat_zero]
    simp
    positivity
  have h := abs_toFloat_sub_le x
  have hulp : ulp x / 2 ≤ |x| * (2 : ℚ) ^ (-24 : ℤ) + (2 : ℚ) ^ (-150 : ℤ) := by
    rcases eq_or_lt_of_le (floatExponent_ge x) with hE | hE
    · have : ulp x / 2 = (2 : ℚ) ^ (-150 : ℤ) := by
        unfold ulp
        rw [← hE]
        norm_num
      rw [this]
      have := abs_nonneg x
      nlinarith
    · have hlo := zpow_floatExponent_le x hx hE
      have : ulp x / 2 = (2 : ℚ) ^ floatExponent x * (2 : ℚ) ^ (-24 : ℤ) := by
        unfold ulp
        rw [zpow_sub₀ (by norm_num : (2 : ℚ) ≠ 0)]
        norm_num
        ring
      rw [this]
      nlinarith
  exact le_trans h hulp

/-- Evaluation of a rounding: a value in the binade of exponent `E` that lies nearer than half
a spacing to `n * 2 ^ (E - 23)` is rounded to it. -/
theorem toFloat_eq_of_near (x : ℚ) (E n : ℤ) (hE : -126 ≤ E) (hlo : (2 : ℚ) ^ E ≤ |x|)
    (hhi : |x| < (2 : ℚ) ^ (E + 1)) (h : |x / (2 : ℚ) ^ (E - 23) - n| < 1 / 2) :
    toFloat x = (n : ℚ) * (2 : ℚ) ^ (E - 23) := by
  have hEx := floatExponent_eq x E hE hlo hhi
  have hu : ulp x = (2 : ℚ) ^ (E - 23) := by
    unfold ulp
    rw [hEx]
  unfold toFloat
  rw [hu]
  split_ifs with hx
  · rw [roundNearestEven_eq_of_abs_sub_lt _ n h]
  · have h2 : |-x / (2 : ℚ) ^ (E - 23) - ((-n : ℤ) : ℚ)| < 1 / 2 := by
      have : -x / (2 : ℚ) ^ (E - 23) - ((-n : ℤ) : ℚ) = -(x / (2 : ℚ) ^ (E - 23) - n) := by
        push_cast
        ring
      rw [this, abs_neg]
      exact h
    rw [roundNearestEven_eq_of_abs_sub_lt _ (-n) h2]
    push_cast
    ring

/-- Evaluation of a rounding in the subnormal range. -/
theorem toFloat_eq_of_near_subnormal (x : ℚ) (n : ℤ) (hx : x ≠ 0)
    (hhi : |x| < (2 : ℚ) ^ (-126 : ℤ)) (h : |x / (2 : ℚ) ^ (-149 : ℤ) - n| < 1 / 2) :
    toFloat x = (n : ℚ) * (2 : ℚ) ^ (-149 : ℤ) := by
  have hEx := floatExponent_eq_min x hx hhi
  have hu : ulp x = (2 : ℚ) ^ (-149 : ℤ) := by
    unfold ulp
    rw [hEx]
    norm_num
  unfold toFloat
  rw [hu]
  split_ifs with hx0
  · rw [roundNearestEven_eq_of_abs_sub_lt _ n h]
  · have h2 : |-x / (2 : ℚ) ^ (-149 : ℤ) - ((-n : ℤ) : ℚ)| < 1 / 2 := by
      have : -x / (2 : ℚ) ^ (-149 : ℤ) - ((-n : ℤ) : ℚ) = -(x / (2 : ℚ) ^ (-149 : ℤ) - n) := by
        push_cast
        ring
      rw [this, abs_neg]
      exact h
    rw [roundNearestEven_eq_of_abs_sub_lt _ (-n) h2]
    push_cast
    ring

/-- Evaluation of a rounding of a non-negative value whose binade is known. -/
theorem toFloat_eq_roundNearestEven (x : ℚ) (E : ℤ) (hE : -126 ≤ E) (hx : 0 ≤ x)
    (hlo : (2 : ℚ) ^ E ≤ x) (hhi : x < (2 : ℚ) ^ (E + 1)) :
    toFloat x = (roundNearestEven (x / (2 : ℚ) ^ (E - 23)) : ℚ) * (2 : ℚ) ^ (E - 23) := by
  have hEx := floatExponent_eq x E hE (by rwa [abs_of_nonneg hx]) (by rwa [abs_of_nonneg hx])
  rw [toFloat_of_nonneg x hx]
  unfold ulp
  rw [hEx]

theorem toFloat_intCast (n : ℤ) (hn : |n| ≤ 16777216) : toFloat (n : ℚ) = n := by
  have := toFloat_dyadic n 0 (by norm_num; exact hn) (by norm_num)
  simpa using this

theorem toFloat_one : toFloat 1 = 1 := by
  simpa using toFloat_intCast 1 (by norm_num)

/-! ## Out of range: nothing is delivered -/

theorem callsSince_self (s : HelperState) : callsSince s s = [] := by
  simp [callsSince]

theorem callsSince_call (s : HelperState) (c : Call) : callsSince s (s.call c) = [c] := by
  simp [callsSince, HelperState.call]

theorem callsSince_pushFront (s : HelperState) (slot : Nat) (wd : WaitingDamage) :
    callsSince s (s.pushFront slot wd) = [] := by
  simp [callsSince, HelperState.pushFront]

theorem queuedSince_self (s : HelperState) (slot : Nat) : queuedSince s s slot = [] := by
  simp [queuedSince]

theorem queuedSince_call (s : HelperState) (c : Call) (slot : Nat) :
    queuedSince s (s.call c) slot = [] := by
  simp [queuedSince, HelperState.call]

theorem queuedSince_pushFront (s : HelperState) (slot : Nat) (wd : WaitingDamage) (i : Nat) :
    queuedSince s (s.pushFront slot wd) i = if i = slot then [wd] else [] := by
  by_cases h : i = slot <;> simp [queuedSince, HelperState.pushFront, h]

/-- The three outcomes of the per-unit damage function: nothing, one direct `DoDamage` call, or
one record pushed on the ring; the impulse is `unitAddedImpulse` in both of the latter. -/
theorem DoExplosionDamage_cases (sqrtf : ℚ → ℚ) (MAX_EXPLOSION_IMPULSE : ℚ)
    (frameNum : Int) (heap : UnitPtr → CUnit) (unit : UnitPtr) (owner : Option UnitPtr)
    (expPos : float3) (expRad expSpeed edgeEffectiveness : ℚ) (ignoreOwner : Bool)
    (damages : DamageArray) (weaponDefID : Int) (s : HelperState) :
    DoExplosionDamage sqrtf MAX_EXPLOSION_IMPULSE frameNum heap unit owner expPos expRad expSpeed
        edgeEffectiveness ignoreOwner damages weaponDefID s = s
    ∨ (∃ dmg, DoExplosionDamage sqrtf MAX_EXPLOSION_IMPULSE frameNum heap unit owner expPos expRad
        expSpeed edgeEffectiveness ignoreOwner damages weaponDefID s
          = s.call (Call.unitDoDamage unit dmg
              (unitAddedImpulse sqrtf MAX_EXPLOSION_IMPULSE frameNum (heap unit) expPos expRad
                edgeEffectiveness damages) owner weaponDefID))
    ∨ (∃ slot att dmg, DoExplosionDamage sqrtf MAX_EXPLOSION_IMPULSE frameNum heap unit owner
        expPos expRad expSpeed edgeEffectiveness ignoreOwner damages weaponDefID s
          = s.pushFront slot ⟨att, (heap unit).id, dmg,
              unitAddedImpulse sqrtf MAX_EXPLOSION_IMPULSE frameNum (heap unit) expPos expRad
                edgeEffectiveness damages, weaponDefID⟩) := by
  unfold DoExplosionDamage
  split
  · exact Or.inl rfl
  · simp only []
    split
    · exact Or.inl rfl
    · split
      · exact Or.inr (Or.inl ⟨_, rfl⟩)
      · exact Or.inr (Or.inr ⟨_, _, _, rfl⟩)

/-- The clamped strength lies between the two bounds. -/
theorem Clamp_sq_le (v M : ℚ) (hM : 0 ≤ M) : Clamp v (-M) M * Clamp v (-M) M ≤ M * M := by
  have h1 : Clamp v (-M) M ≤ M := min_le_left _ _
  have h2 : -M ≤ Clamp v (-M) M := le_min (by linarith) (le_max_left _ _)
  nlinarith

/-! ## The impulse bound -/

/-- C3, counterexample: a unit of radius 1 straight above an explosion of radius 100, at distance
10, with default damage 1e6 and `MAX_EXPLOSION_IMPULSE = 10000`: the impulse handed to
`DoDamage` is `(0, 11200, 0)`, of length 11200, which exceeds the maximum. -/
theorem impulse_exceeds_MAX_EXPLOSION_IMPULSE :
    callsSince emptyState
        (DoExplosionDamage sqrtAt 10000 0 (fun _ => unitAt 7 ⟨0, 10, 0⟩) 0 none origin 100 1000 0
          false (plainDamage 1000000) 3 emptyState)
      = [Call.unitDoDamage 0 (plainDamage 1000000 * (91 / 100 : ℚ)) ⟨0, 11200, 0⟩ none 3]
    ∧ float3.Length sqrtAt ⟨0, 11200, 0⟩ = 11200
    ∧ ¬ (float3.Length sqrtAt ⟨0, 11200, 0⟩ ≤ 10000) := by
  refine ⟨?_, ?_, ?_⟩
  · norm_num [DoExplosionDamage, callsSince, emptyState, HelperState.call, unitAddedImpulse,
      unitImpulseDir, unitExpDist2, unitExpDist1, unitExpDist, unitVolRad, unitDiffPos,
      unitVolumeAndBase, unitAt, sqrtAt, origin, float3.Length, float3.SqLength, falloffMod,
      rawImpulseStrength, Clamp, plainDamage, DamageArray.GetDefaultDamage]
  · norm_num [float3.Length, float3.SqLength, sqrtAt]
  · norm_num [float3.Length, float3.SqLength, sqrtAt]

/-! ## The ring slot -/

theorem land_127_ofNat (m : Nat) : Int.land (m : Int) 127 = (m : Int) % 128 := by
  have h127 : (127 : Int) = ((127 : Nat) : Int) := rfl
  rw [h127]
  show ((m &&& 127 : Nat) : Int) = _
  have h := Nat.and_pow_two_sub_one_eq_mod m 7
  norm_num at h
  rw [h]
  norm_cast

theorem xor_127_small : ∀ r : Fin 128, 127 ^^^ r.val = 127 - r.val := by
  decide

theorem testBit_127 (i : Nat) : Nat.testBit 127 i = decide (i < 7) := by
  by_cases hi : i < 7
  · simp only [hi, decide_True]
    interval_cases i <;> decide
  · simp only [hi, decide_False]
    apply Nat.testBit_lt_two_pow
    calc 127 < 2 ^ 7 := by norm_num
      _ ≤ 2 ^ i := Nat.pow_le_pow_right (by norm_num) (by omega)

theorem ldiff_127 (m : Nat) : Nat.ldiff 127 m = 127 - m % 128 := by
  have h1 : Nat.ldiff 127 m = 127 ^^^ (m % 128) := by
    apply Nat.eq_of_testBit_eq
    intro i
    have h128 : (128 : Nat) = 2 ^ 7 := by norm_num
    rw [Nat.testBit_ldiff, Nat.testBit_xor, h128, Nat.testBit_mod_two_pow, testBit_127]
    by_cases hi : i < 7 <;> simp [hi]
  rw [h1]
  exact xor_127_small ⟨m % 128, Nat.mod_lt _ (by norm_num)⟩

/-- In two's complement `n & 127` is the remainder of `n` modulo 128, also for negative `n`. -/
theorem land_127 (n : Int) : Int.land n 127 = n % 128 := by
  cases n with
  | ofNat m => exact land_127_ofNat m
  | negSucc m =>
    have h127 : (127 : Int) = ((127 : Nat) : Int) := rfl
    rw [h127]
    show ((Nat.ldiff 127 m : Nat) : Int) = _
    rw [ldiff_127, Int.negSucc_eq]
    have hm : m % 128 < 128 := Nat.mod_lt _ (by norm_num)
    omega

theorem ringSlot_cast (n : Int) : ((ringSlot n : Nat) : Int) = n % 128 := by
  unfold ringSlot
  rw [land_127]
  omega

theorem ringSlot_lt (n : Int) : ringSlot n < 128 := by
  have h := ringSlot_cast n
  omega

theorem ringSlot_ofNat (n : Nat) : ringSlot (n : Int) = n % 128 := by
  have h := ringSlot_cast (n : Int)
  omega

/-- Two frames less than 128 apart use different slots. -/
theorem ringSlot_ne (F : Int) (a b : Int) (hab : a < b) (hb : b < a + 128) :
    ringSlot (F + a) ≠ ringSlot (F + b) := by
  intro h
  have h1 := ringSlot_cast (F + a)
  have h2 := ringSlot_cast (F + b)
  rw [h] at h1
  omega

/-! ## Update drains one slot -/

theorem drainLoop_eq (units : Int → Option UnitPtr) :
    ∀ (fuel : Nat) (wd : List WaitingDamage) (calls : List Call), wd.length ≤ fuel →
      drainLoop units fuel wd calls = ([], calls ++ wd.reverse.filterMap (deliveryOf units)) := by
  intro fuel
  induction fuel with
  | zero =>
    intro wd calls h
    have hnil : wd = [] := List.length_eq_zero.mp (Nat.le_zero.mp h)
    subst hnil
    simp [drainLoop]
  | succ fuel ih =>
    intro wd calls h
    rcases List.eq_nil_or_concat wd with hnil | ⟨l, w, hw⟩
    · subst hnil
      simp [drainLoop]
    · rw [List.concat_eq_append] at hw
      subst hw
      have hlen : l.length ≤ fuel := by
        simp only [List.length_append, List.length_singleton] at h
        omega
      have hlast : (l ++ [w]).getLast? = some w := by simp
      have hdrop : (l ++ [w]).dropLast = l := by simp
      unfold drainLoop
      simp only [hlast, hdrop, List.reverse_append, List.reverse_singleton,
        List.singleton_append, List.filterMap_cons]
      cases hu : units w.target with
      | none =>
        simp only [deliveryOf, hu]
        exact ih l calls hlen
      | some a =>
        simp only [deliveryOf, hu]
        rw [ih l _ hlen, List.append_assoc]
        rfl

theorem Update_slot (frameNum : Int) (units : Int → Option UnitPtr) (s : HelperState) :
    (Update frameNum units s).waitingDamages (ringSlot frameNum) = [] := by
  simp [Update, drainLoop_eq units _ _ _ (le_refl _)]

theorem Update_other (frameNum : Int) (units : Int → Option UnitPtr) (s : HelperState) (i : Nat)
    (h : i ≠ ringSlot frameNum) :
    (Update frameNum units s).waitingDamages i = s.waitingDamages i := by
  simp [Update, h]

theorem Update_calls (frameNum : Int) (units : Int → Option UnitPtr) (s : HelperState) :
    (Update frameNum units s).calls
      = s.calls ++ (s.waitingDamages (ringSlot frameNum)).reverse.filterMap (deliveryOf units) := by
  simp [Update, drainLoop_eq units _ _ _ (le_refl _)]

theorem callsSince_Update (frameNum : Int) (units : Int → Option UnitPtr) (s : HelperState) :
    callsSince s (Update frameNum units s)
      = (s.waitingDamages (ringSlot frameNum)).reverse.filterMap (deliveryOf units) := by
  simp [callsSince, Update_calls]

/-- C6: `Update` at frame `frameNum` drains exactly slot `frameNum & 127` (the remainder modulo
128). The calls it adds are, for the records of that slot from the oldest to the newest, one
`DoDamage` call per record whose target exists (with the record's damage, impulse and weapon id,
attacker null when the stored id is `-1` or the unit no longer exists) and nothing for a record
whose target is null; afterwards the slot is empty and every other slot is unchanged. -/
theorem Update_drains_exactly_one_slot (frameNum : Int) (units : Int → Option UnitPtr)
    (s : HelperState) :
    ((ringSlot frameNum : Nat) : Int) = frameNum % 128
    ∧ (Update frameNum units s).calls = s.calls ++ callsSince s (Update frameNum units s)
    ∧ callsSince s (Update frameNum units s)
        = (s.waitingDamages (ringSlot frameNum)).reverse.filterMap (deliveryOf units)
    ∧ (∀ w, units w.target = none → deliveryOf units w = none)
    ∧ (∀ w a, units w.target = some a →
        deliveryOf units w = some (Call.unitDoDamage a w.damage w.impulse
          (if w.attacker = -1 then none else units w.attacker) w.weaponId))
    ∧ (Update frameNum units s).waitingDamages (ringSlot frameNum) = []
    ∧ (∀ i, i ≠ ringSlot frameNum →
        (Update frameNum units s).waitingDamages i = s.waitingDamages i) := by
  refine ⟨ringSlot_cast frameNum, ?_, callsSince_Update frameNum units s, ?_, ?_,
    Update_slot frameNum units s, fun i hi => Update_other frameNum units s i hi⟩
  · rw [callsSince_Update, Update_calls]
  · intro w hw
    simp [deliveryOf, hw]
  · intro w a hw
    simp [deliveryOf, hw]

/-! ## A deferred record is delivered once -/

theorem pushAll_count (r : WaitingDamage) :
    ∀ (ps : List (Nat × WaitingDamage)) (s : HelperState), (∀ p ∈ ps, p.2 ≠ r) →
      ∀ i, ((pushAll ps s).waitingDamages i).count r = (s.waitingDamages i).count r := by
  intro ps
  induction ps with
  | nil => intro s _ i; rfl
  | cons p ps ih =>
    intro s h i
    have hp : p.2 ≠ r := h p (List.mem_cons_self _ _)
    have hps : ∀ q ∈ ps, q.2 ≠ r := fun q hq => h q (List.mem_cons_of_mem _ hq)
    show ((pushAll ps (s.pushFront p.1 p.2)).waitingDamages i).count r = _
    rw [ih (s.pushFront p.1 p.2) hps i]
    by_cases hi : i = p.1
    · simp [HelperState.pushFront, hi, List.count_cons, hp]
    · simp [HelperState.pushFront, hi]

/-- The number of copies of `r` in each slot along a run: one in the slot of frame `F + D` until
that frame has been updated, none anywhere afterwards. -/
theorem runFrames_count (units : Nat → Int → Option UnitPtr)
    (pushes : Nat → List (Nat × WaitingDamage)) (F D : Int) (r : WaitingDamage)
    (s1 : HelperState) (hD1 : 1 ≤ D) (hD2 : D < 128)
    (h1 : (s1.waitingDamages (ringSlot (F + D))).count r = 1)
    (h0 : ∀ i, i ≠ ringSlot (F + D) → (s1.waitingDamages i).count r = 0)
    (hother : ∀ k, ∀ p ∈ pushes k, p.2 ≠ r) :
    ∀ n : Nat, ∀ i,
      ((runFrames units pushes F n s1).waitingDamages i).count r
        = if (n : Int) < D ∧ i = ringSlot (F + D) then 1 else 0 := by
  intro n
  induction n with
  | zero =>
    intro i
    by_cases hi : i = ringSlot (F + D)
    · rw [hi, if_pos ⟨by omega, rfl⟩]
      exact h1
    · rw [if_neg (fun h => hi h.2)]
      exact h0 i hi
  | succ n ih =>
    intro i
    show ((Update (F + ((n + 1 : Nat) : Int)) (units (n + 1))
      (pushAll (pushes (n + 1)) (runFrames units pushes F n s1))).waitingDamages i).count r = _
    by_cases hi : i = ringSlot (F + ((n + 1 : Nat) : Int))
    · rw [hi, Update_slot]
      have hne : ¬ (((n + 1 : Nat) : Int) < D
          ∧ ringSlot (F + ((n + 1 : Nat) : Int)) = ringSlot (F + D)) := by
        rintro ⟨hlt, heq⟩
        exact ringSlot_ne F _ _ hlt (by omega) heq
      rw [if_neg hne]
      rfl
    · rw [Update_other _ _ _ _ hi, pushAll_count r _ _ (hother (n + 1)) i, ih i]
      by_cases hs : i = ringSlot (F + D)
      · subst hs
        have hnD : ((n + 1 : Nat) : Int) ≠ D := fun h => hi (by rw [h])
        by_cases hlt : (n : Int) < D
        · rw [if_pos ⟨hlt, rfl⟩, if_pos ⟨by omega, rfl⟩]
        · rw [if_neg (fun h => hlt h.1), if_neg (fun h => hlt (by omega))]
      · rw [if_neg (fun h => hs h.2), if_neg (fun h => hs h.2)]

/-- The number of copies of `r` that the `Update` of frame `F + (n + 1)` finds in its slot. -/
theorem drainedAt_count (units : Nat → Int → Option UnitPtr)
    (pushes : Nat → List (Nat × WaitingDamage)) (F D : Int) (r : WaitingDamage)
    (s1 : HelperState) (hD1 : 1 ≤ D) (hD2 : D < 128)
    (h1 : (s1.waitingDamages (ringSlot (F + D))).count r = 1)
    (h0 : ∀ i, i ≠ ringSlot (F + D) → (s1.waitingDamages i).count r = 0)
    (hother : ∀ k, ∀ p ∈ pushes k, p.2 ≠ r) (n : Nat) :
    (drainedAt units pushes F n s1).count r = if ((n + 1 : Nat) : Int) = D then 1 else 0 := by
  unfold drainedAt beforeUpdate
  rw [pushAll_count r _ _ (hother (n + 1)),
    runFrames_count units pushes F D r s1 hD1 hD2 h1 h0 hother n]
  by_cases hn : ((n + 1 : Nat) : Int) = D
  · rw [if_pos hn, if_pos ⟨by omega, by rw [hn]⟩]
  · rw [if_neg hn]
    apply if_neg
    rintro ⟨hlt, heq⟩
    have hlt2 : ((n + 1 : Nat) : Int) < D := by omega
    exact ringSlot_ne F _ _ hlt2 (by omega) heq

/-- The deferred branch of the per-unit damage function: one record pushed on the slot of frame
`frameNum + int(expDist2 / expSpeed) - 3`. -/
theorem DoExplosionDamage_deferred (sqrtf : ℚ → ℚ) (MAX_EXPLOSION_IMPULSE : ℚ)
    (frameNum : Int) (heap : UnitPtr → CUnit) (unit : UnitPtr) (owner : Option UnitPtr)
    (expPos : float3) (expRad expSpeed edgeEffectiveness : ℚ) (ignoreOwner : Bool)
    (damages : DamageArray) (weaponDefID : Int) (s : HelperState)
    (hign : (ignoreOwner && (owner == some unit)) = false)
    (hrange : ¬ (unitExpDist sqrtf frameNum (heap unit) expPos - unitVolRad frameNum (heap unit)
                  > expRad))
    (hdefer : ¬ (unitExpDist2 sqrtf frameNum (heap unit) expPos expRad < expSpeed * 4)) :
    DoExplosionDamage sqrtf MAX_EXPLOSION_IMPULSE frameNum heap unit owner expPos expRad expSpeed
        edgeEffectiveness ignoreOwner damages weaponDefID s
      = s.pushFront
          (ringSlot (frameNum
            + truncToInt (unitExpDist2 sqrtf frameNum (heap unit) expPos expRad / expSpeed) - 3))
          (unitWaitingDamage sqrtf MAX_EXPLOSION_IMPULSE frameNum heap unit owner expPos expRad
            edgeEffectiveness damages weaponDefID) := by
  unfold DoExplosionDamage
  rw [hign]
  simp only [Bool.false_eq_true, if_false, if_neg hrange, if_neg hdefer]

theorem pipelineRun_succ_wd (units : Int → Option UnitPtr) (r : Nat → WaitingDamage) (n i : Nat) :
    (pipelineRun units r (n + 1)).waitingDamages i
      = if i = n % 128 then []
        else if i = (n + 5) % 128 then r n :: (pipelineRun units r n).waitingDamages i
        else (pipelineRun units r n).waitingDamages i := by
  show (Update (n : Int) units
    ((pipelineRun units r n).pushFront (ringSlot (((n + 5 : Nat) : Int))) (r n))).waitingDamages i
      = _
  by_cases hi : i = n % 128
  · rw [if_pos hi, hi, ← ringSlot_ofNat n, Update_slot]
  · rw [if_neg hi, Update_other _ _ _ _ (by rw [ringSlot_ofNat]; exact hi), ringSlot_ofNat]
    rfl

/-- The ring of the pipeline after `n` frames: the record of frame `g` is alone in the slot of
frame `g + 5` for the last five frames `g`, and every other slot is empty. -/
theorem pipelineRun_inv (units : Int → Option UnitPtr) (r : Nat → WaitingDamage) :
    ∀ n : Nat,
      (∀ g, g < n → n ≤ g + 5 →
        (pipelineRun units r n).waitingDamages ((g + 5) % 128) = [r g])
      ∧ (∀ i, (∀ g, g < n → n ≤ g + 5 → (g + 5) % 128 ≠ i) →
        (pipelineRun units r n).waitingDamages i = []) := by
  intro n
  induction n with
  | zero =>
    constructor
    · intro g hg
      omega
    · intro i _
      rfl
  | succ n ih =>
    obtain ⟨iha, ihb⟩ := ih
    constructor
    · intro g hg1 hg2
      rw [pipelineRun_succ_wd, if_neg (by omega)]
      by_cases hgn : g = n
      · subst hgn
        rw [if_pos rfl, ihb]
        intro g' h1 h2
        omega
      · rw [if_neg (by omega)]
        exact iha g (by omega) (by omega)
    · intro i hi
      rw [pipelineRun_succ_wd]
      by_cases h1 : i = n % 128
      · rw [if_pos h1]
      · have h2 : i ≠ (n + 5) % 128 := fun h => hi n (by omega) (by omega) h.symm
        rw [if_neg h1, if_neg h2]
        apply ihb
        intro g hg1 hg2
        by_cases hg3 : n + 1 ≤ g + 5
        · exact hi g (by omega) hg3
        · have : g + 5 = n := by omega
          rw [this]
          exact fun h => h1 h.symm

theorem pipelineDrained_eq (units : Int → Option UnitPtr) (r : Nat → WaitingDamage) (f : Nat) :
    pipelineDrained units r f = if 5 ≤ f then [r (f - 5)] else [] := by
  obtain ⟨ha, hb⟩ := pipelineRun_inv units r f
  have hne : f % 128 ≠ (f + 5) % 128 := by omega
  have hpre : pipelineDrained units r f = (pipelineRun units r f).waitingDamages (f % 128) := by
    unfold pipelineDrained pipelineBefore
    rw [ringSlot_ofNat, ringSlot_ofNat]
    simp only [HelperState.pushFront]
    rw [if_neg hne]
  rw [hpre]
  by_cases h5 : 5 ≤ f
  · rw [if_pos h5]
    have := ha (f - 5) (by omega) (by omega)
    rwa [show f - 5 + 5 = f by omega] at this
  · rw [if_neg h5]
    apply hb
    intro g hg1 hg2
    omega

theorem pipelineRun_calls (units : Int → Option UnitPtr) (r : Nat → WaitingDamage) :
    ∀ n : Nat, (pipelineRun units r n).calls
      = (List.range (n - 5)).filterMap (fun g => deliveryOf units (r g)) := by
  intro n
  induction n with
  | zero => rfl
  | succ n ih =>
    have hstep : (pipelineRun units r (n + 1)).calls
        = (pipelineRun units r n).calls
          ++ (pipelineDrained units r n).reverse.filterMap (deliveryOf units) := by
      show (Update (n : Int) units (pipelineBefore units r n)).calls = _
      rw [Update_calls]
      rfl
    rw [hstep, ih, pipelineDrained_eq]
    by_cases h5 : 5 ≤ n
    · rw [if_pos h5, show n + 1 - 5 = (n - 5) + 1 by omega, List.range_succ,
        List.filterMap_append]
      rfl
    · rw [if_neg h5, show n + 1 - 5 = 0 by omega, show n - 5 = 0 by omega]
      rfl

theorem filterMap_length_of_isSome {α β : Type} (f : α → Option β) :
    ∀ l : List α, (∀ x ∈ l, f x ≠ none) → (l.filterMap f).length = l.length := by
  intro l
  induction l with
  | nil => intro _; rfl
  | cons x l ih =>
    intro h
    have hx : f x ≠ none := h x (List.mem_cons_self _ _)
    obtain ⟨y, hy⟩ := Option.ne_none_iff_exists'.mp hx
    rw [List.filterMap_cons_some hy, List.length_cons, List.length_cons,
      ih (fun z hz => h z (List.mem_cons_of_mem _ hz))]

theorem callsSince_pipeline (units : Int → Option UnitPtr) (r : Nat → WaitingDamage) (f : Nat) :
    callsSince (pipelineBefore units r f) (pipelineRun units r (f + 1))
      = (pipelineDrained units r f).reverse.filterMap (deliveryOf units) :=
  callsSince_Update _ _ _

/-- C5: 300 consecutive frames `f = 0..299`; in frame `f` the record `r f`, whose target is
live, is pushed on slot `(f + 5) & 127` and `Update` drains slot `f & 127`. The `Update` of every
frame `f ≥ 5` finds exactly the record `r (f - 5)` and makes exactly one `DoDamage` call, for it;
the `Update`s of frames `0..4` find nothing and make no call; the log after frame 299 is the
deliveries of `r 0, ..., r 294`, each once and in this order (295 calls); and the records still
in the ring are `r 295, ..., r 299`, each alone in its slot, every other slot being empty. -/
theorem pipeline_300_frames (units : Int → Option UnitPtr) (r : Nat → WaitingDamage)
    (hlive : ∀ f, f < 300 → units (r f).target ≠ none) :
    (∀ f, 5 ≤ f → f < 300 →
        pipelineDrained units r f = [r (f - 5)]
        ∧ ∃ a, units (r (f - 5)).target = some a
            ∧ callsSince (pipelineBefore units r f) (pipelineRun units r (f + 1))
              = [Call.unitDoDamage a (r (f - 5)).damage (r (f - 5)).impulse
                  (if (r (f - 5)).attacker = -1 then none else units (r (f - 5)).attacker)
                  (r (f - 5)).weaponId])
    ∧ (∀ f, f < 5 →
        pipelineDrained units r f = []
        ∧ callsSince (pipelineBefore units r f) (pipelineRun units r (f + 1)) = [])
    ∧ (pipelineRun units r 300).calls
        = (List.range 295).filterMap (fun g => deliveryOf units (r g))
    ∧ (pipelineRun units r 300).calls.length = 295
    ∧ (∀ g, 295 ≤ g → g < 300 →
        (pipelineRun units r 300).waitingDamages ((g + 5) % 128) = [r g])
    ∧ (∀ i, (∀ g, 295 ≤ g → g < 300 → (g + 5) % 128 ≠ i) →
        (pipelineRun units r 300).waitingDamages i = []) := by
  refine ⟨?_, ?_, ?_, ?_, ?_, ?_⟩
  · intro f h5 h300
    have hd : pipelineDrained units r f = [r (f - 5)] := by
      rw [pipelineDrained_eq, if_pos h5]
    refine ⟨hd, ?_⟩
    obtain ⟨a, ha⟩ := Option.ne_none_iff_exists'.mp (hlive (f - 5) (by omega))
    refine ⟨a, ha, ?_⟩
    rw [callsSince_pipeline, hd]
    simp [deliveryOf, ha]
  · intro f h5
    have hd : pipelineDrained units r f = [] := by
      rw [pipelineDrained_eq, if_neg (by omega)]
    refine ⟨hd, ?_⟩
    rw [callsSince_pipeline, hd]
    rfl
  · exact pipelineRun_calls units r 300
  · rw [pipelineRun_calls units r 300]
    rw [filterMap_length_of_isSome]
    · simp
    · intro g hg
      have hg295 : g < 295 := by simpa using hg
      obtain ⟨a, ha⟩ := Option.ne_none_iff_exists'.mp (hlive g (by omega))
      simp [deliveryOf, ha]
  · intro g h1 h2
    exact (pipelineRun_inv units r 300).1 g h2 (by omega)
  · intro i hi
    apply (pipelineRun_inv units r 300).2 i
    intro g h1 h2
    exact hi g (by omega) h1

/-- Witness of C5: the records `pipelineRecord f`, every unit id being live. -/
theorem pipeline_300_frames_witness :
    (∀ f, 5 ≤ f → f < 300 →
        pipelineDrained (fun _ => some 0) pipelineRecord f = [pipelineRecord (f - 5)]
        ∧ ∃ a, (fun _ => some 0 : Int → Option UnitPtr) (pipelineRecord (f - 5)).target = some a
            ∧ callsSince (pipelineBefore (fun _ => some 0) pipelineRecord f)
                (pipelineRun (fun _ => some 0) pipelineRecord (f + 1))
              = [Call.unitDoDamage a (pipelineRecord (f - 5)).damage
                  (pipelineRecord (f - 5)).impulse
                  (if (pipelineRecord (f - 5)).attacker = -1 then none
                    else (fun _ => some 0 : Int → Option UnitPtr)
                      (pipelineRecord (f - 5)).attacker)
                  (pipelineRecord (f - 5)).weaponId])
    ∧ (∀ f, f < 5 →
        pipelineDrained (fun _ => some 0) pipelineRecord f = []
        ∧ callsSince (pipelineBefore (fun _ => some 0) pipelineRecord f)
            (pipelineRun (fun _ => some 0) pipelineRecord (f + 1)) = [])
    ∧ (pipelineRun (fun _ => some 0) pipelineRecord 300).calls
        = (List.range 295).filterMap (fun g => deliveryOf (fun _ => some 0) (pipelineRecord g))
    ∧ (pipelineRun (fun _ => some 0) pipelineRecord 300).calls.length = 295
    ∧ (∀ g, 295 ≤ g → g < 300 →
        (pipelineRun (fun _ => some 0) pipelineRecord 300).waitingDamages ((g + 5) % 128)
          = [pipelineRecord g])
    ∧ (∀ i, (∀ g, 295 ≤ g → g < 300 → (g + 5) % 128 ≠ i) →
        (pipelineRun (fun _ => some 0) pipelineRecord 300).waitingDamages i = []) :=
  pipeline_300_frames (fun _ => some 0) pipelineRecord (by intro f _; simp)

/-! ## Spatial queries visit each unit once -/

theorem firstVisits_mem : ∀ (l seen : List UnitPtr) (u : UnitPtr),
    u ∈ firstVisits seen l ↔ u ∈ l ∧ u ∉ seen := by
  intro l
  induction l with
  | nil => intro seen u; simp [firstVisits]
  | cons x xs ih =>
    intro seen u
    unfold firstVisits
    by_cases hx : x ∈ seen
    · rw [if_pos hx, ih]
      constructor
      · rintro ⟨h1, h2⟩
        exact ⟨List.mem_cons_of_mem _ h1, h2⟩
      · rintro ⟨h1, h2⟩
        rcases List.mem_cons.mp h1 with h | h
        · exact absurd (h ▸ hx) h2
        · exact ⟨h, h2⟩
    · rw [if_neg hx, List.mem_cons, ih]
      constructor
      · rintro (h | ⟨h1, h2⟩)
        · exact ⟨h ▸ List.mem_cons_self _ _, h ▸ hx⟩
        · exact ⟨List.mem_cons_of_mem _ h1, fun h => h2 (List.mem_cons_of_mem _ h)⟩
      · rintro ⟨h1, h2⟩
        by_cases hux : u = x
        · exact Or.inl hux
        · right
          rcases List.mem_cons.mp h1 with h | h
          · exact absurd h hux
          · refine ⟨h, ?_⟩
            intro h3
            rcases List.mem_cons.mp h3 with h4 | h4
            · exact hux h4
            · exact h2 h4

theorem firstVisits_nodup : ∀ (l seen : List UnitPtr), (firstVisits seen l).Nodup := by
  intro l
  induction l with
  | nil => intro seen; simp [firstVisits]
  | cons x xs ih =>
    intro seen
    unfold firstVisits
    by_cases hx : x ∈ seen
    · rw [if_pos hx]
      exact ih seen
    · rw [if_neg hx, List.nodup_cons]
      refine ⟨?_, ih _⟩
      rw [firstVisits_mem]
      rintro ⟨_, h⟩
      exact h (List.mem_cons_self _ _)

theorem markVisited_cons (T : Int) (seen : List UnitPtr) (heap : UnitPtr → CUnit) (x : UnitPtr)
    (hx : x ∉ seen) :
    Function.update (markVisited T seen heap) x { markVisited T seen heap x with tempNum := T }
      = markVisited T (x :: seen) heap := by
  funext u
  by_cases hu : u = x
  · subst hu
    simp [markVisited, hx]
  · rw [Function.update_noteq hu]
    simp [markVisited, hu]

/-- The innermost loop over a list of units, started when the units of `seen` carry the drawn
number and no other unit does. -/
theorem foldl_visitUnit {σ : Type} (filter : TFilter) (Q : TQuery σ) (T : Int)
    (heap : UnitPtr → CUnit) (hfresh : ∀ u, (heap u).tempNum ≠ T) :
    ∀ (l seen : List UnitPtr) (q : σ),
      l.foldl (visitUnit filter Q T) (markVisited T seen heap, q)
        = (markVisited T (l.reverse ++ seen) heap,
           ((firstVisits seen l).filter (fun u => filter.Unit { heap u with tempNum := T })).foldl
             (fun q p => Q.AddUnit q p { heap p with tempNum := T }) q) := by
  intro l
  induction l with
  | nil => intro seen q; simp [firstVisits]
  | cons x xs ih =>
    intro seen q
    rw [List.foldl_cons]
    by_cases hx : x ∈ seen
    · have hstep : visitUnit filter Q T (markVisited T seen heap, q) x
          = (markVisited T seen heap, q) := by
        simp [visitUnit, markVisited, hx]
      have hmark : markVisited T ((x :: xs).reverse ++ seen) heap
          = markVisited T (xs.reverse ++ seen) heap := by
        funext u
        by_cases hu : u = x
        · subst hu; simp [markVisited, hx]
        · simp [markVisited, hu]
      rw [hstep, ih seen q, hmark]
      simp [firstVisits, hx]
    · have hmark : markVisited T ((x :: xs).reverse ++ seen) heap
          = markVisited T (xs.reverse ++ (x :: seen)) heap := by
        funext u
        simp [markVisited]
      have hval : markVisited T (x :: seen) heap x = { heap x with tempNum := T } := by
        simp [markVisited]
      have hne : (markVisited T seen heap x).tempNum ≠ T := by
        simp [markVisited, hx, hfresh x]
      by_cases hacc : filter.Unit { heap x with tempNum := T } = true
      · have hstep : visitUnit filter Q T (markVisited T seen heap, q) x
            = (markVisited T (x :: seen) heap, Q.AddUnit q x { heap x with tempNum := T }) := by
          unfold visitUnit
          simp only [if_pos hne, markVisited_cons T seen heap x hx, hval, if_pos hacc]
        rw [hstep, ih (x :: seen) _, hmark]
        simp [firstVisits, hx, hacc]
      · have hstep : visitUnit filter Q T (markVisited T seen heap, q) x
            = (markVisited T (x :: seen) heap, q) := by
          unfold visitUnit
          simp only [if_pos hne, markVisited_cons T seen heap x hx, hval, if_neg hacc]
        rw [hstep, ih (x :: seen) _, hmark]
        simp [firstVisits, hx, hacc]

theorem foldl_flatMap_eq {α β γ : Type} (f : α → List β) (g : γ → β → γ) :
    ∀ (l : List α) (c : γ), (l.flatMap f).foldl g c = l.foldl (fun c x => (f x).foldl g c) c := by
  intro l
  induction l with
  | nil => intro c; rfl
  | cons x xs ih =>
    intro c
    rw [List.flatMap_cons, List.foldl_append, ih, List.foldl_cons]

theorem markVisited_nil (T : Int) (heap : UnitPtr → CUnit) : markVisited T [] heap = heap := by
  funext u
  simp [markVisited]

/-- The three nested loops of `QueryUnits` are one loop over `enumeratedUnits`. -/
theorem QueryUnits_fold {σ : Type} (qf : QuadField) (ActiveAllyTeams : Int) (filter : TFilter)
    (Q : TQuery σ) (st : QueryState σ) :
    QueryUnits qf ActiveAllyTeams filter Q st
      = { tempNum := st.tempNum + 1
          heap := ((enumeratedUnits qf ActiveAllyTeams filter (Q.pos st.query)
            (Q.radius st.query)).foldl (visitUnit filter Q st.tempNum) (st.heap, st.query)).1
          query := ((enumeratedUnits qf ActiveAllyTeams filter (Q.pos st.query)
            (Q.radius st.query)).foldl (visitUnit filter Q st.tempNum) (st.heap, st.query)).2 } := by
  have hteam : ∀ (quad : Quad) (c : (UnitPtr → CUnit) × σ) (t : Int),
      visitTeam filter Q st.tempNum quad c t
        = (if filter.Team t then quad.teamUnits t else []).foldl
            (visitUnit filter Q st.tempNum) c := by
    intro quad c t
    unfold visitTeam
    cases filter.Team t <;> simp
  have hquad : ∀ (c : (UnitPtr → CUnit) × σ) (qi : Int),
      visitQuad qf ActiveAllyTeams filter Q st.tempNum c qi
        = (((List.range ActiveAllyTeams.toNat).map Int.ofNat).flatMap (fun t =>
            if filter.Team t then (qf.GetQuad qi).teamUnits t else [])).foldl
            (visitUnit filter Q st.tempNum) c := by
    intro c qi
    unfold visitQuad
    rw [foldl_flatMap_eq]
    have hfun : visitTeam filter Q st.tempNum (qf.GetQuad qi)
        = fun c t => (if filter.Team t then (qf.GetQuad qi).teamUnits t else []).foldl
            (visitUnit filter Q st.tempNum) c := by
      funext c t
      exact hteam _ c t
    dsimp only
    rw [hfun]
  have hfun : visitQuad qf ActiveAllyTeams filter Q st.tempNum
      = fun c qi => (((List.range ActiveAllyTeams.toNat).map Int.ofNat).flatMap (fun t =>
            if filter.Team t then (qf.GetQuad qi).teamUnits t else [])).foldl
            (visitUnit filter Q st.tempNum) c := by
    funext c qi
    exact hquad c qi
  unfold QueryUnits enumeratedUnits
  dsimp only
  rw [foldl_flatMap_eq, hfun]

/-- Outcome of `QueryUnits` when no unit carries the drawn generation number: the query object
has received, in order, the first occurrences of the enumerated units that `filter.Unit`
accepts. -/
theorem QueryUnits_eq {σ : Type} (qf : QuadField) (ActiveAllyTeams : Int) (filter : TFilter)
    (Q : TQuery σ) (T : Int) (heap : UnitPtr → CUnit) (q0 : σ)
    (hfresh : ∀ u, (heap u).tempNum ≠ T) :
    (QueryUnits qf ActiveAllyTeams filter Q ⟨T, heap, q0⟩).query
      = ((firstVisits [] (enumeratedUnits qf ActiveAllyTeams filter (Q.pos q0)
            (Q.radius q0))).filter (fun u => filter.Unit { heap u with tempNum := T })).foldl
          (fun q p => Q.AddUnit q p { heap p with tempNum := T }) q0 := by
  rw [QueryUnits_fold]
  have h := foldl_visitUnit filter Q T heap hfresh
    (enumeratedUnits qf ActiveAllyTeams filter (Q.pos q0) (Q.radius q0)) [] q0
  rw [markVisited_nil] at h
  simp only [h]

theorem mem_enumeratedUnits (qf : QuadField) (ActiveAllyTeams : Int) (filter : TFilter)
    (pos : float3) (radius : ℚ) (u : UnitPtr) :
    u ∈ enumeratedUnits qf ActiveAllyTeams filter pos radius
      ↔ inAcceptedCell qf ActiveAllyTeams filter pos radius u := by
  unfold enumeratedUnits inAcceptedCell
  simp only [List.mem_flatMap, List.mem_map, List.mem_range]
  constructor
  · rintro ⟨qi, hqi, t, ⟨k, hk, rfl⟩, hu⟩
    by_cases hT : filter.Team (Int.ofNat k) = true
    · rw [if_pos hT] at hu
      exact ⟨qi, hqi, Int.ofNat k, Int.ofNat_nonneg k, by
        have : (Int.ofNat k) = (k : Int) := rfl
        omega, hT, hu⟩
    · rw [if_neg hT] at hu
      exact absurd hu (List.not_mem_nil _)
  · rintro ⟨qi, hqi, t, ht0, htn, hT, hu⟩
    refine ⟨qi, hqi, t, ⟨t.toNat, by omega, ?_⟩, ?_⟩
    · show ((t.toNat : Nat) : Int) = t
      omega
    · rw [if_pos hT]
      exact hu

theorem foldl_trace (heap : UnitPtr → CUnit) (pos : float3) (radius : ℚ) :
    ∀ (l q : List UnitPtr),
      l.foldl (fun q p => (traceQuery pos radius).AddUnit q p (heap p)) q = q ++ l := by
  intro l
  induction l with
  | nil => intro q; simp
  | cons x xs ih =>
    intro q
    rw [List.foldl_cons, ih]
    simp [traceQuery]

/-- The sequence of `AddUnit` calls recorded by the trace query. -/
theorem QueryUnits_trace (qf : QuadField) (ActiveAllyTeams : Int) (filter : TFilter)
    (pos : float3) (radius : ℚ) (T : Int) (heap : UnitPtr → CUnit)
    (hfresh : ∀ u, (heap u).tempNum ≠ T) :
    (QueryUnits qf ActiveAllyTeams filter (traceQuery pos radius) ⟨T, heap, []⟩).query
      = (firstVisits [] (enumeratedUnits qf ActiveAllyTeams filter pos radius)).filter
          (fun u => filter.Unit { heap u with tempNum := T }) := by
  rw [QueryUnits_eq qf ActiveAllyTeams filter (traceQuery pos radius) T heap [] hfresh]
  have h := foldl_trace (fun p => { heap p with tempNum := T }) pos radius
    ((firstVisits [] (enumeratedUnits qf ActiveAllyTeams filter pos radius)).filter
      (fun u => filter.Unit { heap u with tempNum := T })) []
  simpa [traceQuery] using h

theorem mem_QueryUnits_trace (qf : QuadField) (ActiveAllyTeams : Int) (filter : TFilter)
    (pos : float3) (radius : ℚ) (T : Int) (heap : UnitPtr → CUnit)
    (hfresh : ∀ u, (heap u).tempNum ≠ T) (u : UnitPtr) :
    u ∈ (QueryUnits qf ActiveAllyTeams filter (traceQuery pos radius) ⟨T, heap, []⟩).query
      ↔ (inAcceptedCell qf ActiveAllyTeams filter pos radius u
          ∧ filter.Unit { heap u with tempNum := T } = true) := by
  rw [QueryUnits_trace qf ActiveAllyTeams filter pos radius T heap hfresh, List.mem_filter,
    firstVisits_mem, mem_enumeratedUnits]
  simp

theorem QueryUnits_query_eq_foldl_trace {σ : Type} (qf : QuadField) (ActiveAllyTeams : Int)
    (filter : TFilter) (Q : TQuery σ) (T : Int) (heap : UnitPtr → CUnit) (q0 : σ)
    (hfresh : ∀ u, (heap u).tempNum ≠ T) :
    (QueryUnits qf ActiveAllyTeams filter Q ⟨T, heap, q0⟩).query
      = (QueryUnits qf ActiveAllyTeams filter (traceQuery (Q.pos q0) (Q.radius q0))
          ⟨T, heap, []⟩).query.foldl
          (fun q p => Q.AddUnit q p { heap p with tempNum := T }) q0 := by
  rw [QueryUnits_trace qf ActiveAllyTeams filter _ _ T heap hfresh,
    QueryUnits_eq qf ActiveAllyTeams filter Q T heap q0 hfresh]

/-- C7: for every list of quads returned for the query and every filter, provided no unit's
`tempNum` equals the generation number drawn for the call, `QueryUnits` calls `AddUnit` exactly
once for each unit that lies in a returned quad in the list of an allyteam accepted by
`filter.Team` and is accepted by `filter.Unit`, and for no other unit: the recorded sequence of
`AddUnit` calls has no duplicates and contains exactly these units, and for every query object
the final query is `AddUnit` folded over that same sequence. -/
theorem QueryUnits_adds_each_unit_once (qf : QuadField) (ActiveAllyTeams : Int)
    (filter : TFilter) (pos : float3) (radius : ℚ) (T : Int) (heap : UnitPtr → CUnit)
    (hfresh : ∀ u, (heap u).tempNum ≠ T) :
    (QueryUnits qf ActiveAllyTeams filter (traceQuery pos radius) ⟨T, heap, []⟩).query.Nodup
    ∧ (∀ u, u ∈ (QueryUnits qf ActiveAllyTeams filter (traceQuery pos radius)
                  ⟨T, heap, []⟩).query
        ↔ (inAcceptedCell qf ActiveAllyTeams filter pos radius u
            ∧ filter.Unit { heap u with tempNum := T } = true))
    ∧ (∀ (σ : Type) (Q : TQuery σ) (q0 : σ), Q.pos q0 = pos → Q.radius q0 = radius →
        (QueryUnits qf ActiveAllyTeams filter Q ⟨T, heap, q0⟩).query
          = (QueryUnits qf ActiveAllyTeams filter (traceQuery pos radius)
              ⟨T, heap, []⟩).query.foldl
              (fun q p => Q.AddUnit q p { heap p with tempNum := T }) q0) := by
  refine ⟨?_, ?_, ?_⟩
  · rw [QueryUnits_trace qf ActiveAllyTeams filter pos radius T heap hfresh]
    exact (firstVisits_nodup _ _).filter _
  · exact mem_QueryUnits_trace qf ActiveAllyTeams filter pos radius T heap hfresh
  · intro σ Q q0 hpos hrad
    rw [QueryUnits_query_eq_foldl_trace qf ActiveAllyTeams filter Q T heap q0 hfresh, hpos, hrad]

/-- Witness of C7: two quads sharing a unit, no unit carrying the drawn number 5. -/
theorem QueryUnits_adds_each_unit_once_witness :
    (QueryUnits twoQuads 2 acceptAll (traceQuery origin 10)
      ⟨5, fun _ => unitAt 7 origin, []⟩).query.Nodup :=
  (QueryUnits_adds_each_unit_once twoQuads 2 acceptAll origin 10 5 (fun _ => unitAt 7 origin)
    (by intro u; simp [unitAt])).1

/-- Successive queries keep every unit's `tempNum` below `gs->tempNum`, so that no unit carries
the number drawn by the next query. -/
theorem QueryUnits_tempNum_lt {σ : Type} (qf : QuadField) (ActiveAllyTeams : Int)
    (filter : TFilter) (Q : TQuery σ) (st : QueryState σ)
    (h : ∀ u, (st.heap u).tempNum < st.tempNum) :
    ∀ u, ((QueryUnits qf ActiveAllyTeams filter Q st).heap u).tempNum
      < (QueryUnits qf ActiveAllyTeams filter Q st).tempNum := by
  rw [QueryUnits_fold]
  have hfresh : ∀ u, (st.heap u).tempNum ≠ st.tempNum := fun u => ne_of_lt (h u)
  have hf := foldl_visitUnit filter Q st.tempNum st.heap hfresh
    (enumeratedUnits qf ActiveAllyTeams filter (Q.pos st.query) (Q.radius st.query)) [] st.query
  rw [markVisited_nil] at hf
  intro u
  simp only [hf]
  unfold markVisited
  split
  · show st.tempNum < st.tempNum + 1
    omega
  · have := h u
    omega

/-! ## The closest enemy unit -/

/-- The loop of `AddUnit` calls of `Query::ClosestUnit` over a list of units. -/
theorem foldl_ClosestUnit (h : UnitPtr → CUnit) :
    ∀ (l : List UnitPtr) (q : ClosestUnit),
      (l.foldl (fun q p => ClosestUnit.AddUnit q p (h p)) q).pos = q.pos
      ∧ (l.foldl (fun q p => ClosestUnit.AddUnit q p (h p)) q).closeSqDist ≤ q.closeSqDist
      ∧ (∀ p ∈ l, (q.pos - (h p).midPos).SqLength2D ≤ q.closeSqDist →
          (l.foldl (fun q p => ClosestUnit.AddUnit q p (h p)) q).closeSqDist
            ≤ (q.pos - (h p).midPos).SqLength2D)
      ∧ (((l.foldl (fun q p => ClosestUnit.AddUnit q p (h p)) q).closeUnit = q.closeUnit
            ∧ (l.foldl (fun q p => ClosestUnit.AddUnit q p (h p)) q).closeSqDist = q.closeSqDist
            ∧ ∀ p ∈ l, ¬ (q.pos - (h p).midPos).SqLength2D ≤ q.closeSqDist)
          ∨ (∃ p ∈ l, (l.foldl (fun q p => ClosestUnit.AddUnit q p (h p)) q).closeUnit = some p
              ∧ (q.pos - (h p).midPos).SqLength2D
                  = (l.foldl (fun q p => ClosestUnit.AddUnit q p (h p)) q).closeSqDist
              ∧ (q.pos - (h p).midPos).SqLength2D ≤ q.closeSqDist)) := by
  intro l
  induction l with
  | nil =>
    intro q
    simp
  | cons x xs ih =>
    intro q
    rw [List.foldl_cons]
    by_cases hx : (q.pos - (h x).midPos).SqLength2D ≤ q.closeSqDist
    · have hq : ClosestUnit.AddUnit q x (h x)
          = { q with closeSqDist := (q.pos - (h x).midPos).SqLength2D, closeUnit := some x } := by
        unfold ClosestUnit.AddUnit
        simp only [if_pos hx]
      rw [hq]
      obtain ⟨hA, hB, hC, hD⟩ := ih
        { q with closeSqDist := (q.pos - (h x).midPos).SqLength2D, closeUnit := some x }
      simp only at hA hB hC hD
      refine ⟨hA, le_trans hB hx, ?_, ?_⟩
      · intro p hp hpd
        rcases List.mem_cons.mp hp with hpx | hpxs
        · rw [hpx]
          exact hB
        · by_cases hpx2 : (q.pos - (h p).midPos).SqLength2D ≤ (q.pos - (h x).midPos).SqLength2D
          · exact hC p hpxs hpx2
          · exact le_trans hB (le_of_lt (not_le.mp hpx2))
      · right
        rcases hD with ⟨h1, h2, _⟩ | ⟨p, hp, h1, h2, h3⟩
        · exact ⟨x, List.mem_cons_self _ _, h1, h2.symm, hx⟩
        · exact ⟨p, List.mem_cons_of_mem _ hp, h1, h2, le_trans h3 hx⟩
    · have hq : ClosestUnit.AddUnit q x (h x) = q := by
        unfold ClosestUnit.AddUnit
        simp only [if_neg hx]
      rw [hq]
      obtain ⟨hA, hB, hC, hD⟩ := ih q
      refine ⟨hA, hB, ?_, ?_⟩
      · intro p hp hpd
        rcases List.mem_cons.mp hp with hpx | hpxs
        · rw [hpx] at hpd
          exact absurd hpd hx
        · exact hC p hpxs hpd
      · rcases hD with ⟨h1, h2, h3⟩ | ⟨p, hp, h1, h2, h3⟩
        · left
          refine ⟨h1, h2, ?_⟩
          intro p hp
          rcases List.mem_cons.mp hp with hpx | hpxs
          · rw [hpx]
            exact hx
          · exact h3 p hpxs
        · right
          exact ⟨p, List.mem_cons_of_mem _ hp, h1, h2, h3⟩

theorem mem_trace_Enemy_InLos (qf : QuadField) (ActiveAllyTeams : Int) (Ally : Int → Int → Bool)
    (LOS_INLOS LOS_INRADAR : Nat) (T : Int) (heap : UnitPtr → CUnit) (pos : float3)
    (searchRadius : ℚ) (searchAllyteam : Int) (hfresh : ∀ u, (heap u).tempNum ≠ T)
    (u : UnitPtr) :
    enemyInReach qf ActiveAllyTeams Ally LOS_INLOS LOS_INRADAR heap pos searchRadius
        searchAllyteam u
      ↔ (u ∈ (QueryUnits qf ActiveAllyTeams
            (Enemy_InLos Ally LOS_INLOS LOS_INRADAR searchAllyteam)
            (traceQuery pos searchRadius) ⟨T, heap, []⟩).query
          ∧ (pos - (heap u).midPos).SqLength2D ≤ searchRadius * searchRadius) := by
  rw [mem_QueryUnits_trace qf ActiveAllyTeams _ pos searchRadius T heap hfresh]
  unfold enemyInReach inAcceptedCell Enemy_InLos
  simp only [Bool.not_eq_true', bne_iff_ne, ne_eq, and_assoc]

/-- `Explosion` is its head, its damage part and its tail, in this order. -/
theorem Explosion_eq (env : ExplosionEnv) (p : ExplosionParams) (s : HelperState) :
    Explosion env p s
      = explosionTail env p
          (explosionDamage (explosionUnitDamage env p) (explosionFeatureDamage env p)
            (deformMap env.mapDamageDisabled p p.pos p.craterAOE (explosionAltitude env p))
            p.impactOnly p.hitUnit p.hitFeature
            (env.GetUnitsExact p.pos p.damageAOE) (env.GetFeaturesExact p.pos p.damageAOE)
            (explosionHead env p s)) := by
  rfl

theorem damageLoop_eq {α σ : Type} [DecidableEq α] (dmg : α → σ → σ) (hit : Option α) :
    ∀ (l : List α) (flag : Bool) (s : σ),
      damageLoop dmg hit l flag s
        = (flag || decide (∃ e ∈ l, some e = hit), l.foldl (fun s e => dmg e s) s) := by
  intro l
  induction l with
  | nil => intro flag s; simp [damageLoop]
  | cons x xs ih =>
    intro flag s
    unfold damageLoop
    rw [ih]
    by_cases hx : some x = hit
    · simp [hx]
    · cases flag <;> simp [hx]

theorem damageBlock_eq {α σ : Type} [DecidableEq α] (dmg : α → σ → σ) (hit : Option α)
    (found : List α) (s : σ) :
    damageBlock dmg hit found s = (processedEntities found hit).foldl (fun s e => dmg e s) s := by
  unfold damageBlock processedEntities
  rw [damageLoop_eq]
  cases hit with
  | none => rfl
  | some h =>
    by_cases hmem : h ∈ found
    · simp [hmem]
    · simp [hmem]

theorem mem_processedEntities {α : Type} [DecidableEq α] (found : List α) (hit : Option α)
    (e : α) : e ∈ processedEntities found hit ↔ e ∈ found ∨ hit = some e := by
  unfold processedEntities
  cases hit with
  | none => simp
  | some h =>
    dsimp only
    by_cases hmem : h ∈ found
    · rw [if_pos hmem]
      constructor
      · exact Or.inl
      · rintro (h1 | h1)
        · exact h1
        · rw [← Option.some.inj h1]
          exact hmem
    · rw [if_neg hmem]
      simp only [List.mem_append, List.mem_singleton, Option.some.injEq]
      constructor
      · rintro (h1 | h1)
        · exact Or.inl h1
        · exact Or.inr h1.symm
      · rintro (h1 | h1)
        · exact Or.inl h1
        · exact Or.inr h1.symm

theorem nodup_processedEntities {α : Type} [DecidableEq α] (found : List α) (hit : Option α)
    (hnd : found.Nodup) : (processedEntities found hit).Nodup := by
  unfold processedEntities
  cases hit with
  | none => exact hnd
  | some h =>
    dsimp only
    by_cases hmem : h ∈ found
    · rw [if_pos hmem]
      exact hnd
    · rw [if_neg hmem]
      rw [List.nodup_append]
      refine ⟨hnd, List.nodup_singleton h, ?_⟩
      intro a ha hb
      rw [List.mem_singleton] at hb
      exact hmem (hb ▸ ha)

/-- C9: when `impactOnly` is false, the damage part of `Explosion` applies the per-unit damage
function once to each unit of the list `processedEntities units hitUnit`, then the per-feature
function once to each feature of `processedEntities features hitFeature`, then deforms the map;
this holds for whatever the two damage functions do, and so for `Explosion` itself. The units
processed are exactly the query result `GetUnitsExact(expPos, damageAOE)` united with `hitUnit`,
and the list has no duplicates when the query result has none; the same for features. -/
theorem Explosion_damages_query_result_and_hit (env : ExplosionEnv) (p : ExplosionParams)
    (s : HelperState) (himp : p.impactOnly = false) :
    (∀ (σ : Type) (dmgUnit : UnitPtr → σ → σ) (dmgFeature : FeaturePtr → σ → σ)
        (deform : σ → σ) (units : List UnitPtr) (features : List FeaturePtr) (t : σ),
        explosionDamage dmgUnit dmgFeature deform p.impactOnly p.hitUnit p.hitFeature units
            features t
          = deform ((processedEntities features p.hitFeature).foldl (fun t f => dmgFeature f t)
              ((processedEntities units p.hitUnit).foldl (fun t u => dmgUnit u t) t)))
    ∧ Explosion env p s
        = explosionTail env p
            (deformMap env.mapDamageDisabled p p.pos p.craterAOE (explosionAltitude env p)
              ((processedEntities (env.GetFeaturesExact p.pos p.damageAOE) p.hitFeature).foldl
                (fun t f => explosionFeatureDamage env p f t)
                ((processedEntities (env.GetUnitsExact p.pos p.damageAOE) p.hitUnit).foldl
                  (fun t u => explosionUnitDamage env p u t) (explosionHead env p s))))
    ∧ (∀ u, u ∈ processedEntities (env.GetUnitsExact p.pos p.damageAOE) p.hitUnit
        ↔ u ∈ env.GetUnitsExact p.pos p.damageAOE ∨ p.hitUnit = some u)
    ∧ ((env.GetUnitsExact p.pos p.damageAOE).Nodup →
        (processedEntities (env.GetUnitsExact p.pos p.damageAOE) p.hitUnit).Nodup)
    ∧ (∀ f, f ∈ processedEntities (env.GetFeaturesExact p.pos p.damageAOE) p.hitFeature
        ↔ f ∈ env.GetFeaturesExact p.pos p.damageAOE ∨ p.hitFeature = some f)
    ∧ ((env.GetFeaturesExact p.pos p.damageAOE).Nodup →
        (processedEntities (env.GetFeaturesExact p.pos p.damageAOE) p.hitFeature).Nodup) := by
  have hgen : ∀ (σ : Type) (dmgUnit : UnitPtr → σ → σ) (dmgFeature : FeaturePtr → σ → σ)
      (deform : σ → σ) (units : List UnitPtr) (features : List FeaturePtr) (t : σ),
      explosionDamage dmgUnit dmgFeature deform p.impactOnly p.hitUnit p.hitFeature units
          features t
        = deform ((processedEntities features p.hitFeature).foldl (fun t f => dmgFeature f t)
            ((processedEntities units p.hitUnit).foldl (fun t u => dmgUnit u t) t)) := by
    intro σ dmgUnit dmgFeature deform units features t
    unfold explosionDamage
    rw [himp]
    simp only [Bool.false_eq_true, if_false, damageBlock_eq]
  refine ⟨hgen, ?_, mem_processedEntities _ _, nodup_processedEntities _ _,
    mem_processedEntities _ _, nodup_processedEntities _ _⟩
  rw [Explosion_eq, hgen]

/-- Witness of C9: the hit unit 5 is not among the units 0, 1 returned by the range query. -/
theorem Explosion_damages_query_result_and_hit_witness :
    Explosion flatEnv (blastAtOrigin false (some 5)) emptyState
      = explosionTail flatEnv (blastAtOrigin false (some 5))
          (deformMap flatEnv.mapDamageDisabled (blastAtOrigin false (some 5))
            (blastAtOrigin false (some 5)).pos (blastAtOrigin false (some 5)).craterAOE
            (explosionAltitude flatEnv (blastAtOrigin false (some 5)))
            ((processedEntities
                (flatEnv.GetFeaturesExact (blastAtOrigin false (some 5)).pos
                  (blastAtOrigin false (some 5)).damageAOE)
                (blastAtOrigin false (some 5)).hitFeature).foldl
              (fun t f => explosionFeatureDamage flatEnv (blastAtOrigin false (some 5)) f t)
              ((processedEntities
                  (flatEnv.GetUnitsExact (blastAtOrigin false (some 5)).pos
                    (blastAtOrigin false (some 5)).damageAOE)
                  (blastAtOrigin false (some 5)).hitUnit).foldl
                (fun t u => explosionUnitDamage flatEnv (blastAtOrigin false (some 5)) u t)
                (explosionHead flatEnv (blastAtOrigin false (some 5)) emptyState)))) :=
  (Explosion_damages_query_result_and_hit flatEnv (blastAtOrigin false (some 5)) emptyState
    rfl).2.1

/-! ## Explosions with `impactOnly` -/

theorem explosionHead_form (env : ExplosionEnv) (p : ExplosionParams) (s : HelperState) :
    ∃ H : List Call, (∀ c ∈ H, c.isDamage = false)
      ∧ explosionHead env p s = ⟨s.waitingDamages, s.calls ++ H⟩ := by
  have hone : ∀ c ∈ [Call.eventHandlerExplosion p.weaponDefID p.pos p.owner],
      c.isDamage = false := by
    intro c hc
    rw [List.mem_singleton.mp hc]
    rfl
  unfold explosionHead
  dsimp only
  cases hui : env.luaUI with
  | false => exact ⟨_, hone, rfl⟩
  | true =>
    cases hwd : p.weaponDef with
    | none => exact ⟨_, hone, rfl⟩
    | some wdef =>
      by_cases hshake : wdef.cameraShake > 0
      · refine ⟨[Call.eventHandlerExplosion p.weaponDefID p.pos p.owner,
          Call.shockFront wdef.cameraShake p.pos p.damageAOE], ?_, ?_⟩
        · intro c hc
          simp only [List.mem_cons, List.mem_singleton, List.mem_nil_iff, or_false] at hc
          rcases hc with hc | hc <;> rw [hc] <;> rfl
        · simp [HelperState.call, hshake]
      · refine ⟨_, hone, ?_⟩
        simp [HelperState.call, hshake]

theorem explosionTail_form (env : ExplosionEnv) (p : ExplosionParams) :
    ∃ Tl : List Call, (∀ c ∈ Tl, c.isDamage = false)
      ∧ ∀ s, explosionTail env p s = ⟨s.waitingDamages, s.calls ++ Tl⟩ := by
  unfold explosionTail
  dsimp only
  cases hgfx : env.eventHandlerExplosion p.weaponDefID p.pos p.owner with
  | false =>
    refine ⟨[Call.generatorExplosion
        (match p.weaponDef with
          | some wdef => wdef.explosionGenerator
          | none => none)
        p.pos p.damages.GetDefaultDamage p.damageAOE p.owner p.gfxMod p.hitUnit p.dir,
      Call.explosionEvent p.pos p.damages.GetDefaultDamage p.damageAOE
        (p.weaponDef.map (fun wdef => wdef.id))], ?_, ?_⟩
    · intro c hc
      simp only [List.mem_cons, List.mem_singleton, List.mem_nil_iff, or_false] at hc
      rcases hc with hc | hc <;> rw [hc] <;> rfl
    · intro s
      simp [HelperState.call]
  | true =>
    refine ⟨[Call.explosionEvent p.pos p.damages.GetDefaultDamage p.damageAOE
        (p.weaponDef.map (fun wdef => wdef.id))], ?_, ?_⟩
    · intro c hc
      rw [List.mem_singleton.mp hc]
      rfl
    · intro s
      simp [HelperState.call]

theorem DoExplosionDamageFeature_cases (sqrtf : ℚ → ℚ) (SQUARE_SIZE : Int)
    (heap : FeaturePtr → CFeature) (feature : FeaturePtr) (expPos : float3) (expRad : ℚ)
    (damages : DamageArray) (weaponDefID : Int) (s : HelperState) :
    DoExplosionDamageFeature sqrtf SQUARE_SIZE heap feature expPos expRad damages weaponDefID s = s
    ∨ ∃ dmg imp, DoExplosionDamageFeature sqrtf SQUARE_SIZE heap feature expPos expRad damages
        weaponDefID s = s.call (Call.featureDoDamage feature dmg imp weaponDefID) := by
  unfold DoExplosionDamageFeature
  split
  · exact Or.inl rfl
  · dsimp only
    split <;> split <;> first | exact Or.inl rfl | exact Or.inr ⟨_, _, rfl⟩

/-- The shape of the state after an `impactOnly` explosion: besides the calls of the head and of
the tail, nothing, or one `DoDamage` call on the hit unit, or one record for the hit unit, or
(when there is no hit unit) one `DoDamage` call on the hit feature. -/
theorem Explosion_impactOnly_form (env : ExplosionEnv) (p : ExplosionParams) (s : HelperState)
    (himp : p.impactOnly = true) :
    ∃ H Tl : List Call, (∀ c ∈ H, c.isDamage = false) ∧ (∀ c ∈ Tl, c.isDamage = false)
      ∧ (Explosion env p s = ⟨s.waitingDamages, s.calls ++ (H ++ Tl)⟩
        ∨ (∃ hu dmg imp att w, p.hitUnit = some hu
            ∧ Explosion env p s
                = ⟨s.waitingDamages, s.calls ++ (H ++ Call.unitDoDamage hu dmg imp att w :: Tl)⟩)
        ∨ (∃ hu slot wd, p.hitUnit = some hu ∧ wd.target = (env.unitHeap hu).id
            ∧ Explosion env p s
                = ⟨(s.pushFront slot wd).waitingDamages, s.calls ++ (H ++ Tl)⟩)
        ∨ (∃ hf dmg imp w, p.hitUnit = none ∧ p.hitFeature = some hf
            ∧ Explosion env p s
                = ⟨s.waitingDamages,
                   s.calls ++ (H ++ Call.featureDoDamage hf dmg imp w :: Tl)⟩)) := by
  obtain ⟨H, hH, hhead⟩ := explosionHead_form env p s
  obtain ⟨Tl, hTl, htail⟩ := explosionTail_form env p
  refine ⟨H, Tl, hH, hTl, ?_⟩
  rw [Explosion_eq]
  unfold explosionDamage
  rw [himp, if_pos rfl, hhead]
  cases hhu : p.hitUnit with
  | some hu =>
    dsimp only
    unfold explosionUnitDamage
    rcases DoExplosionDamage_cases env.sqrtf env.MAX_EXPLOSION_IMPULSE env.frameNum env.unitHeap
      hu p.owner p.pos p.damageAOE p.explosionSpeed p.edgeEffectiveness p.ignoreOwner p.damages
      p.weaponDefID ⟨s.waitingDamages, s.calls ++ H⟩ with h | ⟨dmg, h⟩ | ⟨slot, att, dmg, h⟩
    · left
      rw [h, htail]
      simp
    · right; left
      refine ⟨hu, dmg, unitAddedImpulse env.sqrtf env.MAX_EXPLOSION_IMPULSE env.frameNum
        (env.unitHeap hu) p.pos p.damageAOE p.edgeEffectiveness p.damages, p.owner,
        p.weaponDefID, rfl, ?_⟩
      rw [h, htail]
      simp [HelperState.call]
    · right; right; left
      refine ⟨hu, slot, ⟨att, (env.unitHeap hu).id, dmg,
        unitAddedImpulse env.sqrtf env.MAX_EXPLOSION_IMPULSE env.frameNum (env.unitHeap hu) p.pos
          p.damageAOE p.edgeEffectiveness p.damages, p.weaponDefID⟩, rfl, rfl, ?_⟩
      rw [h, htail]
      simp [HelperState.pushFront]
  | none =>
    dsimp only
    cases hhf : p.hitFeature with
    | some hf =>
      dsimp only
      unfold explosionFeatureDamage
      rcases DoExplosionDamageFeature_cases env.sqrtf env.SQUARE_SIZE env.featureHeap hf p.pos
        p.damageAOE p.damages p.weaponDefID ⟨s.waitingDamages, s.calls ++ H⟩
        with h | ⟨dmg, imp, h⟩
      · left
        rw [h, htail]
        simp
      · right; right; right
        refine ⟨hf, dmg, imp, p.weaponDefID, rfl, rfl, ?_⟩
        rw [h, htail]
        simp [HelperState.call]
    | none =>
      left
      dsimp only
      rw [htail]
      simp

theorem filter_isDamage_nil (H Tl : List Call) (hH : ∀ c ∈ H, c.isDamage = false)
    (hTl : ∀ c ∈ Tl, c.isDamage = false) : (H ++ Tl).filter Call.isDamage = [] := by
  rw [List.filter_eq_nil_iff]
  intro c hc
  rcases List.mem_append.mp hc with h | h
  · simp [hH c h]
  · simp [hTl c h]

theorem filter_isDamage_one (H Tl : List Call) (c : Call) (hH : ∀ c ∈ H, c.isDamage = false)
    (hTl : ∀ c ∈ Tl, c.isDamage = false) (hc : c.isDamage = true) :
    (H ++ c :: Tl).filter Call.isDamage = [c] := by
  have h1 : H.filter Call.isDamage = [] := by
    rw [List.filter_eq_nil_iff]
    intro d hd
    simp [hH d hd]
  have h2 : Tl.filter Call.isDamage = [] := by
    rw [List.filter_eq_nil_iff]
    intro d hd
    simp [hTl d hd]
  rw [List.filter_append, List.filter_cons_of_pos hc, h1, h2]
  rfl

theorem mem_damage_of_mem (H Tl : List Call) (c d : Call) (hH : ∀ c ∈ H, c.isDamage = false)
    (hTl : ∀ c ∈ Tl, c.isDamage = false) (hmem : d ∈ H ++ c :: Tl) (hd : d.isDamage = true) :
    d = c := by
  rcases List.mem_append.mp hmem with h | h
  · rw [hH d h] at hd
    exact Bool.noConfusion hd
  · rcases List.mem_cons.mp h with h | h
    · exact h
    · rw [hTl d h] at hd
      exact Bool.noConfusion hd

/-- C10: when `impactOnly` is true, `Explosion` applies the damage function to at most one
entity, `hitUnit` if it is non-null and otherwise `hitFeature` if it is non-null, whatever the
range queries would return. Every `DoDamage` call on a unit that it logs is on `hitUnit`, every
deferred record it pushes is for `hitUnit`, every `DoDamage` call on a feature is on
`hitFeature` with `hitUnit` null, and in all there is at most one such call or record. -/
theorem Explosion_impactOnly_damages_only_hit (env : ExplosionEnv) (p : ExplosionParams)
    (s : HelperState) (himp : p.impactOnly = true) :
    (∀ (σ : Type) (dmgUnit : UnitPtr → σ → σ) (dmgFeature : FeaturePtr → σ → σ)
        (deform : σ → σ) (units : List UnitPtr) (features : List FeaturePtr) (t : σ),
        explosionDamage dmgUnit dmgFeature deform p.impactOnly p.hitUnit p.hitFeature units
            features t
          = match p.hitUnit with
            | some hu => dmgUnit hu t
            | none =>
              match p.hitFeature with
              | some hf => dmgFeature hf t
              | none => t)
    ∧ (∀ u d i a w, Call.unitDoDamage u d i a w ∈ callsSince s (Explosion env p s) →
        p.hitUnit = some u)
    ∧ (∀ f d i w, Call.featureDoDamage f d i w ∈ callsSince s (Explosion env p s) →
        p.hitUnit = none ∧ p.hitFeature = some f)
    ∧ (∀ slot wd, wd ∈ queuedSince s (Explosion env p s) slot →
        ∃ hu, p.hitUnit = some hu ∧ wd.target = (env.unitHeap hu).id)
    ∧ (((callsSince s (Explosion env p s)).filter Call.isDamage = []
          ∧ ∀ i, queuedSince s (Explosion env p s) i = [])
        ∨ ((∃ c, (callsSince s (Explosion env p s)).filter Call.isDamage = [c])
          ∧ ∀ i, queuedSince s (Explosion env p s) i = [])
        ∨ ((callsSince s (Explosion env p s)).filter Call.isDamage = []
          ∧ ∃ slot wd, ∀ i, queuedSince s (Explosion env p s) i
              = if i = slot then [wd] else [])) := by
  refine ⟨?_, ?_⟩
  · intro σ dmgUnit dmgFeature deform units features t
    unfold explosionDamage
    rw [himp, if_pos rfl]
  obtain ⟨H, Tl, hH, hTl, hform⟩ := Explosion_impactOnly_form env p s himp
  have hnoU : ∀ u d i a w, Call.unitDoDamage u d i a w ∉ H ++ Tl := by
    intro u d i a w hmem
    rcases List.mem_append.mp hmem with h | h
    · exact Bool.noConfusion (hH _ h)
    · exact Bool.noConfusion (hTl _ h)
  have hnoF : ∀ f d i w, Call.featureDoDamage f d i w ∉ H ++ Tl := by
    intro f d i w hmem
    rcases List.mem_append.mp hmem with h | h
    · exact Bool.noConfusion (hH _ h)
    · exact Bool.noConfusion (hTl _ h)
  rcases hform with h | ⟨hu, dmg, imp, att, w, hhu, h⟩ | ⟨hu, slot, wd, hhu, hwd, h⟩
    | ⟨hf, dmg, imp, w, hhu, hhf, h⟩
  · have hc : callsSince s (Explosion env p s) = H ++ Tl := by
      rw [h]; simp [callsSince]
    have hq : ∀ i, queuedSince s (Explosion env p s) i = [] := by
      intro i; rw [h]; simp [queuedSince]
    rw [hc]
    refine ⟨fun u d i a w hm => absurd hm (hnoU u d i a w),
      fun f d i w hm => absurd hm (hnoF f d i w), ?_, ?_⟩
    · intro slot wd hm
      rw [hq] at hm
      exact absurd hm (List.not_mem_nil _)
    · exact Or.inl ⟨filter_isDamage_nil H Tl hH hTl, hq⟩
  · have hc : callsSince s (Explosion env p s) = H ++ Call.unitDoDamage hu dmg imp att w :: Tl := by
      rw [h]; simp [callsSince]
    have hq : ∀ i, queuedSince s (Explosion env p s) i = [] := by
      intro i; rw [h]; simp [queuedSince]
    rw [hc]
    refine ⟨?_, ?_, ?_, ?_⟩
    · intro u d i a w' hm
      have := mem_damage_of_mem H Tl _ _ hH hTl hm rfl
      rw [Call.unitDoDamage.injEq] at this
      rw [hhu, this.1]
    · intro f d i w' hm
      have := mem_damage_of_mem H Tl _ _ hH hTl hm rfl
      exact Call.noConfusion this
    · intro slot wd hm
      rw [hq] at hm
      exact absurd hm (List.not_mem_nil _)
    · exact Or.inr (Or.inl ⟨⟨_, filter_isDamage_one H Tl _ hH hTl rfl⟩, hq⟩)
  · have hc : callsSince s (Explosion env p s) = H ++ Tl := by
      rw [h]; simp [callsSince]
    have hq : ∀ i, queuedSince s (Explosion env p s) i = if i = slot then [wd] else [] := by
      intro i
      rw [h]
      by_cases hi : i = slot <;> simp [queuedSince, HelperState.pushFront, hi]
    rw [hc]
    refine ⟨fun u d i a w hm => absurd hm (hnoU u d i a w),
      fun f d i w hm => absurd hm (hnoF f d i w), ?_, ?_⟩
    · intro slot' wd' hm
      rw [hq] at hm
      split at hm
      · rw [List.mem_singleton.mp hm]
        exact ⟨hu, hhu, hwd⟩
      · exact absurd hm (List.not_mem_nil _)
    · exact Or.inr (Or.inr ⟨filter_isDamage_nil H Tl hH hTl, slot, wd, hq⟩)
  · have hc : callsSince s (Explosion env p s) = H ++ Call.featureDoDamage hf dmg imp w :: Tl := by
      rw [h]; simp [callsSince]
    have hq : ∀ i, queuedSince s (Explosion env p s) i = [] := by
      intro i; rw [h]; simp [queuedSince]
    rw [hc]
    refine ⟨?_, ?_, ?_, ?_⟩
    · intro u d i a w' hm
      have := mem_damage_of_mem H Tl _ _ hH hTl hm rfl
      exact Call.noConfusion this
    · intro f d i w' hm
      have := mem_damage_of_mem H Tl _ _ hH hTl hm rfl
      rw [Call.featureDoDamage.injEq] at this
      rw [hhf, this.1]
      exact ⟨hhu, rfl⟩
    · intro slot wd hm
      rw [hq] at hm
      exact absurd hm (List.not_mem_nil _)
    · exact Or.inr (Or.inl ⟨⟨_, filter_isDamage_one H Tl _ hH hTl rfl⟩, hq⟩)

/-- Witness of C10: an `impactOnly` explosion that hit unit 5 while the range query would
return units 0 and 1: at most one `DoDamage` call or deferred record is added. -/
theorem Explosion_impactOnly_damages_only_hit_witness :
    ((callsSince emptyState
          (Explosion flatEnv (blastAtOrigin true (some 5)) emptyState)).filter Call.isDamage = []
        ∧ ∀ i, queuedSince emptyState
            (Explosion flatEnv (blastAtOrigin true (some 5)) emptyState) i = [])
    ∨ ((∃ c, (callsSince emptyState
          (Explosion flatEnv (blastAtOrigin true (some 5)) emptyState)).filter Call.isDamage = [c])
        ∧ ∀ i, queuedSince emptyState
            (Explosion flatEnv (blastAtOrigin true (some 5)) emptyState) i = [])
    ∨ ((callsSince emptyState
          (Explosion flatEnv (blastAtOrigin true (some 5)) emptyState)).filter Call.isDamage = []
        ∧ ∃ slot wd, ∀ i, queuedSince emptyState
            (Explosion flatEnv (blastAtOrigin true (some 5)) emptyState) i
              = if i = slot then [wd] else []) :=
  (Explosion_impactOnly_damages_only_hit flatEnv (blastAtOrigin true (some 5)) emptyState
    rfl).2.2.2.2

/-! ## Explosion damage to a feature -/

@[simp] theorem float3.mk_add (x y z a b c : ℚ) :
    (⟨x, y, z⟩ : float3) + ⟨a, b, c⟩ = ⟨x + a, y + b, z + c⟩ := rfl
@[simp] theorem float3.mk_sub (x y z a b c : ℚ) :
    (⟨x, y, z⟩ : float3) - ⟨a, b, c⟩ = ⟨x - a, y - b, z - c⟩ := rfl

/-- The outcomes of the per-feature damage function: nothing when the volume is null or the
multiplier is not positive, otherwise one `DoDamage` call with the scaled damage and impulse. -/
theorem DoExplosionDamageFeature_outcome (sqrtf : ℚ → ℚ) (SQUARE_SIZE : Int)
    (heap : FeaturePtr → CFeature) (feature : FeaturePtr) (expPos : float3) (expRad : ℚ)
    (damages : DamageArray) (weaponDefID : Int) (s : HelperState) :
    DoExplosionDamageFeature sqrtf SQUARE_SIZE heap feature expPos expRad damages weaponDefID s
      = match (heap feature).collisionVolume with
        | none => s
        | some cv =>
          if featureExpMod sqrtf SQUARE_SIZE (heap feature) cv expPos expRad > 0 then
            s.call (Call.featureDoDamage feature
              (damages * featureExpMod sqrtf SQUARE_SIZE (heap feature) cv expPos expRad)
              (featureImpulse sqrtf SQUARE_SIZE (heap feature) cv expPos expRad damages)
              weaponDefID)
          else s := by
  unfold DoExplosionDamageFeature
  cases (heap feature).collisionVolume with
  | none => rfl
  | some cv => rfl

/-- C11: for a feature whose collision volume is null the per-feature `DoExplosionDamage`
returns the state it was given: `DoDamage` is not called and nothing changes, for every
explosion position, radius and damage vector. -/
theorem DoExplosionDamageFeature_null_volume (sqrtf : ℚ → ℚ) (SQUARE_SIZE : Int)
    (heap : FeaturePtr → CFeature) (feature : FeaturePtr) (expPos : float3) (expRad : ℚ)
    (damages : DamageArray) (weaponDefID : Int) (s : HelperState)
    (hnull : (heap feature).collisionVolume = none) :
    DoExplosionDamageFeature sqrtf SQUARE_SIZE heap feature expPos expRad damages weaponDefID s
      = s := by
  unfold DoExplosionDamageFeature
  rw [hnull]

/-- Witness of C11: a feature without collision volume at the centre of the explosion. -/
theorem DoExplosionDamageFeature_null_volume_witness :
    DoExplosionDamageFeature sqrtAt 8 (fun _ => ⟨⟨0, 0, 0⟩, none⟩) 0 origin 100 (plainDamage 50) 3
      emptyState = emptyState :=
  DoExplosionDamageFeature_null_volume sqrtAt 8 (fun _ => ⟨⟨0, 0, 0⟩, none⟩) 0 origin 100
    (plainDamage 50) 3 emptyState rfl

/-- C17, the code at the failing input: a feature of bounding radius 1 at distance 10 from an
explosion of radius 100 with default damage 1e6 and impulse factor 1 receives the impulse
`(0, 900000, 0)`, whose length exceeds `MAX_EXPLOSION_IMPULSE = 10000`: the per-feature function
applies no clamp. -/
theorem feature_impulse_exceeds_MAX_EXPLOSION_IMPULSE :
    DoExplosionDamageFeature sqrtFar 8 (fun _ => featureAbove 10 1) 0 origin 100
        (plainDamage 1000000) 3 emptyState
      = emptyState.call
          (Call.featureDoDamage 0 (plainDamage 1000000 * (9 / 10 : ℚ)) ⟨0, 900000, 0⟩ 3)
    ∧ ¬ ((⟨0, 900000, 0⟩ : float3).SqLength ≤ 10000 * 10000) := by
  constructor
  · rw [DoExplosionDamageFeature_outcome]
    norm_num [featureAbove, featureExpMod, featureExpDist, featureDif, featureImpulse, sqrtFar,
      origin, float3.Length, float3.SqLength, plainDamage, DamageArray.GetDefaultDamage]
  · norm_num [float3.SqLength]

/-! ## The damage multiplier -/

theorem falloffMod_ge (expRad edgeEffectiveness d : ℚ) :
    0.01 ≤ falloffMod expRad edgeEffectiveness d :=
  le_max_left _ _

theorem falloffMod_le_one (expRad edgeEffectiveness d : ℚ) (hd0 : 0 ≤ d) (hdR : d ≤ expRad)
    (he1 : edgeEffectiveness ≤ 1) :
    falloffMod expRad edgeEffectiveness d ≤ 1 := by
  unfold falloffMod
  apply max_le (by norm_num)
  have hden : 0 ≤ expRad - d * edgeEffectiveness := by nlinarith
  rcases eq_or_lt_of_le hden with hz | hpos
  · rw [← hz, div_zero]
    norm_num
  · rw [div_le_one hpos]
    nlinarith

theorem falloffMod_lt_one (expRad edgeEffectiveness d : ℚ) (hd0 : 0 < d) (hdR : d ≤ expRad)
    (he1 : edgeEffectiveness < 1) :
    falloffMod expRad edgeEffectiveness d < 1 := by
  unfold falloffMod
  apply max_lt (by norm_num)
  have hpos : 0 < expRad - d * edgeEffectiveness := by nlinarith
  rw [div_lt_one hpos]
  nlinarith

/-- Within range the effective edge distance `expDist2` lies in `(0, expRad]`. -/
theorem unitExpDist2_bounds (sqrtf : ℚ → ℚ) (frameNum : Int) (u : CUnit) (expPos : float3)
    (expRad : ℚ) (hR : 0 < expRad) (hvol : 0 ≤ unitVolRad frameNum u)
    (hin : unitExpDist sqrtf frameNum u expPos - unitVolRad frameNum u ≤ expRad) :
    0 < unitExpDist2 sqrtf frameNum u expPos expRad
    ∧ unitExpDist2 sqrtf frameNum u expPos expRad ≤ expRad := by
  have hE : unitVolRad frameNum u + 0.1 ≤ unitExpDist sqrtf frameNum u expPos :=
    le_max_right _ _
  unfold unitExpDist2
  dsimp only
  split
  · constructor
    · apply lt_min
      · norm_num at hE ⊢
        linarith
      · exact hR
    · exact min_le_right _ _
  · constructor
    · norm_num at hE ⊢
      linarith
    · exact hin

/-- The early return of the per-unit damage function. -/
theorem DoExplosionDamage_out_of_range_aux (sqrtf : ℚ → ℚ) (MAX_EXPLOSION_IMPULSE : ℚ)
    (frameNum : Int) (heap : UnitPtr → CUnit) (unit : UnitPtr) (owner : Option UnitPtr)
    (expPos : float3) (expRad expSpeed edgeEffectiveness : ℚ) (ignoreOwner : Bool)
    (damages : DamageArray) (weaponDefID : Int) (s : HelperState)
    (h : unitExpDist sqrtf frameNum (heap unit) expPos - unitVolRad frameNum (heap unit)
          > expRad) :
    DoExplosionDamage sqrtf MAX_EXPLOSION_IMPULSE frameNum heap unit owner expPos expRad expSpeed
      edgeEffectiveness ignoreOwner damages weaponDefID s = s := by
  unfold DoExplosionDamage
  split
  · rfl
  · simp only [if_pos h]

/-- The direct branch of the per-unit damage function: one `DoDamage` call with the damage
vector scaled by `mod2`. -/
theorem DoExplosionDamage_direct (sqrtf : ℚ → ℚ) (MAX_EXPLOSION_IMPULSE : ℚ)
    (frameNum : Int) (heap : UnitPtr → CUnit) (unit : UnitPtr) (owner : Option UnitPtr)
    (expPos : float3) (expRad expSpeed edgeEffectiveness : ℚ) (ignoreOwner : Bool)
    (damages : DamageArray) (weaponDefID : Int) (s : HelperState)
    (hign : (ignoreOwner && (owner == some unit)) = false)
    (hrange : ¬ (unitExpDist sqrtf frameNum (heap unit) expPos - unitVolRad frameNum (heap unit)
                  > expRad))
    (hdirect : unitExpDist2 sqrtf frameNum (heap unit) expPos expRad < expSpeed * 4) :
    DoExplosionDamage sqrtf MAX_EXPLOSION_IMPULSE frameNum heap unit owner expPos expRad expSpeed
        edgeEffectiveness ignoreOwner damages weaponDefID s
      = s.call (Call.unitDoDamage unit
          (damages * falloffMod expRad edgeEffectiveness
            (unitExpDist2 sqrtf frameNum (heap unit) expPos expRad))
          (unitAddedImpulse sqrtf MAX_EXPLOSION_IMPULSE frameNum (heap unit) expPos expRad
            edgeEffectiveness damages) owner weaponDefID) := by
  unfold DoExplosionDamage
  rw [hign]
  simp only [Bool.false_eq_true, if_false, if_neg hrange, if_pos hdirect]

/-- What one call of the per-unit damage function delivers: every `DoDamage` call it logs and
every record it pushes carries the damage vector scaled by `mod2`, and the unit is in range. -/
theorem DoExplosionDamage_delivered (sqrtf : ℚ → ℚ) (MAX_EXPLOSION_IMPULSE : ℚ)
    (frameNum : Int) (heap : UnitPtr → CUnit) (unit : UnitPtr) (owner : Option UnitPtr)
    (expPos : float3) (expRad expSpeed edgeEffectiveness : ℚ) (ignoreOwner : Bool)
    (damages : DamageArray) (weaponDefID : Int) (s : HelperState) :
    (∀ c ∈ callsSince s
        (DoExplosionDamage sqrtf MAX_EXPLOSION_IMPULSE frameNum heap unit owner expPos expRad
          expSpeed edgeEffectiveness ignoreOwner damages weaponDefID s),
        c = Call.unitDoDamage unit
              (damages * falloffMod expRad edgeEffectiveness
                (unitExpDist2 sqrtf frameNum (heap unit) expPos expRad))
              (unitAddedImpulse sqrtf MAX_EXPLOSION_IMPULSE frameNum (heap unit) expPos expRad
                edgeEffectiveness damages) owner weaponDefID
        ∧ unitExpDist sqrtf frameNum (heap unit) expPos - unitVolRad frameNum (heap unit)
            ≤ expRad)
    ∧ (∀ slot wd, wd ∈ queuedSince s
        (DoExplosionDamage sqrtf MAX_EXPLOSION_IMPULSE frameNum heap unit owner expPos expRad
          expSpeed edgeEffectiveness ignoreOwner damages weaponDefID s) slot →
        wd = unitWaitingDamage sqrtf MAX_EXPLOSION_IMPULSE frameNum heap unit owner expPos expRad
              edgeEffectiveness damages weaponDefID
        ∧ unitExpDist sqrtf frameNum (heap unit) expPos - unitVolRad frameNum (heap unit)
            ≤ expRad) := by
  by_cases hign : (ignoreOwner && (owner == some unit)) = true
  · have hres : DoExplosionDamage sqrtf MAX_EXPLOSION_IMPULSE frameNum heap unit owner expPos
        expRad expSpeed edgeEffectiveness ignoreOwner damages weaponDefID s = s := by
      unfold DoExplosionDamage
      rw [if_pos hign]
    rw [hres]
    simp [callsSince_self, queuedSince_self]
  · have hign2 : (ignoreOwner && (owner == some unit)) = false := by
      simpa using hign
    by_cases hrange : unitExpDist sqrtf frameNum (heap unit) expPos
        - unitVolRad frameNum (heap unit) > expRad
    · rw [DoExplosionDamage_out_of_range_aux sqrtf MAX_EXPLOSION_IMPULSE frameNum heap unit owner
        expPos expRad expSpeed edgeEffectiveness ignoreOwner damages weaponDefID s hrange]
      simp [callsSince_self, queuedSince_self]
    · have hle := not_lt.mp hrange
      by_cases hdirect : unitExpDist2 sqrtf frameNum (heap unit) expPos expRad < expSpeed * 4
      · rw [DoExplosionDamage_direct sqrtf MAX_EXPLOSION_IMPULSE frameNum heap unit owner expPos
          expRad expSpeed edgeEffectiveness ignoreOwner damages weaponDefID s hign2 hrange hdirect]
        constructor
        · intro c hc
          rw [callsSince_call, List.mem_singleton] at hc
          exact ⟨hc, hle⟩
        · intro slot wd hwd
          simp [queuedSince_call] at hwd
      · rw [DoExplosionDamage_deferred sqrtf MAX_EXPLOSION_IMPULSE frameNum heap unit owner expPos
          expRad expSpeed edgeEffectiveness ignoreOwner damages weaponDefID s hign2 hrange hdirect]
        constructor
        · intro c hc
          simp [callsSince_pushFront] at hc
        · intro slot wd hwd
          rw [queuedSince_pushFront] at hwd
          split at hwd
          · exact ⟨List.mem_singleton.mp hwd, hle⟩
          · simp at hwd

/-! ## Delivered damage is the scaled input -/

/-- The scenario of the unbounded damage: a unit of radius 1 at distance 10 from an explosion of
radius 100, hit directly, receives 91% of whatever default damage `d` is put in. -/
theorem direct_hit_scales_damage (d : ℚ) :
    DoExplosionDamage sqrtAt 10000 0 (fun _ => unitAt 7 ⟨0, 10, 0⟩) 0 none origin 100 1000 0
        false (plainDamage d) 3 emptyState
      = emptyState.call (Call.unitDoDamage 0 (plainDamage d * (91 / 100 : ℚ))
          (unitAddedImpulse sqrtAt 10000 0 (unitAt 7 ⟨0, 10, 0⟩) origin 100 0 (plainDamage d))
          none 3) := by
  rw [DoExplosionDamage_direct sqrtAt 10000 0 (fun _ => unitAt 7 ⟨0, 10, 0⟩) 0 none origin 100
    1000 0 false (plainDamage d) 3 emptyState rfl
    (by norm_num [unitExpDist, unitVolRad, unitDiffPos, unitVolumeAndBase, unitAt, sqrtAt, origin,
      float3.Length, float3.SqLength])
    (by norm_num [unitExpDist2, unitExpDist, unitVolRad, unitDiffPos, unitVolumeAndBase, unitAt,
      sqrtAt, origin, float3.Length, float3.SqLength])]
  have hmod : falloffMod 100 0 (unitExpDist2 sqrtAt 0 (unitAt 7 ⟨0, 10, 0⟩) origin 100)
      = 91 / 100 := by
    norm_num [falloffMod, unitExpDist2, unitExpDist, unitVolRad, unitDiffPos, unitVolumeAndBase,
      unitAt, sqrtAt, origin, float3.Length, float3.SqLength]
  rw [hmod]

/-- C16, counterexample: there is no bound `B` on the damage amounts delivered. For the unit of
radius 1 at distance 10 from an explosion of radius 100, the damage amount handed to `DoDamage`
is 91% of the input default damage, which is arbitrary. -/
theorem delivered_damage_unbounded :
    ¬ ∃ B : ℚ, ∀ d : ℚ, ∀ p dmg imp att w,
        Call.unitDoDamage p dmg imp att w ∈ callsSince emptyState
          (DoExplosionDamage sqrtAt 10000 0 (fun _ => unitAt 7 ⟨0, 10, 0⟩) 0 none origin 100 1000
            0 false (plainDamage d) 3 emptyState) →
        ∀ x ∈ dmg.damages, x ≤ B := by
  rintro ⟨B, hB⟩
  have h := hB (100 * (max B 0 + 1)) 0 (plainDamage (100 * (max B 0 + 1)) * (91 / 100 : ℚ))
    (unitAddedImpulse sqrtAt 10000 0 (unitAt 7 ⟨0, 10, 0⟩) origin 100 0
      (plainDamage (100 * (max B 0 + 1)))) none 3
    (by rw [direct_hit_scales_damage, callsSince_call]; exact List.mem_singleton_self _)
    (100 * (max B 0 + 1) * (91 / 100))
    (by
      show _ ∈ (DamageArray.scale _ _).damages
      simp [DamageArray.scale, plainDamage])
  have h0 : B ≤ max B 0 := le_max_left _ _
  have h1 : (0 : ℚ) ≤ max B 0 := le_max_right _ _
  linarith

theorem featureExpMod_le_one (sqrtf : ℚ → ℚ) (SQUARE_SIZE : Int) (f : CFeature)
    (cv : CollisionVolume) (expPos : float3) (expRad : ℚ) (hR : 0 < expRad) :
    featureExpMod sqrtf SQUARE_SIZE f cv expPos expRad ≤ 1 := by
  have hd : (0.1 : ℚ) ≤ featureExpDist sqrtf f cv expPos := le_max_right _ _
  unfold featureExpMod
  dsimp only
  split
  · norm_num
  · rw [div_le_one hR]
    norm_num at hd ⊢
    linarith

/-- Scaling by a multiplier in `(0, 1]` never raises a non-negative damage amount. -/
theorem scale_amounts_le (damages : DamageArray) (m : ℚ) (_hm0 : 0 < m) (hm1 : m ≤ 1) :
    List.Forall₂ (fun scaled input => 0 ≤ input → scaled ≤ input) (damages * m).damages
      damages.damages := by
  show List.Forall₂ _ (DamageArray.scale damages m).damages damages.damages
  unfold DamageArray.scale
  dsimp only
  induction damages.damages with
  | nil => exact List.Forall₂.nil
  | cons x xs ih =>
    rw [List.map_cons]
    refine List.Forall₂.cons ?_ ih
    intro hx
    nlinarith

/-- C16, amended: each damage vector that `DoExplosionDamage` delivers to a unit (in a `DoDamage`
call or a deferred record) or to a feature is the input damage vector scaled by one multiplier
`m` with `0 < m ≤ 1` (damage radius `> 0`, `0 ≤ e ≤ 1`, bounding radius `≥ 0`), so that no
non-negative input amount is exceeded; there is no bound independent of the input. -/
theorem delivered_damage_is_scaled_input (sqrtf : ℚ → ℚ) (MAX_EXPLOSION_IMPULSE : ℚ)
    (SQUARE_SIZE : Int) (frameNum : Int) (heap : UnitPtr → CUnit) (unit : UnitPtr)
    (owner : Option UnitPtr) (fheap : FeaturePtr → CFeature) (feature : FeaturePtr)
    (expPos : float3) (expRad expSpeed edgeEffectiveness : ℚ) (ignoreOwner : Bool)
    (damages : DamageArray) (weaponDefID : Int) (s : HelperState)
    (hR : 0 < expRad) (_he0 : 0 ≤ edgeEffectiveness) (he1 : edgeEffectiveness ≤ 1)
    (hvol : 0 ≤ unitVolRad frameNum (heap unit)) :
    (∀ p dmg imp att w, Call.unitDoDamage p dmg imp att w ∈ callsSince s
          (DoExplosionDamage sqrtf MAX_EXPLOSION_IMPULSE frameNum heap unit owner expPos expRad
            expSpeed edgeEffectiveness ignoreOwner damages weaponDefID s) →
        ∃ m : ℚ, 0 < m ∧ m ≤ 1 ∧ dmg = damages * m)
    ∧ (∀ slot wd, wd ∈ queuedSince s
          (DoExplosionDamage sqrtf MAX_EXPLOSION_IMPULSE frameNum heap unit owner expPos expRad
            expSpeed edgeEffectiveness ignoreOwner damages weaponDefID s) slot →
        ∃ m : ℚ, 0 < m ∧ m ≤ 1 ∧ wd.damage = damages * m)
    ∧ (∀ f dmg imp w, Call.featureDoDamage f dmg imp w ∈ callsSince s
          (DoExplosionDamageFeature sqrtf SQUARE_SIZE fheap feature expPos expRad damages
            weaponDefID s) →
        ∃ m : ℚ, 0 < m ∧ m ≤ 1 ∧ dmg = damages * m)
    ∧ (∀ m : ℚ, 0 < m → m ≤ 1 →
        List.Forall₂ (fun scaled input => 0 ≤ input → scaled ≤ input) (damages * m).damages
          damages.damages) := by
  obtain ⟨hcalls, hrecs⟩ := DoExplosionDamage_delivered sqrtf MAX_EXPLOSION_IMPULSE frameNum heap
    unit owner expPos expRad expSpeed edgeEffectiveness ignoreOwner damages weaponDefID s
  have hmod : unitExpDist sqrtf frameNum (heap unit) expPos - unitVolRad frameNum (heap unit)
      ≤ expRad →
      0 < falloffMod expRad edgeEffectiveness
          (unitExpDist2 sqrtf frameNum (heap unit) expPos expRad)
      ∧ falloffMod expRad edgeEffectiveness
          (unitExpDist2 sqrtf frameNum (heap unit) expPos expRad) ≤ 1 := by
    intro hin
    obtain ⟨hd0, hdR⟩ := unitExpDist2_bounds sqrtf frameNum (heap unit) expPos expRad hR hvol hin
    exact ⟨lt_of_lt_of_le (by norm_num) (falloffMod_ge _ _ _),
      falloffMod_le_one _ _ _ (le_of_lt hd0) hdR he1⟩
  refine ⟨?_, ?_, ?_, fun m hm0 hm1 => scale_amounts_le damages m hm0 hm1⟩
  · intro p dmg imp att w hmem
    obtain ⟨h, hin⟩ := hcalls _ hmem
    rw [Call.unitDoDamage.injEq] at h
    exact ⟨_, (hmod hin).1, (hmod hin).2, h.2.1⟩
  · intro slot wd hmem
    obtain ⟨h, hin⟩ := hrecs slot wd hmem
    refine ⟨_, (hmod hin).1, (hmod hin).2, ?_⟩
    rw [h]
    rfl
  · intro f dmg imp w hmem
    rw [DoExplosionDamageFeature_outcome] at hmem
    cases hcv : (fheap feature).collisionVolume with
    | none =>
      rw [hcv] at hmem
      simp [callsSince_self] at hmem
    | some cv =>
      rw [hcv] at hmem
      dsimp only at hmem
      by_cases hpos : featureExpMod sqrtf SQUARE_SIZE (fheap feature) cv expPos expRad > 0
      · rw [if_pos hpos, callsSince_call, List.mem_singleton, Call.featureDoDamage.injEq] at hmem
        exact ⟨_, hpos, featureExpMod_le_one sqrtf SQUARE_SIZE _ cv expPos expRad hR, hmem.2.1⟩
      · rw [if_neg hpos] at hmem
        simp [callsSince_self] at hmem

/-- Witness of C16 (amended): the unit of radius 1 and the feature of radius 1 at distance 10
from an explosion of radius 100. -/
theorem delivered_damage_is_scaled_input_witness :
    (∀ f dmg imp w, Call.featureDoDamage f dmg imp w ∈ callsSince emptyState
          (DoExplosionDamageFeature sqrtAt 8 (fun _ => featureAbove 10 1) 0 origin 100
            (plainDamage 50) 3 emptyState) →
        ∃ m : ℚ, 0 < m ∧ m ≤ 1 ∧ dmg = plainDamage 50 * m)
    ∧ (∀ m : ℚ, 0 < m → m ≤ 1 →
        List.Forall₂ (fun scaled input => 0 ≤ input → scaled ≤ input)
          (plainDamage 50 * m).damages (plainDamage 50).damages) :=
  (delivered_damage_is_scaled_input sqrtAt 10000 8 0 (fun _ => unitAt 7 ⟨0, 10, 0⟩) 0 none
    (fun _ => featureAbove 10 1) 0 origin 100 1000 0 false (plainDamage 50) 3 emptyState
    (by norm_num) (by norm_num) (by norm_num)
    (by norm_num [unitVolRad, unitVolumeAndBase, unitAt])).2.2

/-! ## Collecting the ids of enemy units -/

theorem nodup_QueryUnits_trace (qf : QuadField) (ActiveAllyTeams : Int) (filter : TFilter)
    (pos : float3) (radius : ℚ) (T : Int) (heap : UnitPtr → CUnit)
    (hfresh : ∀ u, (heap u).tempNum ≠ T) :
    (QueryUnits qf ActiveAllyTeams filter (traceQuery pos radius) ⟨T, heap, []⟩).query.Nodup := by
  rw [QueryUnits_trace qf ActiveAllyTeams filter pos radius T heap hfresh]
  exact (firstVisits_nodup _ _).filter _

/-- The loop of `AddUnit` calls of `Query::AllUnitsById` over a list of units appends the ids
of the units inside the circle, in order. -/
theorem foldl_AllUnitsById (h : UnitPtr → CUnit) :
    ∀ (l : List UnitPtr) (q : AllUnitsById),
      l.foldl (fun q p => AllUnitsById.AddUnit q p (h p)) q
        = { q with found := (q.found ++ List.map (fun p => (h p).id)
              (l.filter (fun p => decide ((q.pos - (h p).midPos).SqLength2D ≤ q.sqRadius)))) } := by
  intro l
  induction l with
  | nil => intro q; simp
  | cons x xs ih =>
    intro q
    rw [List.foldl_cons, ih]
    unfold AllUnitsById.AddUnit
    by_cases hx : (q.pos - (h x).midPos).SqLength2D ≤ q.sqRadius
    · simp [hx]
    · simp [hx]

theorem sum_map_range (f : Nat → Nat) :
    ∀ n, ((List.range n).map f).sum = ∑ i in Finset.range n, f i := by
  intro n
  induction n with
  | zero => rfl
  | succ n ih =>
    rw [List.range_succ, List.map_append, List.sum_append, ih, Finset.sum_range_succ]
    simp

theorem shiftRight_mod_two (x i : Nat) : (x >>> i) % 2 = if x.testBit i = true then 1 else 0 := by
  rw [Nat.testBit_to_div_mod, Nat.shiftRight_eq_div_pow]
  rcases Nat.mod_two_eq_zero_or_one (x / 2 ^ i) with h | h <;> simp [h]

/-- C19: for every 32-bit unsigned `x`, `count_bits_set x` is the number of positions at which
`x` has a 1 bit, all of which lie among the 32 lowest; and `count_bits_set 0 = 0`,
`count_bits_set 1 = 1`, `count_bits_set 4294967295 = 32`, `count_bits_set 16843216 = 6`, as
the test asserts. -/
theorem count_bits_set_is_population_count (x : Nat) (hx : x < 2 ^ 32) :
    count_bits_set x = (Finset.filter (fun i => x.testBit i = true) (Finset.range 32)).card
    ∧ (∀ i, x.testBit i = true → i < 32)
    ∧ count_bits_set 0 = 0 ∧ count_bits_set 1 = 1 ∧ count_bits_set 4294967295 = 32
    ∧ count_bits_set 16843216 = 6 := by
  refine ⟨?_, ?_, by decide, by decide, by decide, by decide⟩
  · unfold count_bits_set
    rw [sum_map_range, Finset.card_filter]
    apply Finset.sum_congr rfl
    intro i _
    exact shiftRight_mod_two x i
  · intro i hi
    by_contra hge
    have hlt : x < 2 ^ i :=
      lt_of_lt_of_le hx (Nat.pow_le_pow_right (by norm_num) (not_lt.mp hge))
    rw [Nat.testBit_lt_two_pow hlt] at hi
    exact Bool.noConfusion hi

/-- Witness of C19: the value `16843216 = 0x01010110` of the test. -/
theorem count_bits_set_is_population_count_witness :
    count_bits_set 16843216
      = (Finset.filter (fun i => Nat.testBit 16843216 i = true) (Finset.range 32)).card :=
  (count_bits_set_is_population_count 16843216 (by norm_num)).1

theorem firstPowerOfTwo_spec (x : Nat) :
    ∀ (fuel k : Nat), (∀ j, j < k → ¬ x ≤ 2 ^ j) → (∃ j, j < k + fuel ∧ x ≤ 2 ^ j) →
      ∃ m, firstPowerOfTwo fuel k x = 2 ^ m ∧ x ≤ 2 ^ m ∧ ∀ j, x ≤ 2 ^ j → m ≤ j := by
  intro fuel
  induction fuel with
  | zero =>
    intro k hlow ⟨j, hj, hx⟩
    exact absurd hx (hlow j (by omega))
  | succ fuel ih =>
    intro k hlow ⟨j, hj, hx⟩
    unfold firstPowerOfTwo
    by_cases hk : x ≤ 2 ^ k
    · rw [if_pos hk]
      refine ⟨k, rfl, hk, ?_⟩
      intro j' hj'
      by_contra hlt
      exact hlow j' (by omega) hj'
    · rw [if_neg hk]
      apply ih (k + 1)
      · intro j' hj'
        by_cases hjk : j' = k
        · rw [hjk]; exact hk
        · exact hlow j' (by omega)
      · exact ⟨j, by omega, hx⟩

/-- C20: `next_power_of_2 0 = 0`; for `1 ≤ x ≤ 2^31`, `next_power_of_2 x` is a power of two, is
`≥ x`, and is at most every power of two that is `≥ x`, so it is `x` itself when `x` is a power
of two; and `next_power_of_2 1 = 1`, `next_power_of_2 3 = 4`,
`next_power_of_2 536870000 = 536870912`, as the test asserts. -/
theorem next_power_of_2_is_smallest (x : Nat) (h1 : 1 ≤ x) (h2 : x ≤ 2 ^ 31) :
    next_power_of_2 0 = 0
    ∧ (∃ m, next_power_of_2 x = 2 ^ m)
    ∧ x ≤ next_power_of_2 x
    ∧ (∀ j, x ≤ 2 ^ j → next_power_of_2 x ≤ 2 ^ j)
    ∧ ((∃ k, x = 2 ^ k) → next_power_of_2 x = x)
    ∧ next_power_of_2 1 = 1 ∧ next_power_of_2 3 = 4
    ∧ next_power_of_2 536870000 = 536870912 := by
  have hx0 : x ≠ 0 := by omega
  obtain ⟨m, hm, hxm, hmin⟩ := firstPowerOfTwo_spec x 32 0 (fun j hj => absurd hj (by omega))
    ⟨31, by omega, h2⟩
  have hf : next_power_of_2 x = 2 ^ m := by
    unfold next_power_of_2
    rw [if_neg hx0, hm]
  refine ⟨by decide, ⟨m, hf⟩, by rw [hf]; exact hxm, ?_, ?_, by decide, by decide, by decide⟩
  · intro j hj
    rw [hf]
    exact Nat.pow_le_pow_right (by norm_num) (hmin j hj)
  · rintro ⟨k, hk⟩
    rw [hf]
    apply le_antisymm
    · rw [hk]
      exact Nat.pow_le_pow_right (by norm_num) (hmin k (by rw [hk]))
    · exact hxm

/-- Witness of C20: the value 3 of the test. -/
theorem next_power_of_2_is_smallest_witness :
    3 ≤ next_power_of_2 3 ∧ (∀ j, 3 ≤ 2 ^ j → next_power_of_2 3 ≤ 2 ^ j) :=
  ⟨(next_power_of_2_is_smallest 3 (by norm_num) (by norm_num)).2.2.1,
   (next_power_of_2_is_smallest 3 (by norm_num) (by norm_num)).2.2.2.1⟩

/-! ## Weapon target selection -/

theorem multimapInsert_perm : ∀ (m : List (ℚ × UnitPtr)) (e : ℚ × UnitPtr),
    (multimapInsert m e).Perm (e :: m) := by
  intro m
  induction m with
  | nil => intro e; exact List.Perm.refl _
  | cons x xs ih =>
    intro e
    unfold multimapInsert
    by_cases hx : x.1 ≤ e.1
    · rw [if_pos hx]
      exact ((ih e).cons x).trans (List.Perm.swap e x xs)
    · rw [if_neg hx]

/-- The three nested loops of `GenerateWeaponTargets` are one loop over the enumerated units of
the allyteams not allied with the attacker's. -/
theorem GenerateWeaponTargets_fold (env : TargetEnv) (weapon : CWeapon)
    (lastTargetUnit : Option UnitPtr) (st : TargetState) :
    GenerateWeaponTargets env weapon lastTargetUnit st
      = (enumeratedUnits env.qf env.ActiveAllyTeams
            (enemyTeams env (st.heap weapon.owner).allyteam) (st.heap weapon.owner).pos
            (weaponSearchRadius env weapon)).foldl
          (considerTarget env weapon lastTargetUnit (st.heap weapon.owner)
            (weaponSecDamage env weapon) (decide (weapon.damages.paralyzeDamageTime ≠ 0))
            st.tempNum)
          { st with tempNum := st.tempNum + 1 } := by
  have hteam : ∀ (qi : Int),
      targetsInTeam env weapon lastTargetUnit (st.heap weapon.owner) (weaponSecDamage env weapon)
          (decide (weapon.damages.paralyzeDamageTime ≠ 0)) st.tempNum qi
        = fun c t => (if (enemyTeams env (st.heap weapon.owner).allyteam).Team t
              then (env.qf.GetQuad qi).teamUnits t else []).foldl
            (considerTarget env weapon lastTargetUnit (st.heap weapon.owner)
              (weaponSecDamage env weapon) (decide (weapon.damages.paralyzeDamageTime ≠ 0))
              st.tempNum) c := by
    intro qi
    funext c t
    unfold targetsInTeam enemyTeams
    dsimp only
    cases env.Ally (st.heap weapon.owner).allyteam t
    · simp only [Bool.false_eq_true, if_false, Bool.not_false, if_true]
    · simp only [if_true, Bool.not_true, Bool.false_eq_true, if_false, List.foldl_nil]
  have hquad : targetsInQuad env weapon lastTargetUnit (st.heap weapon.owner)
        (weaponSecDamage env weapon) (decide (weapon.damages.paralyzeDamageTime ≠ 0)) st.tempNum
      = fun c qi => (((List.range env.ActiveAllyTeams.toNat).map Int.ofNat).flatMap (fun t =>
            if (enemyTeams env (st.heap weapon.owner).allyteam).Team t
              then (env.qf.GetQuad qi).teamUnits t else [])).foldl
            (considerTarget env weapon lastTargetUnit (st.heap weapon.owner)
              (weaponSecDamage env weapon) (decide (weapon.damages.paralyzeDamageTime ≠ 0))
              st.tempNum) c := by
    funext c qi
    unfold targetsInQuad
    rw [foldl_flatMap_eq, hteam]
  have hdef : GenerateWeaponTargets env weapon lastTargetUnit st
      = (env.qf.GetQuads (st.heap weapon.owner).pos (weaponSearchRadius env weapon)).foldl
          (targetsInQuad env weapon lastTargetUnit (st.heap weapon.owner)
            (weaponSecDamage env weapon) (decide (weapon.damages.paralyzeDamageTime ≠ 0))
            st.tempNum)
          { st with tempNum := st.tempNum + 1 } := rfl
  rw [hdef, hquad]
  unfold enumeratedUnits
  rw [foldl_flatMap_eq]

/-- The outcomes of the range test and scoring of one target: nothing, or one pair for that
target inserted. -/
theorem scoreTarget_cases (env : TargetEnv) (weapon : CWeapon) (lastTargetUnit : Option UnitPtr)
    (attacker : CUnit) (secDamage : ℚ) (paralyzer : Bool) (targetUnit : UnitPtr) (u : CUnit)
    (targetLOSState : Nat) (targPos : float3) (targetPriority : ℚ) (st : TargetState) :
    scoreTarget env weapon lastTargetUnit attacker secDamage paralyzer targetUnit u
        targetLOSState targPos targetPriority st = st
    ∨ ∃ (x : ℚ) (rc : Nat),
        scoreTarget env weapon lastTargetUnit attacker secDamage paralyzer targetUnit u
            targetLOSState targPos targetPriority st
          = { st with randCalls := rc, targets := multimapInsert st.targets (x, targetUnit) } := by
  unfold scoreTarget
  split
  · right
    split
    · exact ⟨_, _, rfl⟩
    · exact ⟨_, st.randCalls, rfl⟩
  · exact Or.inl rfl

/-- The outcomes of the default filtering and scoring of one unit: the targets are unchanged,
or one pair for that unit is inserted and the unit passes the default filter; the units change
in their `tempNum` only. -/
theorem defaultTarget_cases (env : TargetEnv) (weapon : CWeapon)
    (lastTargetUnit : Option UnitPtr) (attacker : CUnit) (secDamage : ℚ) (paralyzer : Bool)
    (tempNum : Int) (targetPriority : ℚ) (st : TargetState) (targetUnit : UnitPtr) :
    ((defaultTarget env weapon lastTargetUnit attacker secDamage paralyzer tempNum targetPriority
        st targetUnit).targets = st.targets
      ∨ (passesDefaultFilter env weapon attacker (st.heap targetUnit)
          ∧ ∃ x, (defaultTarget env weapon lastTargetUnit attacker secDamage paralyzer tempNum
              targetPriority st targetUnit).targets = multimapInsert st.targets (x, targetUnit)))
    ∧ (∀ v, ∃ n, (defaultTarget env weapon lastTargetUnit attacker secDamage paralyzer tempNum
          targetPriority st targetUnit).heap v = { st.heap v with tempNum := n }) := by
  have hheap : ∀ v, ∃ n, Function.update st.heap targetUnit
      { st.heap targetUnit with tempNum := tempNum } v = { st.heap v with tempNum := n } := by
    intro v
    by_cases hv : v = targetUnit
    · subst hv
      exact ⟨tempNum, by rw [Function.update_same]⟩
    · exact ⟨(st.heap v).tempNum, by rw [Function.update_noteq hv]⟩
  have hself : ∀ v, ∃ n, st.heap v = { st.heap v with tempNum := n } :=
    fun v => ⟨(st.heap v).tempNum, rfl⟩
  unfold defaultTarget
  dsimp only
  by_cases hvisit : (st.heap targetUnit).tempNum ≠ tempNum
      ∧ ((st.heap targetUnit).category &&& weapon.onlyTargetCategory) ≠ 0
  · rw [if_pos hvisit]
    by_cases hwater : ((st.heap targetUnit).isUnderWater && !weapon.waterweapon) = true
    · rw [if_pos hwater]
      exact ⟨Or.inl rfl, hheap⟩
    · rw [if_neg hwater]
      by_cases hdead : (st.heap targetUnit).isDead = true
      · rw [if_pos hdead]
        exact ⟨Or.inl rfl, hheap⟩
      · rw [if_neg hdead]
        have hw : (st.heap targetUnit).isUnderWater = true → weapon.waterweapon = true := by
          intro h1
          by_contra h2
          apply hwater
          simp [h1, h2]
        have hd : (st.heap targetUnit).isDead = false := by simpa using hdead
        by_cases hlos : ((st.heap targetUnit).losStatus attacker.allyteam &&& env.LOS_INLOS) ≠ 0
        · rw [if_pos hlos]
          rcases scoreTarget_cases env weapon lastTargetUnit attacker secDamage paralyzer
            targetUnit (st.heap targetUnit) ((st.heap targetUnit).losStatus attacker.allyteam)
            (st.heap targetUnit).midPos targetPriority
            { st with heap := (Function.update st.heap targetUnit
                ({ st.heap targetUnit with tempNum := tempNum })) } with h | ⟨x, rc, h⟩
          · rw [h]
            exact ⟨Or.inl rfl, hheap⟩
          · rw [h]
            exact ⟨Or.inr ⟨⟨hvisit.2, hd, hw, Or.inl hlos⟩, x, rfl⟩, hheap⟩
        · rw [if_neg hlos]
          by_cases hradar : ((st.heap targetUnit).losStatus attacker.allyteam
              &&& env.LOS_INRADAR) ≠ 0
          · rw [if_pos hradar]
            rcases scoreTarget_cases env weapon lastTargetUnit attacker secDamage paralyzer
              targetUnit (st.heap targetUnit) ((st.heap targetUnit).losStatus attacker.allyteam)
              ((st.heap targetUnit).midPos
                + (st.heap targetUnit).posErrorVector * env.radarErrorSize attacker.allyteam)
              (targetPriority * 10)
              { st with heap := (Function.update st.heap targetUnit
                  ({ st.heap targetUnit with tempNum := tempNum })) } with h | ⟨x, rc, h⟩
            · rw [h]
              exact ⟨Or.inl rfl, hheap⟩
            · rw [h]
              exact ⟨Or.inr ⟨⟨hvisit.2, hd, hw, Or.inr hradar⟩, x, rfl⟩, hheap⟩
          · rw [if_neg hradar]
            exact ⟨Or.inl rfl, hheap⟩
  · rw [if_neg hvisit]
    exact ⟨Or.inl rfl, hself⟩

theorem foldl_invariant {α β : Type} (f : β → α → β) (Inv : β → Prop) :
    ∀ (l : List α) (b : β), (∀ x ∈ l, ∀ c, Inv c → Inv (f c x)) → Inv b → Inv (l.foldl f b) := by
  intro l
  induction l with
  | nil => intro b _ hb; exact hb
  | cons x xs ih =>
    intro b hstep hb
    rw [List.foldl_cons]
    exact ih _ (fun y hy c hc => hstep y (List.mem_cons_of_mem _ hy) c hc)
      (hstep x (List.mem_cons_self _ _) b hb)

theorem mem_enumerated_enemyTeams (env : TargetEnv) (a : Int) (pos : float3) (radius : ℚ)
    (u : UnitPtr) :
    u ∈ enumeratedUnits env.qf env.ActiveAllyTeams (enemyTeams env a) pos radius
      ↔ ∃ qi ∈ env.qf.GetQuads pos radius, ∃ t : Int, 0 ≤ t ∧ t < env.ActiveAllyTeams
          ∧ env.Ally a t = false ∧ u ∈ (env.qf.GetQuad qi).teamUnits t := by
  rw [mem_enumeratedUnits]
  unfold inAcceptedCell enemyTeams
  simp only [Bool.not_eq_true']

/-- C14: when no scripting override is installed, the pairs that `GenerateWeaponTargets` adds to
`targets` (the result is a rearrangement of the added pairs and the previous ones) are all for
units that lie in a returned quad in the list of an allyteam not allied with the attacker's
(hence, each list holding units of its own allyteam, of a non-allied allyteam), whose category
intersects `onlyTargetCategory`, that are not dead, that are not under water unless the weapon
is a water weapon, and whose LOS status for the attacker's allyteam has `LOS_INLOS` or
`LOS_INRADAR` set. -/
theorem GenerateWeaponTargets_default_targets_pass_filter (env : TargetEnv) (weapon : CWeapon)
    (lastTargetUnit : Option UnitPtr) (st : TargetState) (hlua : env.luaRules = none) :
    ∃ inserted : List (ℚ × UnitPtr),
      (GenerateWeaponTargets env weapon lastTargetUnit st).targets.Perm (inserted ++ st.targets)
      ∧ ∀ e ∈ inserted,
          (∃ qi ∈ env.qf.GetQuads (st.heap weapon.owner).pos (weaponSearchRadius env weapon),
            ∃ t : Int, 0 ≤ t ∧ t < env.ActiveAllyTeams
              ∧ env.Ally (st.heap weapon.owner).allyteam t = false
              ∧ e.2 ∈ (env.qf.GetQuad qi).teamUnits t)
          ∧ ((∀ qi t v, v ∈ (env.qf.GetQuad qi).teamUnits t → (st.heap v).allyteam = t) →
              env.Ally (st.heap weapon.owner).allyteam (st.heap e.2).allyteam = false)
          ∧ ((st.heap e.2).category &&& weapon.onlyTargetCategory) ≠ 0
          ∧ (st.heap e.2).isDead = false
          ∧ ((st.heap e.2).isUnderWater = true → weapon.waterweapon = true)
          ∧ (((st.heap e.2).losStatus (st.heap weapon.owner).allyteam &&& env.LOS_INLOS) ≠ 0
              ∨ ((st.heap e.2).losStatus (st.heap weapon.owner).allyteam
                    &&& env.LOS_INRADAR) ≠ 0) := by
  have hinv := foldl_invariant
    (considerTarget env weapon lastTargetUnit (st.heap weapon.owner)
      (weaponSecDamage env weapon) (decide (weapon.damages.paralyzeDamageTime ≠ 0)) st.tempNum)
    (fun t => (∀ v, ∃ n, t.heap v = { st.heap v with tempNum := n })
      ∧ ∃ ins : List (ℚ × UnitPtr), t.targets.Perm (ins ++ st.targets)
        ∧ ∀ e ∈ ins,
            e.2 ∈ enumeratedUnits env.qf env.ActiveAllyTeams
              (enemyTeams env (st.heap weapon.owner).allyteam) (st.heap weapon.owner).pos
              (weaponSearchRadius env weapon)
            ∧ passesDefaultFilter env weapon (st.heap weapon.owner) (st.heap e.2))
    (enumeratedUnits env.qf env.ActiveAllyTeams
      (enemyTeams env (st.heap weapon.owner).allyteam) (st.heap weapon.owner).pos
      (weaponSearchRadius env weapon))
    { st with tempNum := st.tempNum + 1 }
    (by
      intro x hx c ⟨hheap, ins, hperm, hins⟩
      have hstep : considerTarget env weapon lastTargetUnit (st.heap weapon.owner)
          (weaponSecDamage env weapon) (decide (weapon.damages.paralyzeDamageTime ≠ 0))
          st.tempNum c x
          = defaultTarget env weapon lastTargetUnit (st.heap weapon.owner)
              (weaponSecDamage env weapon) (decide (weapon.damages.paralyzeDamageTime ≠ 0))
              st.tempNum 1 c x := by
        unfold considerTarget
        rw [hlua]
      rw [hstep]
      obtain ⟨htargets, hheap2⟩ := defaultTarget_cases env weapon lastTargetUnit
        (st.heap weapon.owner) (weaponSecDamage env weapon)
        (decide (weapon.damages.paralyzeDamageTime ≠ 0)) st.tempNum 1 c x
      constructor
      · intro v
        obtain ⟨n, hn⟩ := hheap2 v
        obtain ⟨n0, hn0⟩ := hheap v
        exact ⟨n, by rw [hn, hn0]⟩
      · rcases htargets with h | ⟨hpass, y, h⟩
        · exact ⟨ins, by rw [h]; exact hperm, hins⟩
        · refine ⟨(y, x) :: ins, ?_, ?_⟩
          · rw [h]
            exact (multimapInsert_perm c.targets (y, x)).trans (hperm.cons (y, x))
          · intro e he
            rcases List.mem_cons.mp he with he1 | he1
            · rw [he1]
              refine ⟨hx, ?_⟩
              obtain ⟨n0, hn0⟩ := hheap x
              rw [hn0] at hpass
              exact hpass
            · exact hins e he1)
    ⟨fun v => ⟨(st.heap v).tempNum, rfl⟩, [], List.Perm.refl _, fun e he =>
      absurd he (List.not_mem_nil _)⟩
  rw [← GenerateWeaponTargets_fold] at hinv
  obtain ⟨_, ins, hperm, hins⟩ := hinv
  refine ⟨ins, hperm, ?_⟩
  intro e he
  obtain ⟨hmem, hpass⟩ := hins e he
  have hcell := (mem_enumerated_enemyTeams env _ _ _ _).mp hmem
  refine ⟨hcell, ?_, hpass.1, hpass.2.1, hpass.2.2.1, hpass.2.2.2⟩
  intro hbucket
  obtain ⟨qi, _, t, _, _, hally, hu⟩ := hcell
  rw [hbucket qi t e.2 hu]
  exact hally

/-- Witness of C14: the weapon of unit 9 over the two quads, starting with no targets. -/
theorem GenerateWeaponTargets_default_targets_pass_filter_witness :
    ∃ inserted : List (ℚ × UnitPtr),
      (GenerateWeaponTargets plainTargetEnv plainWeapon none
          ⟨5, targetUnits, 0, []⟩).targets.Perm (inserted ++ [])
      ∧ ∀ e ∈ inserted,
          (∃ qi ∈ plainTargetEnv.qf.GetQuads (targetUnits plainWeapon.owner).pos
              (weaponSearchRadius plainTargetEnv plainWeapon),
            ∃ t : Int, 0 ≤ t ∧ t < plainTargetEnv.ActiveAllyTeams
              ∧ plainTargetEnv.Ally (targetUnits plainWeapon.owner).allyteam t = false
              ∧ e.2 ∈ (plainTargetEnv.qf.GetQuad qi).teamUnits t)
          ∧ ((∀ qi t v, v ∈ (plainTargetEnv.qf.GetQuad qi).teamUnits t →
                (targetUnits v).allyteam = t) →
              plainTargetEnv.Ally (targetUnits plainWeapon.owner).allyteam
                (targetUnits e.2).allyteam = false)
          ∧ ((targetUnits e.2).category &&& plainWeapon.onlyTargetCategory) ≠ 0
          ∧ (targetUnits e.2).isDead = false
          ∧ ((targetUnits e.2).isUnderWater = true → plainWeapon.waterweapon = true)
          ∧ (((targetUnits e.2).losStatus (targetUnits plainWeapon.owner).allyteam
                &&& plainTargetEnv.LOS_INLOS) ≠ 0
              ∨ ((targetUnits e.2).losStatus (targetUnits plainWeapon.owner).allyteam
                    &&& plainTargetEnv.LOS_INRADAR) ≠ 0) :=
  GenerateWeaponTargets_default_targets_pass_filter plainTargetEnv plainWeapon none
    ⟨5, targetUnits, 0, []⟩ rfl

theorem mem_multimapInsert (m : List (ℚ × UnitPtr)) (e : ℚ × UnitPtr) :
    e ∈ multimapInsert m e :=
  (multimapInsert_perm m e).mem_iff.mpr (List.mem_cons_self _ _)

/-- C15: `GenerateWeaponTargets` runs the per-unit step `considerTarget` once for every
occurrence of a unit in the enumeration of the non-allied allyteams, and in that step: when the
scripting override returns a value `> 0` the unit is inserted with the priority the override
wrote (1 if it wrote none) and nothing else changes; when it returns 0 nothing changes; in both
cases the default filtering and scoring are skipped. When it returns a negative value, or no
override is installed, the step is the default filtering and scoring. -/
theorem GenerateWeaponTargets_honours_override (env : TargetEnv) (weapon : CWeapon)
    (lastTargetUnit : Option UnitPtr) (st : TargetState) :
    GenerateWeaponTargets env weapon lastTargetUnit st
      = (enumeratedUnits env.qf env.ActiveAllyTeams
            (enemyTeams env (st.heap weapon.owner).allyteam) (st.heap weapon.owner).pos
            (weaponSearchRadius env weapon)).foldl
          (considerTarget env weapon lastTargetUnit (st.heap weapon.owner)
            (weaponSecDamage env weapon) (decide (weapon.damages.paralyzeDamageTime ≠ 0))
            st.tempNum)
          { st with tempNum := st.tempNum + 1 }
    ∧ (∀ (attacker : CUnit) (secDamage : ℚ) (paralyzer : Bool) (tempNum : Int)
        (t : TargetState) (u : UnitPtr),
        (∀ AllowWeaponTarget, env.luaRules = some AllowWeaponTarget →
          (0 < (AllowWeaponTarget attacker.id (t.heap u).id weapon.weaponNum
                  weapon.weaponDefID).1 →
            considerTarget env weapon lastTargetUnit attacker secDamage paralyzer tempNum t u
              = { t with targets := (multimapInsert t.targets
                    (((AllowWeaponTarget attacker.id (t.heap u).id weapon.weaponNum
                        weapon.weaponDefID).2).getD 1, u)) }
            ∧ (((AllowWeaponTarget attacker.id (t.heap u).id weapon.weaponNum
                    weapon.weaponDefID).2).getD 1, u)
                ∈ (considerTarget env weapon lastTargetUnit attacker secDamage paralyzer tempNum
                    t u).targets)
          ∧ ((AllowWeaponTarget attacker.id (t.heap u).id weapon.weaponNum
                  weapon.weaponDefID).1 = 0 →
            considerTarget env weapon lastTargetUnit attacker secDamage paralyzer tempNum t u = t)
          ∧ ((AllowWeaponTarget attacker.id (t.heap u).id weapon.weaponNum
                  weapon.weaponDefID).1 < 0 →
            considerTarget env weapon lastTargetUnit attacker secDamage paralyzer tempNum t u
              = defaultTarget env weapon lastTargetUnit attacker secDamage paralyzer tempNum
                  (((AllowWeaponTarget attacker.id (t.heap u).id weapon.weaponNum
                      weapon.weaponDefID).2).getD 1) t u))
        ∧ (env.luaRules = none →
            considerTarget env weapon lastTargetUnit attacker secDamage paralyzer tempNum t u
              = defaultTarget env weapon lastTargetUnit attacker secDamage paralyzer tempNum 1
                  t u)) := by
  refine ⟨GenerateWeaponTargets_fold env weapon lastTargetUnit st, ?_⟩
  intro attacker secDamage paralyzer tempNum t u
  constructor
  · intro allow hlua
    have hpos : 0 < (allow attacker.id (t.heap u).id weapon.weaponNum weapon.weaponDefID).1 →
        considerTarget env weapon lastTargetUnit attacker secDamage paralyzer tempNum t u
          = { t with targets := (multimapInsert t.targets
                (((allow attacker.id (t.heap u).id weapon.weaponNum
                    weapon.weaponDefID).2).getD 1, u)) } := by
      intro h
      unfold considerTarget
      rw [hlua]
      dsimp only
      rw [if_pos (le_of_lt h), if_pos h]
    refine ⟨?_, ?_, ?_⟩
    · intro h
      refine ⟨hpos h, ?_⟩
      rw [hpos h]
      exact mem_multimapInsert _ _
    · intro h
      unfold considerTarget
      rw [hlua]
      dsimp only
      rw [h]
      simp
    · intro h
      unfold considerTarget
      rw [hlua]
      dsimp only
      rw [if_neg (not_le.mpr h)]
  · intro hlua
    unfold considerTarget
    rw [hlua]

/-! ## The divisors -/

theorem falloffMod_eq_divisor (R e d : ℚ) :
    falloffMod R e d = max 0.01 ((R - d) / falloffDivisor R e d) := rfl

theorem unitImpulseDir_eq (sqrtf : ℚ → ℚ) (frameNum : Int) (u : CUnit) (expPos : float3) :
    unitImpulseDir sqrtf frameNum u expPos
      = { unitScaledDiff sqrtf frameNum u expPos with
          y := (unitScaledDiff sqrtf frameNum u expPos).y + 0.12 } := rfl

theorem unitAddedImpulse_eq (sqrtf : ℚ → ℚ) (M : ℚ) (frameNum : Int) (u : CUnit)
    (expPos : float3) (expRad e : ℚ) (damages : DamageArray) :
    unitAddedImpulse sqrtf M frameNum u expPos expRad e damages
      = unitImpulseDir sqrtf frameNum u expPos
          * unitImpulseStrength sqrtf M frameNum u expPos expRad e damages := rfl

/-- The divisions of the two damage functions and their divisors when the edge effectiveness is
below 1: for `expRad ≥ 1`, `0 ≤ e < 1`, a non-negative bounding radius, `expSpeed > 0` and a unit
within range, `expDist ≥ volRad + 0.1 > 0`, both falloff divisors are positive, and the feature
distance is at least `0.1`. -/
theorem divisors_pos_of_edgeEffectiveness_lt_one (sqrtf : ℚ → ℚ) (frameNum : Int) (u : CUnit)
    (f : CFeature) (cv : CollisionVolume) (expPos : float3) (expRad expSpeed e : ℚ)
    (hR : 1 ≤ expRad) (he0 : 0 ≤ e) (he1 : e < 1) (hvol : 0 ≤ unitVolRad frameNum u)
    (hspeed : 0 < expSpeed)
    (hin : unitExpDist sqrtf frameNum u expPos - unitVolRad frameNum u ≤ expRad) :
    unitVolRad frameNum u + 0.1 ≤ unitExpDist sqrtf frameNum u expPos
    ∧ 0 < unitExpDist sqrtf frameNum u expPos
    ∧ 0 < falloffDivisor expRad e (unitExpDist1 sqrtf frameNum u expPos expRad)
    ∧ 0 < falloffDivisor expRad e (unitExpDist2 sqrtf frameNum u expPos expRad)
    ∧ expSpeed ≠ 0
    ∧ 0.1 ≤ featureExpDist sqrtf f cv expPos
    ∧ expRad ≠ 0 := by
  have hE : unitVolRad frameNum u + 0.1 ≤ unitExpDist sqrtf frameNum u expPos :=
    le_max_right _ _
  have hE0 : 0 < unitExpDist sqrtf frameNum u expPos := by
    norm_num at hE ⊢
    linarith
  obtain ⟨h20, h2R⟩ := unitExpDist2_bounds sqrtf frameNum u expPos expRad (by linarith) hvol hin
  have h10 : 0 < unitExpDist1 sqrtf frameNum u expPos expRad := lt_min hE0 (by linarith)
  have h1R : unitExpDist1 sqrtf frameNum u expPos expRad ≤ expRad := min_le_right _ _
  refine ⟨hE, hE0, ?_, ?_, ne_of_gt hspeed, le_max_right _ _, by linarith⟩
  · unfold falloffDivisor
    nlinarith
  · unfold falloffDivisor
    nlinarith

/-- C21, the code at the failing input: edge effectiveness 1, a unit of bounding radius 1 whose
centre is at distance 10 from an explosion of radius 10. The unit is within range (its edge
distance is 9) and `DoDamage` is called, but `expDist1 = min(10, 10) = 10` and the divisor
`expRad - expDist1 * edgeEffectiveness` of the falloff `mod1` is zero. -/
theorem falloff_divisor_zero_at_full_edge_effectiveness :
    falloffDivisor 10 1 (unitExpDist1 sqrtAt 0 (unitAt 7 ⟨0, 10, 0⟩) origin 10) = 0
    ∧ unitExpDist sqrtAt 0 (unitAt 7 ⟨0, 10, 0⟩) origin
        - unitVolRad 0 (unitAt 7 ⟨0, 10, 0⟩) = 9
    ∧ callsSince emptyState
        (DoExplosionDamage sqrtAt 10000 0 (fun _ => unitAt 7 ⟨0, 10, 0⟩) 0 none origin 10 1000 1
          false (plainDamage 50) 3 emptyState)
      = [Call.unitDoDamage 0 (plainDamage 50 * (1 : ℚ)) ⟨0, 224 / 125, 0⟩ none 3] := by
  refine ⟨?_, ?_, ?_⟩
  · norm_num [falloffDivisor, unitExpDist1, unitExpDist, unitVolRad, unitDiffPos,
      unitVolumeAndBase, unitAt, sqrtAt, origin, float3.Length, float3.SqLength]
  · norm_num [unitExpDist, unitVolRad, unitDiffPos, unitVolumeAndBase, unitAt, sqrtAt, origin,
      float3.Length, float3.SqLength]
  · norm_num [DoExplosionDamage, callsSince, emptyState, HelperState.call, unitAddedImpulse,
      unitImpulseDir, unitExpDist2, unitExpDist1, unitExpDist, unitVolRad, unitDiffPos,
      unitVolumeAndBase, unitAt, sqrtAt, origin, float3.Length, float3.SqLength, falloffMod,
      rawImpulseStrength, Clamp, plainDamage, DamageArray.GetDefaultDamage]

/-! ## Terrain deformation -/

theorem filter_isMapDamage_nil (L : List Call) (h : ∀ c ∈ L, c.isMapDamage = false) :
    L.filter Call.isMapDamage = [] := by
  rw [List.filter_eq_nil_iff]
  intro c hc
  simp [h c hc]

/-- The per-unit damage function appends calls that are not terrain deformations. -/
theorem DoExplosionDamage_calls (sqrtf : ℚ → ℚ) (MAX_EXPLOSION_IMPULSE : ℚ)
    (frameNum : Int) (heap : UnitPtr → CUnit) (unit : UnitPtr) (owner : Option UnitPtr)
    (expPos : float3) (expRad expSpeed edgeEffectiveness : ℚ) (ignoreOwner : Bool)
    (damages : DamageArray) (weaponDefID : Int) (s : HelperState) :
    ∃ L : List Call, (∀ c ∈ L, c.isMapDamage = false)
      ∧ (DoExplosionDamage sqrtf MAX_EXPLOSION_IMPULSE frameNum heap unit owner expPos expRad
          expSpeed edgeEffectiveness ignoreOwner damages weaponDefID s).calls = s.calls ++ L := by
  rcases DoExplosionDamage_cases sqrtf MAX_EXPLOSION_IMPULSE frameNum heap unit owner expPos
    expRad expSpeed edgeEffectiveness ignoreOwner damages weaponDefID s
    with h | ⟨dmg, h⟩ | ⟨sl, att, dmg, h⟩
  · exact ⟨[], fun c hc => absurd hc (List.not_mem_nil _), by rw [h]; simp⟩
  · refine ⟨[_], ?_, by rw [h]; rfl⟩
    intro c hc
    rw [List.mem_singleton.mp hc]
    rfl
  · exact ⟨[], fun c hc => absurd hc (List.not_mem_nil _), by rw [h]; simp [HelperState.pushFront]⟩

/-- The per-feature damage function appends calls that are not terrain deformations. -/
theorem DoExplosionDamageFeature_calls (sqrtf : ℚ → ℚ) (SQUARE_SIZE : Int)
    (heap : FeaturePtr → CFeature) (feature : FeaturePtr) (expPos : float3) (expRad : ℚ)
    (damages : DamageArray) (weaponDefID : Int) (s : HelperState) :
    ∃ L : List Call, (∀ c ∈ L, c.isMapDamage = false)
      ∧ (DoExplosionDamageFeature sqrtf SQUARE_SIZE heap feature expPos expRad damages
          weaponDefID s).calls = s.calls ++ L := by
  rcases DoExplosionDamageFeature_cases sqrtf SQUARE_SIZE heap feature expPos expRad damages
    weaponDefID s with h | ⟨dmg, imp, h⟩
  · exact ⟨[], fun c hc => absurd hc (List.not_mem_nil _), by rw [h]; simp⟩
  · refine ⟨[_], ?_, by rw [h]; rfl⟩
    intro c hc
    rw [List.mem_singleton.mp hc]
    rfl

/-- A loop of steps that append calls that are not terrain deformations appends such calls. -/
theorem foldl_calls {α : Type} (dmg : α → HelperState → HelperState)
    (hstep : ∀ e s, ∃ L : List Call, (∀ c ∈ L, c.isMapDamage = false)
      ∧ (dmg e s).calls = s.calls ++ L) :
    ∀ (l : List α) (s : HelperState), ∃ L : List Call, (∀ c ∈ L, c.isMapDamage = false)
      ∧ (l.foldl (fun s e => dmg e s) s).calls = s.calls ++ L := by
  intro l
  induction l with
  | nil => intro s; exact ⟨[], fun c hc => absurd hc (List.not_mem_nil _), by simp⟩
  | cons x xs ih =>
    intro s
    rw [List.foldl_cons]
    obtain ⟨L1, h1, e1⟩ := hstep x s
    obtain ⟨L2, h2, e2⟩ := ih (dmg x s)
    refine ⟨L1 ++ L2, ?_, by rw [e2, e1, List.append_assoc]⟩
    intro c hc
    rcases List.mem_append.mp hc with h | h
    · exact h1 c h
    · exact h2 c h

theorem explosionHead_calls (env : ExplosionEnv) (p : ExplosionParams) (s : HelperState) :
    ∃ H : List Call, (∀ c ∈ H, c.isMapDamage = false)
      ∧ (explosionHead env p s).calls = s.calls ++ H := by
  have hone : ∀ c ∈ [Call.eventHandlerExplosion p.weaponDefID p.pos p.owner],
      c.isMapDamage = false := by
    intro c hc
    rw [List.mem_singleton.mp hc]
    rfl
  unfold explosionHead
  dsimp only
  cases hui : env.luaUI with
  | false => exact ⟨_, hone, rfl⟩
  | true =>
    cases hwd : p.weaponDef with
    | none => exact ⟨_, hone, rfl⟩
    | some wdef =>
      by_cases hshake : wdef.cameraShake > 0
      · refine ⟨[Call.eventHandlerExplosion p.weaponDefID p.pos p.owner,
          Call.shockFront wdef.cameraShake p.pos p.damageAOE], ?_, ?_⟩
        · intro c hc
          simp only [List.mem_cons, List.mem_singleton, List.mem_nil_iff, or_false] at hc
          rcases hc with hc | hc <;> rw [hc] <;> rfl
        · simp [HelperState.call, hshake]
      · refine ⟨_, hone, ?_⟩
        simp [HelperState.call, hshake]

theorem explosionTail_calls (env : ExplosionEnv) (p : ExplosionParams) (s : HelperState) :
    ∃ Tl : List Call, (∀ c ∈ Tl, c.isMapDamage = false)
      ∧ (explosionTail env p s).calls = s.calls ++ Tl := by
  unfold explosionTail
  dsimp only
  cases hgfx : env.eventHandlerExplosion p.weaponDefID p.pos p.owner with
  | false =>
    refine ⟨[Call.generatorExplosion
        (match p.weaponDef with
          | some wdef => wdef.explosionGenerator
          | none => none)
        p.pos p.damages.GetDefaultDamage p.damageAOE p.owner p.gfxMod p.hitUnit p.dir,
      Call.explosionEvent p.pos p.damages.GetDefaultDamage p.damageAOE
        (p.weaponDef.map (fun wdef => wdef.id))], ?_, ?_⟩
    · intro c hc
      simp only [List.mem_cons, List.mem_singleton, List.mem_nil_iff, or_false] at hc
      rcases hc with hc | hc <;> rw [hc] <;> rfl
    · simp [HelperState.call]
  | true =>
    refine ⟨[Call.explosionEvent p.pos p.damages.GetDefaultDamage p.damageAOE
        (p.weaponDef.map (fun wdef => wdef.id))], ?_, ?_⟩
    · intro c hc
      rw [List.mem_singleton.mp hc]
      rfl
    · simp [HelperState.call]

/-- The map deformation of `Explosion` logs one call when the condition of lines 298-299 holds
and nothing otherwise. -/
theorem deformMap_calls (env : ExplosionEnv) (p : ExplosionParams) (s : HelperState) :
    (deformMap env.mapDamageDisabled p p.pos p.craterAOE (explosionAltitude env p) s).calls
      = s.calls ++ (if deformsMap env p then
          [Call.mapDamageExplosion p.pos (explosionCraterStrength env p)
            (explosionCraterRadius env p)]
        else []) := by
  unfold deformMap deformsMap
  by_cases halt : explosionAltitude env p ≥ -1
  · rw [if_pos halt]
    by_cases hg : p.damageGround = true
    · by_cases hd : env.mapDamageDisabled = true
      · simp [hd]
      · by_cases hc : p.craterAOE > explosionAltitude env p
        · by_cases hm : p.damages.craterMult > 0
          · simp [halt, hg, hd, hc, hm, HelperState.call, explosionCraterStrength,
              explosionCraterRadius]
          · simp [halt, hg, hd, hc, hm]
        · simp [halt, hg, hd, hc]
    · simp [hg]
  · rw [if_neg halt]
    simp [halt]

/-- The terrain deformations among the calls of one `Explosion`. -/
theorem Explosion_mapDamage_calls (env : ExplosionEnv) (p : ExplosionParams) (s : HelperState) :
    (callsSince s (Explosion env p s)).filter Call.isMapDamage
      = if p.impactOnly = false ∧ deformsMap env p then
          [Call.mapDamageExplosion p.pos (explosionCraterStrength env p)
            (explosionCraterRadius env p)]
        else [] := by
  have hunit : ∀ e s, ∃ L : List Call, (∀ c ∈ L, c.isMapDamage = false)
      ∧ (explosionUnitDamage env p e s).calls = s.calls ++ L := fun e s =>
    DoExplosionDamage_calls _ _ _ _ _ _ _ _ _ _ _ _ _ s
  have hfeat : ∀ e s, ∃ L : List Call, (∀ c ∈ L, c.isMapDamage = false)
      ∧ (explosionFeatureDamage env p e s).calls = s.calls ++ L := fun e s =>
    DoExplosionDamageFeature_calls _ _ _ _ _ _ _ _ s
  obtain ⟨H, hH, eH⟩ := explosionHead_calls env p s
  rw [Explosion_eq]
  cases himp : p.impactOnly
  · -- the area branch
    unfold explosionDamage
    simp only [Bool.false_eq_true, if_false, damageBlock_eq, true_and]
    obtain ⟨U, hU, eU⟩ := foldl_calls (explosionUnitDamage env p) hunit
      (processedEntities (env.GetUnitsExact p.pos p.damageAOE) p.hitUnit) (explosionHead env p s)
    obtain ⟨F, hF, eF⟩ := foldl_calls (explosionFeatureDamage env p) hfeat
      (processedEntities (env.GetFeaturesExact p.pos p.damageAOE) p.hitFeature)
      ((processedEntities (env.GetUnitsExact p.pos p.damageAOE) p.hitUnit).foldl
        (fun s e => explosionUnitDamage env p e s) (explosionHead env p s))
    obtain ⟨Tl, hTl, eTl⟩ := explosionTail_calls env p
      (deformMap env.mapDamageDisabled p p.pos p.craterAOE (explosionAltitude env p)
        ((processedEntities (env.GetFeaturesExact p.pos p.damageAOE) p.hitFeature).foldl
          (fun s e => explosionFeatureDamage env p e s)
          ((processedEntities (env.GetUnitsExact p.pos p.damageAOE) p.hitUnit).foldl
            (fun s e => explosionUnitDamage env p e s) (explosionHead env p s))))
    unfold callsSince
    rw [eTl, deformMap_calls, eF, eU, eH]
    simp only [List.append_assoc, List.drop_left, List.filter_append,
      filter_isMapDamage_nil H hH, filter_isMapDamage_nil U hU, filter_isMapDamage_nil F hF,
      filter_isMapDamage_nil Tl hTl, List.nil_append, List.append_nil]
    by_cases hd : deformsMap env p
    · simp [hd, Call.isMapDamage]
    · simp [hd]
  · -- the impact-only branch
    have hdmg : ∃ D : List Call, (∀ c ∈ D, c.isMapDamage = false)
        ∧ (explosionDamage (explosionUnitDamage env p) (explosionFeatureDamage env p)
            (deformMap env.mapDamageDisabled p p.pos p.craterAOE (explosionAltitude env p))
            true p.hitUnit p.hitFeature
            (env.GetUnitsExact p.pos p.damageAOE) (env.GetFeaturesExact p.pos p.damageAOE)
            (explosionHead env p s)).calls = (explosionHead env p s).calls ++ D := by
      unfold explosionDamage
      rw [if_pos rfl]
      cases p.hitUnit with
      | some hu => exact hunit hu _
      | none =>
        cases p.hitFeature with
        | some hf => exact hfeat hf _
        | none => exact ⟨[], fun c hc => absurd hc (List.not_mem_nil _), by simp⟩
    obtain ⟨D, hD, eD⟩ := hdmg
    obtain ⟨Tl, hTl, eTl⟩ := explosionTail_calls env p
      (explosionDamage (explosionUnitDamage env p) (explosionFeatureDamage env p)
        (deformMap env.mapDamageDisabled p p.pos p.craterAOE (explosionAltitude env p))
        true p.hitUnit p.hitFeature
        (env.GetUnitsExact p.pos p.damageAOE) (env.GetFeaturesExact p.pos p.damageAOE)
        (explosionHead env p s))
    unfold callsSince
    rw [eTl, eD, eH]
    simp only [List.append_assoc, List.drop_left, List.filter_append,
      filter_isMapDamage_nil H hH, filter_isMapDamage_nil D hD,
      filter_isMapDamage_nil Tl hTl, List.nil_append, List.append_nil]
    simp

/-- C24, counterexample: a unit of bounding radius 20 whose centre is at distance 10 from the
explosion (the explosion is inside the bounding sphere): `expDist = 20.1`, the offset
`(0, 10, 0)` is divided by `20.1`, and before the bias is added the direction `(0, 100/201, 0)`
does not have length 1. The impulse handed to `DoDamage` is this direction with `0.12` added to
`y`, times the strength. -/
theorem impulse_direction_not_normalised :
    unitScaledDiff sqrtAt 0 unitRadius20 origin = ⟨0, 100 / 201, 0⟩
    ∧ (unitScaledDiff sqrtAt 0 unitRadius20 origin).SqLength ≠ 1
    ∧ unitImpulseDir sqrtAt 0 unitRadius20 origin = ⟨0, 100 / 201 + 0.12, 0⟩
    ∧ callsSince emptyState
        (DoExplosionDamage sqrtAt 10000 0 (fun _ => unitRadius20) 0 none origin 100 1000 0
          false (plainDamage 50) 3 emptyState)
      = [Call.unitDoDamage 0 (plainDamage 50 * (999 / 1000 : ℚ))
          ((⟨0, 100 / 201 + 0.12, 0⟩ : float3) * (1 * (799 / 1000) * 50 * 3.2 : ℚ)) none 3] := by
  refine ⟨?_, ?_, ?_, ?_⟩
  · norm_num [unitScaledDiff, unitExpDist, unitVolRad, unitDiffPos, unitVolumeAndBase,
      unitRadius20, unitAt, sqrtAt, origin, float3.Length, float3.SqLength]
  · norm_num [unitScaledDiff, unitExpDist, unitVolRad, unitDiffPos, unitVolumeAndBase,
      unitRadius20, unitAt, sqrtAt, origin, float3.Length, float3.SqLength]
  · norm_num [unitImpulseDir, unitExpDist, unitVolRad, unitDiffPos, unitVolumeAndBase,
      unitRadius20, unitAt, sqrtAt, origin, float3.Length, float3.SqLength]
  · norm_num [DoExplosionDamage, callsSince, emptyState, HelperState.call, unitAddedImpulse,
      unitImpulseDir, unitExpDist2, unitExpDist1, unitExpDist, unitVolRad, unitDiffPos,
      unitVolumeAndBase, unitRadius20, unitAt, sqrtAt, origin, float3.Length, float3.SqLength,
      falloffMod, rawImpulseStrength, Clamp, plainDamage, DamageArray.GetDefaultDamage]

/-! ## The range test of target selection -/

/-- The range test of the default scoring: a pair is inserted only when the squared 2D distance
to the target position is at most the square of the height-adjusted range. -/
theorem scoreTarget_range_test (env : TargetEnv) (weapon : CWeapon)
    (lastTargetUnit : Option UnitPtr) (attacker : CUnit) (secDamage : ℚ) (paralyzer : Bool)
    (targetUnit : UnitPtr) (u : CUnit) (targetLOSState : Nat) (targPos : float3)
    (targetPriority : ℚ) (st : TargetState)
    (h : scoreTarget env weapon lastTargetUnit attacker secDamage paralyzer targetUnit u
        targetLOSState targPos targetPriority st ≠ st) :
    (attacker.pos - targPos).SqLength2D
      ≤ targetModRange weapon targPos * targetModRange weapon targPos := by
  by_contra hno
  apply h
  unfold scoreTarget
  rw [if_neg hno]

/-- When the height-adjusted range is not negative and the square root is exact at the squared
2D distance, the squared test is the test of the 2D distance against the range. -/
theorem dist2D_le_modRange_of_nonneg (sqrtf : ℚ → ℚ) (weapon : CWeapon) (pos targPos : float3)
    (hm : 0 ≤ targetModRange weapon targPos)
    (hs : (pos - targPos).Length2D sqrtf * (pos - targPos).Length2D sqrtf
            = (pos - targPos).SqLength2D)
    (h : (pos - targPos).SqLength2D
          ≤ targetModRange weapon targPos * targetModRange weapon targPos) :
    (pos - targPos).Length2D sqrtf ≤ targetModRange weapon targPos := by
  by_contra hno
  push_neg at hno
  nlinarith

/-- C25, the code at the failing input: a weapon of range 100 with height modifier 1 at height
0, targets 300 above it at horizontal distance 10. The height-adjusted range is
`100 + (0 - 300) * 1 = -200`; the test `SqLength2D ≤ modRange * modRange` is `100 ≤ 40000`, and
the three targets are inserted by the default scoring although their 2D distance 10 exceeds
`modRange`. -/
theorem target_beyond_negative_modRange_inserted :
    (GenerateWeaponTargets plainTargetEnv steepWeapon none ⟨5, highTargets, 0, []⟩).targets
      = [(3300, 0), (3300, 1), (3300, 2)]
    ∧ targetModRange steepWeapon (highTargets 0).midPos = -200
    ∧ ((highTargets steepWeapon.owner).pos - (highTargets 0).midPos).Length2D sqrtAt = 10
    ∧ ¬ (((highTargets steepWeapon.owner).pos - (highTargets 0).midPos).Length2D sqrtAt
          ≤ targetModRange steepWeapon (highTargets 0).midPos) := by
  refine ⟨?_, ?_, ?_, ?_⟩
  · rw [GenerateWeaponTargets_fold]
    have hen : enumeratedUnits plainTargetEnv.qf plainTargetEnv.ActiveAllyTeams
        (enemyTeams plainTargetEnv (highTargets steepWeapon.owner).allyteam)
        (highTargets steepWeapon.owner).pos (weaponSearchRadius plainTargetEnv steepWeapon)
        = [0, 1, 1, 2] := by
      decide
    simp only [hen]
    norm_num [considerTarget, defaultTarget, scoreTarget, targetPriorityVisible, targetModRange,
      plainTargetEnv, steepWeapon, plainWeapon, highTargets, unitAt, origin, multimapInsert,
      weaponSecDamage, DamageArray.GetDefaultDamage, float3.SqLength2D, float3.Length2D, sqrtAt,
      Function.update_apply]
    simp
  · norm_num [targetModRange, steepWeapon, plainWeapon, highTargets, unitAt]
  · norm_num [steepWeapon, plainWeapon, highTargets, unitAt, origin, float3.Length2D,
      float3.SqLength2D, sqrtAt]
  · norm_num [targetModRange, steepWeapon, plainWeapon, highTargets, unitAt, origin,
      float3.Length2D, float3.SqLength2D, sqrtAt]

/-! ## The scripting override and repeated units -/

/-- C26, the code at the failing input: a scripting override that allows every target with
priority 7, and unit 1 lying in both enumerated quads. No unit matches the weapon's category
mask and no unit carries the generation number drawn, yet the override is consulted for every
unit, and for unit 1 once per quad: the pair `(7, 1)` is inserted twice. Without the override
the same call inserts nothing. -/
theorem override_inserts_unit_of_two_quads_twice :
    (GenerateWeaponTargets overrideEnv plainWeapon none ⟨5, maskedUnits, 0, []⟩).targets
      = [(7, 0), (7, 1), (7, 1), (7, 2)]
    ∧ (∀ p, (maskedUnits p).category &&& plainWeapon.onlyTargetCategory = 0)
    ∧ (∀ p, (maskedUnits p).tempNum ≠ 5)
    ∧ (GenerateWeaponTargets plainTargetEnv plainWeapon none ⟨5, maskedUnits, 0, []⟩).targets
      = [] := by
  refine ⟨?_, ?_, ?_, ?_⟩
  · rw [GenerateWeaponTargets_fold]
    have hen : enumeratedUnits overrideEnv.qf overrideEnv.ActiveAllyTeams
        (enemyTeams overrideEnv (maskedUnits plainWeapon.owner).allyteam)
        (maskedUnits plainWeapon.owner).pos (weaponSearchRadius overrideEnv plainWeapon)
        = [0, 1, 1, 2] := by
      decide
    simp only [hen]
    norm_num [considerTarget, overrideEnv, multimapInsert]
  · intro p
    simp [maskedUnits]
  · intro p
    simp [maskedUnits, targetUnits, unitAt]
  · rw [GenerateWeaponTargets_fold]
    have hen : enumeratedUnits plainTargetEnv.qf plainTargetEnv.ActiveAllyTeams
        (enemyTeams plainTargetEnv (maskedUnits plainWeapon.owner).allyteam)
        (maskedUnits plainWeapon.owner).pos (weaponSearchRadius plainTargetEnv plainWeapon)
        = [0, 1, 1, 2] := by
      decide
    simp only [hen]
    simp [considerTarget, defaultTarget, plainTargetEnv, maskedUnits]

/-! ## The 10% floor of the feature damage -/

theorem falloffMod_anti (expRad edgeEffectiveness d1 d2 : ℚ) (hR : 0 < expRad)
    (he0 : 0 ≤ edgeEffectiveness) (he1 : edgeEffectiveness ≤ 1) (h12 : d1 ≤ d2)
    (h2 : d2 ≤ expRad) :
    falloffMod expRad edgeEffectiveness d2 ≤ falloffMod expRad edgeEffectiveness d1 := by
  unfold falloffMod
  apply max_le_max le_rfl
  have hden2 : 0 ≤ expRad - d2 * edgeEffectiveness := by nlinarith
  have hden1 : expRad - d2 * edgeEffectiveness ≤ expRad - d1 * edgeEffectiveness := by nlinarith
  rcases eq_or_lt_of_le hden2 with hz | hpos
  · rw [← hz, div_zero]
    exact div_nonneg (by linarith) (by linarith)
  · rw [div_le_div_iff₀ hpos (by linarith)]
    nlinarith [mul_nonneg (sub_nonneg.mpr h12) (sub_nonneg.mpr he1)]

/-! ## The impulse strength -/

theorem Clamp_mem (v M : ℚ) (hM : 0 ≤ M) : -M ≤ Clamp v (-M) M ∧ Clamp v (-M) M ≤ M :=
  ⟨le_min (by linarith) (le_max_left _ _), min_le_left _ _⟩

theorem Clamp_of_mem (v M : ℚ) (h1 : -M ≤ v) (h2 : v ≤ M) : Clamp v (-M) M = v := by
  unfold Clamp
  rw [max_eq_right h1, min_eq_right h2]

/-- C29: the strength by which the per-unit `DoExplosionDamage` scales the impulse direction is
`Clamp(impulseFactor * mod1 * (defaultDamage + impulseBoost) * 3.2, -MAX, MAX)` with
`mod1 = max(0.01, (R - d) / (R - d * e))` at `d = min(expDist, R)`; for `MAX ≥ 0` it lies in
`[-MAX, MAX]`, and it is the raw value when the raw value lies in that interval. The impulse of
every `DoDamage` call and deferred record is the direction times this strength. -/
theorem impulse_strength_is_clamped_raw (sqrtf : ℚ → ℚ) (MAX_EXPLOSION_IMPULSE : ℚ)
    (frameNum : Int) (heap : UnitPtr → CUnit) (unit : UnitPtr) (owner : Option UnitPtr)
    (expPos : float3) (expRad expSpeed edgeEffectiveness : ℚ) (ignoreOwner : Bool)
    (damages : DamageArray) (weaponDefID : Int) (s : HelperState)
    (hM : 0 ≤ MAX_EXPLOSION_IMPULSE) :
    unitImpulseStrength sqrtf MAX_EXPLOSION_IMPULSE frameNum (heap unit) expPos expRad
        edgeEffectiveness damages
      = Clamp (damages.impulseFactor
                * max 0.01 ((expRad - min (unitExpDist sqrtf frameNum (heap unit) expPos) expRad)
                    / (expRad - (min (unitExpDist sqrtf frameNum (heap unit) expPos) expRad
                        * edgeEffectiveness)))
                * (damages.GetDefaultDamage + damages.impulseBoost) * 3.2)
          (-MAX_EXPLOSION_IMPULSE) MAX_EXPLOSION_IMPULSE
    ∧ -MAX_EXPLOSION_IMPULSE ≤ unitImpulseStrength sqrtf MAX_EXPLOSION_IMPULSE frameNum
        (heap unit) expPos expRad edgeEffectiveness damages
    ∧ unitImpulseStrength sqrtf MAX_EXPLOSION_IMPULSE frameNum (heap unit) expPos expRad
        edgeEffectiveness damages ≤ MAX_EXPLOSION_IMPULSE
    ∧ ((-MAX_EXPLOSION_IMPULSE ≤ rawImpulseStrength damages (falloffMod expRad edgeEffectiveness
            (unitExpDist1 sqrtf frameNum (heap unit) expPos expRad))
        ∧ rawImpulseStrength damages (falloffMod expRad edgeEffectiveness
            (unitExpDist1 sqrtf frameNum (heap unit) expPos expRad)) ≤ MAX_EXPLOSION_IMPULSE) →
        unitImpulseStrength sqrtf MAX_EXPLOSION_IMPULSE frameNum (heap unit) expPos expRad
            edgeEffectiveness damages
          = rawImpulseStrength damages (falloffMod expRad edgeEffectiveness
              (unitExpDist1 sqrtf frameNum (heap unit) expPos expRad)))
    ∧ (∀ p dmg imp att w, Call.unitDoDamage p dmg imp att w ∈ callsSince s
          (DoExplosionDamage sqrtf MAX_EXPLOSION_IMPULSE frameNum heap unit owner expPos expRad
            expSpeed edgeEffectiveness ignoreOwner damages weaponDefID s) →
        imp = unitImpulseDir sqrtf frameNum (heap unit) expPos
              * unitImpulseStrength sqrtf MAX_EXPLOSION_IMPULSE frameNum (heap unit) expPos
                  expRad edgeEffectiveness damages)
    ∧ (∀ slot wd, wd ∈ queuedSince s
          (DoExplosionDamage sqrtf MAX_EXPLOSION_IMPULSE frameNum heap unit owner expPos expRad
            expSpeed edgeEffectiveness ignoreOwner damages weaponDefID s) slot →
        wd.impulse = unitImpulseDir sqrtf frameNum (heap unit) expPos
              * unitImpulseStrength sqrtf MAX_EXPLOSION_IMPULSE frameNum (heap unit) expPos
                  expRad edgeEffectiveness damages) := by
  obtain ⟨hcalls, hrecs⟩ := DoExplosionDamage_delivered sqrtf MAX_EXPLOSION_IMPULSE frameNum heap
    unit owner expPos expRad expSpeed edgeEffectiveness ignoreOwner damages weaponDefID s
  refine ⟨rfl, (Clamp_mem _ _ hM).1, (Clamp_mem _ _ hM).2, ?_, ?_, ?_⟩
  · rintro ⟨h1, h2⟩
    exact Clamp_of_mem _ _ h1 h2
  · intro p dmg imp att w hmem
    have h := (hcalls _ hmem).1
    rw [Call.unitDoDamage.injEq] at h
    rw [h.2.2.1]
    rfl
  · intro slot wd hmem
    rw [(hrecs slot wd hmem).1]
    rfl

/-- Witness of C29: default damage 1e6 at distance 10 of a radius-100 explosion: the raw strength
`1 * 0.9 * 1e6 * 3.2` is clamped to `MAX_EXPLOSION_IMPULSE = 10000`. -/
theorem impulse_strength_is_clamped_raw_witness :
    -10000 ≤ unitImpulseStrength sqrtAt 10000 0 (unitAt 7 ⟨0, 10, 0⟩) origin 100 0
        (plainDamage 1000000)
    ∧ unitImpulseStrength sqrtAt 10000 0 (unitAt 7 ⟨0, 10, 0⟩) origin 100 0
        (plainDamage 1000000) ≤ 10000 :=
  ⟨(impulse_strength_is_clamped_raw sqrtAt 10000 0 (fun _ => unitAt 7 ⟨0, 10, 0⟩) 0 none origin
      100 1000 0 false (plainDamage 1000000) 3 emptyState (by norm_num)).2.1,
   (impulse_strength_is_clamped_raw sqrtAt 10000 0 (fun _ => unitAt 7 ⟨0, 10, 0⟩) 0 none origin
      100 1000 0 false (plainDamage 1000000) 3 emptyState (by norm_num)).2.2.1⟩

/-! ## The closest enemy unit without LOS test -/

/-- The loop of `AddUnit` calls of `Query::ClosestUnit_InLos` over a list of units. -/
theorem foldl_ClosestUnit_InLos (sqrtf : ℚ → ℚ) (losDiv : ℚ) (h : UnitPtr → CUnit)
    (pos : float3) (blind : Bool) :
    ∀ (l : List UnitPtr) (q : ClosestUnit_InLos), q.pos = pos → q.canBeBlind = blind →
      (l.foldl (fun q p => ClosestUnit_InLos.AddUnit sqrtf losDiv q p (h p)) q).closeDist
          ≤ q.closeDist
      ∧ (∀ p ∈ l, surfaceDist sqrtf pos (h p) ≤ q.closeDist →
          (blind = true ∨ (h p).losRadius * losDiv > surfaceDist sqrtf pos (h p)) →
          (l.foldl (fun q p => ClosestUnit_InLos.AddUnit sqrtf losDiv q p (h p)) q).closeDist
            ≤ surfaceDist sqrtf pos (h p))
      ∧ (((l.foldl (fun q p => ClosestUnit_InLos.AddUnit sqrtf losDiv q p (h p)) q).closeUnit
              = q.closeUnit
            ∧ (l.foldl (fun q p => ClosestUnit_InLos.AddUnit sqrtf losDiv q p (h p)) q).closeDist
              = q.closeDist
            ∧ ∀ p ∈ l, ¬ (surfaceDist sqrtf pos (h p) ≤ q.closeDist
                ∧ (blind = true ∨ (h p).losRadius * losDiv > surfaceDist sqrtf pos (h p))))
          ∨ (∃ p ∈ l,
              (l.foldl (fun q p => ClosestUnit_InLos.AddUnit sqrtf losDiv q p (h p)) q).closeUnit
                = some p
              ∧ surfaceDist sqrtf pos (h p)
                  = (l.foldl (fun q p => ClosestUnit_InLos.AddUnit sqrtf losDiv q p (h p))
                      q).closeDist
              ∧ surfaceDist sqrtf pos (h p) ≤ q.closeDist
              ∧ (blind = true
                  ∨ (h p).losRadius * losDiv > surfaceDist sqrtf pos (h p)))) := by
  intro l
  induction l with
  | nil =>
    intro q _ _
    simp
  | cons x xs ih =>
    intro q hpos hblind
    rw [List.foldl_cons]
    by_cases hx : surfaceDist sqrtf pos (h x) ≤ q.closeDist
        ∧ (blind = true ∨ (h x).losRadius * losDiv > surfaceDist sqrtf pos (h x))
    · have hq : ClosestUnit_InLos.AddUnit sqrtf losDiv q x (h x)
          = { q with closeDist := surfaceDist sqrtf pos (h x), closeUnit := some x } := by
        unfold ClosestUnit_InLos.AddUnit surfaceDist
        unfold surfaceDist at hx
        rw [hpos, hblind]
        simp only [if_pos hx]
      rw [hq]
      obtain ⟨hB, hC, hD⟩ := ih
        { q with closeDist := surfaceDist sqrtf pos (h x), closeUnit := some x } hpos hblind
      simp only at hB hC hD
      refine ⟨le_trans hB hx.1, ?_, ?_⟩
      · intro p hp hpd hlos
        rcases List.mem_cons.mp hp with hpx | hpxs
        · rw [hpx]
          exact hB
        · by_cases hpx2 : surfaceDist sqrtf pos (h p) ≤ surfaceDist sqrtf pos (h x)
          · exact hC p hpxs hpx2 hlos
          · exact le_trans hB (le_of_lt (not_le.mp hpx2))
      · right
        rcases hD with ⟨h1, h2, _⟩ | ⟨p, hp, h1, h2, h3, h4⟩
        · exact ⟨x, List.mem_cons_self _ _, h1, h2.symm, hx.1, hx.2⟩
        · exact ⟨p, List.mem_cons_of_mem _ hp, h1, h2, le_trans h3 hx.1, h4⟩
    · have hq : ClosestUnit_InLos.AddUnit sqrtf losDiv q x (h x) = q := by
        unfold ClosestUnit_InLos.AddUnit
        unfold surfaceDist at hx
        rw [hpos, hblind]
        simp only [if_neg hx]
      rw [hq]
      obtain ⟨hB, hC, hD⟩ := ih q hpos hblind
      refine ⟨hB, ?_, ?_⟩
      · intro p hp hpd hlos
        rcases List.mem_cons.mp hp with hpx | hpxs
        · rw [hpx] at hpd hlos
          exact absurd ⟨hpd, hlos⟩ hx
        · exact hC p hpxs hpd hlos
      · rcases hD with ⟨h1, h2, h3⟩ | ⟨p, hp, h1, h2, h3, h4⟩
        · left
          refine ⟨h1, h2, ?_⟩
          intro p hp
          rcases List.mem_cons.mp hp with hpx | hpxs
          · rw [hpx]
            exact hx
          · exact h3 p hpxs
        · right
          exact ⟨p, List.mem_cons_of_mem _ hp, h1, h2, h3, h4⟩

theorem mem_trace_Enemy (qf : QuadField) (ActiveAllyTeams : Int) (Ally : Int → Int → Bool)
    (T : Int) (heap : UnitPtr → CUnit) (pos : float3) (radius : ℚ) (searchAllyteam : Int)
    (hfresh : ∀ u, (heap u).tempNum ≠ T) (u : UnitPtr) :
    u ∈ (QueryUnits qf ActiveAllyTeams (Enemy Ally searchAllyteam) (traceQuery pos radius)
          ⟨T, heap, []⟩).query
      ↔ enemyEnumerated qf ActiveAllyTeams Ally pos radius searchAllyteam u := by
  rw [mem_QueryUnits_trace qf ActiveAllyTeams _ pos radius T heap hfresh]
  unfold enemyEnumerated inAcceptedCell Enemy
  simp only [Bool.not_eq_true', and_true]

theorem le_of_sq_le_sq (a b : ℚ) (hb : 0 ≤ b) (h : a * a ≤ b * b) : a ≤ b := by
  by_contra hno
  push_neg at hno
  nlinarith

/-! ## The order of delivery -/

/-- The records that a sequence of `push_front` leaves in a slot: those pushed on the slot, the
last one first, in front of the records that were there. -/
theorem pushAll_slot : ∀ (ps : List (Nat × WaitingDamage)) (s : HelperState) (i : Nat),
    (pushAll ps s).waitingDamages i
      = ((ps.filter (fun p => decide (p.1 = i))).map (fun p => p.2)).reverse
          ++ s.waitingDamages i := by
  intro ps
  induction ps with
  | nil => intro s i; rfl
  | cons p ps ih =>
    intro s i
    show (pushAll ps (s.pushFront p.1 p.2)).waitingDamages i = _
    rw [ih (s.pushFront p.1 p.2) i]
    by_cases hi : p.1 = i
    · simp [HelperState.pushFront, hi]
    · have hi2 : ¬ i = p.1 := fun h => hi h.symm
      simp [HelperState.pushFront, hi, hi2]

theorem pushAll_calls : ∀ (ps : List (Nat × WaitingDamage)) (s : HelperState),
    (pushAll ps s).calls = s.calls := by
  intro ps
  induction ps with
  | nil => intro s; rfl
  | cons p ps ih =>
    intro s
    show (pushAll ps (s.pushFront p.1 p.2)).calls = _
    rw [ih]
    rfl

/-- C32: after the records `ps` have been pushed, in this order, at the front of their slots
(`waitingDamages[slot].push_front(wd)`, line 171), the `Update` of frame `frameNum` makes its
`DoDamage` calls in the order of insertion: first for the records that were in the slot before,
from the oldest to the newest, then for the records of `ps` pushed on the slot, in the order of
`ps`; a record whose target no longer exists gives no call. The sequence of calls is this
function of the insertion sequence. -/
theorem Update_delivers_in_insertion_order (frameNum : Int) (units : Int → Option UnitPtr)
    (s : HelperState) (ps : List (Nat × WaitingDamage)) :
    callsSince s (Update frameNum units (pushAll ps s))
      = ((s.waitingDamages (ringSlot frameNum)).reverse
          ++ (ps.filter (fun p => decide (p.1 = ringSlot frameNum))).map (fun p => p.2)).filterMap
          (deliveryOf units)
    ∧ ((∀ w : WaitingDamage, units w.target ≠ none) →
        (callsSince s (Update frameNum units (pushAll ps s))).length
          = (s.waitingDamages (ringSlot frameNum)).length
            + (ps.filter (fun p => decide (p.1 = ringSlot frameNum))).length)
    ∧ (∀ w1 w2 : WaitingDamage, s.waitingDamages (ringSlot frameNum) = [] →
        callsSince s (Update frameNum units
            ((s.pushFront (ringSlot frameNum) w1).pushFront (ringSlot frameNum) w2))
          = [w1, w2].filterMap (deliveryOf units)) := by
  have hmain : ∀ qs : List (Nat × WaitingDamage),
      callsSince s (Update frameNum units (pushAll qs s))
        = ((s.waitingDamages (ringSlot frameNum)).reverse
            ++ (qs.filter (fun p => decide (p.1 = ringSlot frameNum))).map
                (fun p => p.2)).filterMap (deliveryOf units) := by
    intro qs
    unfold callsSince
    rw [Update_calls, pushAll_calls, List.drop_left, pushAll_slot, List.reverse_append,
      List.reverse_reverse]
  refine ⟨hmain ps, ?_, ?_⟩
  · intro hall
    rw [hmain ps]
    have hlen : ∀ l : List WaitingDamage, (l.filterMap (deliveryOf units)).length = l.length := by
      intro l
      induction l with
      | nil => rfl
      | cons w l ih =>
        cases hu : units w.target with
        | none => exact absurd hu (hall w)
        | some a => simp [List.filterMap_cons, deliveryOf, hu, ih]
    rw [hlen]
    simp
  · intro w1 w2 hempty
    have h := hmain [(ringSlot frameNum, w1), (ringSlot frameNum, w2)]
    rw [hempty] at h
    simpa [pushAll] using h

/-! ## The search offset table -/

theorem fillOffset_eq (m y x : Nat) (t : List SearchOffset) :
    fillOffset (m : Int) y t x = t.set (y * (m * 2) + x) (offsetEntry (m : Int) x y) := by
  unfold fillOffset offsetEntry
  have hidx : ((y : Int) * (m : Int) * 2 + (x : Int)).toNat = y * (m * 2) + x := by
    have : ((y : Int) * (m : Int) * 2 + (x : Int)) = ((y * (m * 2) + x : Nat) : Int) := by
      push_cast
      ring
    rw [this, Int.toNat_ofNat]
  simp only [hidx]

/-- The inner fill loop writes the entries of the columns `0, ..., X - 1` of row `y`. -/
theorem fillColumns (m y : Nat) (t : List SearchOffset) :
    ∀ X : Nat, ((List.range X).foldl (fillOffset (m : Int) y) t).length = t.length
      ∧ ∀ j, ((List.range X).foldl (fillOffset (m : Int) y) t)[j]?
          = if y * (m * 2) ≤ j ∧ j < y * (m * 2) + X ∧ j < t.length then
              some (offsetEntry (m : Int) (j - y * (m * 2)) y)
            else t[j]? := by
  intro X
  induction X with
  | zero =>
    refine ⟨rfl, ?_⟩
    intro j
    have : ¬ (y * (m * 2) ≤ j ∧ j < y * (m * 2) + 0 ∧ j < t.length) := by omega
    rw [if_neg this]
    rfl
  | succ X ih =>
    obtain ⟨hlen, hget⟩ := ih
    rw [List.range_succ, List.foldl_append]
    simp only [List.foldl_cons, List.foldl_nil]
    rw [fillOffset_eq]
    refine ⟨by rw [List.length_set, hlen], ?_⟩
    intro j
    rw [List.getElem?_set, hlen, hget j]
    by_cases hj : y * (m * 2) + X = j
    · subst hj
      by_cases hl : y * (m * 2) + X < t.length
      · have h1 : y * (m * 2) ≤ y * (m * 2) + X ∧ y * (m * 2) + X < y * (m * 2) + (X + 1)
            ∧ y * (m * 2) + X < t.length := ⟨by omega, by omega, hl⟩
        simp only [if_true, if_pos hl, if_pos h1]
        congr 2
        omega
      · have h1 : ¬ (y * (m * 2) ≤ y * (m * 2) + X
            ∧ y * (m * 2) + X < y * (m * 2) + (X + 1)
            ∧ y * (m * 2) + X < t.length) := fun h => hl h.2.2
        have h2 : ¬ (y * (m * 2) ≤ y * (m * 2) + X ∧ y * (m * 2) + X < y * (m * 2) + X
            ∧ y * (m * 2) + X < t.length) := by omega
        simp only [if_true, if_neg hl, if_neg h1, if_neg h2]
        rw [List.getElem?_eq_none (by omega)]
    · rw [if_neg hj]
      by_cases hc : y * (m * 2) ≤ j ∧ j < y * (m * 2) + X ∧ j < t.length
      · have hc2 : y * (m * 2) ≤ j ∧ j < y * (m * 2) + (X + 1) ∧ j < t.length :=
          ⟨hc.1, by omega, hc.2.2⟩
        rw [if_pos hc, if_pos hc2]
      · have hc2 : ¬ (y * (m * 2) ≤ j ∧ j < y * (m * 2) + (X + 1) ∧ j < t.length) := by
          intro h
          apply hc
          exact ⟨h.1, by omega, h.2.2⟩
        rw [if_neg hc, if_neg hc2]

theorem offsetEntry_eq_offsetAt (m y x : Nat) (hx : x < m * 2) :
    offsetEntry (m : Int) x y = offsetAt (m : Int) (y * (m * 2) + x) := by
  unfold offsetEntry offsetAt
  have hn : ((m : Int) * 2).toNat = m * 2 := by
    have : ((m : Int) * 2) = ((m * 2 : Nat) : Int) := by push_cast; ring
    rw [this, Int.toNat_ofNat]
  have hmod : (y * (m * 2) + x) % (m * 2) = x := by
    rw [Nat.add_comm, Nat.add_mul_mod_self_right]
    exact Nat.mod_eq_of_lt hx
  have hdiv : (y * (m * 2) + x) / (m * 2) = y := by
    rw [Nat.add_comm, Nat.add_mul_div_right _ _ (by omega), Nat.div_eq_of_lt hx, Nat.zero_add]
  simp only [hn, hmod, hdiv]

/-- The outer fill loop writes the entries of the rows `0, ..., Y - 1`. -/
theorem fillRows (m : Nat) (t : List SearchOffset) :
    ∀ Y : Nat, ((List.range Y).foldl (fillRow (m : Int)) t).length = t.length
      ∧ ∀ j, ((List.range Y).foldl (fillRow (m : Int)) t)[j]?
          = if j < Y * (m * 2) ∧ j < t.length then some (offsetAt (m : Int) j) else t[j]? := by
  have hn : ((m : Int) * 2).toNat = m * 2 := by
    have : ((m : Int) * 2) = ((m * 2 : Nat) : Int) := by push_cast; ring
    rw [this, Int.toNat_ofNat]
  intro Y
  induction Y with
  | zero =>
    refine ⟨rfl, ?_⟩
    intro j
    have : ¬ (j < 0 * (m * 2) ∧ j < t.length) := by omega
    rw [if_neg this]
    rfl
  | succ Y ih =>
    obtain ⟨hlen, hget⟩ := ih
    rw [List.range_succ, List.foldl_append]
    simp only [List.foldl_cons, List.foldl_nil]
    unfold fillRow
    rw [hn]
    obtain ⟨hlen2, hget2⟩ := fillColumns m Y ((List.range Y).foldl (fillRow (m : Int)) t) (m * 2)
    have hfr : (fun t y => (List.range (m * 2)).foldl (fillOffset (m : Int) y) t)
        = fillRow (m : Int) := by
      funext t y
      unfold fillRow
      rw [hn]
    rw [hfr]
    refine ⟨by rw [hlen2, hlen], ?_⟩
    intro j
    rw [hget2 j, hlen, hget j]
    have hsucc : (Y + 1) * (m * 2) = Y * (m * 2) + m * 2 := by ring
    by_cases hrow : Y * (m * 2) ≤ j ∧ j < Y * (m * 2) + m * 2 ∧ j < t.length
    · have hc : j < (Y + 1) * (m * 2) ∧ j < t.length := ⟨by omega, hrow.2.2⟩
      rw [if_pos hrow, if_pos hc]
      obtain ⟨x, hx⟩ := Nat.exists_eq_add_of_le hrow.1
      subst hx
      rw [Nat.add_sub_cancel_left, offsetEntry_eq_offsetAt m Y x (by omega)]
    · rw [if_neg hrow]
      by_cases hprev : j < Y * (m * 2) ∧ j < t.length
      · have hc : j < (Y + 1) * (m * 2) ∧ j < t.length := ⟨by omega, hprev.2⟩
        rw [if_pos hprev, if_pos hc]
      · have hc : ¬ (j < (Y + 1) * (m * 2) ∧ j < t.length) := by
          intro h
          by_cases hlt : j < Y * (m * 2)
          · exact hprev ⟨hlt, h.2⟩
          · exact hrow ⟨by omega, by omega, h.2⟩
        rw [if_neg hprev, if_neg hc]

/-- A call of `GetSearchOffsetTable` with a radius whose square does not fit the table rebuilds
it: the table is the sorted list of the offsets of the square, whatever it held before. -/
theorem GetSearchOffsetTable_rebuilt
    (sort : (SearchOffset → SearchOffset → Bool) → List SearchOffset → List SearchOffset)
    (radius : Int) (searchOffsets : List SearchOffset) (hr : 0 ≤ radius)
    (hsmall : searchOffsets.length < (radius * radius * 4).toNat) :
    GetSearchOffsetTable sort radius searchOffsets
      = sort SearchOffsetComparator (squareOffsets radius) := by
  obtain ⟨m, rfl⟩ := Int.eq_ofNat_of_zero_le hr
  have hn : ((m : Int) * 2).toNat = m * 2 := by
    have : ((m : Int) * 2) = ((m * 2 : Nat) : Int) := by push_cast; ring
    rw [this, Int.toNat_ofNat]
  have hsize : ((m : Int) * (m : Int) * 4).toNat = (m * 2) * (m * 2) := by
    have : ((m : Int) * (m : Int) * 4) = (((m * 2) * (m * 2) : Nat) : Int) := by push_cast; ring
    rw [this, Int.toNat_ofNat]
  rw [hsize] at hsmall
  unfold GetSearchOffsetTable
  simp only [hsize, hn, gt_iff_lt, if_pos hsmall]
  congr 1
  obtain ⟨hlen, hget⟩ := fillRows m (resizeOffsets searchOffsets ((m * 2) * (m * 2))) (m * 2)
  have hrl : (resizeOffsets searchOffsets ((m * 2) * (m * 2))).length = (m * 2) * (m * 2) := by
    unfold resizeOffsets
    rw [List.length_append, List.length_replicate]
    omega
  apply List.ext_getElem?
  intro j
  rw [hget j, hrl]
  unfold squareOffsets
  rw [hsize, List.getElem?_map]
  by_cases hj : j < (m * 2) * (m * 2)
  · rw [if_pos ⟨hj, hj⟩, List.getElem?_range hj]
    rfl
  · rw [if_neg (fun h => hj h.1), List.getElem?_eq_none (by omega),
      List.getElem?_eq_none (by rw [List.length_range]; omega)]
    rfl

/-- A call of `GetSearchOffsetTable` with a radius whose square fits the table returns the
table as it is. -/
theorem GetSearchOffsetTable_cached
    (sort : (SearchOffset → SearchOffset → Bool) → List SearchOffset → List SearchOffset)
    (radius : Int) (searchOffsets : List SearchOffset)
    (hfits : (radius * radius * 4).toNat ≤ searchOffsets.length) :
    GetSearchOffsetTable sort radius searchOffsets = searchOffsets := by
  unfold GetSearchOffsetTable
  simp only [gt_iff_lt, if_neg (not_lt.mpr hfits)]

theorem mem_squareOffsets (radius : Int) (hr : 0 ≤ radius) (o : SearchOffset) :
    o ∈ squareOffsets radius
      ↔ (-radius ≤ o.dx ∧ o.dx < radius ∧ -radius ≤ o.dy ∧ o.dy < radius
          ∧ o.qdist = o.dx * o.dx + o.dy * o.dy) := by
  obtain ⟨m, rfl⟩ := Int.eq_ofNat_of_zero_le hr
  have hn : ((m : Int) * 2).toNat = m * 2 := by
    have : ((m : Int) * 2) = ((m * 2 : Nat) : Int) := by push_cast; ring
    rw [this, Int.toNat_ofNat]
  have hsize : ((m : Int) * (m : Int) * 4).toNat = (m * 2) * (m * 2) := by
    have : ((m : Int) * (m : Int) * 4) = (((m * 2) * (m * 2) : Nat) : Int) := by push_cast; ring
    rw [this, Int.toNat_ofNat]
  unfold squareOffsets
  rw [hsize, List.mem_map]
  constructor
  · rintro ⟨i, hi, rfl⟩
    rw [List.mem_range] at hi
    have hpos : 0 < m * 2 := by
      rcases Nat.eq_zero_or_pos (m * 2) with h0 | h0
      · rw [h0] at hi
        omega
      · exact h0
    have hmod : i % (m * 2) < m * 2 := Nat.mod_lt _ hpos
    have hdiv : i / (m * 2) < m * 2 := Nat.div_lt_of_lt_mul hi
    unfold offsetAt
    simp only [hn]
    generalize i % (m * 2) = a at hmod ⊢
    generalize i / (m * 2) = b at hdiv ⊢
    refine ⟨by omega, by omega, by omega, by omega, ?_⟩
    trivial
  · rintro ⟨h1, h2, h3, h4, h5⟩
    obtain ⟨x, hx⟩ := Int.eq_ofNat_of_zero_le (by omega : 0 ≤ o.dx + m)
    obtain ⟨y, hy⟩ := Int.eq_ofNat_of_zero_le (by omega : 0 ≤ o.dy + m)
    have hxlt : x < m * 2 := by omega
    have hylt : y < m * 2 := by omega
    refine ⟨y * (m * 2) + x, ?_, ?_⟩
    · rw [List.mem_range]
      calc y * (m * 2) + x < y * (m * 2) + m * 2 := by omega
        _ = (y + 1) * (m * 2) := by ring
        _ ≤ (m * 2) * (m * 2) := Nat.mul_le_mul_right _ (by omega)
    · rw [← offsetEntry_eq_offsetAt m y x hxlt]
      unfold offsetEntry
      have hdx : (x : Int) - m = o.dx := by omega
      have hdy : (y : Int) - m = o.dy := by omega
      rw [hdx, hdy, ← h5]

theorem nodup_squareOffsets (radius : Int) (hr : 0 ≤ radius) : (squareOffsets radius).Nodup := by
  obtain ⟨m, rfl⟩ := Int.eq_ofNat_of_zero_le hr
  have hn : ((m : Int) * 2).toNat = m * 2 := by
    have : ((m : Int) * 2) = ((m * 2 : Nat) : Int) := by push_cast; ring
    rw [this, Int.toNat_ofNat]
  unfold squareOffsets
  apply List.Nodup.map_on _ (List.nodup_range _)
  intro i _ j _ hij
  unfold offsetAt at hij
  simp only [hn, SearchOffset.mk.injEq] at hij
  have h1 : i % (m * 2) = j % (m * 2) := by omega
  have h2 : i / (m * 2) = j / (m * 2) := by omega
  rw [← Nat.div_add_mod i (m * 2), ← Nat.div_add_mod j (m * 2), h1, h2]

/-- When the table is rebuilt, and for every sort that meets the contract of `std::sort`, the
table returned for `radius ≥ 0` has `4 * radius²` entries without repetition, holds exactly the
offsets `(dx, dy)` with `-radius ≤ dx, dy < radius` and `qdist = dx² + dy²`, and is in order of
non-decreasing `qdist`. -/
theorem GetSearchOffsetTable_rebuilt_sorted
    (sort : (SearchOffset → SearchOffset → Bool) → List SearchOffset → List SearchOffset)
    (hsort : sortsByQdist sort) (radius : Int) (searchOffsets : List SearchOffset)
    (hr : 0 ≤ radius) (hsmall : searchOffsets.length < (radius * radius * 4).toNat) :
    (GetSearchOffsetTable sort radius searchOffsets).Perm (squareOffsets radius)
    ∧ (GetSearchOffsetTable sort radius searchOffsets).length = (radius * radius * 4).toNat
    ∧ (GetSearchOffsetTable sort radius searchOffsets).Nodup
    ∧ (∀ o, o ∈ GetSearchOffsetTable sort radius searchOffsets
        ↔ (-radius ≤ o.dx ∧ o.dx < radius ∧ -radius ≤ o.dy ∧ o.dy < radius
            ∧ o.qdist = o.dx * o.dx + o.dy * o.dy))
    ∧ (GetSearchOffsetTable sort radius searchOffsets).Pairwise
        (fun a b => a.qdist ≤ b.qdist) := by
  rw [GetSearchOffsetTable_rebuilt sort radius searchOffsets hr hsmall]
  obtain ⟨hperm, hsorted⟩ := hsort (squareOffsets radius)
  refine ⟨hperm, ?_, hperm.nodup_iff.mpr (nodup_squareOffsets radius hr), ?_, hsorted⟩
  · rw [hperm.length_eq]
    unfold squareOffsets
    rw [List.length_map, List.length_range]
  · intro o
    rw [hperm.mem_iff]
    exact mem_squareOffsets radius hr o

/-- In a list in order of non-decreasing `qdist`, the first `k` entries have `qdist ≤ c` when
at least `k` entries of the list have. -/
theorem sorted_take_le (c : Int) :
    ∀ (T : List SearchOffset), T.Pairwise (fun a b => a.qdist ≤ b.qdist) →
      ∀ k, k ≤ T.countP (fun o => decide (o.qdist ≤ c)) → ∀ o ∈ T.take k, o.qdist ≤ c := by
  intro T
  induction T with
  | nil =>
    intro _ k _ o ho
    simp at ho
  | cons a T ih =>
    intro hs k hk o ho
    rw [List.pairwise_cons] at hs
    cases k with
    | zero => simp at ho
    | succ k =>
      rw [List.take_succ_cons, List.mem_cons] at ho
      by_cases ha : a.qdist ≤ c
      · rw [List.countP_cons_of_pos _ _ (by simpa using ha)] at hk
        rcases ho with ho | ho
        · rw [ho]
          exact ha
        · exact ih hs.2 k (by omega) o ho
      · have hzero : T.countP (fun o => decide (o.qdist ≤ c)) = 0 := by
          rw [List.countP_eq_zero]
          intro b hb
          have := hs.1 b hb
          simp only [decide_eq_true_eq]
          omega
        rw [List.countP_cons_of_neg _ _ (by simpa using ha), hzero] at hk
        omega

theorem stableSort_sortsByQdist : sortsByQdist stableSort := by
  intro l
  unfold stableSort
  constructor
  · exact List.perm_insertionSort _ l
  · haveI : IsTotal SearchOffset (fun a b => SearchOffsetComparator b a = false) := by
      constructor
      intro a b
      unfold SearchOffsetComparator
      simp only [decide_eq_false_iff_not, not_lt]
      omega
    haveI : IsTrans SearchOffset (fun a b => SearchOffsetComparator b a = false) := by
      constructor
      intro a b c
      unfold SearchOffsetComparator
      simp only [decide_eq_false_iff_not, not_lt]
      omega
    have h := List.sorted_insertionSort (fun a b => SearchOffsetComparator b a = false) l
    unfold List.Sorted at h
    refine h.imp ?_
    intro a b hab
    unfold SearchOffsetComparator at hab
    simpa using hab

/-! ## The closest build site and earlier calls -/

theorem land_2_2 : Int.land 2 2 = 2 := by decide

theorem scanArea_empty (env : BuildEnv) (bad : Bool × Bool × Bool → Bool)
    (hempty : ∀ i, env.GroundBlockedUnsafe i = none) (z2Min z2Max x2Min x2Max : Int)
    (good : Bool) : scanArea env bad z2Min z2Max x2Min x2Max good = good := by
  have hrow : ∀ (z2 : Int) (l : List Int) (g : Bool), scanSquares env bad z2 l g = g := by
    intro z2 l
    induction l with
    | nil => intro g; rfl
    | cons x xs ih =>
      intro g
      unfold scanSquares
      rw [hempty]
      exact ih g
  unfold scanArea
  generalize intRange z2Min z2Max = rows
  induction rows generalizing good with
  | nil => rfl
  | cons z zs ih =>
    rw [List.foldl_cons, hrow]
    exact ih good

theorem siteIsGood_empty (env : BuildEnv) (hempty : ∀ i, env.GroundBlockedUnsafe i = none)
    (bi : BuildInfo) (x z : ℚ) (minDist : Int) : siteIsGood env bi x z minDist = true := by
  unfold siteIsGood
  simp only [scanArea_empty env _ hempty, if_true]

/-- A rational that is an integer of at most 24 bits is a single-precision value. -/
theorem toFloat_of_int (x : ℚ) (n : ℤ) (hx : x = n) (hn : |n| ≤ 16777216) : toFloat x = x := by
  rw [hx]
  exact toFloat_intCast n hn

theorem intToFloat_small (n : ℤ) (hn : |n| ≤ 16777216) : intToFloat n = n :=
  toFloat_intCast n hn

/-- What `Pos2BuildPos` does after `floor` for a footprint with `GetXSize() & 2` set and
`SQUARE_SIZE = 8`: the two products and the sum, as a function of the floored quotient. -/
theorem snapTail_mono (a b : ℚ) (h : a ≤ b) :
    toFloat (toFloat (toFloat (a * 8) * 2) + 8) ≤ toFloat (toFloat (toFloat (b * 8) * 2) + 8) := by
  apply toFloat_mono
  have h1 : toFloat (a * 8) ≤ toFloat (b * 8) := toFloat_mono _ _ (by linarith)
  have h2 : toFloat (toFloat (a * 8) * 2) ≤ toFloat (toFloat (b * 8) * 2) :=
    toFloat_mono _ _ (by linarith)
  linarith

theorem snapTail_small (k : ℤ) (hk : |k| ≤ 1000000) :
    toFloat (toFloat (toFloat ((k : ℚ) * 8) * 2) + 8) = 16 * (k : ℚ) + 8 := by
  have hk' := abs_le.mp hk
  rw [toFloat_of_int ((k : ℚ) * 8) (k * 8) (by push_cast; ring) (by rw [abs_le]; omega),
    toFloat_of_int ((k : ℚ) * 8 * 2) (k * 16) (by push_cast; ring) (by rw [abs_le]; omega),
    toFloat_of_int ((k : ℚ) * 8 * 2 + 8) (k * 16 + 8) (by push_cast; ring)
      (by rw [abs_le]; omega)]
  ring

/-- Snapping in the one-site environment: the candidate of offset `d` from 400 is snapped to
392 exactly when `d = -1`. -/
theorem snapBuildCoord_oneSite (d : Int) :
    snapBuildCoord 8 2 (400 + ((d * 8 * 2 : Int) : ℚ)) = 392 ↔ d = -1 := by
  unfold snapBuildCoord
  rw [land_2_2, if_pos (by decide), intToFloat_small (8 * 2) (by decide),
    intToFloat_small 8 (by decide)]
  have hq : (400 + ((d * 8 * 2 : Int) : ℚ)) / ((8 * 2 : Int) : ℚ) = ((25 + d : Int) : ℚ) := by
    push_cast
    ring
  rw [hq]
  have h8 : ((8 : Int) : ℚ) = 8 := by norm_num
  rw [h8]
  have e24 : toFloat (toFloat (toFloat ((24 : ℚ) * 8) * 2) + 8) = 392 := by
    have h := snapTail_small 24 (by decide)
    push_cast at h
    rw [h]
    norm_num
  have e25 : toFloat (toFloat (toFloat ((25 : ℚ) * 8) * 2) + 8) = 408 := by
    have h := snapTail_small 25 (by decide)
    push_cast at h
    rw [h]
    norm_num
  have e23 : toFloat (toFloat (toFloat ((23 : ℚ) * 8) * 2) + 8) = 376 := by
    have h := snapTail_small 23 (by decide)
    push_cast at h
    rw [h]
    norm_num
  constructor
  · intro h
    by_contra hd
    rcases lt_or_gt_of_ne hd with hlt | hgt
    · -- `d ≤ -2`: the quotient is at most 23
      have hle : ((25 + d : Int) : ℚ) ≤ ((23 : Int) : ℚ) := by
        exact_mod_cast (by omega : 25 + d ≤ 23)
      have h1 : toFloat ((25 + d : Int) : ℚ) ≤ 23 := by
        have := toFloat_mono _ _ hle
        rwa [toFloat_intCast 23 (by decide)] at this
      have h2 : ((⌊toFloat ((25 + d : Int) : ℚ)⌋ : Int) : ℚ) ≤ 23 :=
        le_trans (Int.floor_le _) h1
      have := snapTail_mono _ _ h2
      rw [e23] at this
      linarith
    · have hle : ((25 : Int) : ℚ) ≤ ((25 + d : Int) : ℚ) := by
        exact_mod_cast (by omega : (25 : Int) ≤ 25 + d)
      have h1 : (25 : ℚ) ≤ toFloat ((25 + d : Int) : ℚ) := by
        have := toFloat_mono _ _ hle
        rwa [toFloat_intCast 25 (by decide)] at this
      have h2 : (25 : ℚ) ≤ ((⌊toFloat ((25 + d : Int) : ℚ)⌋ : Int) : ℚ) := by
        have : (25 : Int) ≤ ⌊toFloat ((25 + d : Int) : ℚ)⌋ := by
          rw [Int.le_floor]
          exact_mod_cast h1
        exact_mod_cast this
      have := snapTail_mono _ _ h2
      rw [e25] at this
      linarith
  · intro hd
    rw [hd]
    have : toFloat (((25 + (-1) : Int)) : ℚ) = 24 := by
      simpa using toFloat_intCast 24 (by decide)
    rw [this]
    have hfl : ((⌊(24 : ℚ)⌋ : Int) : ℚ) = 24 := by
      rw [show (24 : ℚ) = ((24 : Int) : ℚ) by norm_num, Int.floor_intCast]
    rw [hfl]
    exact e24

theorem Pos2BuildPos_oneSite (ud : UnitDef) (dx dy : Int) :
    (((Pos2BuildPos oneSiteEnv
          ⟨ud, ⟨400 + ((dx * 8 * 2 : Int) : ℚ), 0, 400 + ((dy * 8 * 2 : Int) : ℚ)⟩, 0⟩ false).x
        = 392
      ∧ (Pos2BuildPos oneSiteEnv
          ⟨ud, ⟨400 + ((dx * 8 * 2 : Int) : ℚ), 0, 400 + ((dy * 8 * 2 : Int) : ℚ)⟩, 0⟩ false).z
        = 392) ↔ (dx = -1 ∧ dy = -1))
    ∧ (dx = -1 → dy = -1 →
        Pos2BuildPos oneSiteEnv
          ⟨ud, ⟨400 + ((dx * 8 * 2 : Int) : ℚ), 0, 400 + ((dy * 8 * 2 : Int) : ℚ)⟩, 0⟩ false
          = ⟨392, 0, 392⟩) := by
  have hP : Pos2BuildPos oneSiteEnv
      ⟨ud, ⟨400 + ((dx * 8 * 2 : Int) : ℚ), 0, 400 + ((dy * 8 * 2 : Int) : ℚ)⟩, 0⟩ false
      = ⟨snapBuildCoord 8 2 (400 + ((dx * 8 * 2 : Int) : ℚ)), 0,
         snapBuildCoord 8 2 (400 + ((dy * 8 * 2 : Int) : ℚ))⟩ := by
    unfold Pos2BuildPos
    simp [oneSiteEnv]
  rw [hP]
  refine ⟨?_, ?_⟩
  · show (snapBuildCoord 8 2 _ = 392 ∧ snapBuildCoord 8 2 _ = 392) ↔ _
    rw [snapBuildCoord_oneSite, snapBuildCoord_oneSite]
  · intro h1 h2
    rw [(snapBuildCoord_oneSite dx).mpr h1, (snapBuildCoord_oneSite dy).mpr h2]

/-- The loop of `ClosestBuildSite` in the one-site environment, searching around
`(400, 0, 400)`: it returns the site `(392, 0, 392)` exactly when one of the examined table
entries is the offset `(-1, -1)`. -/
theorem siteLoop_oneSite (ofs : List SearchOffset) (ud : UnitDef) :
    ∀ (l : List Nat),
      siteLoop oneSiteEnv ofs 0 ud ⟨400, 0, 400⟩ 0 0 l none
        = if ∃ so ∈ l, (ofs.getD so ⟨0, 0, 0⟩).dx = -1 ∧ (ofs.getD so ⟨0, 0, 0⟩).dy = -1 then
            some ⟨392, 0, 392⟩
          else none := by
  intro l
  induction l with
  | nil => simp [siteLoop]
  | cons so rest ih =>
    have hstep : siteLoop oneSiteEnv ofs 0 ud ⟨400, 0, 400⟩ 0 0 (so :: rest) none
        = if (ofs.getD so ⟨0, 0, 0⟩).dx = -1 ∧ (ofs.getD so ⟨0, 0, 0⟩).dy = -1 then
            some ⟨392, 0, 392⟩
          else siteLoop oneSiteEnv ofs 0 ud ⟨400, 0, 400⟩ 0 0 rest none := by
      rw [siteLoop]
      generalize ofs.getD so ⟨0, 0, 0⟩ = o
      obtain ⟨hiff, hval⟩ := Pos2BuildPos_oneSite ud o.dx o.dy
      have hsq : oneSiteEnv.SQUARE_SIZE = 8 := rfl
      have htest : ∀ (bi : BuildInfo) (f : Option FeaturePtr) (a : Int) (b : Bool),
          oneSiteEnv.TestUnitBuildSquare bi f a b
            = (decide (bi.pos.x = 392 ∧ bi.pos.z = 392), f) := fun _ _ _ _ => rfl
      simp only [hsq, htest, siteIsGood_empty oneSiteEnv (fun _ => rfl), if_true,
        Bool.and_true]
      by_cases hd : o.dx = -1 ∧ o.dy = -1
      · rw [if_pos hd, hval hd.1 hd.2]
        simp
      · rw [if_neg hd]
        have hno := (not_congr hiff).mpr hd
        simp only [decide_eq_true_eq, if_neg hno]
    rw [hstep, ih]
    by_cases hd : (ofs.getD so ⟨0, 0, 0⟩).dx = -1 ∧ (ofs.getD so ⟨0, 0, 0⟩).dy = -1
    · have hex : ∃ so' ∈ so :: rest, (ofs.getD so' ⟨0, 0, 0⟩).dx = -1
          ∧ (ofs.getD so' ⟨0, 0, 0⟩).dy = -1 := ⟨so, List.mem_cons_self _ _, hd⟩
      rw [if_pos hd, if_pos hex]
    · rw [if_neg hd]
      by_cases hr : ∃ so' ∈ rest, (ofs.getD so' ⟨0, 0, 0⟩).dx = -1
          ∧ (ofs.getD so' ⟨0, 0, 0⟩).dy = -1
      · obtain ⟨so', hm, hh⟩ := hr
        have hex : ∃ so' ∈ so :: rest, (ofs.getD so' ⟨0, 0, 0⟩).dx = -1
            ∧ (ofs.getD so' ⟨0, 0, 0⟩).dy = -1 := ⟨so', List.mem_cons_of_mem _ hm, hh⟩
        rw [if_pos ⟨so', hm, hh⟩, if_pos hex]
      · have hex : ¬ ∃ so' ∈ so :: rest, (ofs.getD so' ⟨0, 0, 0⟩).dx = -1
            ∧ (ofs.getD so' ⟨0, 0, 0⟩).dy = -1 := by
          rintro ⟨so', hm, hh⟩
          rcases List.mem_cons.mp hm with h | h
          · rw [h] at hh
            exact hd hh
          · exact hr ⟨so', h, hh⟩
        rw [if_neg hr, if_neg hex]

/-- The table that `ClosestBuildSite` leaves in the static vector. -/
theorem ClosestBuildSite_table
    (sort : (SearchOffset → SearchOffset → Bool) → List SearchOffset → List SearchOffset)
    (env : BuildEnv) (searchOffsets : List SearchOffset) (team : Int) (ud : UnitDef)
    (pos : float3) (searchRadius : ℚ) (minDist facing : Int) :
    (ClosestBuildSite sort env searchOffsets team (some ud) pos searchRadius minDist facing).2
      = GetSearchOffsetTable sort
          (truncToInt (searchRadius / ((env.SQUARE_SIZE * 2 : Int) : ℚ))) searchOffsets := by
  unfold ClosestBuildSite
  dsimp only
  split <;> rfl

/-- The search of radius 16 around `(400, 0, 400)` in the one-site environment finds the site
exactly when the offset `(-1, -1)` is among the first four entries of the table. -/
theorem ClosestBuildSite_oneSite
    (sort : (SearchOffset → SearchOffset → Bool) → List SearchOffset → List SearchOffset)
    (searchOffsets : List SearchOffset) (ud : UnitDef) :
    (ClosestBuildSite sort oneSiteEnv searchOffsets 0 (some ud) ⟨400, 0, 400⟩ 16 0 0).1
      = if ∃ so ∈ List.range 4,
            ((GetSearchOffsetTable sort 1 searchOffsets).getD so ⟨0, 0, 0⟩).dx = -1
            ∧ ((GetSearchOffsetTable sort 1 searchOffsets).getD so ⟨0, 0, 0⟩).dy = -1 then
          ⟨392, 0, 392⟩
        else ⟨-1, 0, 0⟩ := by
  have hendr : truncToInt ((16 : ℚ) / ((oneSiteEnv.SQUARE_SIZE * 2 : Int) : ℚ)) = 1 := by
    norm_num [truncToInt, oneSiteEnv]
  have hr : List.range (1 * 1 * 4 : Int).toNat = List.range 4 := by decide
  have hally : oneSiteEnv.AllyTeam 0 = 0 := rfl
  unfold ClosestBuildSite
  simp only [hendr, hr, hally, siteLoop_oneSite]
  by_cases h : ∃ so ∈ List.range 4,
      ((GetSearchOffsetTable sort 1 searchOffsets).getD so ⟨0, 0, 0⟩).dx = -1
      ∧ ((GetSearchOffsetTable sort 1 searchOffsets).getD so ⟨0, 0, 0⟩).dy = -1
  · rw [if_pos h, if_pos h]
  · rw [if_neg h, if_neg h]

theorem radius_32_is_two_squares :
    truncToInt ((32 : ℚ) / ((oneSiteEnv.SQUARE_SIZE * 2 : Int) : ℚ)) = 2 := by
  norm_num [truncToInt, oneSiteEnv]

theorem countP_squareOffsets_two :
    (squareOffsets 2).countP (fun o => decide (o.qdist ≤ 1)) = 5 := by
  decide

/-- For every sort that meets the contract of `std::sort`: after a call with radius 2, the
table that a call with radius 1 returns is the table of radius 2, and its first four entries
all have `qdist ≤ 1`: the offset `(-1, -1)` of the square of radius 1 is not among them. -/
theorem table_after_larger_radius
    (sort : (SearchOffset → SearchOffset → Bool) → List SearchOffset → List SearchOffset)
    (hsort : sortsByQdist sort) :
    GetSearchOffsetTable sort 1 (GetSearchOffsetTable sort 2 [])
      = GetSearchOffsetTable sort 2 []
    ∧ (∀ so < 4, ((GetSearchOffsetTable sort 2 []).getD so ⟨0, 0, 0⟩).qdist ≤ 1
        ∧ (GetSearchOffsetTable sort 2 []).getD so ⟨0, 0, 0⟩ ∈ GetSearchOffsetTable sort 2 []) := by
  obtain ⟨hperm, hlen, _, _, hsorted⟩ := GetSearchOffsetTable_rebuilt_sorted sort hsort 2 []
    (by decide) (by decide)
  have hlen16 : (GetSearchOffsetTable sort 2 []).length = 16 := by
    rw [hlen]
    decide
  refine ⟨GetSearchOffsetTable_cached sort 1 _ (by rw [hlen16]; decide), ?_⟩
  intro so hso
  have hcount : 4 ≤ (GetSearchOffsetTable sort 2 []).countP (fun o => decide (o.qdist ≤ 1)) := by
    rw [hperm.countP_eq, countP_squareOffsets_two]
    omega
  have hlt : so < (GetSearchOffsetTable sort 2 []).length := by omega
  have hget : (GetSearchOffsetTable sort 2 []).getD so ⟨0, 0, 0⟩
      = (GetSearchOffsetTable sort 2 [])[so] := by
    rw [List.getD_eq_getElem?_getD, List.getElem?_eq_getElem hlt]
    rfl
  rw [hget]
  refine ⟨?_, List.getElem_mem _⟩
  apply sorted_take_le 1 _ hsorted 4 hcount
  rw [List.mem_iff_getElem]
  refine ⟨so, by rw [List.length_take]; omega, ?_⟩
  rw [List.getElem_take]

/-- For every sort that meets the contract of `std::sort`, the search of radius 16 around
`(400, 0, 400)` in the one-site environment finds the site `(392, 0, 392)` when the table is
empty before, and finds nothing when an earlier search of radius 32 left its table. -/
theorem ClosestBuildSite_after_larger_search
    (sort : (SearchOffset → SearchOffset → Bool) → List SearchOffset → List SearchOffset)
    (hsort : sortsByQdist sort) (ud : UnitDef) :
    (ClosestBuildSite sort oneSiteEnv [] 0 (some ud) ⟨400, 0, 400⟩ 16 0 0).1 = ⟨392, 0, 392⟩
    ∧ (ClosestBuildSite sort oneSiteEnv
          (ClosestBuildSite sort oneSiteEnv [] 0 (some ud) ⟨400, 0, 400⟩ 32 0 0).2
          0 (some ud) ⟨400, 0, 400⟩ 16 0 0).1 = ⟨-1, 0, 0⟩ := by
  constructor
  · rw [ClosestBuildSite_oneSite, if_pos]
    obtain ⟨_, hlen, _, hmem, _⟩ := GetSearchOffsetTable_rebuilt_sorted sort hsort 1 []
      (by decide) (by decide)
    have hin : (⟨-1, -1, 2⟩ : SearchOffset) ∈ GetSearchOffsetTable sort 1 [] := by
      rw [hmem]
      decide
    obtain ⟨so, hso, hget⟩ := List.mem_iff_getElem.mp hin
    have hlen4 : (GetSearchOffsetTable sort 1 []).length = 4 := by
      rw [hlen]
      decide
    refine ⟨so, by rw [List.mem_range]; omega, ?_⟩
    have hD : (GetSearchOffsetTable sort 1 []).getD so ⟨0, 0, 0⟩ = ⟨-1, -1, 2⟩ := by
      rw [List.getD_eq_getElem?_getD, List.getElem?_eq_getElem hso, hget]
      rfl
    rw [hD]
    exact ⟨rfl, rfl⟩
  · rw [ClosestBuildSite_table, radius_32_is_two_squares, ClosestBuildSite_oneSite, if_neg]
    obtain ⟨hcache, hpre⟩ := table_after_larger_radius sort hsort
    obtain ⟨_, _, _, hmem, _⟩ := GetSearchOffsetTable_rebuilt_sorted sort hsort 2 []
      (by decide) (by decide)
    rw [hcache]
    rintro ⟨so, hso, hdx, hdy⟩
    rw [List.mem_range] at hso
    obtain ⟨hq, hin⟩ := hpre so hso
    have hqd := ((hmem _).mp hin).2.2.2.2
    rw [hqd, hdx, hdy] at hq
    omega

/-- C33, the code at the failing input: a search of radius 16 (one double square) around
`(400, 0, 400)` where the only site that `TestUnitBuildSquare` accepts is `(392, 0, 392)`, the
candidate of the offset `(-1, -1)`. With the static table empty before, the table of radius 1
is the four offsets of the square and the site is found. After an earlier search of radius 32
the static table holds the 16 offsets of radius 2, the call with radius 1 returns it as it is,
its first four entries are `(0, 0)` and three offsets at distance 1, among them `(1, 0)` outside
the square, and the search finds nothing. The first two parts are for insertion sort; the last
part is for every sort that meets the contract of `std::sort`. -/
theorem ClosestBuildSite_depends_on_earlier_calls :
    GetSearchOffsetTable stableSort 1 []
        = [⟨0, 0, 0⟩, ⟨0, -1, 1⟩, ⟨-1, 0, 1⟩, ⟨-1, -1, 2⟩]
    ∧ (GetSearchOffsetTable stableSort 1 (GetSearchOffsetTable stableSort 2 [])).take 4
        = [⟨0, 0, 0⟩, ⟨0, -1, 1⟩, ⟨-1, 0, 1⟩, ⟨1, 0, 1⟩]
    ∧ (ClosestBuildSite stableSort oneSiteEnv [] 0 (some ⟨false, 0⟩) ⟨400, 0, 400⟩ 16 0 0).1
        = ⟨392, 0, 392⟩
    ∧ (ClosestBuildSite stableSort oneSiteEnv
          (ClosestBuildSite stableSort oneSiteEnv [] 0 (some ⟨false, 0⟩) ⟨400, 0, 400⟩ 32 0 0).2
          0 (some ⟨false, 0⟩) ⟨400, 0, 400⟩ 16 0 0).1 = ⟨-1, 0, 0⟩
    ∧ (∀ sort : (SearchOffset → SearchOffset → Bool) → List SearchOffset → List SearchOffset,
        sortsByQdist sort →
        (ClosestBuildSite sort oneSiteEnv [] 0 (some ⟨false, 0⟩) ⟨400, 0, 400⟩ 16 0 0).1
            = ⟨392, 0, 392⟩
        ∧ (ClosestBuildSite sort oneSiteEnv
              (ClosestBuildSite sort oneSiteEnv [] 0 (some ⟨false, 0⟩) ⟨400, 0, 400⟩ 32 0 0).2
              0 (some ⟨false, 0⟩) ⟨400, 0, 400⟩ 16 0 0).1 = ⟨-1, 0, 0⟩
        ∧ ∀ so < 4, ((GetSearchOffsetTable sort 1 (GetSearchOffsetTable sort 2 [])).getD so
              ⟨0, 0, 0⟩).qdist ≤ 1) := by
  refine ⟨by decide, by decide,
    (ClosestBuildSite_after_larger_search stableSort stableSort_sortsByQdist ⟨false, 0⟩).1,
    (ClosestBuildSite_after_larger_search stableSort stableSort_sortsByQdist ⟨false, 0⟩).2, ?_⟩
  intro sort hsort
  refine ⟨(ClosestBuildSite_after_larger_search sort hsort ⟨false, 0⟩).1,
    (ClosestBuildSite_after_larger_search sort hsort ⟨false, 0⟩).2, ?_⟩
  intro so hso
  rw [(table_after_larger_radius sort hsort).1]
  exact ((table_after_larger_radius sort hsort).2 so hso).1

/-! ## Snapping to the build grid -/

theorem snapTailEven_small (k : ℤ) (hk : |k| ≤ 1000000) :
    toFloat (toFloat ((k : ℚ) * 8) * 2) = 16 * (k : ℚ) := by
  have hk' := abs_le.mp hk
  rw [toFloat_of_int ((k : ℚ) * 8) (k * 8) (by push_cast; ring) (by rw [abs_le]; omega),
    toFloat_of_int ((k : ℚ) * 8 * 2) (k * 16) (by push_cast; ring) (by rw [abs_le]; omega)]
  ring

/-- A half-integer of at most 23 bits is a single-precision value. -/
theorem toFloat_half_int (k : ℤ) (hk : |k| ≤ 6000000) :
    toFloat ((k : ℚ) + 1 / 2) = (k : ℚ) + 1 / 2 := by
  have hk' := abs_le.mp hk
  have h := toFloat_dyadic (2 * k + 1) (-1) (by rw [abs_le]; constructor <;> omega) (by norm_num)
  have he : ((2 * k + 1 : ℤ) : ℚ) * (2 : ℚ) ^ (-1 : ℤ) = (k : ℚ) + 1 / 2 := by
    push_cast
    norm_num
    ring
  rwa [he] at h

/-- What `Pos2BuildPos` does after `floor`: for a floored quotient `k` with
`|k * SQUARE_SIZE| ≤ 6000000` the two products and the sum are exact. -/
theorem snapTail_exact (S k : ℤ) (hS0 : 0 < S) (hS : S ≤ 1048576) (hk : |k * S| ≤ 6000000) :
    toFloat (toFloat ((k : ℚ) * S) * 2) = 2 * ((k : ℚ) * S)
    ∧ toFloat (toFloat (toFloat ((k : ℚ) * S) * 2) + S) = 2 * ((k : ℚ) * S) + S
    ∧ toFloat (2 * ((k : ℚ) * S) + S) = 2 * ((k : ℚ) * S) + S
    ∧ |k| ≤ 6000000 := by
  have hk' := abs_le.mp hk
  have e1 : toFloat ((k : ℚ) * S) = (k : ℚ) * S :=
    toFloat_of_int _ (k * S) (by push_cast; ring) (by rw [abs_le]; omega)
  have e2 : toFloat ((k : ℚ) * S * 2) = (k : ℚ) * S * 2 :=
    toFloat_of_int _ (k * S * 2) (by push_cast; ring) (by rw [abs_le]; omega)
  have e3 : toFloat ((k : ℚ) * S * 2 + S) = (k : ℚ) * S * 2 + S :=
    toFloat_of_int _ (k * S * 2 + S) (by push_cast; ring) (by rw [abs_le]; omega)
  have e4 : toFloat (2 * ((k : ℚ) * S) + S) = 2 * ((k : ℚ) * S) + S := by
    rw [show 2 * ((k : ℚ) * S) + S = (k : ℚ) * S * 2 + S by ring]
    exact e3
  refine ⟨?_, ?_, e4, ?_⟩
  · rw [e1, e2]
    ring
  · rw [e1, e2, e3]
    ring
  · rw [abs_le]
    have h1 : k ≤ k * S ∨ k ≤ 0 := by
      rcases le_or_lt k 0 with h | h
      · exact Or.inr h
      · left
        nlinarith
    have h2 : k * S ≤ k ∨ 0 ≤ k := by
      rcases le_or_lt 0 k with h | h
      · exact Or.inr h
      · left
        nlinarith
    constructor
    · rcases h2 with h | h <;> omega
    · rcases h1 with h | h <;> omega

/-- The floor `k` of a rational `q` that is within `e` of `t`, scaled by an integer `S > 0`:
`k * S` lies between `t * S - e * S - S` and `t * S + e * S`. -/
theorem floor_mul_bounds (q t e : ℚ) (S : ℤ) (hS0 : 0 < S) (hqt : |q - t| ≤ e) :
    t * S - e * S - S < ((⌊q⌋ : ℤ) : ℚ) * S ∧ ((⌊q⌋ : ℤ) : ℚ) * S ≤ t * S + e * S := by
  have hSq : (0 : ℚ) < (S : ℚ) := by exact_mod_cast hS0
  have hfl := Int.floor_le q
  have hlt := Int.lt_floor_add_one q
  have h' := abs_le.mp hqt
  have h1 : ((⌊q⌋ : ℤ) : ℚ) * S ≤ q * S := mul_le_mul_of_nonneg_right hfl hSq.le
  have h2 : q * S < (((⌊q⌋ : ℤ) : ℚ) + 1) * S := mul_lt_mul_of_pos_right hlt hSq
  have h3 : (q - t) * S ≤ e * S := mul_le_mul_of_nonneg_right h'.2 hSq.le
  have h4 : -e * S ≤ (q - t) * S := mul_le_mul_of_nonneg_right h'.1 hSq.le
  constructor
  · nlinarith
  · nlinarith

/-- One snapped coordinate for `0 < SQUARE_SIZE ≤ 2²⁰` and an input of magnitude at most
`2²³`: it is on the grid, it differs from the input by at most `SQUARE_SIZE` and a rounding
error, and it is fixed by the snapping. -/
theorem snapBuildCoord_spec (S size : Int) (v : ℚ) (hS0 : 0 < S) (hS : S ≤ 1048576)
    (hv : |v| ≤ 8388608) :
    (Int.land size 2 ≠ 0 → ∃ k : Int, snapBuildCoord S size v = (k : ℚ) * (2 * S) + S)
    ∧ (Int.land size 2 = 0 → ∃ k : Int, snapBuildCoord S size v = (k : ℚ) * (2 * S))
    ∧ |snapBuildCoord S size v - v| ≤ S + (|v| + S) * (2 : ℚ) ^ (-22 : ℤ)
    ∧ snapBuildCoord S size (snapBuildCoord S size v) = snapBuildCoord S size v := by
  have h2S : intToFloat (S * 2) = (S : ℚ) * 2 := by
    rw [intToFloat_small (S * 2) (by rw [abs_le]; omega)]
    push_cast
    ring
  have h1S : intToFloat S = (S : ℚ) := intToFloat_small S (by rw [abs_le]; omega)
  have hSq : (0 : ℚ) < (S : ℚ) := by exact_mod_cast hS0
  have hS1 : (1 : ℚ) ≤ (S : ℚ) := by exact_mod_cast hS0
  have hSle : (S : ℚ) ≤ 1048576 := by exact_mod_cast hS
  have hva : (0 : ℚ) ≤ |v| := abs_nonneg v
  have p24 : (2 : ℚ) ^ (-24 : ℤ) = 1 / 16777216 := by norm_num
  have p22 : (2 : ℚ) ^ (-22 : ℤ) = 1 / 4194304 := by norm_num
  have p150 : (2 : ℚ) ^ (-150 : ℤ) ≤ 1 / 16777216 / 16777216 / 16777216 := by
    rw [show (-150 : ℤ) = -((150 : ℕ) : ℤ) by norm_num, zpow_neg, zpow_natCast]
    norm_num
  have p150pos : (0 : ℚ) < (2 : ℚ) ^ (-150 : ℤ) := by positivity
  have hfloor : ∀ k : ℤ, ⌊(k : ℚ) + 1 / 2⌋ = k := by
    intro k
    rw [Int.floor_eq_iff]
    constructor <;> norm_num
  unfold snapBuildCoord
  rw [h2S, h1S]
  by_cases hodd : Int.land size 2 ≠ 0
  · simp only [if_pos hodd]
    set q : ℚ := toFloat (v / ((S : ℚ) * 2)) with hq
    have herr := abs_toFloat_sub_le_rel (v / ((S : ℚ) * 2))
    rw [← hq, p24] at herr
    generalize (2 : ℚ) ^ (-150 : ℤ) = η at herr p150 p150pos
    have ht : v / ((S : ℚ) * 2) * S = v / 2 := by
      field_simp
      ring
    have hta : |v / ((S : ℚ) * 2)| * S = |v| / 2 := by
      rw [abs_div, abs_of_pos (by positivity : (0 : ℚ) < (S : ℚ) * 2)]
      field_simp
      ring
    have hb := floor_mul_bounds q _ _ S hS0 herr
    rw [ht, add_mul, show |v / ((S : ℚ) * 2)| * (1 / 16777216) * S
      = |v / ((S : ℚ) * 2)| * S * (1 / 16777216) by ring, hta] at hb
    have hη : η * S ≤ 1 / 16777216 / 16777216 := by nlinarith
    have hη0 : 0 ≤ η * S := by positivity
    have hv' := abs_le.mp hv
    have hvv := abs_le.mp (le_refl |v|)
    have hkS : |⌊q⌋ * S| ≤ 6000000 := by
      rw [abs_le]
      constructor
      · have h : ((-6000000 : ℤ) : ℚ) ≤ ((⌊q⌋ * S : ℤ) : ℚ) := by
          push_cast
          linarith [hb.1]
        exact_mod_cast h
      · have h : ((⌊q⌋ * S : ℤ) : ℚ) ≤ ((6000000 : ℤ) : ℚ) := by
          push_cast
          linarith [hb.2]
        exact_mod_cast h
    obtain ⟨-, hres, -, hk⟩ := snapTail_exact S ⌊q⌋ hS0 hS hkS
    rw [hres]
    refine ⟨fun _ => ⟨⌊q⌋, by ring⟩, fun h => absurd h hodd, ?_, ?_⟩
    · rw [p22, abs_le]
      constructor
      · linarith [hb.1, hb.2]
      · linarith [hb.1, hb.2]
    · have hq2 : (2 * (((⌊q⌋ : ℤ) : ℚ) * S) + S) / ((S : ℚ) * 2) = ((⌊q⌋ : ℤ) : ℚ) + 1 / 2 := by
        field_simp
        ring
      rw [hq2, toFloat_half_int _ hk, hfloor, hres]
  · simp only [if_neg hodd]
    have heven : Int.land size 2 = 0 := not_not.mp hodd
    set y : ℚ := toFloat (v + S) with hy
    have herr1 := abs_toFloat_sub_le_rel (v + S)
    rw [← hy, p24] at herr1
    set q : ℚ := toFloat (y / ((S : ℚ) * 2)) with hq
    have herr2 := abs_toFloat_sub_le_rel (y / ((S : ℚ) * 2))
    rw [← hq, p24] at herr2
    generalize (2 : ℚ) ^ (-150 : ℤ) = η at herr1 herr2 p150 p150pos
    have ht : y / ((S : ℚ) * 2) * S = y / 2 := by
      field_simp
      ring
    have hta : |y / ((S : ℚ) * 2)| * S = |y| / 2 := by
      rw [abs_div, abs_of_pos (by positivity : (0 : ℚ) < (S : ℚ) * 2)]
      field_simp
      ring
    have hb := floor_mul_bounds q _ _ S hS0 herr2
    rw [ht, add_mul, show |y / ((S : ℚ) * 2)| * (1 / 16777216) * S
      = |y / ((S : ℚ) * 2)| * S * (1 / 16777216) by ring, hta] at hb
    have hη : η * S ≤ 1 / 16777216 / 16777216 := by nlinarith
    have hη0 : 0 ≤ η * S := by positivity
    have hv' := abs_le.mp hv
    have hvS : |v + S| ≤ |v| + S := by
      calc |v + S| ≤ |v| + |(S : ℚ)| := abs_add v S
        _ = |v| + S := by rw [abs_of_pos hSq]
    have hvS0 : (0 : ℚ) ≤ |v + S| := abs_nonneg _
    have hya : (0 : ℚ) ≤ |y| := abs_nonneg y
    have herr1' := abs_le.mp herr1
    have hyv : |y| ≤ |v + S| + |y - (v + S)| := by
      calc |y| = |(v + S) + (y - (v + S))| := by ring_nf
        _ ≤ |v + S| + |y - (v + S)| := abs_add _ _
    have hyy := abs_le.mp (le_refl |y|)
    have hkS : |⌊q⌋ * S| ≤ 6000000 := by
      rw [abs_le]
      constructor
      · have h : ((-6000000 : ℤ) : ℚ) ≤ ((⌊q⌋ * S : ℤ) : ℚ) := by
          push_cast
          linarith [hb.1]
        exact_mod_cast h
      · have h : ((⌊q⌋ * S : ℤ) : ℚ) ≤ ((6000000 : ℤ) : ℚ) := by
          push_cast
          linarith [hb.2]
        exact_mod_cast h
    obtain ⟨hres, -, hsum, hk⟩ := snapTail_exact S ⌊q⌋ hS0 hS hkS
    rw [hres]
    refine ⟨fun h => absurd heven h, fun _ => ⟨⌊q⌋, by ring⟩, ?_, ?_⟩
    · rw [p22, abs_le]
      constructor
      · linarith [hb.1, hb.2, herr1'.1, herr1'.2]
      · linarith [hb.1, hb.2, herr1'.1, herr1'.2]
    · have hq2 : (2 * (((⌊q⌋ : ℤ) : ℚ) * S) + S) / ((S : ℚ) * 2) = ((⌊q⌋ : ℤ) : ℚ) + 1 / 2 := by
        field_simp
        ring
      rw [hsum, hq2, toFloat_half_int _ hk, hfloor, hres]

/-- C34, the counterexample: with `SQUARE_SIZE = 8` and a footprint of 4 x 4 squares
(`GetXSize() & 2` clear), the single-precision input `x = 8 - 2⁻²¹ = 7.99999952...` is snapped
to 16, which is `8 + 2⁻²¹` away from it: the sum `x + 8 = 16 - 2⁻²¹` is not a single-precision
value and is rounded to 16 before the division. -/
theorem Pos2BuildPos_moves_by_more_than_SQUARE_SIZE :
    toFloat (8 - 1 / 2097152) = 8 - 1 / 2097152
    ∧ (Pos2BuildPos fourSquareEnv ⟨⟨false, 0⟩, ⟨8 - 1 / 2097152, 0, 0⟩, 0⟩ false).x = 16
    ∧ ((fourSquareEnv.SQUARE_SIZE : Int) : ℚ)
        < |(Pos2BuildPos fourSquareEnv ⟨⟨false, 0⟩, ⟨8 - 1 / 2097152, 0, 0⟩, 0⟩ false).x
            - (8 - 1 / 2097152)| := by
  have hx : (Pos2BuildPos fourSquareEnv ⟨⟨false, 0⟩, ⟨8 - 1 / 2097152, 0, 0⟩, 0⟩ false).x
      = 16 := by
    have h16 : intToFloat (8 * 2) = 16 := by
      simpa using intToFloat_small (8 * 2) (by decide)
    have h8 : intToFloat 8 = 8 := by
      simpa using intToFloat_small 8 (by decide)
    have hsum : toFloat (8 - 1 / 2097152 + 8) = 16 := by
      rw [toFloat_eq_roundNearestEven _ 3 (by norm_num) (by norm_num) (by norm_num)
        (by norm_num)]
      norm_num [roundNearestEven]
    have h1 : toFloat ((16 : ℚ) / 16) = 1 := by
      rw [show (16 : ℚ) / 16 = 1 by norm_num, toFloat_one]
    have h2 : toFloat (toFloat (((⌊(1 : ℚ)⌋ : ℤ) : ℚ) * 8) * 2) = 16 := by
      have := snapTailEven_small 1 (by decide)
      simpa using this
    show snapBuildCoord 8 4 (8 - 1 / 2097152) = 16
    unfold snapBuildCoord
    rw [if_neg (by decide), h16, h8, hsum, h1, h2]
  refine ⟨?_, hx, ?_⟩
  · have h := toFloat_dyadic 16777215 (-21) (by norm_num) (by norm_num)
    have he : ((16777215 : ℤ) : ℚ) * (2 : ℚ) ^ (-21 : ℤ) = 8 - 1 / 2097152 := by norm_num
    rwa [he] at h
  · rw [hx]
    norm_num [fourSquareEnv, oneSiteEnv, abs_of_pos]

/-- C34, amended: with `S = SQUARE_SIZE`, `0 < S ≤ 2²⁰`, and an input of magnitude at most
`2²³`, the `x` of `Pos2BuildPos` is `S` plus a multiple of `2 S` when `GetXSize() & 2` is set
and a multiple of `2 S` otherwise; it differs from the input `x` by at most
`S + (|x| + S) * 2⁻²²`, that is by `S` and the rounding errors of the sum and of the quotient;
the same holds for `z` with `GetZSize()`; and applying `Pos2BuildPos` to the build order moved
to its result gives the same position again. -/
theorem Pos2BuildPos_snaps_to_grid (env : BuildEnv) (buildInfo : BuildInfo) (synced : Bool)
    (hS0 : 0 < env.SQUARE_SIZE) (hS : env.SQUARE_SIZE ≤ 1048576)
    (hx : |buildInfo.pos.x| ≤ 8388608) (hz : |buildInfo.pos.z| ≤ 8388608) :
    ((Int.land (env.GetXSize buildInfo.unitDef buildInfo.buildFacing) 2 ≠ 0 →
        ∃ k : Int, (Pos2BuildPos env buildInfo synced).x
          = (k : ℚ) * (2 * env.SQUARE_SIZE) + env.SQUARE_SIZE)
      ∧ (Int.land (env.GetXSize buildInfo.unitDef buildInfo.buildFacing) 2 = 0 →
        ∃ k : Int, (Pos2BuildPos env buildInfo synced).x = (k : ℚ) * (2 * env.SQUARE_SIZE))
      ∧ |(Pos2BuildPos env buildInfo synced).x - buildInfo.pos.x|
          ≤ env.SQUARE_SIZE + (|buildInfo.pos.x| + env.SQUARE_SIZE) * (2 : ℚ) ^ (-22 : ℤ))
    ∧ ((Int.land (env.GetZSize buildInfo.unitDef buildInfo.buildFacing) 2 ≠ 0 →
        ∃ k : Int, (Pos2BuildPos env buildInfo synced).z
          = (k : ℚ) * (2 * env.SQUARE_SIZE) + env.SQUARE_SIZE)
      ∧ (Int.land (env.GetZSize buildInfo.unitDef buildInfo.buildFacing) 2 = 0 →
        ∃ k : Int, (Pos2BuildPos env buildInfo synced).z = (k : ℚ) * (2 * env.SQUARE_SIZE))
      ∧ |(Pos2BuildPos env buildInfo synced).z - buildInfo.pos.z|
          ≤ env.SQUARE_SIZE + (|buildInfo.pos.z| + env.SQUARE_SIZE) * (2 : ℚ) ^ (-22 : ℤ))
    ∧ Pos2BuildPos env { buildInfo with pos := Pos2BuildPos env buildInfo synced } synced
        = Pos2BuildPos env buildInfo synced := by
  have hsx := snapBuildCoord_spec env.SQUARE_SIZE
    (env.GetXSize buildInfo.unitDef buildInfo.buildFacing) buildInfo.pos.x hS0 hS hx
  have hsz := snapBuildCoord_spec env.SQUARE_SIZE
    (env.GetZSize buildInfo.unitDef buildInfo.buildFacing) buildInfo.pos.z hS0 hS hz
  have hxe : (Pos2BuildPos env buildInfo synced).x
      = snapBuildCoord env.SQUARE_SIZE (env.GetXSize buildInfo.unitDef buildInfo.buildFacing)
          buildInfo.pos.x := by
    unfold Pos2BuildPos
    dsimp only
    split <;> rfl
  have hze : (Pos2BuildPos env buildInfo synced).z
      = snapBuildCoord env.SQUARE_SIZE (env.GetZSize buildInfo.unitDef buildInfo.buildFacing)
          buildInfo.pos.z := by
    unfold Pos2BuildPos
    dsimp only
    split <;> rfl
  refine ⟨?_, ?_, ?_⟩
  · rw [hxe]
    exact ⟨hsx.1, hsx.2.1, hsx.2.2.1⟩
  · rw [hze]
    exact ⟨hsz.1, hsz.2.1, hsz.2.2.1⟩
  · have hdef : ∀ bi : BuildInfo, Pos2BuildPos env bi synced
        = (if (bi.unitDef.floatOnWater && decide (env.GetBuildHeight
              ⟨snapBuildCoord env.SQUARE_SIZE (env.GetXSize bi.unitDef bi.buildFacing) bi.pos.x,
               0,
               snapBuildCoord env.SQUARE_SIZE (env.GetZSize bi.unitDef bi.buildFacing) bi.pos.z⟩
              bi.unitDef synced < 0)) = true then
            ⟨snapBuildCoord env.SQUARE_SIZE (env.GetXSize bi.unitDef bi.buildFacing) bi.pos.x,
             -bi.unitDef.waterline,
             snapBuildCoord env.SQUARE_SIZE (env.GetZSize bi.unitDef bi.buildFacing) bi.pos.z⟩
          else
            ⟨snapBuildCoord env.SQUARE_SIZE (env.GetXSize bi.unitDef bi.buildFacing) bi.pos.x,
             env.GetBuildHeight
              ⟨snapBuildCoord env.SQUARE_SIZE (env.GetXSize bi.unitDef bi.buildFacing) bi.pos.x,
               0,
               snapBuildCoord env.SQUARE_SIZE (env.GetZSize bi.unitDef bi.buildFacing) bi.pos.z⟩
              bi.unitDef synced,
             snapBuildCoord env.SQUARE_SIZE (env.GetZSize bi.unitDef bi.buildFacing)
              bi.pos.z⟩) := by
      intro bi
      rfl
    rw [hdef { buildInfo with pos := Pos2BuildPos env buildInfo synced }]
    simp only [hxe, hze, hsx.2.2.2, hsz.2.2.2]
    rw [hdef buildInfo]

/-- Witness of C34: a 2 x 2 footprint on squares of size 8, the build order at `(391, 0, 13)`:
`x` is snapped to a value `16 k + 8` within `8 + 399 * 2⁻²²` of 391. -/
theorem Pos2BuildPos_snaps_to_grid_witness :
    (Int.land (oneSiteEnv.GetXSize ⟨false, 0⟩ 0) 2 ≠ 0 →
        ∃ k : Int, (Pos2BuildPos oneSiteEnv ⟨⟨false, 0⟩, ⟨391, 0, 13⟩, 0⟩ false).x
          = (k : ℚ) * (2 * oneSiteEnv.SQUARE_SIZE) + oneSiteEnv.SQUARE_SIZE)
    ∧ (Int.land (oneSiteEnv.GetXSize ⟨false, 0⟩ 0) 2 = 0 →
        ∃ k : Int, (Pos2BuildPos oneSiteEnv ⟨⟨false, 0⟩, ⟨391, 0, 13⟩, 0⟩ false).x
          = (k : ℚ) * (2 * oneSiteEnv.SQUARE_SIZE))
    ∧ |(Pos2BuildPos oneSiteEnv ⟨⟨false, 0⟩, ⟨391, 0, 13⟩, 0⟩ false).x - 391|
        ≤ oneSiteEnv.SQUARE_SIZE + (|(391 : ℚ)| + oneSiteEnv.SQUARE_SIZE) * (2 : ℚ) ^ (-22 : ℤ) :=
  (Pos2BuildPos_snaps_to_grid oneSiteEnv ⟨⟨false, 0⟩, ⟨391, 0, 13⟩, 0⟩ false (by decide)
    (by decide) (by norm_num [abs_of_pos]) (by norm_num [abs_of_pos])).1

/-! ## The falloff in single precision -/

/-- Evaluation of a rounding, with the result given as a literal. -/
theorem toFloat_eval (x y : ℚ) (E n : ℤ) (hE : -126 ≤ E) (hlo : (2 : ℚ) ^ E ≤ |x|)
    (hhi : |x| < (2 : ℚ) ^ (E + 1)) (h : |x / (2 : ℚ) ^ (E - 23) - n| < 1 / 2)
    (hy : y = (n : ℚ) * (2 : ℚ) ^ (E - 23)) : toFloat x = y := by
  rw [hy]
  exact toFloat_eq_of_near x E n hE hlo hhi h

/-- Evaluation of a rounding of a non-negative value through `roundNearestEven`, also for a
tie. -/
theorem toFloat_eval_rne (x y : ℚ) (E : ℤ) (hE : -126 ≤ E) (hx : 0 ≤ x)
    (hlo : (2 : ℚ) ^ E ≤ x) (hhi : x < (2 : ℚ) ^ (E + 1))
    (hy : (roundNearestEven (x / (2 : ℚ) ^ (E - 23)) : ℚ) * (2 : ℚ) ^ (E - 23) = y) :
    toFloat x = y := by
  rw [← hy]
  exact toFloat_eq_roundNearestEven x E hE hx hlo hhi

/-- A value given as `m * 2 ^ e` with at most 24 significant bits is a single-precision
value. -/
theorem toFloat_exact (x : ℚ) (m e : ℤ) (hm : |m| ≤ 16777216) (he : -149 ≤ e)
    (hx : x = (m : ℚ) * (2 : ℚ) ^ e) : toFloat x = x := by
  rw [hx]
  exact toFloat_dyadic m e (by norm_num; exact hm) he

/-- A rational equal to a literal `m * 2 ^ e` with at most 24 significant bits is rounded to
it. -/
theorem toFloat_lit (x y : ℚ) (m e : ℤ) (hm : |m| ≤ 16777216) (he : -149 ≤ e)
    (hy : y = (m : ℚ) * (2 : ℚ) ^ e) (hx : x = y) : toFloat x = y := by
  rw [hx]
  exact toFloat_exact y m e hm he hy

/-- The constant `0.01f`. -/
theorem toFloat_hundredth : toFloat 0.01 = 5368709 / 536870912 :=
  toFloat_eval _ _ (-7) 10737418 (by norm_num) (by norm_num [abs_of_pos])
    (by norm_num [abs_of_pos]) (by norm_num [abs_lt]) (by norm_num)

theorem toFloat_hundredth_pos : 0 < toFloat 0.01 := by
  rw [toFloat_hundredth]
  norm_num

theorem toFloat_hundredth_le_one : toFloat 0.01 ≤ 1 := by
  rw [toFloat_hundredth]
  norm_num

theorem single_falloffMod_ge (R e d : ℚ) : toFloat 0.01 ≤ Single.falloffMod R e d :=
  le_max_left _ _

theorem single_falloffMod_pos (R e d : ℚ) : 0 < Single.falloffMod R e d :=
  lt_of_lt_of_le toFloat_hundredth_pos (single_falloffMod_ge R e d)

/-- In single precision the falloff multiplier is at most 1 for a distance `0 ≤ d ≤ R` that
is a single-precision value and `e ≤ 1`: the rounded divisor is not below the rounded
dividend. -/
theorem single_falloffMod_le_one (R e d : ℚ) (hd0 : 0 ≤ d) (hdR : d ≤ R) (he1 : e ≤ 1)
    (hd : toFloat d = d) : Single.falloffMod R e d ≤ 1 := by
  unfold Single.falloffMod
  apply max_le toFloat_hundredth_le_one
  have hp : toFloat (d * e) ≤ d := by
    have := toFloat_mono (d * e) d (by nlinarith)
    rwa [hd] at this
  have ha0 : 0 ≤ toFloat (R - d) := toFloat_nonneg _ (by linarith)
  have hac : toFloat (R - d) ≤ toFloat (R - toFloat (d * e)) :=
    toFloat_mono _ _ (by linarith)
  have hq : toFloat (R - d) / toFloat (R - toFloat (d * e)) ≤ 1 := by
    rcases eq_or_lt_of_le (le_trans ha0 hac) with hc | hc
    · rw [← hc, div_zero]
      norm_num
    · rw [div_le_one hc]
      exact hac
  have := toFloat_mono _ _ hq
  rwa [toFloat_one] at this

/-- At distance 0 the multiplier is 1. -/
theorem single_falloffMod_zero (R e : ℚ) (hR : 0 < R) (hRf : toFloat R = R) :
    Single.falloffMod R e 0 = 1 := by
  unfold Single.falloffMod
  rw [zero_mul, toFloat_zero, sub_zero, hRf, div_self hR.ne', toFloat_one]
  exact max_eq_right toFloat_hundredth_le_one

/-- At distance `R` the multiplier is `0.01f`. -/
theorem single_falloffMod_radius (R e : ℚ) : Single.falloffMod R e R = toFloat 0.01 := by
  unfold Single.falloffMod
  rw [sub_self, toFloat_zero, zero_div, toFloat_zero]
  exact max_eq_left toFloat_hundredth_pos.le

/-- With edge effectiveness 0 the divisor is the rounded radius, and the multiplier is
non-increasing in the distance also in single precision. -/
theorem single_falloffMod_anti_zero (R d1 d2 : ℚ) (hR : 0 ≤ R) (h12 : d1 ≤ d2) :
    Single.falloffMod R 0 d2 ≤ Single.falloffMod R 0 d1 := by
  unfold Single.falloffMod
  apply max_le_max le_rfl
  apply toFloat_mono
  rw [mul_zero, mul_zero, toFloat_zero, sub_zero]
  exact div_le_div_of_nonneg_right (toFloat_mono _ _ (by linarith)) (toFloat_nonneg R hR)

/-- With edge effectiveness 1 the divisor is the dividend: the multiplier is 1 as long as the
rounded difference `R - d` is not 0, and `0.01f` from there on. -/
theorem single_falloffMod_anti_one (R d1 d2 : ℚ) (h12 : d1 ≤ d2) (h2 : d2 ≤ R)
    (hf1 : toFloat d1 = d1) (hf2 : toFloat d2 = d2) :
    Single.falloffMod R 1 d2 ≤ Single.falloffMod R 1 d1 := by
  unfold Single.falloffMod
  apply max_le_max le_rfl
  apply toFloat_mono
  rw [mul_one, mul_one, hf1, hf2]
  have h2' : 0 ≤ toFloat (R - d2) := toFloat_nonneg _ (by linarith)
  have h12' : toFloat (R - d2) ≤ toFloat (R - d1) := toFloat_mono _ _ (by linarith)
  rcases eq_or_lt_of_le (le_trans h2' h12') with h1 | h1
  · have : toFloat (R - d2) = 0 := le_antisymm (by rw [h1]; exact h12') h2'
    rw [this, ← h1]
  · rw [div_self h1.ne']
    rcases eq_or_lt_of_le h2' with h | h
    · rw [← h, div_zero]
      norm_num
    · rw [div_self h.ne']

/-! ## The distance between the computed falloff and the exact one -/

/-- The error of a quotient whose dividend and divisor carry errors `a` and `b`, for a dividend
that is not above the divisor. -/
theorem quotient_error (N D N' D' a b : ℚ) (hD : 0 < D) (hD' : 0 < D') (hN0 : 0 ≤ N)
    (hND : N ≤ D) (hN' : |N' - N| ≤ a) (hD'e : |D' - D| ≤ b) :
    |N' / D' - N / D| * D' ≤ a + b := by
  have key : (N' / D' - N / D) * D' = (N' - N) + N / D * (D - D') := by
    field_simp
    ring
  have hq0 : 0 ≤ N / D := div_nonneg hN0 hD.le
  have hq1 : N / D ≤ 1 := (div_le_one hD).mpr hND
  have hb0 : 0 ≤ |D - D'| := abs_nonneg _
  have h2 : |N / D * (D - D')| ≤ b := by
    rw [abs_mul, abs_of_nonneg hq0, abs_sub_comm]
    calc N / D * |D' - D| ≤ 1 * |D' - D| := mul_le_mul_of_nonneg_right hq1 (abs_nonneg _)
      _ = |D' - D| := one_mul _
      _ ≤ b := hD'e
  calc |N' / D' - N / D| * D' = |(N' / D' - N / D) * D'| := by
        rw [abs_mul, abs_of_pos hD']
    _ = |(N' - N) + N / D * (D - D')| := by rw [key]
    _ ≤ |N' - N| + |N / D * (D - D')| := abs_add _ _
    _ ≤ a + b := add_le_add hN' h2

/-- The multiplier computed in single precision is near the exact one: for a radius
`R ≥ 2⁻¹⁰⁰`, `0 ≤ e ≤ 1` and a distance `0 ≤ d ≤ R` (single-precision values), the two differ
by at most `2⁻²⁰ / (1 - e)`. -/
theorem single_falloffMod_near (R e d : ℚ) (hRlow : (2 : ℚ) ^ (-100 : ℤ) ≤ R)
    (hRf : toFloat R = R) (he0 : 0 ≤ e) (he1 : e ≤ 1) (hd0 : 0 ≤ d) (hdR : d ≤ R)
    (hd : toFloat d = d) :
    (1 - e) * |Single.falloffMod R e d - falloffMod R e d| ≤ 1 / 1048576 := by
  have hR0 : 0 < R := lt_of_lt_of_le (by positivity) hRlow
  have hms1 := single_falloffMod_le_one R e d hd0 hdR he1 hd
  have hms0 := single_falloffMod_ge R e d
  have hm1 := falloffMod_le_one R e d hd0 hdR he1
  have hm0 := falloffMod_ge R e d
  have hc := toFloat_hundredth
  have hP0 : 0 ≤ d * e := mul_nonneg hd0 he0
  have hPd : d * e ≤ d := by nlinarith
  have hDR : R * (1 - e) ≤ R - d * e := by nlinarith
  have h1e : 0 ≤ 1 - e := by linarith
  have habs0 : 0 ≤ |Single.falloffMod R e d - falloffMod R e d| := abs_nonneg _
  by_cases hsmall : R - d * e < 16 * R * (1 / 16777216)
  · have habs1 : |Single.falloffMod R e d - falloffMod R e d| ≤ 1 := by
      rw [abs_le]
      rw [hc] at hms0
      constructor <;> linarith only [hms0, hms1, hm0, hm1]
    have h1 : 1 - e < 16 * (1 / 16777216) := by
      by_contra hno
      push_neg at hno
      have := mul_le_mul_of_nonneg_left hno hR0.le
      linarith only [this, hsmall, hDR]
    calc (1 - e) * |Single.falloffMod R e d - falloffMod R e d|
        ≤ (1 - e) * 1 := mul_le_mul_of_nonneg_left habs1 h1e
      _ ≤ 1 / 1048576 := by linarith only [h1]
  · push_neg at hsmall
    -- the errors of the four roundings
    have herrP := abs_toFloat_sub_le_rel (d * e)
    have herrN := abs_toFloat_sub_le_rel (R - d)
    have herrD := abs_toFloat_sub_le_rel (R - toFloat (d * e))
    have herrQ := abs_toFloat_sub_le_rel
      (toFloat (R - d) / toFloat (R - toFloat (d * e)))
    have p24 : (2 : ℚ) ^ (-24 : ℤ) = 1 / 16777216 := by norm_num
    have hη : (2 : ℚ) ^ (-150 : ℤ) ≤ R * (1 / 16777216) * (1 / 16777216) := by
      have h1 : (2 : ℚ) ^ (-150 : ℤ) = (2 : ℚ) ^ (-100 : ℤ) * (2 : ℚ) ^ (-50 : ℤ) := by
        rw [← zpow_add₀ (by norm_num : (2 : ℚ) ≠ 0)]
        norm_num
      have h2 : (2 : ℚ) ^ (-50 : ℤ) ≤ 1 / 16777216 * (1 / 16777216) := by norm_num
      rw [h1]
      calc (2 : ℚ) ^ (-100 : ℤ) * (2 : ℚ) ^ (-50 : ℤ)
          ≤ R * (2 : ℚ) ^ (-50 : ℤ) := mul_le_mul_of_nonneg_right hRlow (by positivity)
        _ ≤ R * (1 / 16777216 * (1 / 16777216)) := mul_le_mul_of_nonneg_left h2 hR0.le
        _ = R * (1 / 16777216) * (1 / 16777216) := by ring
    have hηu : (2 : ℚ) ^ (-150 : ℤ) ≤ 1 / 16777216 := by norm_num
    have hη0 : (0 : ℚ) < (2 : ℚ) ^ (-150 : ℤ) := by positivity
    rw [p24] at herrP herrN herrD herrQ
    generalize (2 : ℚ) ^ (-150 : ℤ) = η at herrP herrN herrD herrQ hη hηu hη0
    have hPR : toFloat (d * e) ≤ R := by
      have := toFloat_mono (d * e) R (by linarith)
      rwa [hRf] at this
    have hP'0 : 0 ≤ toFloat (d * e) := toFloat_nonneg _ hP0
    rw [abs_of_nonneg hP0] at herrP
    rw [abs_of_nonneg (by linarith : 0 ≤ R - d)] at herrN
    rw [abs_of_nonneg (by linarith : 0 ≤ R - toFloat (d * e))] at herrD
    generalize hPdef : toFloat (d * e) = P' at herrP herrD herrQ hPR hP'0
    generalize hNdef : toFloat (R - d) = N' at herrN herrQ
    generalize hDdef : toFloat (R - P') = D' at herrD herrQ
    generalize hQdef : toFloat (N' / D') = Q' at herrQ
    have hP' := abs_le.mp herrP
    have hD1 := abs_le.mp herrD
    have hu0 : (0 : ℚ) ≤ R * (1 / 16777216) := by positivity
    have hηR : η ≤ R * (1 / 16777216) / 16 := by
      linarith only [hη, hR0]
    -- the divisor
    have hDerr : |D' - (R - d * e)| ≤ 3 * (R * (1 / 16777216)) := by
      rw [abs_le]
      constructor <;> linarith only [hP'.1, hP'.2, hD1.1, hD1.2, hPd, hdR, hP'0, hηR, hu0]
    have hDerr' := abs_le.mp hDerr
    have hD'pos : 0 < D' := by linarith only [hDerr'.1, hsmall, hR0]
    have hDD' : R - d * e ≤ 16 / 13 * D' := by linarith only [hDerr'.1, hsmall]
    have hDpos : 0 < R - d * e := by linarith only [hsmall, hR0]
    -- the quotient before it is rounded
    have hNerr : |N' - (R - d)| ≤ (R - d * e) * (1 / 16777216) + η := by
      refine le_trans herrN ?_
      linarith only [hPd]
    have hq := quotient_error (R - d) (R - d * e) N' D' _ _ hDpos hD'pos
      (by linarith only [hdR]) (by linarith only [hPd]) hNerr hDerr
    have hQ0 : 0 ≤ |N' / D' - (R - d) / (R - d * e)| := abs_nonneg _
    have hDle : R - d * e ≤ R := by linarith only [hP0]
    have hq2 : (R - d * e) * |N' / D' - (R - d) / (R - d * e)|
        ≤ 5 * (R * (1 / 16777216)) := by
      have h1 : (R - d * e) * |N' / D' - (R - d) / (R - d * e)|
          ≤ 16 / 13 * D' * |N' / D' - (R - d) / (R - d * e)| :=
        mul_le_mul_of_nonneg_right hDD' hQ0
      linarith only [h1, hq, hP0, hηR]
    have hqa : |N' / D' - (R - d) / (R - d * e)| ≤ 5 / 16 := by
      by_contra hno
      push_neg at hno
      have := mul_lt_mul_of_pos_left hno hDpos
      linarith only [this, hq2, hsmall]
    have hQex0 : 0 ≤ (R - d) / (R - d * e) :=
      div_nonneg (by linarith only [hdR]) hDpos.le
    have hQex1 : (R - d) / (R - d * e) ≤ 1 := (div_le_one hDpos).mpr (by linarith only [hPd])
    have hQ0abs : |N' / D'| ≤ 2 := by
      have := abs_le.mp hqa
      rw [abs_le]
      constructor <;> linarith only [this.1, this.2, hQex0, hQex1]
    have hQerr : |Q' - N' / D'| ≤ 2 * (1 / 16777216) + η := by
      refine le_trans herrQ ?_
      linarith only [hQ0abs]
    have hQtot : |Q' - (R - d) / (R - d * e)|
        ≤ |Q' - N' / D'| + |N' / D' - (R - d) / (R - d * e)| := by
      have := abs_add (Q' - N' / D') (N' / D' - (R - d) / (R - d * e))
      rwa [sub_add_sub_cancel] at this
    have hq3 : (R - d * e) * |Q' - (R - d) / (R - d * e)| ≤ 8 * (R * (1 / 16777216)) := by
      have h1 : (R - d * e) * |Q' - N' / D'| ≤ R * (2 * (1 / 16777216) + η) :=
        mul_le_mul hDle hQerr (abs_nonneg _) hR0.le
      have h2 : R * η ≤ R * (1 / 16777216) := mul_le_mul_of_nonneg_left hηu hR0.le
      have h3 := mul_le_mul_of_nonneg_left hQtot hDpos.le
      linarith only [h1, h2, h3, hq2]
    -- the maximum with the floor
    have hmax := abs_max_sub_max_le_max (toFloat 0.01) Q' 0.01 ((R - d) / (R - d * e))
    have hcc : |toFloat 0.01 - (0.01 : ℚ)| ≤ 1 / 16777216 := by
      rw [hc]
      norm_num [abs_le]
    have hfin : (R - d * e) * |Single.falloffMod R e d - falloffMod R e d|
        ≤ 8 * (R * (1 / 16777216)) := by
      have hform : Single.falloffMod R e d - falloffMod R e d
          = max (toFloat 0.01) Q' - max 0.01 ((R - d) / (R - d * e)) := by
        unfold Single.falloffMod falloffMod
        rw [hPdef, hNdef, hDdef, hQdef]
      rw [hform]
      rcases le_or_lt |toFloat 0.01 - (0.01 : ℚ)| |Q' - (R - d) / (R - d * e)| with h | h
      · rw [max_eq_right h] at hmax
        exact le_trans (mul_le_mul_of_nonneg_left hmax hDpos.le) hq3
      · rw [max_eq_left h.le] at hmax
        have := mul_le_mul hDle (le_trans hmax hcc) (abs_nonneg _) hR0.le
        linarith only [this, hu0]
    have hlast : R * ((1 - e) * |Single.falloffMod R e d - falloffMod R e d|)
        ≤ R * (8 * (1 / 16777216)) := by
      have := mul_le_mul_of_nonneg_right hDR habs0
      linarith only [this, hfin]
    have := le_of_mul_le_mul_left hlast hR0
    linarith only [this]

/-- The multiplier computed in single precision is non-increasing in the distance up to
rounding: for `d1 ≤ d2` it grows by at most `2⁻¹⁹ / (1 - e)`. -/
theorem single_falloffMod_anti_near (R e d1 d2 : ℚ) (hRlow : (2 : ℚ) ^ (-100 : ℤ) ≤ R)
    (hRf : toFloat R = R) (he0 : 0 ≤ e) (he1 : e ≤ 1) (h0 : 0 ≤ d1) (h12 : d1 ≤ d2)
    (h2 : d2 ≤ R) (hf1 : toFloat d1 = d1) (hf2 : toFloat d2 = d2) :
    (1 - e) * (Single.falloffMod R e d2 - Single.falloffMod R e d1) ≤ 1 / 524288 := by
  have hR0 : 0 < R := lt_of_lt_of_le (by positivity) hRlow
  have n1 := single_falloffMod_near R e d1 hRlow hRf he0 he1 h0 (le_trans h12 h2) hf1
  have n2 := single_falloffMod_near R e d2 hRlow hRf he0 he1 (le_trans h0 h12) h2 hf2
  have hm := falloffMod_anti R e d1 d2 hR0 he0 he1 h12 h2
  have h1e : 0 ≤ 1 - e := by linarith
  have a1 := neg_abs_le (Single.falloffMod R e d1 - falloffMod R e d1)
  have a2 := le_abs_self (Single.falloffMod R e d2 - falloffMod R e d2)
  have hsum : Single.falloffMod R e d2 - Single.falloffMod R e d1
      ≤ |Single.falloffMod R e d2 - falloffMod R e d2|
        + |Single.falloffMod R e d1 - falloffMod R e d1| := by
    linarith only [a1, a2, hm]
  have := mul_le_mul_of_nonneg_left hsum h1e
  linarith only [this, n1, n2]

/-- C2, the counterexample: for `R = 100` and `e = 0.5` the distances
`d1 = 13109 / 131072 = 0.100013733...` and `d2 = 13423617 / 134217728 = 0.10001374...` are
neighbouring single-precision values, `d1 < d2`, and the multiplier computed at `d2`,
`0.999499738...`, is larger than the multiplier computed at `d1`, `0.999499619...`: the
product `d * e` and the two differences are rounded before the division. -/
theorem falloff_increases_between_neighbouring_distances :
    toFloat (13109 / 131072) = 13109 / 131072
    ∧ toFloat (13423617 / 134217728) = 13423617 / 134217728
    ∧ (13109 / 131072 : ℚ) < 13423617 / 134217728
    ∧ Single.falloffMod 100 (1 / 2) (13109 / 131072) = 16768821 / 16777216
    ∧ Single.falloffMod 100 (1 / 2) (13423617 / 134217728) = 16768823 / 16777216
    ∧ Single.falloffMod 100 (1 / 2) (13109 / 131072)
        < Single.falloffMod 100 (1 / 2) (13423617 / 134217728) := by
  have hd1 : toFloat (13109 / 131072) = 13109 / 131072 :=
    toFloat_exact _ 13109 (-17) (by norm_num) (by norm_num) (by norm_num)
  have hd2 : toFloat (13423617 / 134217728) = 13423617 / 134217728 :=
    toFloat_exact _ 13423617 (-27) (by norm_num) (by norm_num) (by norm_num)
  have hm1 : Single.falloffMod 100 (1 / 2) (13109 / 131072) = 16768821 / 16777216 := by
    unfold Single.falloffMod
    have ha : toFloat ((100 : ℚ) - 13109 / 131072) = 13094091 / 131072 := by
      rw [show ((100 : ℚ) - 13109 / 131072) = 13094091 / 131072 by norm_num]
      exact toFloat_exact _ 13094091 (-17) (by norm_num) (by norm_num) (by norm_num)
    have hp : toFloat ((13109 / 131072 : ℚ) * (1 / 2)) = 13109 / 262144 := by
      rw [show ((13109 / 131072 : ℚ) * (1 / 2)) = 13109 / 262144 by norm_num]
      exact toFloat_exact _ 13109 (-18) (by norm_num) (by norm_num) (by norm_num)
    have hc : toFloat ((100 : ℚ) - 13109 / 262144) = 6550323 / 65536 :=
      toFloat_eval_rne _ _ 6 (by norm_num) (by norm_num) (by norm_num) (by norm_num)
        (by norm_num [roundNearestEven])
    have hq : toFloat ((13094091 / 131072 : ℚ) / (6550323 / 65536)) = 16768821 / 16777216 :=
      toFloat_eval _ _ (-1) 16768821 (by norm_num) (by norm_num [abs_of_pos])
        (by norm_num [abs_of_pos]) (by norm_num [abs_lt]) (by norm_num)
    rw [ha, hp, hc, hq, toFloat_hundredth]
    norm_num
  have hm2 : Single.falloffMod 100 (1 / 2) (13423617 / 134217728) = 16768823 / 16777216 := by
    unfold Single.falloffMod
    have ha : toFloat ((100 : ℚ) - 13423617 / 134217728) = 13094091 / 131072 :=
      toFloat_eval _ _ 6 13094091 (by norm_num) (by norm_num [abs_of_pos])
        (by norm_num [abs_of_pos]) (by norm_num [abs_lt]) (by norm_num)
    have hp : toFloat ((13423617 / 134217728 : ℚ) * (1 / 2)) = 13423617 / 268435456 := by
      rw [show ((13423617 / 134217728 : ℚ) * (1 / 2)) = 13423617 / 268435456 by norm_num]
      exact toFloat_exact _ 13423617 (-28) (by norm_num) (by norm_num) (by norm_num)
    have hc : toFloat ((100 : ℚ) - 13423617 / 268435456) = 13100645 / 131072 :=
      toFloat_eval _ _ 6 13100645 (by norm_num) (by norm_num [abs_of_pos])
        (by norm_num [abs_of_pos]) (by norm_num [abs_lt]) (by norm_num)
    have hq : toFloat ((13094091 / 131072 : ℚ) / (13100645 / 131072)) = 16768823 / 16777216 :=
      toFloat_eval _ _ (-1) 16768823 (by norm_num) (by norm_num [abs_of_pos])
        (by norm_num [abs_of_pos]) (by norm_num [abs_lt]) (by norm_num)
    rw [ha, hp, hc, hq, toFloat_hundredth]
    norm_num
  refine ⟨hd1, hd2, by norm_num, hm1, hm2, ?_⟩
  rw [hm1, hm2]
  norm_num

/-- C2, amended: for a radius `R > 0`, an edge effectiveness `0 ≤ e ≤ 1` and distances
`0 ≤ d1 ≤ d2 ≤ R` (single-precision values), the falloff formula
`max(0.01, (R - d) / (R - d * e))` evaluated without rounding is non-increasing,
`mod(d2) ≤ mod(d1)`; the multiplier that the code computes in single precision lies between its
values at the ends, `0.01f = mod(R) ≤ mod(d) ≤ mod(0) = 1`, is non-increasing when `e = 0` or
`e = 1`, and for `R ≥ 2⁻¹⁰⁰` differs from the formula by at most `2⁻²⁰ / (1 - e)`, so that it is
non-increasing up to rounding: `(1 - e) * (mod(d2) - mod(d1)) ≤ 2⁻¹⁹`. -/
theorem falloffMod_in_single_precision (R e d1 d2 : ℚ) (hR : 0 < R) (hRf : toFloat R = R)
    (he0 : 0 ≤ e) (he1 : e ≤ 1) (h0 : 0 ≤ d1) (h12 : d1 ≤ d2) (h2 : d2 ≤ R)
    (hf1 : toFloat d1 = d1) (hf2 : toFloat d2 = d2) :
    falloffMod R e d2 ≤ falloffMod R e d1
    ∧ Single.falloffMod R e R = toFloat 0.01
    ∧ Single.falloffMod R e 0 = 1
    ∧ (Single.falloffMod R e R ≤ Single.falloffMod R e d1
        ∧ Single.falloffMod R e d1 ≤ Single.falloffMod R e 0)
    ∧ (Single.falloffMod R e R ≤ Single.falloffMod R e d2
        ∧ Single.falloffMod R e d2 ≤ Single.falloffMod R e 0)
    ∧ (e = 0 ∨ e = 1 → Single.falloffMod R e d2 ≤ Single.falloffMod R e d1)
    ∧ ((2 : ℚ) ^ (-100 : ℤ) ≤ R →
        (1 - e) * |Single.falloffMod R e d1 - falloffMod R e d1| ≤ 1 / 1048576
        ∧ (1 - e) * |Single.falloffMod R e d2 - falloffMod R e d2| ≤ 1 / 1048576
        ∧ (1 - e) * (Single.falloffMod R e d2 - Single.falloffMod R e d1) ≤ 1 / 524288) := by
  have hRad := single_falloffMod_radius R e
  have hZero := single_falloffMod_zero R e hR hRf
  refine ⟨falloffMod_anti R e d1 d2 hR he0 he1 h12 h2, hRad, hZero, ?_, ?_, ?_, ?_⟩
  · rw [hRad, hZero]
    exact ⟨single_falloffMod_ge R e d1,
      single_falloffMod_le_one R e d1 h0 (le_trans h12 h2) he1 hf1⟩
  · rw [hRad, hZero]
    exact ⟨single_falloffMod_ge R e d2,
      single_falloffMod_le_one R e d2 (le_trans h0 h12) h2 he1 hf2⟩
  · rintro (h | h)
    · rw [h]
      exact single_falloffMod_anti_zero R d1 d2 hR.le h12
    · rw [h]
      exact single_falloffMod_anti_one R d1 d2 h12 h2 hf1 hf2
  · intro hRlow
    exact ⟨single_falloffMod_near R e d1 hRlow hRf he0 he1 h0 (le_trans h12 h2) hf1,
      single_falloffMod_near R e d2 hRlow hRf he0 he1 (le_trans h0 h12) h2 hf2,
      single_falloffMod_anti_near R e d1 d2 hRlow hRf he0 he1 h0 h12 h2 hf1 hf2⟩

/-- Witness of C2: radius 100, edge effectiveness 1/2, distances 20 and 80: the multiplier
computed at distance 20 lies between the multipliers computed at distances 100 and 0. -/
theorem falloffMod_in_single_precision_witness :
    Single.falloffMod 100 (1 / 2) 100 ≤ Single.falloffMod 100 (1 / 2) 20
    ∧ Single.falloffMod 100 (1 / 2) 20 ≤ Single.falloffMod 100 (1 / 2) 0 :=
  (falloffMod_in_single_precision 100 (1 / 2) 20 80 (by norm_num)
    (toFloat_exact _ 100 0 (by norm_num) (by norm_num) (by norm_num)) (by norm_num)
    (by norm_num) (by norm_num) (by norm_num) (by norm_num)
    (toFloat_exact _ 20 0 (by norm_num) (by norm_num) (by norm_num))
    (toFloat_exact _ 80 0 (by norm_num) (by norm_num) (by norm_num))).2.2.2.1

/-! ## What the single-precision damage function adds -/

theorem single_DoExplosionDamage_ignored (ops : VecOps) (MAX_EXPLOSION_IMPULSE : ℚ)
    (frameNum : Int) (heap : UnitPtr → CUnit) (unit : UnitPtr) (owner : Option UnitPtr)
    (expPos : float3) (expRad expSpeed edgeEffectiveness : ℚ) (ignoreOwner : Bool)
    (damages : DamageArray) (weaponDefID : Int) (s : HelperState)
    (hign : (ignoreOwner && (owner == some unit)) = true) :
    Single.DoExplosionDamage ops MAX_EXPLOSION_IMPULSE frameNum heap unit owner expPos expRad
      expSpeed edgeEffectiveness ignoreOwner damages weaponDefID s = s := by
  unfold Single.DoExplosionDamage
  rw [if_pos hign]

theorem single_DoExplosionDamage_out_of_range (ops : VecOps) (MAX_EXPLOSION_IMPULSE : ℚ)
    (frameNum : Int) (heap : UnitPtr → CUnit) (unit : UnitPtr) (owner : Option UnitPtr)
    (expPos : float3) (expRad expSpeed edgeEffectiveness : ℚ) (ignoreOwner : Bool)
    (damages : DamageArray) (weaponDefID : Int) (s : HelperState)
    (hrange : Single.unitEdgeDist ops frameNum (heap unit) expPos > expRad) :
    Single.DoExplosionDamage ops MAX_EXPLOSION_IMPULSE frameNum heap unit owner expPos expRad
      expSpeed edgeEffectiveness ignoreOwner damages weaponDefID s = s := by
  unfold Single.DoExplosionDamage
  split
  · rfl
  · simp only []
    rw [if_pos hrange]

theorem single_DoExplosionDamage_direct (ops : VecOps) (MAX_EXPLOSION_IMPULSE : ℚ)
    (frameNum : Int) (heap : UnitPtr → CUnit) (unit : UnitPtr) (owner : Option UnitPtr)
    (expPos : float3) (expRad expSpeed edgeEffectiveness : ℚ) (ignoreOwner : Bool)
    (damages : DamageArray) (weaponDefID : Int) (s : HelperState)
    (hign : (ignoreOwner && (owner == some unit)) = false)
    (hrange : ¬ Single.unitEdgeDist ops frameNum (heap unit) expPos > expRad)
    (hdirect : Single.unitExpDist2 ops frameNum (heap unit) expPos expRad
      < toFloat (expSpeed * 4)) :
    Single.DoExplosionDamage ops MAX_EXPLOSION_IMPULSE frameNum heap unit owner expPos expRad
      expSpeed edgeEffectiveness ignoreOwner damages weaponDefID s
      = s.call (Call.unitDoDamage unit
          (Single.unitDamageDone ops frameNum (heap unit) expPos expRad edgeEffectiveness
            damages)
          (Single.unitAddedImpulse ops MAX_EXPLOSION_IMPULSE frameNum (heap unit) expPos expRad
            edgeEffectiveness damages) owner weaponDefID) := by
  unfold Single.DoExplosionDamage
  rw [hign]
  simp only [Bool.false_eq_true, if_false]
  rw [if_neg hrange, if_pos hdirect]

theorem single_DoExplosionDamage_deferred (ops : VecOps) (MAX_EXPLOSION_IMPULSE : ℚ)
    (frameNum : Int) (heap : UnitPtr → CUnit) (unit : UnitPtr) (owner : Option UnitPtr)
    (expPos : float3) (expRad expSpeed edgeEffectiveness : ℚ) (ignoreOwner : Bool)
    (damages : DamageArray) (weaponDefID : Int) (s : HelperState)
    (hign : (ignoreOwner && (owner == some unit)) = false)
    (hrange : ¬ Single.unitEdgeDist ops frameNum (heap unit) expPos > expRad)
    (hdirect : ¬ Single.unitExpDist2 ops frameNum (heap unit) expPos expRad
      < toFloat (expSpeed * 4)) :
    Single.DoExplosionDamage ops MAX_EXPLOSION_IMPULSE frameNum heap unit owner expPos expRad
      expSpeed edgeEffectiveness ignoreOwner damages weaponDefID s
      = s.pushFront
          (ringSlot (frameNum
            + Single.unitDelay ops frameNum (heap unit) expPos expRad expSpeed))
          (Single.unitWaitingDamage ops MAX_EXPLOSION_IMPULSE frameNum heap unit owner expPos
            expRad edgeEffectiveness damages weaponDefID) := by
  unfold Single.DoExplosionDamage
  rw [hign]
  simp only [Bool.false_eq_true, if_false]
  rw [if_neg hrange, if_neg hdirect]

/-- What one call of the single-precision damage function delivers: every `DoDamage` call it
logs and every record it pushes carries `damageDone` and `addedImpulse`, and the unit is in
range. -/
theorem single_DoExplosionDamage_delivered (ops : VecOps) (MAX_EXPLOSION_IMPULSE : ℚ)
    (frameNum : Int) (heap : UnitPtr → CUnit) (unit : UnitPtr) (owner : Option UnitPtr)
    (expPos : float3) (expRad expSpeed edgeEffectiveness : ℚ) (ignoreOwner : Bool)
    (damages : DamageArray) (weaponDefID : Int) (s : HelperState) :
    (∀ c ∈ callsSince s
        (Single.DoExplosionDamage ops MAX_EXPLOSION_IMPULSE frameNum heap unit owner expPos
          expRad expSpeed edgeEffectiveness ignoreOwner damages weaponDefID s),
        c = Call.unitDoDamage unit
              (Single.unitDamageDone ops frameNum (heap unit) expPos expRad edgeEffectiveness
                damages)
              (Single.unitAddedImpulse ops MAX_EXPLOSION_IMPULSE frameNum (heap unit) expPos
                expRad edgeEffectiveness damages) owner weaponDefID
        ∧ Single.unitEdgeDist ops frameNum (heap unit) expPos ≤ expRad)
    ∧ (∀ slot wd, wd ∈ queuedSince s
        (Single.DoExplosionDamage ops MAX_EXPLOSION_IMPULSE frameNum heap unit owner expPos
          expRad expSpeed edgeEffectiveness ignoreOwner damages weaponDefID s) slot →
        wd = Single.unitWaitingDamage ops MAX_EXPLOSION_IMPULSE frameNum heap unit owner expPos
              expRad edgeEffectiveness damages weaponDefID
        ∧ Single.unitEdgeDist ops frameNum (heap unit) expPos ≤ expRad) := by
  by_cases hign : (ignoreOwner && (owner == some unit)) = true
  · rw [single_DoExplosionDamage_ignored ops MAX_EXPLOSION_IMPULSE frameNum heap unit owner
      expPos expRad expSpeed edgeEffectiveness ignoreOwner damages weaponDefID s hign]
    simp [callsSince_self, queuedSince_self]
  · have hign2 : (ignoreOwner && (owner == some unit)) = false := by
      simpa using hign
    by_cases hrange : Single.unitEdgeDist ops frameNum (heap unit) expPos > expRad
    · rw [single_DoExplosionDamage_out_of_range ops MAX_EXPLOSION_IMPULSE frameNum heap unit
        owner expPos expRad expSpeed edgeEffectiveness ignoreOwner damages weaponDefID s hrange]
      simp [callsSince_self, queuedSince_self]
    · have hle := not_lt.mp hrange
      by_cases hdirect : Single.unitExpDist2 ops frameNum (heap unit) expPos expRad
          < toFloat (expSpeed * 4)
      · rw [single_DoExplosionDamage_direct ops MAX_EXPLOSION_IMPULSE frameNum heap unit owner
          expPos expRad expSpeed edgeEffectiveness ignoreOwner damages weaponDefID s hign2
          hrange hdirect]
        constructor
        · intro c hc
          rw [callsSince_call, List.mem_singleton] at hc
          exact ⟨hc, hle⟩
        · intro slot wd hwd
          simp [queuedSince_call] at hwd
      · rw [single_DoExplosionDamage_deferred ops MAX_EXPLOSION_IMPULSE frameNum heap unit owner
          expPos expRad expSpeed edgeEffectiveness ignoreOwner damages weaponDefID s hign2
          hrange hdirect]
        constructor
        · intro c hc
          simp [callsSince_pushFront] at hc
        · intro slot wd hwd
          rw [queuedSince_pushFront] at hwd
          split at hwd
          · exact ⟨List.mem_singleton.mp hwd, hle⟩
          · simp at hwd

/-- The constant `0.1f`. -/
theorem toFloat_tenth : toFloat 0.1 = 13421773 / 134217728 :=
  toFloat_eval _ _ (-4) 13421773 (by norm_num) (by norm_num [abs_of_pos])
    (by norm_num [abs_of_pos]) (by norm_num [abs_lt]) (by norm_num)

/-- Within range, for a bounding radius that is a non-negative single-precision value and a
radius of the explosion that is a single-precision value: the edge distance of line 138 is not
negative, the effective edge distance `expDist2` is a single-precision value in `[0, expRad]`,
and it is not below the edge distance. -/
theorem single_unitExpDist2_bounds (ops : VecOps) (frameNum : Int) (u : CUnit)
    (expPos : float3) (expRad : ℚ) (hRf : toFloat expRad = expRad)
    (hvol : 0 ≤ Single.unitVolRad ops frameNum u)
    (hvf : toFloat (Single.unitVolRad ops frameNum u) = Single.unitVolRad ops frameNum u)
    (hin : Single.unitEdgeDist ops frameNum u expPos ≤ expRad) :
    0 ≤ Single.unitEdgeDist ops frameNum u expPos
    ∧ 0 ≤ Single.unitExpDist2 ops frameNum u expPos expRad
    ∧ Single.unitExpDist2 ops frameNum u expPos expRad ≤ expRad
    ∧ toFloat (Single.unitExpDist2 ops frameNum u expPos expRad)
        = Single.unitExpDist2 ops frameNum u expPos expRad
    ∧ Single.unitEdgeDist ops frameNum u expPos
        ≤ Single.unitExpDist2 ops frameNum u expPos expRad := by
  have hE : Single.unitVolRad ops frameNum u ≤ Single.unitExpDist ops frameNum u expPos := by
    have h1 : Single.unitVolRad ops frameNum u
        ≤ toFloat (Single.unitVolRad ops frameNum u + toFloat 0.1) := by
      have := toFloat_mono (Single.unitVolRad ops frameNum u)
        (Single.unitVolRad ops frameNum u + toFloat 0.1)
        (by rw [toFloat_tenth]; norm_num)
      rwa [hvf] at this
    exact le_trans h1 (le_max_right _ _)
  have hedge0 : 0 ≤ Single.unitEdgeDist ops frameNum u expPos :=
    toFloat_nonneg _ (by linarith)
  have hedgef : toFloat (Single.unitEdgeDist ops frameNum u expPos)
      = Single.unitEdgeDist ops frameNum u expPos := toFloat_idem _
  have hwet : Single.unitEdgeDist ops frameNum u expPos
      ≤ toFloat (Single.unitEdgeDist ops frameNum u expPos
          + Single.unitVolRad ops frameNum u) := by
    have := toFloat_mono (Single.unitEdgeDist ops frameNum u expPos)
      (Single.unitEdgeDist ops frameNum u expPos + Single.unitVolRad ops frameNum u)
      (by linarith)
    rwa [hedgef] at this
  refine ⟨hedge0, ?_⟩
  unfold Single.unitExpDist2
  split
  · refine ⟨le_min (le_trans hedge0 hwet) (le_trans hedge0 hin), min_le_right _ _, ?_,
      le_min hwet hin⟩
    rcases min_cases (toFloat (Single.unitEdgeDist ops frameNum u expPos
        + Single.unitVolRad ops frameNum u)) expRad with ⟨h, _⟩ | ⟨h, _⟩
    · rw [h]
      exact toFloat_idem _
    · rw [h]
      exact hRf
  · exact ⟨hedge0, hin, hedgef, le_rfl⟩

/-! ## The scenario of a unit 9 above the explosion -/

theorem sceneNine_volRad :
    Single.unitVolRad (roundedOps sqrtScene) 0 (unitAt 7 ⟨0, 9, 0⟩) = 1 := by
  simp [Single.unitVolRad, Single.unitVolumeAndBase, unitAt]

theorem sceneNine_diffPos :
    Single.unitDiffPos (roundedOps sqrtScene) 0 (unitAt 7 ⟨0, 9, 0⟩) origin = ⟨0, 9, 0⟩ := by
  have h9 : toFloat (9 : ℚ) = 9 :=
    toFloat_exact _ 9 0 (by norm_num) (by norm_num) (by norm_num)
  simp [Single.unitDiffPos, Single.unitVolumeAndBase, roundedOps, unitAt, origin,
    toFloat_zero, h9]

theorem sceneNine_length :
    (roundedOps sqrtScene).Length
      (Single.unitDiffPos (roundedOps sqrtScene) 0 (unitAt 7 ⟨0, 9, 0⟩) origin) = 9 := by
  have h81 : toFloat (81 : ℚ) = 81 :=
    toFloat_exact _ 81 0 (by norm_num) (by norm_num) (by norm_num)
  rw [sceneNine_diffPos]
  norm_num [roundedOps, toFloat_zero, h81, sqrtScene]

theorem sceneNine_expDist :
    Single.unitExpDist (roundedOps sqrtScene) 0 (unitAt 7 ⟨0, 9, 0⟩) origin = 9 := by
  unfold Single.unitExpDist
  rw [sceneNine_length, sceneNine_volRad]
  apply max_eq_left
  have h1 : (1 : ℚ) + toFloat 0.1 ≤ 2 := by
    rw [toFloat_tenth]
    norm_num
  have := toFloat_mono _ _ h1
  rw [toFloat_exact 2 2 0 (by norm_num) (by norm_num) (by norm_num)] at this
  linarith

theorem sceneNine_edgeDist :
    Single.unitEdgeDist (roundedOps sqrtScene) 0 (unitAt 7 ⟨0, 9, 0⟩) origin = 8 := by
  unfold Single.unitEdgeDist
  rw [sceneNine_expDist, sceneNine_volRad]
  exact toFloat_lit _ _ 8 0 (by norm_num) (by norm_num) (by norm_num) (by norm_num)

theorem sceneNine_expDist2 (expRad : ℚ) :
    Single.unitExpDist2 (roundedOps sqrtScene) 0 (unitAt 7 ⟨0, 9, 0⟩) origin expRad = 8 := by
  unfold Single.unitExpDist2
  rw [sceneNine_edgeDist]
  simp [unitAt]

/-! ## The damage multiplier in single precision -/

/-- C13, the counterexample: a unit of bounding radius 1 whose centre is at the centre of the
explosion, radius of the explosion 4097, edge effectiveness `0.999f = 16760439 / 16777216`.
The unit is within range, `expDist2` is `838861 / 8388608 = 0.100000024`, the dividend and the
divisor of the falloff are both rounded to `8390451 / 2048 = 4096.900...`, and the multiplier
`mod2` is exactly 1. -/
theorem unit_damage_multiplier_reaches_one :
    toFloat 0.999 = 16760439 / 16777216
    ∧ Single.unitEdgeDist (roundedOps sqrtScene) 0 (unitAt 7 origin) origin = 838861 / 8388608
    ∧ Single.unitExpDist2 (roundedOps sqrtScene) 0 (unitAt 7 origin) origin 4097
        = 838861 / 8388608
    ∧ Single.falloffMod 4097 (toFloat 0.999)
        (Single.unitExpDist2 (roundedOps sqrtScene) 0 (unitAt 7 origin) origin 4097) = 1 := by
  have h999 : toFloat 0.999 = 16760439 / 16777216 :=
    toFloat_eval_rne _ _ (-1) (by norm_num) (by norm_num) (by norm_num) (by norm_num)
      (by norm_num [roundNearestEven])
  have hlen : (roundedOps sqrtScene).Length
      (Single.unitDiffPos (roundedOps sqrtScene) 0 (unitAt 7 origin) origin) = 0 := by
    norm_num [Single.unitDiffPos, Single.unitVolumeAndBase, roundedOps, unitAt, origin,
      toFloat_zero, sqrtScene]
  have hvol : Single.unitVolRad (roundedOps sqrtScene) 0 (unitAt 7 origin) = 1 := by
    simp [Single.unitVolRad, Single.unitVolumeAndBase, unitAt]
  have hsum : toFloat ((1 : ℚ) + 13421773 / 134217728) = 9227469 / 8388608 :=
    toFloat_eval_rne _ _ 0 (by norm_num) (by norm_num) (by norm_num) (by norm_num)
      (by norm_num [roundNearestEven])
  have hdist : Single.unitExpDist (roundedOps sqrtScene) 0 (unitAt 7 origin) origin
      = 9227469 / 8388608 := by
    unfold Single.unitExpDist
    rw [hlen, hvol, toFloat_tenth, hsum]
    norm_num
  have hedge : Single.unitEdgeDist (roundedOps sqrtScene) 0 (unitAt 7 origin) origin
      = 838861 / 8388608 := by
    unfold Single.unitEdgeDist
    rw [hdist, hvol]
    rw [show ((9227469 / 8388608 : ℚ) - 1) = (838861 / 8388608 : ℚ) by norm_num]
    exact toFloat_exact _ 838861 (-23) (by norm_num) (by norm_num) (by norm_num)
  have hd2 : Single.unitExpDist2 (roundedOps sqrtScene) 0 (unitAt 7 origin) origin 4097
      = 838861 / 8388608 := by
    unfold Single.unitExpDist2
    rw [hedge]
    simp [unitAt]
  refine ⟨h999, hedge, hd2, ?_⟩
  rw [hd2, h999]
  unfold Single.falloffMod
  have ha : toFloat ((4097 : ℚ) - 838861 / 8388608) = 8390451 / 2048 :=
    toFloat_eval_rne _ _ 12 (by norm_num) (by norm_num) (by norm_num) (by norm_num)
      (by norm_num [roundNearestEven])
  have hp : toFloat ((838861 / 8388608 : ℚ) * (16760439 / 16777216)) = 6704177 / 67108864 :=
    toFloat_eval_rne _ _ (-4) (by norm_num) (by norm_num) (by norm_num) (by norm_num)
      (by norm_num [roundNearestEven])
  have hc : toFloat ((4097 : ℚ) - 6704177 / 67108864) = 8390451 / 2048 :=
    toFloat_eval_rne _ _ 12 (by norm_num) (by norm_num) (by norm_num) (by norm_num)
      (by norm_num [roundNearestEven])
  rw [ha, hp, hc, div_self (by norm_num), toFloat_one]
  exact max_eq_right toFloat_hundredth_le_one

/-- C13, amended: for a unit within range (`expDist - volRad ≤ R` as line 141 tests it), with
`R` a single-precision value, `e ≤ 1` and a bounding radius that is a non-negative
single-precision value, the multiplier `mod2` computed in single precision satisfies
`0 < 0.01f ≤ mod2 ≤ 1`, and every `DoDamage` call or deferred record carries the damage vector
scaled by it; for a unit of bounding radius 5 at centre distance 50 that is not under water,
with `R = 100` and `e = 0`, it is the single-precision value of `55 / 100`,
`9227469 / 16777216 = 0.550000011...`. -/
theorem unit_damage_multiplier_at_most_one (ops : VecOps) (MAX_EXPLOSION_IMPULSE : ℚ)
    (frameNum : Int) (heap : UnitPtr → CUnit) (unit : UnitPtr) (owner : Option UnitPtr)
    (expPos : float3) (expRad expSpeed edgeEffectiveness : ℚ) (ignoreOwner : Bool)
    (damages : DamageArray) (weaponDefID : Int) (s : HelperState)
    (hRf : toFloat expRad = expRad) (he1 : edgeEffectiveness ≤ 1)
    (hvol : 0 ≤ Single.unitVolRad ops frameNum (heap unit))
    (hvf : toFloat (Single.unitVolRad ops frameNum (heap unit))
      = Single.unitVolRad ops frameNum (heap unit))
    (hin : Single.unitEdgeDist ops frameNum (heap unit) expPos ≤ expRad) :
    (0 < Single.falloffMod expRad edgeEffectiveness
          (Single.unitExpDist2 ops frameNum (heap unit) expPos expRad)
      ∧ toFloat 0.01 ≤ Single.falloffMod expRad edgeEffectiveness
          (Single.unitExpDist2 ops frameNum (heap unit) expPos expRad)
      ∧ Single.falloffMod expRad edgeEffectiveness
          (Single.unitExpDist2 ops frameNum (heap unit) expPos expRad) ≤ 1)
    ∧ (∀ p dmg imp att w, Call.unitDoDamage p dmg imp att w ∈ callsSince s
          (Single.DoExplosionDamage ops MAX_EXPLOSION_IMPULSE frameNum heap unit owner expPos
            expRad expSpeed edgeEffectiveness ignoreOwner damages weaponDefID s) →
        dmg = ops.scale damages (Single.falloffMod expRad edgeEffectiveness
          (Single.unitExpDist2 ops frameNum (heap unit) expPos expRad)))
    ∧ (∀ slot wd, wd ∈ queuedSince s
          (Single.DoExplosionDamage ops MAX_EXPLOSION_IMPULSE frameNum heap unit owner expPos
            expRad expSpeed edgeEffectiveness ignoreOwner damages weaponDefID s) slot →
        wd.damage = ops.scale damages (Single.falloffMod expRad edgeEffectiveness
          (Single.unitExpDist2 ops frameNum (heap unit) expPos expRad)))
    ∧ (∀ (o : VecOps) (fr : Int) (u : CUnit) (pos : float3),
        Single.unitVolRad o fr u = 5 → o.Length (Single.unitDiffPos o fr u pos) = 50 →
        u.isUnderWater = false →
        Single.falloffMod 100 0 (Single.unitExpDist2 o fr u pos 100) = toFloat (55 / 100))
    ∧ toFloat (55 / 100) = 9227469 / 16777216 := by
  obtain ⟨_, hd0, hdR, hdf, _⟩ := single_unitExpDist2_bounds ops frameNum (heap unit) expPos
    expRad hRf hvol hvf hin
  obtain ⟨hcalls, hrecs⟩ := single_DoExplosionDamage_delivered ops MAX_EXPLOSION_IMPULSE
    frameNum heap unit owner expPos expRad expSpeed edgeEffectiveness ignoreOwner damages
    weaponDefID s
  have h55 : toFloat (55 / 100) = 9227469 / 16777216 :=
    toFloat_eval_rne _ _ (-1) (by norm_num) (by norm_num) (by norm_num) (by norm_num)
      (by norm_num [roundNearestEven])
  refine ⟨⟨single_falloffMod_pos _ _ _, single_falloffMod_ge _ _ _,
    single_falloffMod_le_one _ _ _ hd0 hdR he1 hdf⟩, ?_, ?_, ?_, h55⟩
  · intro p dmg imp att w hmem
    have h := (hcalls _ hmem).1
    rw [Call.unitDoDamage.injEq] at h
    exact h.2.1
  · intro slot wd hmem
    rw [(hrecs slot wd hmem).1]
    rfl
  · intro o fr u pos hv hl hw
    have hsum : toFloat ((5 : ℚ) + toFloat 0.1) ≤ 50 := by
      have h1 : (5 : ℚ) + toFloat 0.1 ≤ 6 := by
        rw [toFloat_tenth]
        norm_num
      have := toFloat_mono _ _ h1
      rw [toFloat_exact 6 6 0 (by norm_num) (by norm_num) (by norm_num)] at this
      linarith
    have hdist : Single.unitExpDist o fr u pos = 50 := by
      unfold Single.unitExpDist
      rw [hl, hv]
      exact max_eq_left hsum
    have hedge : Single.unitEdgeDist o fr u pos = 45 := by
      unfold Single.unitEdgeDist
      rw [hdist, hv]
      exact toFloat_lit _ _ 45 0 (by norm_num) (by norm_num) (by norm_num) (by norm_num)
    have hd2 : Single.unitExpDist2 o fr u pos 100 = 45 := by
      unfold Single.unitExpDist2
      rw [hw, hedge]
      simp
    rw [hd2]
    unfold Single.falloffMod
    have ha : toFloat ((100 : ℚ) - 45) = 55 :=
      toFloat_lit _ _ 55 0 (by norm_num) (by norm_num) (by norm_num) (by norm_num)
    have hc : toFloat ((100 : ℚ) - 0) = 100 :=
      toFloat_lit _ _ 100 0 (by norm_num) (by norm_num) (by norm_num) (by norm_num)
    rw [mul_zero, toFloat_zero, ha, hc, h55, toFloat_hundredth]
    norm_num

/-- Witness of C13: the unit of bounding radius 1 at distance 9 above an explosion of radius
100 at the origin with edge effectiveness 1/2. -/
theorem unit_damage_multiplier_at_most_one_witness :
    0 < Single.falloffMod 100 (1 / 2)
          (Single.unitExpDist2 (roundedOps sqrtScene) 0 (unitAt 7 ⟨0, 9, 0⟩) origin 100)
      ∧ toFloat 0.01 ≤ Single.falloffMod 100 (1 / 2)
          (Single.unitExpDist2 (roundedOps sqrtScene) 0 (unitAt 7 ⟨0, 9, 0⟩) origin 100)
      ∧ Single.falloffMod 100 (1 / 2)
          (Single.unitExpDist2 (roundedOps sqrtScene) 0 (unitAt 7 ⟨0, 9, 0⟩) origin 100) ≤ 1 :=
  (unit_damage_multiplier_at_most_one (roundedOps sqrtScene) 10000 0
    (fun _ => unitAt 7 ⟨0, 9, 0⟩) 7 none origin 100 1000 (1 / 2) false (plainDamage 50) 3
    emptyState (toFloat_exact _ 100 0 (by norm_num) (by norm_num) (by norm_num))
    (by norm_num)
    (by rw [sceneNine_volRad]; norm_num)
    (by rw [sceneNine_volRad]; exact toFloat_one)
    (by rw [sceneNine_edgeDist]; norm_num)).1

/-! ## Units under water, in single precision -/

theorem tinySub_volRad (w : Bool) :
    Single.unitVolRad (roundedOps sqrtScene) 0 { tinySub with isUnderWater := w }
      = 8796093 / 8796093022208 := by
  simp [Single.unitVolRad, Single.unitVolumeAndBase, tinySub, unitAt]

theorem tinySub_expDist (w : Bool) :
    Single.unitExpDist (roundedOps sqrtScene) 0 { tinySub with isUnderWater := w } origin
      = 8388673 / 8388608 := by
  have hneg : toFloat (-(8388673 / 8388608 : ℚ)) = -(8388673 / 8388608) := by
    rw [toFloat_neg, toFloat_exact _ 8388673 (-23) (by norm_num) (by norm_num) (by norm_num)]
  have hdiff : Single.unitDiffPos (roundedOps sqrtScene) 0
      { tinySub with isUnderWater := w } origin = ⟨0, -(8388673 / 8388608), 0⟩ := by
    simp [Single.unitDiffPos, Single.unitVolumeAndBase, roundedOps, tinySub, unitAt, origin,
      toFloat_zero, hneg]
  have hsq : toFloat ((8388673 / 8388608 : ℚ) * (8388673 / 8388608 : ℚ))
      = 4194369 / 4194304 :=
    toFloat_eval_rne _ _ (0) (by norm_num) (by norm_num) (by norm_num) (by norm_num)
      (by norm_num [roundNearestEven])
  have hsq2 : toFloat (4194369 / 4194304 : ℚ) = 4194369 / 4194304 :=
    toFloat_exact _ 4194369 (-22) (by norm_num) (by norm_num) (by norm_num)
  have hlen : (roundedOps sqrtScene).Length
      (Single.unitDiffPos (roundedOps sqrtScene) 0 { tinySub with isUnderWater := w } origin)
      = 8388673 / 8388608 := by
    rw [hdiff]
    show sqrtScene (toFloat (toFloat (toFloat ((0 : ℚ) * 0)
      + toFloat (-(8388673 / 8388608 : ℚ) * -(8388673 / 8388608 : ℚ))) + toFloat ((0 : ℚ) * 0)))
      = 8388673 / 8388608
    rw [neg_mul_neg, hsq, mul_zero, toFloat_zero, zero_add, hsq2, add_zero, hsq2]
    norm_num [sqrtScene]
  have hsum : toFloat ((8796093 / 8796093022208 : ℚ) + (13421773 / 134217728 : ℚ))
      = 13421907 / 134217728 :=
    toFloat_eval_rne _ _ (-4) (by norm_num) (by norm_num) (by norm_num) (by norm_num)
      (by norm_num [roundNearestEven])
  unfold Single.unitExpDist
  rw [hlen, tinySub_volRad, toFloat_tenth, hsum]
  norm_num

theorem tinySub_edgeDist (w : Bool) :
    Single.unitEdgeDist (roundedOps sqrtScene) 0 { tinySub with isUnderWater := w } origin
      = 8388665 / 8388608 := by
  unfold Single.unitEdgeDist
  rw [tinySub_expDist, tinySub_volRad]
  exact toFloat_eval_rne _ _ (0) (by norm_num) (by norm_num) (by norm_num) (by norm_num)
    (by norm_num [roundNearestEven])

/-- C28, the counterexample: a unit under water with bounding radius `1e-6f` whose centre is
`1.00000775` below an explosion at the origin (above water) of radius 100 with edge
effectiveness 0.5. Its effective edge distance is `8388673 / 8388608 = 1.00000775`, that of the
same unit not under water is `8388665 / 8388608 = 1.00000679`, and the multiplier it gets,
`4173227 / 4194304 = 0.994974852`, is larger than the multiplier `16692907 / 16777216
= 0.994974792` of the unit not under water: the two dividends `R - d` are rounded to the same
value, the two divisors are not. -/
theorem underwater_unit_gets_more_damage :
    Single.unitExpDist2 (roundedOps sqrtScene) 0 tinySub origin 100 = 8388673 / 8388608
    ∧ Single.unitExpDist2 (roundedOps sqrtScene) 0 { tinySub with isUnderWater := false }
        origin 100 = 8388665 / 8388608
    ∧ Single.falloffMod 100 (1 / 2)
        (Single.unitExpDist2 (roundedOps sqrtScene) 0 tinySub origin 100) = 4173227 / 4194304
    ∧ Single.falloffMod 100 (1 / 2)
        (Single.unitExpDist2 (roundedOps sqrtScene) 0 { tinySub with isUnderWater := false }
          origin 100) = 16692907 / 16777216
    ∧ Single.falloffMod 100 (1 / 2)
        (Single.unitExpDist2 (roundedOps sqrtScene) 0 { tinySub with isUnderWater := false }
          origin 100)
      < Single.falloffMod 100 (1 / 2)
          (Single.unitExpDist2 (roundedOps sqrtScene) 0 tinySub origin 100) := by
  have hwet : toFloat ((8388665 / 8388608 : ℚ) + (8796093 / 8796093022208 : ℚ))
      = 8388673 / 8388608 :=
    toFloat_eval_rne _ _ (0) (by norm_num) (by norm_num) (by norm_num) (by norm_num)
      (by norm_num [roundNearestEven])
  have hda : toFloat ((100 : ℚ) - (8388665 / 8388608 : ℚ)) = 12976127 / 131072 :=
    toFloat_eval_rne _ _ (6) (by norm_num) (by norm_num) (by norm_num) (by norm_num)
      (by norm_num [roundNearestEven])
  have hdp : toFloat ((8388665 / 8388608 : ℚ) * (1 / 2 : ℚ)) = 8388665 / 16777216 := by
    rw [show ((8388665 / 8388608 : ℚ) * (1 / 2 : ℚ)) = (8388665 / 16777216 : ℚ) by norm_num]
    exact toFloat_exact _ (8388665) (-24) (by norm_num) (by norm_num) (by norm_num)
  have hdc : toFloat ((100 : ℚ) - (8388665 / 16777216 : ℚ)) = 199 / 2 :=
    toFloat_eval_rne _ _ (6) (by norm_num) (by norm_num) (by norm_num) (by norm_num)
      (by norm_num [roundNearestEven])
  have hdq : toFloat ((12976127 / 131072 : ℚ) / (199 / 2 : ℚ)) = 16692907 / 16777216 :=
    toFloat_eval_rne _ _ (-1) (by norm_num) (by norm_num) (by norm_num) (by norm_num)
      (by norm_num [roundNearestEven])
  have hwa : toFloat ((100 : ℚ) - (8388673 / 8388608 : ℚ)) = 12976127 / 131072 :=
    toFloat_eval_rne _ _ (6) (by norm_num) (by norm_num) (by norm_num) (by norm_num)
      (by norm_num [roundNearestEven])
  have hwp : toFloat ((8388673 / 8388608 : ℚ) * (1 / 2 : ℚ)) = 8388673 / 16777216 := by
    rw [show ((8388673 / 8388608 : ℚ) * (1 / 2 : ℚ)) = (8388673 / 16777216 : ℚ) by norm_num]
    exact toFloat_exact _ (8388673) (-24) (by norm_num) (by norm_num) (by norm_num)
  have hwc : toFloat ((100 : ℚ) - (8388673 / 16777216 : ℚ)) = 13041663 / 131072 :=
    toFloat_eval_rne _ _ (6) (by norm_num) (by norm_num) (by norm_num) (by norm_num)
      (by norm_num [roundNearestEven])
  have hwq : toFloat ((12976127 / 131072 : ℚ) / (13041663 / 131072 : ℚ)) = 4173227 / 4194304 :=
    toFloat_eval_rne _ _ (-1) (by norm_num) (by norm_num) (by norm_num) (by norm_num)
      (by norm_num [roundNearestEven])
  have hWet : Single.unitExpDist2 (roundedOps sqrtScene) 0 tinySub origin 100
      = 8388673 / 8388608 := by
    have he := tinySub_edgeDist true
    have hv := tinySub_volRad true
    have hu : ({ tinySub with isUnderWater := true } : CUnit) = tinySub := rfl
    rw [hu] at he hv
    unfold Single.unitExpDist2
    rw [he, hv, hwet]
    norm_num [tinySub, origin]
  have hDry : Single.unitExpDist2 (roundedOps sqrtScene) 0
      { tinySub with isUnderWater := false } origin 100 = 8388665 / 8388608 := by
    unfold Single.unitExpDist2
    rw [tinySub_edgeDist]
    simp
  have hmWet : Single.falloffMod 100 (1 / 2) (8388673 / 8388608) = 4173227 / 4194304 := by
    unfold Single.falloffMod
    rw [hwa, hwp, hwc, hwq, toFloat_hundredth]
    norm_num
  have hmDry : Single.falloffMod 100 (1 / 2) (8388665 / 8388608) = 16692907 / 16777216 := by
    unfold Single.falloffMod
    rw [hda, hdp, hdc, hdq, toFloat_hundredth]
    norm_num
  refine ⟨hWet, hDry, ?_, ?_, ?_⟩
  · rw [hWet, hmWet]
  · rw [hDry, hmDry]
  · rw [hWet, hDry, hmWet, hmDry]
    norm_num

/-- C28, amended: for a unit within range, a radius `R > 0` of the explosion that is a
single-precision value, `0 ≤ e ≤ 1` and a bounding radius that is a non-negative
single-precision value: if the unit is under water and `expPos.y > -1`, its effective edge
distance is `min(edgeDist + volRad, R)` with the sum rounded, where `edgeDist` is the edge
distance of the same unit at the same position when it is not under water, and it is not below
`edgeDist`; the falloff formula evaluated without rounding gives at that distance no more than
at `edgeDist`; the multiplier `mod2` computed in single precision lies in `[0.01f, 1]`, is the
factor of the damage in every `DoDamage` call and deferred record of the unit, is at most the
multiplier of the unit not under water when `e = 0` or `e = 1`, and for `R ≥ 2⁻¹⁰⁰` exceeds it
by at most the rounding error `2⁻¹⁹ / (1 - e)`. -/
theorem underwater_unit_in_single_precision (ops : VecOps) (frameNum : Int) (u : CUnit)
    (expPos : float3) (expRad edgeEffectiveness : ℚ)
    (hR : 0 < expRad) (hRf : toFloat expRad = expRad)
    (he0 : 0 ≤ edgeEffectiveness) (he1 : edgeEffectiveness ≤ 1)
    (hvol : 0 ≤ Single.unitVolRad ops frameNum u)
    (hvf : toFloat (Single.unitVolRad ops frameNum u) = Single.unitVolRad ops frameNum u)
    (hin : Single.unitEdgeDist ops frameNum u expPos ≤ expRad)
    (hwater : u.isUnderWater = true) (habove : expPos.y > -1) :
    Single.unitExpDist2 ops frameNum u expPos expRad
      = min (toFloat (Single.unitEdgeDist ops frameNum u expPos
              + Single.unitVolRad ops frameNum u)) expRad
    ∧ Single.unitExpDist2 ops frameNum { u with isUnderWater := false } expPos expRad
      = Single.unitEdgeDist ops frameNum u expPos
    ∧ Single.unitExpDist2 ops frameNum { u with isUnderWater := false } expPos expRad
      ≤ Single.unitExpDist2 ops frameNum u expPos expRad
    ∧ falloffMod expRad edgeEffectiveness (Single.unitExpDist2 ops frameNum u expPos expRad)
      ≤ falloffMod expRad edgeEffectiveness
          (Single.unitExpDist2 ops frameNum { u with isUnderWater := false } expPos expRad)
    ∧ (toFloat 0.01 ≤ Single.falloffMod expRad edgeEffectiveness
          (Single.unitExpDist2 ops frameNum u expPos expRad)
      ∧ Single.falloffMod expRad edgeEffectiveness
          (Single.unitExpDist2 ops frameNum u expPos expRad) ≤ 1)
    ∧ (edgeEffectiveness = 0 ∨ edgeEffectiveness = 1 →
        Single.falloffMod expRad edgeEffectiveness
            (Single.unitExpDist2 ops frameNum u expPos expRad)
          ≤ Single.falloffMod expRad edgeEffectiveness
              (Single.unitExpDist2 ops frameNum { u with isUnderWater := false } expPos expRad))
    ∧ (∀ (MAX_EXPLOSION_IMPULSE : ℚ) (heap : UnitPtr → CUnit) (unit : UnitPtr)
        (owner : Option UnitPtr) (expSpeed : ℚ) (ignoreOwner : Bool) (damages : DamageArray)
        (weaponDefID : Int) (s : HelperState), heap unit = u →
        (∀ p dmg imp att w, Call.unitDoDamage p dmg imp att w ∈ callsSince s
            (Single.DoExplosionDamage ops MAX_EXPLOSION_IMPULSE frameNum heap unit owner expPos
              expRad expSpeed edgeEffectiveness ignoreOwner damages weaponDefID s) →
          dmg = ops.scale damages (Single.falloffMod expRad edgeEffectiveness
            (Single.unitExpDist2 ops frameNum u expPos expRad)))
        ∧ (∀ slot wd, wd ∈ queuedSince s
            (Single.DoExplosionDamage ops MAX_EXPLOSION_IMPULSE frameNum heap unit owner expPos
              expRad expSpeed edgeEffectiveness ignoreOwner damages weaponDefID s) slot →
          wd.damage = ops.scale damages (Single.falloffMod expRad edgeEffectiveness
            (Single.unitExpDist2 ops frameNum u expPos expRad))))
    ∧ ((2 : ℚ) ^ (-100 : ℤ) ≤ expRad →
        (1 - edgeEffectiveness)
            * (Single.falloffMod expRad edgeEffectiveness
                  (Single.unitExpDist2 ops frameNum u expPos expRad)
                - Single.falloffMod expRad edgeEffectiveness
                    (Single.unitExpDist2 ops frameNum { u with isUnderWater := false } expPos
                      expRad))
          ≤ 1 / 524288) := by
  obtain ⟨hedge0, hd0, hdR, hdf, hle⟩ := single_unitExpDist2_bounds ops frameNum u expPos expRad
    hRf hvol hvf hin
  have h1 : Single.unitExpDist2 ops frameNum u expPos expRad
      = min (toFloat (Single.unitEdgeDist ops frameNum u expPos
              + Single.unitVolRad ops frameNum u)) expRad := by
    unfold Single.unitExpDist2
    rw [hwater]
    simp only [Bool.true_and, decide_eq_true_eq, if_pos habove]
  have h2 : Single.unitExpDist2 ops frameNum { u with isUnderWater := false } expPos expRad
      = Single.unitEdgeDist ops frameNum u expPos := by
    unfold Single.unitExpDist2
    simp only [Bool.false_and, Bool.false_eq_true, if_false]
    rfl
  have hedgef : toFloat (Single.unitEdgeDist ops frameNum u expPos)
      = Single.unitEdgeDist ops frameNum u expPos := toFloat_idem _
  refine ⟨h1, h2, ?_, ?_, ?_, ?_, ?_, ?_⟩
  · rw [h2]
    exact hle
  · rw [h2]
    exact falloffMod_anti expRad edgeEffectiveness _ _ hR he0 he1 hle hdR
  · exact ⟨single_falloffMod_ge _ _ _, single_falloffMod_le_one _ _ _ hd0 hdR he1 hdf⟩
  · rw [h2]
    rintro (h | h)
    · rw [h]
      exact single_falloffMod_anti_zero expRad _ _ hR.le hle
    · rw [h]
      exact single_falloffMod_anti_one expRad _ _ hle hdR hedgef hdf
  · intro M heap unit owner expSpeed ignoreOwner damages weaponDefID s hu
    obtain ⟨hcalls, hrecs⟩ := single_DoExplosionDamage_delivered ops M frameNum heap unit owner
      expPos expRad expSpeed edgeEffectiveness ignoreOwner damages weaponDefID s
    subst hu
    constructor
    · intro p dmg imp att w hmem
      have h := (hcalls _ hmem).1
      rw [Call.unitDoDamage.injEq] at h
      exact h.2.1
    · intro slot wd hmem
      rw [(hrecs slot wd hmem).1]
      rfl
  · intro hRlow
    rw [h2]
    exact single_falloffMod_anti_near expRad edgeEffectiveness _ _ hRlow hRf he0 he1 hedge0 hle
      hdR hedgef hdf

/-- Witness of C28: the unit under water of the counterexample, with edge effectiveness 0: its
multiplier is at most that of the same unit not under water. -/
theorem underwater_unit_in_single_precision_witness :
    Single.falloffMod 100 0 (Single.unitExpDist2 (roundedOps sqrtScene) 0 tinySub origin 100)
      ≤ Single.falloffMod 100 0
          (Single.unitExpDist2 (roundedOps sqrtScene) 0 { tinySub with isUnderWater := false }
            origin 100) :=
  (underwater_unit_in_single_precision (roundedOps sqrtScene) 0 tinySub origin 100 0
    (by norm_num) (toFloat_exact _ 100 0 (by norm_num) (by norm_num) (by norm_num))
    (by norm_num) (by norm_num)
    (by rw [show tinySub = { tinySub with isUnderWater := true } from rfl, tinySub_volRad]
        norm_num)
    (by rw [show tinySub = { tinySub with isUnderWater := true } from rfl, tinySub_volRad]
        exact toFloat_exact _ 8796093 (-43) (by norm_num) (by norm_num) (by norm_num))
    (by rw [show tinySub = { tinySub with isUnderWater := true } from rfl, tinySub_edgeDist]
        norm_num)
    rfl (by norm_num [origin])).2.2.2.2.2.1 (Or.inl rfl)

/-! ## Direct or deferred delivery -/

/-- Multiplying a single-precision value by 4 is exact. -/
theorem toFloat_mul_four (x : ℚ) (hx : toFloat x = x) : toFloat (x * 4) = x * 4 := by
  obtain ⟨m, e, hm, he, h⟩ := toFloat_form x
  rw [hx] at h
  have h4 : x * 4 = (m : ℚ) * (2 : ℚ) ^ (e + 2) := by
    rw [h, zpow_add₀ (by norm_num : (2 : ℚ) ≠ 0)]
    norm_num
    ring
  rw [h4]
  exact toFloat_dyadic m (e + 2) hm (by omega)

/-- The conversion to `int` of a value in `[4, 2³¹)` is at least 4. -/
theorem truncToInt_ge_four (q : ℚ) (h : 4 ≤ q) (hq : q < 2147483648) : 4 ≤ truncToInt q := by
  have h0 : (0 : ℚ) ≤ q := by linarith
  have hfl : (4 : ℤ) ≤ ⌊q⌋ := Int.le_floor.mpr (by exact_mod_cast h)
  have hfu : ⌊q⌋ < 2147483648 := Int.floor_lt.mpr (by exact_mod_cast hq)
  unfold truncToInt
  simp only [if_pos h0]
  rw [if_pos ⟨by omega, by omega⟩]
  exact hfl

/-- The conversion to `int` of a value of `2³¹` or more is `INT_MIN`. -/
theorem truncToInt_out_of_range (q : ℚ) (hq : 2147483648 ≤ q) :
    truncToInt q = -2147483648 := by
  have h0 : (0 : ℚ) ≤ q := by linarith
  have hfl : (2147483648 : ℤ) ≤ ⌊q⌋ := Int.le_floor.mpr (by exact_mod_cast hq)
  unfold truncToInt
  simp only [if_pos h0]
  rw [if_neg (by omega)]

theorem abs_le_of_withinTolerance (a b : ℚ) (h : withinTolerance a b) :
    |a| ≤ |b| * (1 + 1 / 1048576) + 1 / 1048576 := by
  unfold withinTolerance at h
  have h1 : |a| ≤ |b| + |a - b| := by
    have := abs_add (a - b) b
    rw [sub_add_cancel] at this
    linarith
  linarith

/-- A rounding to single precision is within the tolerance. -/
theorem toFloat_withinTolerance (t : ℚ) : withinTolerance (toFloat t) t := by
  unfold withinTolerance
  have h := abs_toFloat_sub_le_rel t
  have h24 : (2 : ℚ) ^ (-24 : ℤ) ≤ 1 / 1048576 := by norm_num
  have h150 : (2 : ℚ) ^ (-150 : ℤ) ≤ 1 / 1048576 := by norm_num
  have h0 : 0 ≤ |t| := abs_nonneg t
  have h1 : |t| * (2 : ℚ) ^ (-24 : ℤ) ≤ |t| * (1 / 1048576) :=
    mul_le_mul_of_nonneg_left h24 h0
  generalize (2 : ℚ) ^ (-24 : ℤ) = a at h h1
  generalize (2 : ℚ) ^ (-150 : ℤ) = b at h h150
  calc |toFloat t - t| ≤ |t| * a + b := h
    _ ≤ |t| * (1 / 1048576) + 1 / 1048576 := add_le_add h1 h150
    _ = (|t| + 1) / 1048576 := by ring

/-- The division of `roundedOps` is within the tolerance of the exact division, at every
vector and every divisor. -/
theorem roundedOps_div_withinTolerance (sqrtf : ℚ → ℚ) (a : float3) (f : ℚ) :
    float3.withinTolerance ((roundedOps sqrtf).div a f) (a / f) :=
  ⟨toFloat_withinTolerance _, toFloat_withinTolerance _, toFloat_withinTolerance _⟩

/-- The product of `roundedOps` with a number is within the tolerance of the exact product, at
every vector and every factor. -/
theorem roundedOps_mul_withinTolerance (sqrtf : ℚ → ℚ) (a : float3) (f : ℚ) :
    float3.withinTolerance ((roundedOps sqrtf).mul a f) (a * f) :=
  ⟨toFloat_withinTolerance _, toFloat_withinTolerance _, toFloat_withinTolerance _⟩

/-- Three numbers bounded by `A * aᵢ + Bᵢ`, where the `aᵢ` have a sum of squares of at most
`ρ²`, have a sum of squares of at most `(A * ρ + B₁ + B₂ + B₃)²`. -/
theorem sq_sum_le_of_abs_le (a1 a2 a3 v1 v2 v3 A B1 B2 B3 ρ : ℚ)
    (hρ : 0 ≤ ρ)
    (hsum : a1 * a1 + a2 * a2 + a3 * a3 ≤ ρ * ρ) (hA : 0 ≤ A)
    (hB1 : 0 ≤ B1) (hB2 : 0 ≤ B2) (hB3 : 0 ≤ B3)
    (h1 : |v1| ≤ A * a1 + B1) (h2 : |v2| ≤ A * a2 + B2) (h3 : |v3| ≤ A * a3 + B3) :
    v1 * v1 + v2 * v2 + v3 * v3 ≤ (A * ρ + (B1 + B2 + B3)) ^ 2 := by
  have hsq : ∀ v b : ℚ, |v| ≤ b → v * v ≤ b * b := by
    intro v b h
    have h0 : 0 ≤ |v| := abs_nonneg v
    have := mul_le_mul h h h0 (le_trans h0 h)
    rwa [abs_mul_abs_self] at this
  have e1 := hsq _ _ h1
  have e2 := hsq _ _ h2
  have e3 := hsq _ _ h3
  have l1 : a1 ≤ ρ := le_of_sq_le_sq a1 ρ hρ (by nlinarith [mul_self_nonneg a2, mul_self_nonneg a3])
  have l2 : a2 ≤ ρ := le_of_sq_le_sq a2 ρ hρ (by nlinarith [mul_self_nonneg a1, mul_self_nonneg a3])
  have l3 : a3 ≤ ρ := le_of_sq_le_sq a3 ρ hρ (by nlinarith [mul_self_nonneg a1, mul_self_nonneg a2])
  have c1 : A * a1 * B1 ≤ A * ρ * B1 :=
    mul_le_mul_of_nonneg_right (mul_le_mul_of_nonneg_left l1 hA) hB1
  have c2 : A * a2 * B2 ≤ A * ρ * B2 :=
    mul_le_mul_of_nonneg_right (mul_le_mul_of_nonneg_left l2 hA) hB2
  have c3 : A * a3 * B3 ≤ A * ρ * B3 :=
    mul_le_mul_of_nonneg_right (mul_le_mul_of_nonneg_left l3 hA) hB3
  have hAA : A * A * (a1 * a1 + a2 * a2 + a3 * a3) ≤ A * A * (ρ * ρ) :=
    mul_le_mul_of_nonneg_left hsum (mul_nonneg hA hA)
  have p12 := mul_nonneg hB1 hB2
  have p13 := mul_nonneg hB1 hB3
  have p23 := mul_nonneg hB2 hB3
  linarith

/-- The components of a vector divided by `E`, where `E ≥ 1/10` is not below a number `L` that
is not below the length of the vector by more than the tolerance, have a sum of squares of at
most `(1 + 11 * 2⁻²⁰)²`. -/
theorem scaled_sq_le (d : float3) (L E : ℚ) (hL : d.lengthAtMost L) (hLE : L ≤ E)
    (hE : 1 / 10 ≤ E) :
    |d.x / E| * |d.x / E| + |d.y / E| * |d.y / E| + |d.z / E| * |d.z / E|
      ≤ (1 + 11 / 1048576) * (1 + 11 / 1048576) := by
  obtain ⟨hL0, hq⟩ := hL
  have hE0 : 0 < E := by linarith
  have hB : L + (L + 1) / 1048576 ≤ E * (1 + 11 / 1048576) := by linarith
  have hB0 : 0 ≤ L + (L + 1) / 1048576 := by positivity
  have hq2 : d.SqLength ≤ (E * (1 + 11 / 1048576)) ^ 2 :=
    le_trans hq (pow_le_pow_left₀ hB0 hB 2)
  rw [abs_mul_abs_self, abs_mul_abs_self, abs_mul_abs_self]
  have : d.x / E * (d.x / E) + d.y / E * (d.y / E) + d.z / E * (d.z / E)
      = d.SqLength / (E * E) := by
    unfold float3.SqLength
    field_simp
  rw [this, div_le_iff₀ (mul_pos hE0 hE0)]
  nlinarith

/-- The length of `roundedOps` meets the tolerance at every vector at which the square root is
accurate: when `sqrtf s ≥ 0` and `s ≤ (sqrtf s * (1 + 2⁻²²))²` for the rounded sum `s` of the
rounded squares, the Euclidean length of the vector is at most `L + (L + 1) * 2⁻²⁰` for the
computed length `L`. A correctly rounded square root is accurate in this sense. -/
theorem roundedOps_lengthAtMost (sqrtf : ℚ → ℚ) (a : float3)
    (hs0 : 0 ≤ (roundedOps sqrtf).Length a)
    (hs : toFloat (toFloat (toFloat (a.x * a.x) + toFloat (a.y * a.y)) + toFloat (a.z * a.z))
      ≤ ((roundedOps sqrtf).Length a * (1 + 1 / 4194304)) ^ 2) :
    a.lengthAtMost ((roundedOps sqrtf).Length a) := by
  refine ⟨hs0, ?_⟩
  generalize (roundedOps sqrtf).Length a = L at hs0 hs ⊢
  have p24 : (2 : ℚ) ^ (-24 : ℤ) = 1 / 16777216 := by norm_num
  have hη : (2 : ℚ) ^ (-150 : ℤ) ≤ 1 / 16777216 / 16777216 / 16777216 := by
    rw [show (-150 : ℤ) = -((150 : ℕ) : ℤ) by norm_num, zpow_neg, zpow_natCast]
    norm_num
  have hx0 : 0 ≤ a.x * a.x := mul_self_nonneg _
  have hy0 : 0 ≤ a.y * a.y := mul_self_nonneg _
  have hz0 : 0 ≤ a.z * a.z := mul_self_nonneg _
  have e1 := abs_toFloat_sub_le_rel (a.x * a.x)
  have e2 := abs_toFloat_sub_le_rel (a.y * a.y)
  have e3 := abs_toFloat_sub_le_rel (a.z * a.z)
  have n1 := toFloat_nonneg _ hx0
  have n2 := toFloat_nonneg _ hy0
  have n3 := toFloat_nonneg _ hz0
  have e4 := abs_toFloat_sub_le_rel (toFloat (a.x * a.x) + toFloat (a.y * a.y))
  have n4 := toFloat_nonneg (toFloat (a.x * a.x) + toFloat (a.y * a.y)) (by linarith)
  have e5 := abs_toFloat_sub_le_rel
    (toFloat (toFloat (a.x * a.x) + toFloat (a.y * a.y)) + toFloat (a.z * a.z))
  rw [p24, abs_of_nonneg hx0] at e1
  rw [p24, abs_of_nonneg hy0] at e2
  rw [p24, abs_of_nonneg hz0] at e3
  rw [p24, abs_of_nonneg (by linarith : 0 ≤ toFloat (a.x * a.x) + toFloat (a.y * a.y))] at e4
  rw [p24, abs_of_nonneg (by linarith :
    0 ≤ toFloat (toFloat (a.x * a.x) + toFloat (a.y * a.y)) + toFloat (a.z * a.z))] at e5
  have n5 := toFloat_nonneg
    (toFloat (toFloat (a.x * a.x) + toFloat (a.y * a.y)) + toFloat (a.z * a.z))
    (by linarith)
  have hη0 : (0 : ℚ) ≤ (2 : ℚ) ^ (-150 : ℤ) := by positivity
  generalize (2 : ℚ) ^ (-150 : ℤ) = η at e1 e2 e3 e4 e5 hη hη0
  generalize toFloat (a.x * a.x) = x2 at e1 e4 e5 n1 n4 n5 hs
  generalize toFloat (a.y * a.y) = y2 at e2 e4 e5 n2 n4 n5 hs
  generalize toFloat (a.z * a.z) = z2 at e3 e5 n3 n5 hs
  generalize toFloat (x2 + y2) = b at e4 e5 n4 n5 hs
  generalize toFloat (b + z2) = s at e5 n5 hs
  have f1 := (abs_le.mp e1).1
  have f2 := (abs_le.mp e2).1
  have f3 := (abs_le.mp e3).1
  have f4 := (abs_le.mp e4).1
  have f5 := (abs_le.mp e5).1
  unfold float3.SqLength
  have hL2 : 0 ≤ L * L := mul_self_nonneg L
  have hs' : s ≤ L * L * ((1 + 1 / 4194304) * (1 + 1 / 4194304)) := by
    rw [mul_pow, sq, sq] at hs
    exact hs
  -- the sum of the squares is at most `s * (1 + 4 * 2⁻²⁴) + 6 η`
  have hq : a.x * a.x + a.y * a.y + a.z * a.z ≤ s * (1 + 4 * (1 / 16777216)) + 6 * η := by
    linarith only [f1, f2, f3, f4, f5, n1, n2, n3, n4, n5, hx0, hy0, hz0, hη0]
  have hgoal : s * (1 + 4 * (1 / 16777216)) + 6 * η ≤ (L + (L + 1) / 1048576) ^ 2 := by
    have : (L + (L + 1) / 1048576) ^ 2
        = L * L * ((1 + 1 / 1048576) * (1 + 1 / 1048576))
          + 2 * L * (1 + 1 / 1048576) * (1 / 1048576) + 1 / 1048576 * (1 / 1048576) := by
      ring
    rw [this]
    have hL1 : 0 ≤ 2 * L * (1 + 1 / 1048576) * (1 / 1048576) := by positivity
    linarith only [hs', hη, hη0, hL2, hL1, n5]
  exact le_trans hq hgoal

/-- The constant `0.12f`. -/
theorem toFloat_bias : toFloat 0.12 = 16106127 / 134217728 :=
  toFloat_eval_rne _ _ (-4) (by norm_num) (by norm_num) (by norm_num) (by norm_num)
    (by norm_num [roundNearestEven])

/-- For a bounding radius that is not negative, `expDist` is at least `0.1`. -/
theorem single_unitExpDist_ge (ops : VecOps) (frameNum : Int) (u : CUnit) (expPos : float3)
    (hvol : 0 ≤ Single.unitVolRad ops frameNum u) :
    1 / 10 ≤ Single.unitExpDist ops frameNum u expPos := by
  have h1 : toFloat 0.1 ≤ Single.unitVolRad ops frameNum u + toFloat 0.1 := by linarith
  have h2 := toFloat_mono _ _ h1
  rw [toFloat_idem, toFloat_tenth] at h2
  have h3 : toFloat (Single.unitVolRad ops frameNum u + toFloat 0.1)
      ≤ Single.unitExpDist ops frameNum u expPos := le_max_right _ _
  rw [toFloat_tenth] at h3
  have : (1 / 10 : ℚ) ≤ 13421773 / 134217728 := by norm_num
  linarith

/-- The components of the offset divided by `expDist` (line 154), when the length and the
division are within the tolerance: their absolute values are bounded through numbers `aᵢ ≥ 0`
with a sum of squares of at most `(1 + 11 * 2⁻²⁰)²`. -/
theorem single_scaled_components (ops : VecOps) (frameNum : Int) (u : CUnit) (expPos : float3)
    (hvol : 0 ≤ Single.unitVolRad ops frameNum u)
    (hlen : (Single.unitDiffPos ops frameNum u expPos).lengthAtMost
      (ops.Length (Single.unitDiffPos ops frameNum u expPos)))
    (hdiv : float3.withinTolerance
      (ops.div (Single.unitDiffPos ops frameNum u expPos)
        (Single.unitExpDist ops frameNum u expPos))
      (Single.unitDiffPos ops frameNum u expPos / Single.unitExpDist ops frameNum u expPos)) :
    ∃ a1 a2 a3 : ℚ, 0 ≤ a1 ∧ 0 ≤ a2 ∧ 0 ≤ a3
      ∧ a1 * a1 + a2 * a2 + a3 * a3 ≤ (1 + 11 / 1048576) * (1 + 11 / 1048576)
      ∧ |(ops.div (Single.unitDiffPos ops frameNum u expPos)
            (Single.unitExpDist ops frameNum u expPos)).x|
          ≤ a1 * (1 + 1 / 1048576) + 1 / 1048576
      ∧ |(ops.div (Single.unitDiffPos ops frameNum u expPos)
            (Single.unitExpDist ops frameNum u expPos)).y|
          ≤ a2 * (1 + 1 / 1048576) + 1 / 1048576
      ∧ |(ops.div (Single.unitDiffPos ops frameNum u expPos)
            (Single.unitExpDist ops frameNum u expPos)).z|
          ≤ a3 * (1 + 1 / 1048576) + 1 / 1048576 := by
  have hE := single_unitExpDist_ge ops frameNum u expPos hvol
  have hLE : ops.Length (Single.unitDiffPos ops frameNum u expPos)
      ≤ Single.unitExpDist ops frameNum u expPos := le_max_left _ _
  refine ⟨_, _, _, abs_nonneg _, abs_nonneg _, abs_nonneg _,
    scaled_sq_le _ _ _ hlen hLE hE, ?_, ?_, ?_⟩
  · exact abs_le_of_withinTolerance _ _ hdiv.1
  · exact abs_le_of_withinTolerance _ _ hdiv.2.1
  · exact abs_le_of_withinTolerance _ _ hdiv.2.2

/-- Before the bias is added, the direction has a length of at most `1.00002`. -/
theorem single_scaledDiff_sq_le (ops : VecOps) (frameNum : Int) (u : CUnit) (expPos : float3)
    (hvol : 0 ≤ Single.unitVolRad ops frameNum u)
    (hlen : (Single.unitDiffPos ops frameNum u expPos).lengthAtMost
      (ops.Length (Single.unitDiffPos ops frameNum u expPos)))
    (hdiv : float3.withinTolerance
      (ops.div (Single.unitDiffPos ops frameNum u expPos)
        (Single.unitExpDist ops frameNum u expPos))
      (Single.unitDiffPos ops frameNum u expPos / Single.unitExpDist ops frameNum u expPos)) :
    (ops.div (Single.unitDiffPos ops frameNum u expPos)
      (Single.unitExpDist ops frameNum u expPos)).SqLength ≤ 1.00002 * 1.00002 := by
  obtain ⟨a1, a2, a3, h1, h2, h3, hs, hx, hy, hz⟩ :=
    single_scaled_components ops frameNum u expPos hvol hlen hdiv
  generalize ops.div (Single.unitDiffPos ops frameNum u expPos)
    (Single.unitExpDist ops frameNum u expPos) = X at hx hy hz ⊢
  have h := sq_sum_le_of_abs_le a1 a2 a3 X.x X.y X.z (1 + 1 / 1048576) (1 / 1048576)
    (1 / 1048576) (1 / 1048576) (1 + 11 / 1048576) (by norm_num) hs (by norm_num)
    (by norm_num) (by norm_num) (by norm_num) (by linarith) (by linarith) (by linarith)
  unfold float3.SqLength
  refine le_trans h ?_
  norm_num

/-- The absolute value of the `y` component after the bias is added. -/
theorem single_unitImpulseDir_y_le (ops : VecOps) (frameNum : Int) (u : CUnit)
    (expPos : float3) :
    |(Single.unitImpulseDir ops frameNum u expPos).y|
      ≤ (|(ops.div (Single.unitDiffPos ops frameNum u expPos)
            (Single.unitExpDist ops frameNum u expPos)).y| + 16106127 / 134217728)
          * (1 + 1 / 1048576) + 1 / 1048576 := by
  have h := abs_le_of_withinTolerance _ _
    (toFloat_withinTolerance ((ops.div (Single.unitDiffPos ops frameNum u expPos)
      (Single.unitExpDist ops frameNum u expPos)).y + toFloat 0.12))
  rw [toFloat_bias] at h
  have h2 := abs_add ((ops.div (Single.unitDiffPos ops frameNum u expPos)
      (Single.unitExpDist ops frameNum u expPos)).y) (16106127 / 134217728 : ℚ)
  rw [abs_of_pos (by norm_num : (0 : ℚ) < 16106127 / 134217728)] at h2
  have h3 : (Single.unitImpulseDir ops frameNum u expPos).y
      = toFloat ((ops.div (Single.unitDiffPos ops frameNum u expPos)
          (Single.unitExpDist ops frameNum u expPos)).y + toFloat 0.12) := rfl
  rw [h3, toFloat_bias]
  nlinarith

/-- With the bias, the direction has a length of at most `1.12003`. -/
theorem single_unitImpulseDir_sq_le (ops : VecOps) (frameNum : Int) (u : CUnit)
    (expPos : float3) (hvol : 0 ≤ Single.unitVolRad ops frameNum u)
    (hlen : (Single.unitDiffPos ops frameNum u expPos).lengthAtMost
      (ops.Length (Single.unitDiffPos ops frameNum u expPos)))
    (hdiv : float3.withinTolerance
      (ops.div (Single.unitDiffPos ops frameNum u expPos)
        (Single.unitExpDist ops frameNum u expPos))
      (Single.unitDiffPos ops frameNum u expPos / Single.unitExpDist ops frameNum u expPos)) :
    (Single.unitImpulseDir ops frameNum u expPos).SqLength ≤ 1.12003 * 1.12003 := by
  obtain ⟨a1, a2, a3, h1, h2, h3, hs, hx, hy, hz⟩ :=
    single_scaled_components ops frameNum u expPos hvol hlen hdiv
  have hY := single_unitImpulseDir_y_le ops frameNum u expPos
  have hx2 : (Single.unitImpulseDir ops frameNum u expPos).x
      = (ops.div (Single.unitDiffPos ops frameNum u expPos)
          (Single.unitExpDist ops frameNum u expPos)).x := rfl
  have hz2 : (Single.unitImpulseDir ops frameNum u expPos).z
      = (ops.div (Single.unitDiffPos ops frameNum u expPos)
          (Single.unitExpDist ops frameNum u expPos)).z := rfl
  have h := sq_sum_le_of_abs_le a1 a2 a3 (Single.unitImpulseDir ops frameNum u expPos).x
    (Single.unitImpulseDir ops frameNum u expPos).y
    (Single.unitImpulseDir ops frameNum u expPos).z
    ((1 + 1 / 1048576) * (1 + 1 / 1048576)) (1 / 1048576)
    ((1 / 1048576 + 16106127 / 134217728) * (1 + 1 / 1048576) + 1 / 1048576)
    (1 / 1048576) (1 + 11 / 1048576) (by norm_num) hs (by norm_num) (by norm_num) (by norm_num)
    (by norm_num) (by rw [hx2]; nlinarith) (by nlinarith) (by rw [hz2]; nlinarith)
  unfold float3.SqLength
  refine le_trans h ?_
  norm_num

/-- The impulse (line 165) has a length of at most `1.1201 * MAX_EXPLOSION_IMPULSE`. -/
theorem single_unitAddedImpulse_sq_le (ops : VecOps) (MAX_EXPLOSION_IMPULSE : ℚ)
    (frameNum : Int) (u : CUnit) (expPos : float3) (expRad edgeEffectiveness : ℚ)
    (damages : DamageArray) (hM : 1 ≤ MAX_EXPLOSION_IMPULSE)
    (hvol : 0 ≤ Single.unitVolRad ops frameNum u)
    (hlen : (Single.unitDiffPos ops frameNum u expPos).lengthAtMost
      (ops.Length (Single.unitDiffPos ops frameNum u expPos)))
    (hdiv : float3.withinTolerance
      (ops.div (Single.unitDiffPos ops frameNum u expPos)
        (Single.unitExpDist ops frameNum u expPos))
      (Single.unitDiffPos ops frameNum u expPos / Single.unitExpDist ops frameNum u expPos))
    (hmul : float3.withinTolerance
      (ops.mul (Single.unitImpulseDir ops frameNum u expPos)
        (Single.unitImpulseStrength ops MAX_EXPLOSION_IMPULSE frameNum u expPos expRad
          edgeEffectiveness damages))
      (Single.unitImpulseDir ops frameNum u expPos
        * Single.unitImpulseStrength ops MAX_EXPLOSION_IMPULSE frameNum u expPos expRad
            edgeEffectiveness damages)) :
    (Single.unitAddedImpulse ops MAX_EXPLOSION_IMPULSE frameNum u expPos expRad
        edgeEffectiveness damages).SqLength
      ≤ (1.1201 * MAX_EXPLOSION_IMPULSE) * (1.1201 * MAX_EXPLOSION_IMPULSE) := by
  have hD := single_unitImpulseDir_sq_le ops frameNum u expPos hvol hlen hdiv
  have hS := Clamp_mem (Single.rawImpulseStrength damages
      (Single.falloffMod expRad edgeEffectiveness
        (Single.unitExpDist1 ops frameNum u expPos expRad))) MAX_EXPLOSION_IMPULSE
    (by linarith)
  have hS2 : |Single.unitImpulseStrength ops MAX_EXPLOSION_IMPULSE frameNum u expPos expRad
      edgeEffectiveness damages| ≤ MAX_EXPLOSION_IMPULSE := abs_le.mpr hS
  unfold Single.unitAddedImpulse
  generalize Single.unitImpulseStrength ops MAX_EXPLOSION_IMPULSE frameNum u expPos expRad
      edgeEffectiveness damages = s at hmul hS2 ⊢
  generalize Single.unitImpulseDir ops frameNum u expPos = D at hmul hD ⊢
  have hM0 : 0 ≤ MAX_EXPLOSION_IMPULSE := by linarith
  have key : ∀ v b : ℚ, |v| ≤ |b * s| * (1 + 1 / 1048576) + 1 / 1048576 →
      |v| ≤ MAX_EXPLOSION_IMPULSE * (1 + 1 / 1048576) * |b| + 1 / 1048576 := by
    intro v b h
    have h1 : |b * s| ≤ |b| * MAX_EXPLOSION_IMPULSE := by
      rw [abs_mul]
      exact mul_le_mul_of_nonneg_left hS2 (abs_nonneg b)
    nlinarith
  have bx := key _ _ (abs_le_of_withinTolerance _ _ hmul.1)
  have by1 := key _ _ (abs_le_of_withinTolerance _ _ hmul.2.1)
  have bz := key _ _ (abs_le_of_withinTolerance _ _ hmul.2.2)
  have hsum : |D.x| * |D.x| + |D.y| * |D.y| + |D.z| * |D.z| ≤ 1.12003 * 1.12003 := by
    rw [abs_mul_abs_self, abs_mul_abs_self, abs_mul_abs_self]
    exact hD
  have h := sq_sum_le_of_abs_le |D.x| |D.y| |D.z| (ops.mul D s).x (ops.mul D s).y
    (ops.mul D s).z (MAX_EXPLOSION_IMPULSE * (1 + 1 / 1048576)) (1 / 1048576) (1 / 1048576)
    (1 / 1048576) 1.12003 (by norm_num) hsum (by positivity) (by norm_num) (by norm_num)
    (by norm_num) bx by1 bz
  unfold float3.SqLength
  refine le_trans h ?_
  have hb : MAX_EXPLOSION_IMPULSE * (1 + 1 / 1048576) * 1.12003
      + (1 / 1048576 + 1 / 1048576 + 1 / 1048576) ≤ 1.1201 * MAX_EXPLOSION_IMPULSE := by
    norm_num
    linarith
  have hb0 : 0 ≤ MAX_EXPLOSION_IMPULSE * (1 + 1 / 1048576) * 1.12003
      + (1 / 1048576 + 1 / 1048576 + 1 / 1048576) := by positivity
  have := pow_le_pow_left₀ hb0 hb 2
  rw [sq (1.1201 * MAX_EXPLOSION_IMPULSE)] at this
  exact this

/-! ## The scenario of a unit near the vertical axis -/

theorem nearAxis_volRad :
    Single.unitVolRad (roundedOps sqrtScene) 0 unitNearAxis = 1 / 2 := by
  simp [Single.unitVolRad, Single.unitVolumeAndBase, unitNearAxis, unitAt]

theorem nearAxis_diffPos :
    Single.unitDiffPos (roundedOps sqrtScene) 0 unitNearAxis origin = ⟨1 / 8192, 1, 0⟩ := by
  have h1 : toFloat ((1 / 8192 : ℚ) + 0) = 1 / 8192 :=
    toFloat_lit _ _ 1 (-13) (by norm_num) (by norm_num) (by norm_num) (by norm_num)
  have h2 : toFloat ((1 / 8192 : ℚ) - 0) = 1 / 8192 :=
    toFloat_lit _ _ 1 (-13) (by norm_num) (by norm_num) (by norm_num) (by norm_num)
  have h3 : toFloat ((1 : ℚ) + 0) = 1 :=
    toFloat_lit _ _ 1 0 (by norm_num) (by norm_num) (by norm_num) (by norm_num)
  have h4 : toFloat ((1 : ℚ) - 0) = 1 :=
    toFloat_lit _ _ 1 0 (by norm_num) (by norm_num) (by norm_num) (by norm_num)
  have h5 : toFloat ((0 : ℚ) + 0) = 0 := by rw [add_zero, toFloat_zero]
  have h6 : toFloat ((0 : ℚ) - 0) = 0 := by rw [sub_zero, toFloat_zero]
  show (⟨toFloat (toFloat ((1 / 8192 : ℚ) + 0) - 0), toFloat (toFloat ((1 : ℚ) + 0) - 0),
    toFloat (toFloat ((0 : ℚ) + 0) - 0)⟩ : float3) = ⟨1 / 8192, 1, 0⟩
  rw [h1, h2, h3, h4, h5, h6]

theorem nearAxis_length :
    (roundedOps sqrtScene).Length
      (Single.unitDiffPos (roundedOps sqrtScene) 0 unitNearAxis origin) = 1 := by
  have h1 : toFloat ((1 / 8192 : ℚ) * (1 / 8192)) = 1 / 67108864 :=
    toFloat_lit _ _ 1 (-26) (by norm_num) (by norm_num) (by norm_num) (by norm_num)
  have h2 : toFloat ((1 : ℚ) * 1) = 1 :=
    toFloat_lit _ _ 1 0 (by norm_num) (by norm_num) (by norm_num) (by norm_num)
  have h3 : toFloat ((1 / 67108864 : ℚ) + 1) = 1 :=
    toFloat_eval_rne _ _ (0) (by norm_num) (by norm_num) (by norm_num) (by norm_num)
      (by norm_num [roundNearestEven])
  have h4 : toFloat ((0 : ℚ) * 0) = 0 := by rw [mul_zero, toFloat_zero]
  have h5 : toFloat ((1 : ℚ) + 0) = 1 :=
    toFloat_lit _ _ 1 0 (by norm_num) (by norm_num) (by norm_num) (by norm_num)
  rw [nearAxis_diffPos]
  show sqrtScene (toFloat (toFloat (toFloat ((1 / 8192 : ℚ) * (1 / 8192))
    + toFloat ((1 : ℚ) * 1)) + toFloat ((0 : ℚ) * 0))) = 1
  rw [h1, h2, h3, h4, h5]
  norm_num [sqrtScene]

theorem nearAxis_expDist :
    Single.unitExpDist (roundedOps sqrtScene) 0 unitNearAxis origin = 1 := by
  have hh : toFloat ((1 / 2 : ℚ) + (13421773 / 134217728 : ℚ)) = 5033165 / 8388608 :=
    toFloat_eval_rne _ _ (-1) (by norm_num) (by norm_num) (by norm_num) (by norm_num)
      (by norm_num [roundNearestEven])
  unfold Single.unitExpDist
  rw [nearAxis_length, nearAxis_volRad, toFloat_tenth, hh]
  norm_num

theorem nearAxis_edgeDist :
    Single.unitEdgeDist (roundedOps sqrtScene) 0 unitNearAxis origin = 1 / 2 := by
  unfold Single.unitEdgeDist
  rw [nearAxis_expDist, nearAxis_volRad]
  exact toFloat_lit _ _ 1 (-1) (by norm_num) (by norm_num) (by norm_num) (by norm_num)

theorem nearAxis_expDist2 (expRad : ℚ) :
    Single.unitExpDist2 (roundedOps sqrtScene) 0 unitNearAxis origin expRad = 1 / 2 := by
  unfold Single.unitExpDist2
  rw [nearAxis_edgeDist]
  simp [unitNearAxis, unitAt]

theorem nearAxis_scaled :
    (roundedOps sqrtScene).div (Single.unitDiffPos (roundedOps sqrtScene) 0 unitNearAxis origin)
      (Single.unitExpDist (roundedOps sqrtScene) 0 unitNearAxis origin) = ⟨1 / 8192, 1, 0⟩ := by
  have h1 : toFloat ((1 / 8192 : ℚ) / 1) = 1 / 8192 :=
    toFloat_lit _ _ 1 (-13) (by norm_num) (by norm_num) (by norm_num) (by norm_num)
  have h2 : toFloat ((1 : ℚ) / 1) = 1 :=
    toFloat_lit _ _ 1 0 (by norm_num) (by norm_num) (by norm_num) (by norm_num)
  have h3 : toFloat ((0 : ℚ) / 1) = 0 := by rw [zero_div, toFloat_zero]
  rw [nearAxis_diffPos, nearAxis_expDist]
  show (⟨toFloat ((1 / 8192 : ℚ) / 1), toFloat ((1 : ℚ) / 1), toFloat ((0 : ℚ) / 1)⟩ : float3)
    = ⟨1 / 8192, 1, 0⟩
  rw [h1, h2, h3]

theorem nearAxis_impulseDir :
    Single.unitImpulseDir (roundedOps sqrtScene) 0 unitNearAxis origin
      = ⟨1 / 8192, 9395241 / 8388608, 0⟩ := by
  have hdy : toFloat ((1 : ℚ) + (16106127 / 134217728 : ℚ)) = 9395241 / 8388608 :=
    toFloat_eval_rne _ _ (0) (by norm_num) (by norm_num) (by norm_num) (by norm_num)
      (by norm_num [roundNearestEven])
  unfold Single.unitImpulseDir
  simp only []
  rw [nearAxis_scaled, toFloat_bias, hdy]

theorem nearAxis_strength :
    Single.unitImpulseStrength (roundedOps sqrtScene) 10000 0 unitNearAxis origin 100 0
      (plainDamage 1000000) = 10000 := by
  have hma : toFloat ((100 : ℚ) - (1 : ℚ)) = 99 := by
    rw [show ((100 : ℚ) - (1 : ℚ)) = (99 : ℚ) by norm_num]
    exact toFloat_exact _ (99) (0) (by norm_num) (by norm_num) (by norm_num)
  have hmp : toFloat ((1 : ℚ) * (0 : ℚ)) = 0 := by
    rw [show ((1 : ℚ) * (0 : ℚ)) = (0 : ℚ) by norm_num]
    exact toFloat_zero
  have hmc : toFloat ((100 : ℚ) - (0 : ℚ)) = 100 := by
    rw [show ((100 : ℚ) - (0 : ℚ)) = (100 : ℚ) by norm_num]
    exact toFloat_exact _ (25) (2) (by norm_num) (by norm_num) (by norm_num)
  have hmq : toFloat ((99 : ℚ) / (100 : ℚ)) = 4152361 / 4194304 :=
    toFloat_eval_rne _ _ (-1) (by norm_num) (by norm_num) (by norm_num) (by norm_num)
      (by norm_num [roundNearestEven])
  have hr1 : toFloat ((1 : ℚ) * (4152361 / 4194304 : ℚ)) = 4152361 / 4194304 :=
    toFloat_lit _ _ 4152361 (-22) (by norm_num) (by norm_num) (by norm_num) (by norm_num)
  have hr0 : toFloat ((1000000 : ℚ) + 0) = 1000000 :=
    toFloat_lit _ _ 15625 6 (by norm_num) (by norm_num) (by norm_num) (by norm_num)
  have hr2 : toFloat ((4152361 / 4194304 : ℚ) * (1000000 : ℚ)) = 990000 :=
    toFloat_eval_rne _ _ (19) (by norm_num) (by norm_num) (by norm_num) (by norm_num)
      (by norm_num [roundNearestEven])
  have hc32 : toFloat ((3.2 : ℚ)) = 13421773 / 4194304 :=
    toFloat_eval_rne _ _ (1) (by norm_num) (by norm_num) (by norm_num) (by norm_num)
      (by norm_num [roundNearestEven])
  have hr3 : toFloat ((990000 : ℚ) * (13421773 / 4194304 : ℚ)) = 3168000 :=
    toFloat_eval_rne _ _ (21) (by norm_num) (by norm_num) (by norm_num) (by norm_num)
      (by norm_num [roundNearestEven])
  have hmod : Single.falloffMod 100 0 1 = 4152361 / 4194304 := by
    unfold Single.falloffMod
    rw [hma, hmp, hmc, hmq, toFloat_hundredth]
    norm_num
  have hraw : Single.rawImpulseStrength (plainDamage 1000000) (4152361 / 4194304) = 3168000 := by
    show toFloat (toFloat (toFloat ((1 : ℚ) * (4152361 / 4194304 : ℚ))
      * toFloat ((plainDamage 1000000).GetDefaultDamage + 0)) * toFloat 3.2) = 3168000
    have hdd : (plainDamage 1000000).GetDefaultDamage = 1000000 := by
      norm_num [plainDamage, DamageArray.GetDefaultDamage]
    rw [hdd, hr1, hr0, hr2, hc32, hr3]
  unfold Single.unitImpulseStrength Single.unitExpDist1
  rw [nearAxis_expDist, min_eq_left (by norm_num : (1 : ℚ) ≤ 100), hmod, hraw]
  norm_num [Clamp]

theorem nearAxis_addedImpulse :
    Single.unitAddedImpulse (roundedOps sqrtScene) 10000 0 unitNearAxis origin 100 0
      (plainDamage 1000000) = ⟨625 / 512, 11200, 0⟩ := by
  have hvx : toFloat ((1 / 8192 : ℚ) * (10000 : ℚ)) = 625 / 512 := by
    rw [show ((1 / 8192 : ℚ) * (10000 : ℚ)) = (625 / 512 : ℚ) by norm_num]
    exact toFloat_exact _ (625) (-9) (by norm_num) (by norm_num) (by norm_num)
  have hvy : toFloat ((9395241 / 8388608 : ℚ) * (10000 : ℚ)) = 11200 :=
    toFloat_eval_rne _ _ (13) (by norm_num) (by norm_num) (by norm_num) (by norm_num)
      (by norm_num [roundNearestEven])
  have hvz : toFloat ((0 : ℚ) * (10000 : ℚ)) = 0 := by rw [zero_mul, toFloat_zero]
  unfold Single.unitAddedImpulse
  rw [nearAxis_impulseDir, nearAxis_strength]
  show (⟨toFloat ((1 / 8192 : ℚ) * (10000 : ℚ)), toFloat ((9395241 / 8388608 : ℚ) * 10000),
    toFloat ((0 : ℚ) * 10000)⟩ : float3) = ⟨625 / 512, 11200, 0⟩
  rw [hvx, hvy, hvz]

theorem diagonal_volRad :
    Single.unitVolRad (roundedOps sqrtScene) 0 (unitAt 7 ⟨1, 1, 0⟩) = 1 := by
  simp [Single.unitVolRad, Single.unitVolumeAndBase, unitAt]

theorem diagonal_diffPos :
    Single.unitDiffPos (roundedOps sqrtScene) 0 (unitAt 7 ⟨1, 1, 0⟩) origin = ⟨1, 1, 0⟩ := by
  have h3 : toFloat ((1 : ℚ) + 0) = 1 :=
    toFloat_lit _ _ 1 0 (by norm_num) (by norm_num) (by norm_num) (by norm_num)
  have h4 : toFloat ((1 : ℚ) - 0) = 1 :=
    toFloat_lit _ _ 1 0 (by norm_num) (by norm_num) (by norm_num) (by norm_num)
  have h5 : toFloat ((0 : ℚ) + 0) = 0 := by rw [add_zero, toFloat_zero]
  have h6 : toFloat ((0 : ℚ) - 0) = 0 := by rw [sub_zero, toFloat_zero]
  show (⟨toFloat (toFloat ((1 : ℚ) + 0) - 0), toFloat (toFloat ((1 : ℚ) + 0) - 0),
    toFloat (toFloat ((0 : ℚ) + 0) - 0)⟩ : float3) = ⟨1, 1, 0⟩
  rw [h3, h4, h5, h6]

/-- At the offset `(1, 1, 0)` the sum of the squares is 2 and the computed length is the
single-precision value `11863283 / 8388608` of its square root, whose square is below 2; the
length of the offset is within the tolerance of it. -/
theorem diagonal_length :
    (roundedOps sqrtScene).Length
        (Single.unitDiffPos (roundedOps sqrtScene) 0 (unitAt 7 ⟨1, 1, 0⟩) origin)
      = 11863283 / 8388608
    ∧ (Single.unitDiffPos (roundedOps sqrtScene) 0 (unitAt 7 ⟨1, 1, 0⟩) origin).lengthAtMost
        ((roundedOps sqrtScene).Length
          (Single.unitDiffPos (roundedOps sqrtScene) 0 (unitAt 7 ⟨1, 1, 0⟩) origin)) := by
  have h2 : toFloat ((1 : ℚ) * 1) = 1 :=
    toFloat_lit _ _ 1 0 (by norm_num) (by norm_num) (by norm_num) (by norm_num)
  have h3 : toFloat ((1 : ℚ) + 1) = 2 :=
    toFloat_lit _ _ 1 1 (by norm_num) (by norm_num) (by norm_num) (by norm_num)
  have h4 : toFloat ((0 : ℚ) * 0) = 0 := by rw [mul_zero, toFloat_zero]
  have h5 : toFloat ((2 : ℚ) + 0) = 2 :=
    toFloat_lit _ _ 1 1 (by norm_num) (by norm_num) (by norm_num) (by norm_num)
  have hL : (roundedOps sqrtScene).Length
      (Single.unitDiffPos (roundedOps sqrtScene) 0 (unitAt 7 ⟨1, 1, 0⟩) origin)
      = 11863283 / 8388608 := by
    rw [diagonal_diffPos]
    show sqrtScene (toFloat (toFloat (toFloat ((1 : ℚ) * 1) + toFloat ((1 : ℚ) * 1))
      + toFloat ((0 : ℚ) * 0))) = 11863283 / 8388608
    rw [h2, h3, h4, h5]
    norm_num [sqrtScene]
  refine ⟨hL, ?_⟩
  rw [hL, diagonal_diffPos]
  norm_num [float3.lengthAtMost, float3.SqLength]

/-! ## The bound of the impulse -/

/-- C3, amended: for `MAX_EXPLOSION_IMPULSE ≥ 1`, a bounding radius that is not negative and
`float3` operations that are within the tolerance `2⁻²⁰` at this unit (the computed length of
the offset is not negative and not below its length, the division by `expDist` and the product
with the strength are within the tolerance of the exact ones), every impulse vector that the
per-unit `DoExplosionDamage` passes to `DoDamage` or stores in a deferred record has length at
most `1.1201 * MAX_EXPLOSION_IMPULSE` (stated on the squared length), for every damage vector
and every position of the unit. -/
theorem DoExplosionDamage_impulse_bound (ops : VecOps) (MAX_EXPLOSION_IMPULSE : ℚ)
    (frameNum : Int) (heap : UnitPtr → CUnit) (unit : UnitPtr) (owner : Option UnitPtr)
    (expPos : float3) (expRad expSpeed edgeEffectiveness : ℚ) (ignoreOwner : Bool)
    (damages : DamageArray) (weaponDefID : Int) (s : HelperState)
    (hM : 1 ≤ MAX_EXPLOSION_IMPULSE)
    (hvol : 0 ≤ Single.unitVolRad ops frameNum (heap unit))
    (hlen : (Single.unitDiffPos ops frameNum (heap unit) expPos).lengthAtMost
      (ops.Length (Single.unitDiffPos ops frameNum (heap unit) expPos)))
    (hdiv : float3.withinTolerance
      (ops.div (Single.unitDiffPos ops frameNum (heap unit) expPos)
        (Single.unitExpDist ops frameNum (heap unit) expPos))
      (Single.unitDiffPos ops frameNum (heap unit) expPos
        / Single.unitExpDist ops frameNum (heap unit) expPos))
    (hmul : float3.withinTolerance
      (ops.mul (Single.unitImpulseDir ops frameNum (heap unit) expPos)
        (Single.unitImpulseStrength ops MAX_EXPLOSION_IMPULSE frameNum (heap unit) expPos
          expRad edgeEffectiveness damages))
      (Single.unitImpulseDir ops frameNum (heap unit) expPos
        * Single.unitImpulseStrength ops MAX_EXPLOSION_IMPULSE frameNum (heap unit) expPos
            expRad edgeEffectiveness damages)) :
    (∀ u dmg imp att w,
        Call.unitDoDamage u dmg imp att w ∈ callsSince s
          (Single.DoExplosionDamage ops MAX_EXPLOSION_IMPULSE frameNum heap unit owner expPos
            expRad expSpeed edgeEffectiveness ignoreOwner damages weaponDefID s) →
        imp.SqLength
          ≤ (1.1201 * MAX_EXPLOSION_IMPULSE) * (1.1201 * MAX_EXPLOSION_IMPULSE))
    ∧ (∀ slot wd,
        wd ∈ queuedSince s
          (Single.DoExplosionDamage ops MAX_EXPLOSION_IMPULSE frameNum heap unit owner expPos
            expRad expSpeed edgeEffectiveness ignoreOwner damages weaponDefID s) slot →
        wd.impulse.SqLength
          ≤ (1.1201 * MAX_EXPLOSION_IMPULSE) * (1.1201 * MAX_EXPLOSION_IMPULSE)) := by
  obtain ⟨hcalls, hrecs⟩ := single_DoExplosionDamage_delivered ops MAX_EXPLOSION_IMPULSE
    frameNum heap unit owner expPos expRad expSpeed edgeEffectiveness ignoreOwner damages
    weaponDefID s
  have hb := single_unitAddedImpulse_sq_le ops MAX_EXPLOSION_IMPULSE frameNum (heap unit) expPos
    expRad edgeEffectiveness damages hM hvol hlen hdiv hmul
  constructor
  · intro u dmg imp att w hmem
    have h := (hcalls _ hmem).1
    rw [Call.unitDoDamage.injEq] at h
    rw [h.2.2.1]
    exact hb
  · intro slot wd hmem
    rw [(hrecs slot wd hmem).1]
    exact hb

/-- Witness of C3 (amended): the unit at the offset `(1, 1, 0)`, where the squared distance 2
has no rational square root, with default damage `1e6`. -/
theorem DoExplosionDamage_impulse_bound_witness :
    (∀ u dmg imp att w,
        Call.unitDoDamage u dmg imp att w ∈ callsSince emptyState
          (Single.DoExplosionDamage (roundedOps sqrtScene) 10000 0
            (fun _ => unitAt 7 ⟨1, 1, 0⟩) 0 none origin 100 1000 0 false (plainDamage 1000000)
            3 emptyState) →
        imp.SqLength ≤ (1.1201 * 10000) * (1.1201 * 10000))
    ∧ (∀ slot wd,
        wd ∈ queuedSince emptyState
          (Single.DoExplosionDamage (roundedOps sqrtScene) 10000 0
            (fun _ => unitAt 7 ⟨1, 1, 0⟩) 0 none origin 100 1000 0 false (plainDamage 1000000)
            3 emptyState) slot →
        wd.impulse.SqLength ≤ (1.1201 * 10000) * (1.1201 * 10000)) :=
  DoExplosionDamage_impulse_bound (roundedOps sqrtScene) 10000 0 (fun _ => unitAt 7 ⟨1, 1, 0⟩)
    0 none origin 100 1000 0 false (plainDamage 1000000) 3 emptyState (by norm_num)
    (by rw [diagonal_volRad]; norm_num) diagonal_length.2
    (roundedOps_div_withinTolerance _ _ _) (roundedOps_mul_withinTolerance _ _ _)

end Spring
